import Mathlib

/-!
# Software rasteriser of pokeemerald-sdl2pc: embedding and properties

Shallow embedding of the scanline compositor in `src/platform/sdl2.c`
(`RenderBGScanline`, `RenderRotScaleBGScanline`, `DrawSprites`, `DrawScanline`,
`DrawFrame` and the colour helpers).

Conventions.
* Unsigned C integers are `Nat`, reduced with `% 2 ^ w` wherever the C value is
  truncated; signed C integers are `Int`.  C `/` and `%` on signed operands are
  `Int.tdiv` and `Int.tmod`.
* A C array or pointer target is a total function from the index; a store is
  `Function.update`.
* The global `gpu` and the file-level statics of `sdl2.c` are passed explicitly.
* Constants and macros whose defining header is not part of the sources are
  fields of `Consts`.
-/

namespace Sdl2

/-! ## Machine integers -/

/-- Truncation to `uint16_t`. -/
def toU16 (x : Nat) : Nat := x % 65536

/-- Conversion of a C `int` to `unsigned int` (32 bit). -/
def toU32 (x : Int) : Nat := (x % 4294967296).toNat

/-- Conversion of a C integer to `s16`. -/
def toS16 (x : Int) : Int := (x + 32768) % 65536 - 32768

/-- Conversion of a C integer to `s32`. -/
def toS32 (x : Int) : Int := (x + 2147483648) % 4294967296 - 2147483648

/-! ## Constants taken from headers outside the sources -/

/-- Macro constants used by `sdl2.c` whose definitions live in headers that are
not part of the sources.  Bit masks are given as the mask value. -/
structure Consts where
  BASE_DISPLAY_WIDTH : Int
  BASE_DISPLAY_HEIGHT : Int
  DISPLAY_WIDTH : Nat
  DISPLAY_HEIGHT : Nat
  DISPCNT_GBA_MODE : Nat
  DISPCNT_OBJ_ON : Nat
  DISPCNT_WIN0_ON : Nat
  DISPCNT_WIN1_ON : Nat
  DISPCNT_OBJWIN_ON : Nat
  BLDCNT_TGT1_OBJ : Nat
  BLDCNT_TGT1_BD : Nat
  BLDCNT_TGT2_OBJ : Nat
  BLDCNT_TGT2_BD : Nat
  INTR_FLAG_HBLANK : Nat
  DISPSTAT_HBLANK_INTR : Nat
  GPU_SCANLINE_EFFECT_OFF : Nat
  BG_CHAR_SIZE : Nat
  BG_PLTT_SIZE : Nat
  GBA_BG_SCREEN_SIZE : Nat
  MAX_OAM_SPRITES : Nat
  MAX_OAM_MATRICES : Nat

/-- Modelled from the spec: the number of background planes (`NUM_BACKGROUNDS`),
"one per of 4 planes"; the header defining the macro is not part of the sources. -/
def NUM_BACKGROUNDS : Nat := 4

/-! ## State read by the renderer -/

/-- The `affine` member of a background state. -/
structure BgAffine where
  enabled : Bool
  pa : Int
  pb : Int
  pc : Int
  pd : Int

/-- One entry of `gpu.bg` (`struct GpuBgState`), with the members the renderer reads. -/
structure GpuBgState where
  hidden : Bool
  priority : Nat
  palettes : Bool
  gbaMode : Bool
  mosaic : Bool
  areaOverflowMode : Bool
  charBaseBlock : Nat
  screenBaseBlock : Nat
  screenWidth : Nat
  screenHeight : Nat
  x : Nat
  y : Nat
  affine : BgAffine

/-- One entry of `gpu.spriteList` (`struct OamData`). -/
structure OamData where
  x : Int
  y : Int
  affineMode : Nat
  objMode : Nat
  mosaic : Nat
  bpp : Nat
  shape : Nat
  matrixNum : Nat
  size : Nat
  tileNum : Nat
  priority : Nat
  paletteNum : Nat

/-- One entry of `gpu.spriteMatrices`. -/
structure OamMatrix where
  a : Int
  b : Int
  c : Int
  d : Int

/-- One entry of `gpu.window.state`. -/
structure WindowState where
  x : Nat
  y : Nat

/-- The global `gpu`, together with the memory the renderer reads through it.
`palette i` is entry `i` of `(uint16_t *)gpu.palette`; `objPltt i` is entry `i`
of `OBJ_PLTT`; `charMem b o` is the byte at offset `o` from `BG_CHAR_ADDR(b)`;
`screenMem b o` is the byte at offset `o` from `BG_SCREEN_ADDR(b)`;
`spriteGfxData o` is the byte at offset `o` of `gpu.spriteGfxData`. -/
structure Gpu where
  displayControl : Nat
  displayStatus : Nat
  vCount : Nat
  mosaic : Nat
  blendControl : Nat
  blendAlpha : Nat
  blendCoeff : Nat
  windowIn : Nat
  windowOut : Nat
  windowState : Nat → WindowState
  bg : Nat → GpuBgState
  spriteList : Nat → OamData
  spriteMatrices : Nat → OamMatrix
  scanlineEffectType : Nat
  scanlineEffectPosition : Int
  palette : Nat → Nat
  objPltt : Nat → Nat
  charMem : Nat → Nat → Nat
  screenMem : Nat → Nat → Nat
  spriteGfxData : Nat → Nat

/-- File-level statics of `sdl2.c` read by the renderer, and the two callbacks
into code outside the sources that `DrawFrame` invokes between scanlines. -/
structure Host where
  displayWidth : Int
  displayHeight : Int
  layerEnabled : Nat → Bool
  runHBlank : Bool
  GpuRefreshScanlineEffect : Gpu → Gpu
  DoHBlankUpdate : Gpu → Gpu

/-- A 16-bit palette entry. -/
def palRead (pal : Nat → Nat) (i : Nat) : Nat := toU16 (pal i)

/-- A byte of memory. -/
def byteRead (mem : Nat → Nat) (off : Nat) : Nat := mem off % 256

/-- The `i`-th `uint16_t` behind a byte pointer (little-endian host). -/
def read16 (mem : Nat → Nat) (i : Nat) : Nat :=
  byteRead mem (2 * i) + 256 * byteRead mem (2 * i + 1)

/-- The `i`-th `uint32_t` behind a byte pointer (little-endian host). -/
def read32 (mem : Nat → Nat) (i : Nat) : Nat :=
  byteRead mem (4 * i) + 256 * byteRead mem (4 * i + 1)
    + 65536 * byteRead mem (4 * i + 2) + 16777216 * byteRead mem (4 * i + 3)

/-! ## Colour helpers -/

/-- `getAlphaBit(x)`. -/
def getAlphaBit (x : Nat) : Nat := (x >>> 15) &&& 1

/-- `getRedChannel(x)`. -/
def getRedChannel (x : Nat) : Nat := (x >>> 0) &&& 0x1F

/-- `getGreenChannel(x)`. -/
def getGreenChannel (x : Nat) : Nat := (x >>> 5) &&& 0x1F

/-- `getBlueChannel(x)`. -/
def getBlueChannel (x : Nat) : Nat := (x >>> 10) &&& 0x1F

/-- `isbgEnabled(x)`, as a truth value. -/
def isbgEnabled (gpu : Gpu) (x : Nat) : Bool :=
  (((gpu.displayControl >>> 8) &&& 0xF) &&& (1 <<< x)) != 0

/-- The clamp `if (c > 31) c = 31;`. -/
def clamp31 (c : Nat) : Nat := if c > 31 then 31 else c

/-- The return expression `r | (g << 5) | (b << 10) | (1 << 15)` as `uint16_t`. -/
def packColor (r g b : Nat) : Nat :=
  toU16 (r ||| (g <<< 5) ||| (b <<< 10) ||| (1 <<< 15))

/-- `alphaBlendColor`. -/
def alphaBlendColor (gpu : Gpu) (targetA targetB : Nat) : Nat :=
  let eva := gpu.blendAlpha &&& 0x1F
  let evb := (gpu.blendAlpha >>> 8) &&& 0x1F
  let r := ((getRedChannel targetA * eva) + (getRedChannel targetB * evb)) >>> 4
  let g := ((getGreenChannel targetA * eva) + (getGreenChannel targetB * evb)) >>> 4
  let b := ((getBlueChannel targetA * eva) + (getBlueChannel targetB * evb)) >>> 4
  packColor (clamp31 r) (clamp31 g) (clamp31 b)

/-- `alphaBrightnessIncrease`. -/
def alphaBrightnessIncrease (gpu : Gpu) (targetA : Nat) : Nat :=
  let evy := gpu.blendCoeff &&& 0x1F
  let r := getRedChannel targetA + (31 - getRedChannel targetA) * evy / 16
  let g := getGreenChannel targetA + (31 - getGreenChannel targetA) * evy / 16
  let b := getBlueChannel targetA + (31 - getBlueChannel targetA) * evy / 16
  packColor (clamp31 r) (clamp31 g) (clamp31 b)

/-- `alphaBrightnessDecrease`.  The subtraction is carried out on
`unsigned int`, so a negative difference wraps modulo `2 ^ 32`. -/
def alphaBrightnessDecrease (gpu : Gpu) (targetA : Nat) : Nat :=
  let evy := gpu.blendCoeff &&& 0x1F
  let r := toU32 ((getRedChannel targetA : Int) - (getRedChannel targetA * evy / 16 : Nat))
  let g := toU32 ((getGreenChannel targetA : Int) - (getGreenChannel targetA * evy / 16 : Nat))
  let b := toU32 ((getBlueChannel targetA : Int) - (getBlueChannel targetA * evy / 16 : Nat))
  packColor (clamp31 r) (clamp31 g) (clamp31 b)

/-- `winCheckHorizontalBounds`; the three `u16` parameters truncate their arguments. -/
def winCheckHorizontalBounds (left right xpos : Nat) : Bool :=
  let left := toU16 left
  let right := toU16 right
  let xpos := toU16 xpos
  if left > right then
    decide (xpos ≥ left) || decide (xpos < right)
  else
    decide (xpos ≥ left) && decide (xpos < right)

/-! ## Scanline geometry -/

/-- `InGbaRenderMode`. -/
def InGbaRenderMode (K : Consts) (gpu : Gpu) : Bool :=
  (gpu.displayControl &&& K.DISPCNT_GBA_MODE) != 0

/-- The letterbox offset `(displayWidth - BASE_DISPLAY_WIDTH) / 2`. -/
def offsetX (K : Consts) (H : Host) : Int :=
  Int.tdiv (H.displayWidth - K.BASE_DISPLAY_WIDTH) 2

/-- The letterbox offset `(displayHeight - BASE_DISPLAY_HEIGHT) / 2`. -/
def offsetY (K : Consts) (H : Host) : Int :=
  Int.tdiv (H.displayHeight - K.BASE_DISPLAY_HEIGHT) 2

/-- `GetScanlinePos`: the pair `(lineStart, lineEnd)`. -/
def GetScanlinePos (K : Consts) (H : Host) (gpu : Gpu) : Int × Int :=
  if InGbaRenderMode K gpu then
    (0 + offsetX K H, K.BASE_DISPLAY_WIDTH + offsetX K H)
  else
    (0, H.displayWidth)

/-- `GetBGScanlinePos`: the pair `(lineStart, lineEnd)` of plane `bgNum`. -/
def GetBGScanlinePos (K : Consts) (H : Host) (gpu : Gpu) (bgNum : Nat) : Int × Int :=
  if InGbaRenderMode K gpu || (gpu.bg bgNum).gbaMode then
    (0 + offsetX K H, K.BASE_DISPLAY_WIDTH + offsetX K H)
  else
    (0, H.displayWidth)

/-- The values taken by `x` in `for (unsigned int x = lineStart; x < lineEnd; x++)`
with `int` bounds (both are converted to `unsigned int` by the comparison). -/
def unsignedRange (lineStart lineEnd : Int) : List Nat :=
  List.range' (toU32 lineStart) (toU32 lineEnd - toU32 lineStart)

/-- `mosaicBGEffectX`. -/
def mosaicBGEffectX (gpu : Gpu) : Nat := gpu.mosaic &&& 0xF

/-- `mosaicBGEffectY`. -/
def mosaicBGEffectY (gpu : Gpu) : Nat := (gpu.mosaic >>> 4) &&& 0xF

/-- `mosaicSpriteEffectX`. -/
def mosaicSpriteEffectX (gpu : Gpu) : Nat := (gpu.mosaic >>> 8) &&& 0xF

/-- `mosaicSpriteEffectY`. -/
def mosaicSpriteEffectY (gpu : Gpu) : Nat := (gpu.mosaic >>> 12) &&& 0xF

/-- `applyBGHorizontalMosaicEffect(x)` on an unsigned column. -/
def applyBGHorizontalMosaicEffect (gpu : Gpu) (x : Nat) : Nat :=
  x - (x % (mosaicBGEffectX gpu + 1))

/-- `applyBGVerticalMosaicEffect(y)` on an `int` line number. -/
def applyBGVerticalMosaicEffect (gpu : Gpu) (y : Int) : Int :=
  y - Int.tmod y ((mosaicBGEffectY gpu : Int) + 1)

/-- `applySpriteHorizontalMosaicEffect(x)` on an unsigned column. -/
def applySpriteHorizontalMosaicEffect (gpu : Gpu) (x : Nat) : Nat :=
  x - (x % (mosaicSpriteEffectX gpu + 1))

/-- `applySpriteVerticalMosaicEffect(y)` on the promoted `uint16_t` scanline. -/
def applySpriteVerticalMosaicEffect (gpu : Gpu) (y : Int) : Int :=
  y - Int.tmod y ((mosaicSpriteEffectY gpu : Int) + 1)

/-! ## Text-mode plane renderer -/

/-- The map geometry `RenderBGScanline` settles before its column loop:
`(mapWidthInPixels, mapHeightInPixels, mapWidth)`. -/
def bgMapGeometry (bg : GpuBgState) : Nat × Nat × Nat :=
  if bg.gbaMode then
    ((if bg.screenWidth > 256 then 512 else 256),
     (if bg.screenHeight > 256 then 512 else 256), 0x20)
  else
    (bg.screenWidth, bg.screenHeight, bg.screenWidth / 8)

/-- The tile number of a map entry: `entry & 0x3FF` for a `gbaMode` plane,
`(entry & 0xFFFF) % (BG_CHAR_SIZE / (bitsPerPixel * 8))` otherwise. -/
def bgEntryTile (K : Consts) (bg : GpuBgState) (entry : Nat) : Nat :=
  if bg.gbaMode then entry &&& 0x3FF
  else (entry &&& 0xFFFF) % (K.BG_CHAR_SIZE / ((if bg.palettes then 8 else 4) * 8))

/-- The palette number of a map entry: `(entry >> 12) & 0xF` for a `gbaMode`
plane, `((entry >> 18) & 0x3FFF) % (BG_PLTT_SIZE / 16)` otherwise. -/
def bgEntryPalette (K : Consts) (bg : GpuBgState) (entry : Nat) : Nat :=
  if bg.gbaMode then (entry >>> 12) &&& 0xF
  else ((entry >>> 18) &&& 0x3FFF) % (K.BG_PLTT_SIZE / 16)

/-- The horizontal flip flag of a map entry: bit 10 for a `gbaMode` plane, bit 16 otherwise. -/
def bgEntryFlipX (bg : GpuBgState) (entry : Nat) : Bool :=
  if bg.gbaMode then entry &&& (1 <<< 10) != 0 else entry &&& (1 <<< 16) != 0

/-- The vertical flip flag of a map entry: bit 11 for a `gbaMode` plane, bit 17 otherwise. -/
def bgEntryFlipY (bg : GpuBgState) (entry : Nat) : Bool :=
  if bg.gbaMode then entry &&& (1 <<< 11) != 0 else entry &&& (1 <<< 17) != 0

/-- The map entry at position `index`, counted in entries from the screen base of
the plane: a 16-bit entry for a `gbaMode` plane, a 32-bit entry otherwise. -/
def bgMapEntry (gpu : Gpu) (bg : GpuBgState) (index : Nat) : Nat :=
  if bg.gbaMode then read16 (gpu.screenMem bg.screenBaseBlock) index
  else read32 (gpu.screenMem bg.screenBaseBlock) index

/-- The colour index of the texel `(tileX, tileY)` of tile `tileNum`: the byte
fetch from character data and, for a 4bpp plane, the nibble selection. -/
def bgTexel (gpu : Gpu) (bg : GpuBgState) (tileNum tileX tileY : Nat) : Nat :=
  let bitsPerPixel : Nat := if bg.palettes then 8 else 4
  let tileLoc := tileNum * (bitsPerPixel * 8)
  let tileLocY := tileY * bitsPerPixel
  let tileLocX := if bitsPerPixel = 4 then tileX / 2 else tileX
  let pixel0 := byteRead (gpu.charMem bg.charBaseBlock) (tileLoc + tileLocY + tileLocX)
  if bitsPerPixel = 4 then
    (if tileX &&& 1 != 0 then pixel0 >>> 4 else pixel0 &&& 0xF)
  else pixel0

/-- The source pixel `(xx, yy)` of column `x`, after scroll and wraparound, and
the offset in entries added to the map pointer for a `gbaMode` plane. -/
def bgSourcePixel (K : Consts) (gpu : Gpu) (bgNum : Nat) (hoffs voffs : Nat) (lineNum : Int)
    (lineStart : Int) (x : Nat) : Nat × Nat × Nat :=
  let bg := gpu.bg bgNum
  let mapWidthInPixels := (bgMapGeometry bg).1
  let mapHeightInPixels := (bgMapGeometry bg).2.1
  let xx0 : Nat :=
    if bg.mosaic then (applyBGHorizontalMosaicEffect gpu x + hoffs) % 4294967296
    else (x + hoffs) % 4294967296
  let xx1 : Nat := toU32 ((xx0 : Int) - lineStart)
  let yy1 : Nat := toU32 (lineNum + (voffs : Int))
  if bg.gbaMode then
    let xxm := xx1 &&& 0x1FF
    let yym := yy1 &&& 0x1FF
    let off1 : Nat :=
      if xxm > 255 ∧ mapWidthInPixels = 512 then K.GBA_BG_SCREEN_SIZE / 2 else 0
    let off2 : Nat :=
      if yym > 255 ∧ mapHeightInPixels = 512 then
        (if mapWidthInPixels = 512 then K.GBA_BG_SCREEN_SIZE else K.GBA_BG_SCREEN_SIZE / 2)
      else 0
    (xxm &&& 0xFF, yym &&& 0xFF, off1 + off2)
  else
    (xx1 % mapWidthInPixels, yy1 % mapHeightInPixels, 0)

/-- The colour index `RenderBGScanline` fetches from character data for column
`x`, together with the palette number of the map entry: the body of the column
loop up to and including the nibble selection.  `hoffs` and `voffs` are the
values after the `gbaMode` masking, `lineNum` the line after letterboxing and
mosaic, `lineStart` the first column of the plane. -/
def bgFetchPixel (K : Consts) (gpu : Gpu) (bgNum : Nat) (hoffs voffs : Nat) (lineNum : Int)
    (lineStart : Int) (x : Nat) : Nat × Nat :=
  let bg := gpu.bg bgNum
  let mapWidth := (bgMapGeometry bg).2.2
  let xx := (bgSourcePixel K gpu bgNum hoffs voffs lineNum lineStart x).1
  let yy := (bgSourcePixel K gpu bgNum hoffs voffs lineNum lineStart x).2.1
  let mapOff := (bgSourcePixel K gpu bgNum hoffs voffs lineNum lineStart x).2.2
  let mapX := xx / 8
  let mapY := yy / 8
  let tileX0 := xx % 8
  let tileY0 := yy % 8
  let entry := bgMapEntry gpu bg (mapOff + ((mapY * mapWidth) + mapX))
  let tileX := if bgEntryFlipX bg entry then 7 - tileX0 else tileX0
  let tileY := if bgEntryFlipY bg entry then 7 - tileY0 else tileY0
  (bgTexel gpu bg (bgEntryTile K bg entry) tileX tileY, bgEntryPalette K bg entry)

/-- One iteration of the column loop of `RenderBGScanline`: the fetch followed by
the store into `line[x]`. -/
def bgColumnStep (K : Consts) (gpu : Gpu) (bgNum : Nat) (hoffs voffs : Nat) (lineNum : Int)
    (lineStart : Int) (line : Nat → Nat) (x : Nat) : Nat → Nat :=
  let bg := gpu.bg bgNum
  let pixel := (bgFetchPixel K gpu bgNum hoffs voffs lineNum lineStart x).1
  let paletteNum := (bgFetchPixel K gpu bgNum hoffs voffs lineNum lineStart x).2
  if bg.palettes then
    Function.update line x (toU16 (palRead gpu.palette pixel ||| 0x8000))
  else if pixel != 0 then
    Function.update line x (toU16 (palRead gpu.palette (16 * paletteNum + pixel) ||| 0x8000))
  else
    line

/-- The line number of a plane after the letterbox adjustment `lineNum -= offsetY`,
made in GBA render mode and for a `gbaMode` plane. -/
def bgLetterboxLine (K : Consts) (H : Host) (gpu : Gpu) (bgNum : Nat) (lineNum : Int) : Int :=
  if InGbaRenderMode K gpu || (gpu.bg bgNum).gbaMode then lineNum - offsetY K H else lineNum

/-- The two early returns of `RenderBGScanline`: the line lies outside the base
display of a letterboxed plane, or the map has a zero dimension. -/
def bgScanlineSkipped (K : Consts) (H : Host) (gpu : Gpu) (bgNum : Nat) (lineNum : Int) : Bool :=
  ((InGbaRenderMode K gpu || (gpu.bg bgNum).gbaMode)
      && (decide (bgLetterboxLine K H gpu bgNum lineNum < 0)
          || decide (bgLetterboxLine K H gpu bgNum lineNum ≥ K.BASE_DISPLAY_HEIGHT)))
    || (decide ((bgMapGeometry (gpu.bg bgNum)).1 = 0)
        || decide ((bgMapGeometry (gpu.bg bgNum)).2.1 = 0))

/-- A scroll parameter of `RenderBGScanline` as the column loop uses it: truncated
to `uint16_t` by the call, and masked with `0x1FF` for a `gbaMode` plane. -/
def bgScroll (bg : GpuBgState) (offs : Nat) : Nat :=
  if bg.gbaMode then toU16 offs &&& 0x1FF else toU16 offs

/-- The source line of `RenderBGScanline` after letterboxing and vertical mosaic. -/
def bgSourceLine (K : Consts) (H : Host) (gpu : Gpu) (bgNum : Nat) (lineNum : Int) : Int :=
  if (gpu.bg bgNum).mosaic then
    applyBGVerticalMosaicEffect gpu (bgLetterboxLine K H gpu bgNum lineNum)
  else bgLetterboxLine K H gpu bgNum lineNum

/-- `RenderBGScanline(bgNum, hoffs, voffs, lineNum, line)`: the resulting `line`. -/
def RenderBGScanline (K : Consts) (H : Host) (gpu : Gpu) (bgNum : Nat) (hoffs voffs : Nat)
    (lineNum : Int) (line : Nat → Nat) : Nat → Nat :=
  if bgScanlineSkipped K H gpu bgNum lineNum then line
  else
    (unsignedRange (GetBGScanlinePos K H gpu bgNum).1 (GetBGScanlinePos K H gpu bgNum).2).foldl
      (bgColumnStep K gpu bgNum (bgScroll (gpu.bg bgNum) hoffs) (bgScroll (gpu.bg bgNum) voffs)
        (bgSourceLine K H gpu bgNum lineNum) (GetBGScanlinePos K H gpu bgNum).1) line

/-! ## Affine plane renderer -/

/-- The `switch (bg->screenWidth)` of `RenderRotScaleBGScanline`: the pair
`(size, yshift)`, or `none` for the `default: return`. -/
def rotScaleSize (screenWidth : Nat) : Option (Nat × Nat) :=
  if screenWidth = 128 then some (128, 4)
  else if screenWidth = 256 then some (256, 5)
  else if screenWidth = 512 then some (512, 6)
  else if screenWidth = 1024 then some (1024, 7)
  else none

/-- The sign extension `(v & (1 << 27)) ? v | 0xF0000000 : v` of a 32-bit
register value, read back as `s32`. -/
def signExtend28 (v : Nat) : Int :=
  let u := v % 4294967296
  toS32 (if u &&& (1 <<< 27) != 0 then ((u ||| 0xF0000000 : Nat) : Int) else (u : Int))

/-- The store `if (pixel != 0) line[x] = pal[pixel] | 0x8000;` of the affine
renderer, for the source texel `(xxx, yyy)`. -/
def rotScaleStore (gpu : Gpu) (bg : GpuBgState) (yshift : Nat) (xxx yyy : Nat)
    (line : Nat → Nat) (x : Nat) : Nat → Nat :=
  let tile := byteRead (gpu.screenMem bg.screenBaseBlock) ((xxx >>> 3) + ((yyy >>> 3) <<< yshift))
  let tileX := xxx &&& 7
  let tileY := yyy &&& 7
  let pixel := byteRead (gpu.charMem bg.charBaseBlock) ((tile <<< 6) + (tileY <<< 3) + tileX)
  if pixel != 0 then Function.update line x (toU16 (palRead gpu.palette pixel ||| 0x8000))
  else line

/-- One iteration of either column loop of `RenderRotScaleBGScanline`.  The
state is `(line, realX, realY)`. -/
def rotScaleColumnStep (gpu : Gpu) (bg : GpuBgState) (size yshift : Nat) (pa pc : Int)
    (st : (Nat → Nat) × Int × Int) (x : Nat) : (Nat → Nat) × Int × Int :=
  let line := st.1
  let realX := st.2.1
  let realY := st.2.2
  let line1 : Nat → Nat :=
    if bg.areaOverflowMode then
      rotScaleStore gpu bg yshift (toU32 (realX >>> 8) &&& (size - 1))
        (toU32 (realY >>> 8) &&& (size - 1)) line x
    else
      let xxx : Int := realX >>> 8
      let yyy : Int := realY >>> 8
      if ¬ (xxx < 0 ∨ yyy < 0 ∨ xxx ≥ (size : Int) ∨ yyy ≥ (size : Int)) then
        rotScaleStore gpu bg yshift xxx.toNat yyy.toNat line x
      else line
  (line1, toS32 (realX + pa), toS32 (realY + pc))

/-- One iteration of the closing mosaic pass, `line[x] = line[applyBGHorizontalMosaicEffect(x)]`. -/
def rotScaleMosaicStep (gpu : Gpu) (line : Nat → Nat) (x : Nat) : Nat → Nat :=
  Function.update line x (line (applyBGHorizontalMosaicEffect gpu x))

/-- The early return of `RenderRotScaleBGScanline`: the line lies outside the
base display of a letterboxed plane. -/
def rotScaleSkipped (K : Consts) (H : Host) (gpu : Gpu) (bgNum : Nat) (lineNum : Int) : Bool :=
  (InGbaRenderMode K gpu || (gpu.bg bgNum).gbaMode)
    && (decide (bgLetterboxLine K H gpu bgNum lineNum < 0)
        || decide (bgLetterboxLine K H gpu bgNum lineNum ≥ K.BASE_DISPLAY_HEIGHT))

/-- The start coordinate `currentX` (or `currentY`) of a scanline: the sign-extended
reference point `ref` advanced by `lineNum * d`, for `d` the `s16` value of `pb`
(or `pd`). -/
def rotScaleStart (K : Consts) (H : Host) (gpu : Gpu) (bgNum : Nat) (ref : Nat) (lineNum : Int)
    (d : Int) : Int :=
  toS32 (signExtend28 ref + toS32 (bgSourceLine K H gpu bgNum lineNum * toS16 d))

/-- The closing mosaic pass of `RenderRotScaleBGScanline`. -/
def rotScaleMosaicPass (gpu : Gpu) (bg : GpuBgState) (columns : List Nat) (line : Nat → Nat) :
    Nat → Nat :=
  if bg.mosaic && decide (mosaicBGEffectX gpu > 0) then
    columns.foldl (rotScaleMosaicStep gpu) line
  else line

/-- `RenderRotScaleBGScanline(bgNum, bgX, bgY, lineNum, line)`: the resulting `line`. -/
def RenderRotScaleBGScanline (K : Consts) (H : Host) (gpu : Gpu) (bgNum : Nat) (bgX bgY : Nat)
    (lineNum : Int) (line : Nat → Nat) : Nat → Nat :=
  if rotScaleSkipped K H gpu bgNum lineNum then line
  else
    match rotScaleSize (gpu.bg bgNum).screenWidth with
    | none => line
    | some (size, yshift) =>
      rotScaleMosaicPass gpu (gpu.bg bgNum)
        (unsignedRange (GetBGScanlinePos K H gpu bgNum).1 (GetBGScanlinePos K H gpu bgNum).2)
        ((unsignedRange (GetBGScanlinePos K H gpu bgNum).1
            (GetBGScanlinePos K H gpu bgNum).2).foldl
          (rotScaleColumnStep gpu (gpu.bg bgNum) size yshift
            (toS16 (gpu.bg bgNum).affine.pa) (toS16 (gpu.bg bgNum).affine.pc))
          (line, rotScaleStart K H gpu bgNum bgX lineNum (gpu.bg bgNum).affine.pb,
            rotScaleStart K H gpu bgNum bgY lineNum (gpu.bg bgNum).affine.pd)).1

/-! ## Per-scanline working set and blend target search -/

/-- The working set `struct scanlineData`. -/
structure ScanlineData where
  layers : Nat → Nat → Nat
  spriteLayers : Nat → Nat → Nat
  winMask : Nat → Nat
  bgtoprio : Nat → Nat
  prioritySortedBgs : Nat → Nat → Nat
  prioritySortedBgsCount : Nat → Nat

/-- `WINMASK_OBJ`. -/
def WINMASK_OBJ : Nat := 1 <<< 4

/-- `WINMASK_CLR`. -/
def WINMASK_CLR : Nat := 1 <<< 5

/-- `WINMASK_WINOUT`. -/
def WINMASK_WINOUT : Nat := 1 <<< 6

/-- The inner loop of `alphaBlendSelectTargetB` over the sub-positions of bucket
`blndprnum`: `none` when the loop runs to its end, `some r` when it returns `r`. -/
def selectTargetInBucket (gpu : Gpu) (scanline : ScanlineData) (prnum blndprnum pixelpos : Nat) :
    List Nat → Option (Option Nat)
  | [] => none
  | blndprsub :: rest =>
    let currLayer := scanline.prioritySortedBgs blndprnum blndprsub
    if getAlphaBit (scanline.layers currLayer pixelpos) = 1
        ∧ gpu.blendControl &&& (1 <<< (8 + currLayer)) ≠ 0 ∧ isbgEnabled gpu currLayer = true then
      some (some (scanline.layers currLayer pixelpos))
    else if getAlphaBit (scanline.layers currLayer pixelpos) = 1
        ∧ isbgEnabled gpu currLayer = true ∧ prnum ≠ blndprnum then
      some none
    else selectTargetInBucket gpu scanline prnum blndprnum pixelpos rest

/-- The outer loop of `alphaBlendSelectTargetB` over the buckets still to visit,
with the current value of `prsub`, followed by the backdrop fallback. -/
def selectTargetFrom (K : Consts) (gpu : Gpu) (scanline : ScanlineData) (prnum pixelpos : Nat)
    (spriteBlendEnabled : Bool) : Nat → List Nat → Option Nat
  | _, [] =>
    if gpu.blendControl &&& K.BLDCNT_TGT2_BD ≠ 0 then some (palRead gpu.palette 0) else none
  | prsub, blndprnum :: rest =>
    if spriteBlendEnabled = true ∧ getAlphaBit (scanline.spriteLayers blndprnum pixelpos) = 1 then
      some (scanline.spriteLayers blndprnum pixelpos)
    else
      match selectTargetInBucket gpu scanline prnum blndprnum pixelpos
          (List.range' prsub (scanline.prioritySortedBgsCount blndprnum - prsub)) with
      | some r => r
      | none => selectTargetFrom K gpu scanline prnum pixelpos spriteBlendEnabled 0 rest

/-- `alphaBlendSelectTargetB(scanline, colorOutput, prnum, prsub, pixelpos,
spriteBlendEnabled)`: `some c` when it returns `true` having stored `c` in
`*colorOutput`, `none` when it returns `false` (leaving `*colorOutput` alone). -/
def alphaBlendSelectTargetB (K : Consts) (gpu : Gpu) (scanline : ScanlineData)
    (prnum prsub pixelpos : Nat) (spriteBlendEnabled : Bool) : Option Nat :=
  selectTargetFrom K gpu scanline prnum pixelpos spriteBlendEnabled prsub
    (List.range' prnum (4 - prnum))

/-! ## Sprite renderer -/

/-- The table `spriteSizes[i][j]`. -/
def spriteSizes (i j : Nat) : Nat :=
  match i, j with
  | 0, 0 => 8
  | 0, 1 => 16
  | 1, 0 => 8
  | 1, 1 => 32
  | 2, 0 => 16
  | 2, 1 => 32
  | 3, 0 => 32
  | 3, 1 => 64
  | _, _ => 0

/-- The shape dispatch of `DrawSprites`: `(width, height)`, or `none` for the
prohibited shape (`continue`). -/
def spriteDims (oam : OamData) : Option (Nat × Nat) :=
  if oam.shape = 0 then some ((1 <<< oam.size) * 8, (1 <<< oam.size) * 8)
  else if oam.shape = 1 then some (spriteSizes oam.size 1, spriteSizes oam.size 0)
  else if oam.shape = 2 then some (spriteSizes oam.size 0, spriteSizes oam.size 1)
  else none

/-- The 2x2 matrix `matrix[2][2]` of `DrawSprites`, row by row. -/
structure SpriteMatrix where
  m00 : Int
  m01 : Int
  m10 : Int
  m11 : Int

/-- The matrix in force for a sprite: loaded from `gpu.spriteMatrices` for an
affine sprite with a valid matrix number, kept from the earlier iteration for an
affine sprite with an invalid one, the identity otherwise. -/
def spriteMatrixFor (K : Consts) (gpu : Gpu) (oam : OamData) (previous : SpriteMatrix) :
    SpriteMatrix :=
  if oam.affineMode &&& 1 != 0 then
    let matrixNum := oam.matrixNum % 256
    if matrixNum < K.MAX_OAM_MATRICES then
      { m00 := toS16 (gpu.spriteMatrices matrixNum).a
        m01 := toS16 (gpu.spriteMatrices matrixNum).b
        m10 := toS16 (gpu.spriteMatrices matrixNum).c
        m11 := toS16 (gpu.spriteMatrices matrixNum).d }
    else previous
  else { m00 := 0x100, m01 := 0, m10 := 0, m11 := 0x100 }

/-- The values `half_width` and `half_height` after the double-size adjustment. -/
def spriteHalf (oam : OamData) (width height : Nat) : Int × Int :=
  if oam.affineMode &&& 1 != 0 ∧ (oam.affineMode >>> 1) &&& 1 != 0 then
    (((width / 2 : Nat) : Int) * 2, ((height / 2 : Nat) : Int) * 2)
  else
    (((width / 2 : Nat) : Int), ((height / 2 : Nat) : Int))

/-- The `s16` centre `(x, y)` of a sprite as it stands at the scanline test. -/
def spriteCentre (K : Consts) (H : Host) (gpu : Gpu) (oam : OamData) (width height : Nat) :
    Int × Int :=
  let x0 := toS16 oam.x
  let y0 := toS16 oam.y
  let x1 := if InGbaRenderMode K gpu ∧ x0 ≥ K.BASE_DISPLAY_WIDTH then toS16 (x0 - 512) else x0
  let y1 := if InGbaRenderMode K gpu ∧ y0 ≥ K.BASE_DISPLAY_HEIGHT then toS16 (y0 - 256) else y0
  let x2 := toS16 (x1 + (spriteHalf oam width height).1)
  let y2 := toS16 (y1 + (spriteHalf oam width height).2)
  if InGbaRenderMode K gpu then (toS16 (x2 + offsetX K H), toS16 (y2 + offsetY K H))
  else (x2, y2)

/-- The blend applied to a sprite colour before it is stored. -/
def spriteBlend (K : Consts) (gpu : Gpu) (scanline : ScanlineData) (oam : OamData)
    (windowsEnabled : Bool) (global_x : Nat) (color : Nat) : Nat :=
  let blendMode := (gpu.blendControl >>> 6) &&& 3
  let winShouldBlendPixel : Bool :=
    (windowsEnabled == false) || (scanline.winMask global_x &&& WINMASK_CLR != 0)
  if (blendMode = 1 ∧ gpu.blendControl &&& K.BLDCNT_TGT1_OBJ ≠ 0 ∧ winShouldBlendPixel = true)
      ∨ oam.objMode = 1 then
    match alphaBlendSelectTargetB K gpu scanline oam.priority 0 global_x false with
    | some targetB => alphaBlendColor gpu color targetB
    | none => color
  else if gpu.blendControl &&& K.BLDCNT_TGT1_OBJ ≠ 0 ∧ winShouldBlendPixel = true then
    (if blendMode = 2 then alphaBrightnessIncrease gpu color
     else if blendMode = 3 then alphaBrightnessDecrease gpu color
     else color)
  else color

/-- The texture coordinates `(tex_x, tex_y)` of a sprite column, before the
bounds check: `lx` is `local_x`, or `local_mosaicX` for a mosaic sprite. -/
def spriteTexCoords (width height : Nat) (m : SpriteMatrix) (lx local_y : Int) : Int × Int :=
  (toS32 (((m.m00 * lx + m.m01 * local_y) >>> 8) + ((width / 2 : Nat) : Int)),
   toS32 (((m.m10 * lx + m.m11 * local_y) >>> 8) + ((height / 2 : Nat) : Int)))

/-- The colour index a sprite yields at the in-bounds texture coordinates
`(tex_x, tex_y)`: flips, tile addressing and the 4bpp nibble selection. -/
def spriteFetchPixel (gpu : Gpu) (oam : OamData) (width height : Nat) (tex_x tex_y : Int) : Nat :=
  let isAffine : Bool := oam.affineMode &&& 1 != 0
  let flipX : Bool := !isAffine && ((oam.matrixNum >>> 3) &&& 1 != 0)
  let flipY : Bool := !isAffine && ((oam.matrixNum >>> 4) &&& 1 != 0)
  let tx : Nat := if flipX then width - tex_x.toNat - 1 else tex_x.toNat
  let ty : Nat := if flipY then height - tex_y.toNat - 1 else tex_y.toNat
  let tile_x := tx % 8
  let tile_y := ty % 8
  let block_x := tx / 8
  let block_y := ty / 8
  let block_offset :=
    (block_y * (if gpu.displayControl &&& 0x40 != 0 then width / 8 else 16)) + block_x
  if oam.bpp &&& 1 != 0 then
    byteRead gpu.spriteGfxData ((block_offset * 2 + oam.tileNum) * 32 + (tile_y * 8) + tile_x)
  else
    let raw :=
      byteRead gpu.spriteGfxData ((block_offset + oam.tileNum) * 32 + (tile_y * 4) + (tile_x / 2))
    if tile_x &&& 1 != 0 then raw >>> 4 else raw &&& 0xF

/-- The body of `if (pixel != 0)` in `DrawSprites` (and the skip when the index
is 0): an object-window sprite writes the window mask, any other sprite stores
its blended colour into the sprite line of its priority. -/
def spriteStore (K : Consts) (H : Host) (gpu : Gpu) (oam : OamData) (windowsEnabled : Bool)
    (scanline : ScanlineData) (global_x pixel : Nat) : ScanlineData :=
  if pixel = 0 then scanline
  else
    let paletteBase : Nat := if oam.bpp &&& 1 != 0 then 0 else oam.paletteNum * 16
    let color := palRead gpu.objPltt (paletteBase + pixel)
    if oam.objMode = 2 then
      (if scanline.winMask global_x &&& WINMASK_WINOUT != 0 then
        { scanline with
          winMask := Function.update scanline.winMask global_x
            (toU16 ((gpu.windowOut >>> 8) &&& 0x3F)) }
      else scanline)
    else if global_x < toU32 H.displayWidth then
      { scanline with
        spriteLayers := Function.update scanline.spriteLayers oam.priority
          (Function.update (scanline.spriteLayers oam.priority) global_x
            (toU16 (spriteBlend K gpu scanline oam windowsEnabled global_x color ||| (1 <<< 15)))) }
    else scanline

/-- The horizontal coordinate fed to the sprite matrix: `local_mosaicX` for a
mosaic sprite, `local_x` otherwise. -/
def spriteSourceX (gpu : Gpu) (oam : OamData) (x local_x : Int) (global_x : Nat) : Int :=
  if oam.mosaic = 1 then
    toS32 ((applySpriteHorizontalMosaicEffect gpu global_x : Int) - x)
  else local_x

/-- One iteration of the `local_x` loop of `DrawSprites` for the sprite `oam`
with footprint `width x height`, matrix `m` and centre `(x, y)`. -/
def spriteColumnStep (K : Consts) (H : Host) (gpu : Gpu) (oam : OamData) (width height : Nat)
    (m : SpriteMatrix) (x : Int) (local_y : Int) (windowsEnabled : Bool)
    (scanline : ScanlineData) (local_x : Int) : ScanlineData :=
  let global_x : Nat := toU32 (local_x + x)
  if global_x < toU32 (GetScanlinePos K H gpu).1 ∨ global_x ≥ toU32 (GetScanlinePos K H gpu).2 then
    scanline
  else
    let lx : Int := spriteSourceX gpu oam x local_x global_x
    let tex_x : Int := (spriteTexCoords width height m lx local_y).1
    let tex_y : Int := (spriteTexCoords width height m lx local_y).2
    if toU32 tex_x ≥ width ∨ toU32 tex_y ≥ height ∨ tex_x < 0 ∨ tex_y < 0 then scanline
    else
      spriteStore K H gpu oam windowsEnabled scanline global_x
        (spriteFetchPixel gpu oam width height tex_x tex_y)

/-- The values taken by `local_x` in
`for (int local_x = -half_width; local_x <= half_width; local_x++)`. -/
def localXRange (half_width : Int) : List Int :=
  (List.range (2 * half_width + 1).toNat).map (fun k => (k : Int) - half_width)

/-- One iteration of the sprite loop of `DrawSprites`.  The state is the matrix
left by the earlier iterations and the working set. -/
def spriteStep (K : Consts) (H : Host) (gpu : Gpu) (vcount : Nat) (windowsEnabled : Bool)
    (st : SpriteMatrix × ScanlineData) (i : Nat) : SpriteMatrix × ScanlineData :=
  let oam := gpu.spriteList i
  let isAffine : Bool := oam.affineMode &&& 1 != 0
  let doubleSizeOrDisabled : Bool := (oam.affineMode >>> 1) &&& 1 != 0
  if !isAffine && doubleSizeOrDisabled then st
  else
    match spriteDims oam with
    | none => st
    | some (width, height) =>
      let m := spriteMatrixFor K gpu oam st.1
      let half_width := (spriteHalf oam width height).1
      let half_height := (spriteHalf oam width height).2
      let x := (spriteCentre K H gpu oam width height).1
      let y := (spriteCentre K H gpu oam width height).2
      let v : Int := (toU16 vcount : Nat)
      if v ≥ y - half_height ∧ v < y + half_height then
        let local_y : Int :=
          if oam.mosaic = 1 then applySpriteVerticalMosaicEffect gpu v - y else v - y
        (m, (localXRange half_width).foldl
          (spriteColumnStep K H gpu oam width height m x local_y windowsEnabled) st.2)
      else (m, st.2)

/-- `DrawSprites(scanline, vcount, windowsEnabled)`: the resulting working set. -/
def DrawSprites (K : Consts) (H : Host) (gpu : Gpu) (scanline : ScanlineData) (vcount : Nat)
    (windowsEnabled : Bool) : ScanlineData :=
  ((List.range K.MAX_OAM_SPRITES).reverse.foldl (spriteStep K H gpu vcount windowsEnabled)
    ({ m00 := 0, m01 := 0, m10 := 0, m11 := 0 }, scanline)).2

/-! ## Scanline compositor -/

/-- The working set after the four `memset` calls that open `DrawScanline`.  The
members `bgtoprio` and `prioritySortedBgs` are not initialised by the code; they
are only read at positions written by the bookkeeping loop. -/
def emptyScanline : ScanlineData :=
  { layers := fun _ _ => 0
    spriteLayers := fun _ _ => 0
    winMask := fun _ => 0
    bgtoprio := fun _ => 0
    prioritySortedBgs := fun _ _ => 0
    prioritySortedBgsCount := fun _ => 0 }

/-- One iteration of the bookkeeping loop of `DrawScanline`. -/
def bookkeepStep (gpu : Gpu) (scanline : ScanlineData) (bgnum : Nat) : ScanlineData :=
  if (gpu.bg bgnum).hidden then scanline
  else
    let priority := toU16 (gpu.bg bgnum).priority
    let priorityCount := scanline.prioritySortedBgsCount priority
    { scanline with
      bgtoprio := Function.update scanline.bgtoprio bgnum priority
      prioritySortedBgs := Function.update scanline.prioritySortedBgs priority
        (Function.update (scanline.prioritySortedBgs priority) priorityCount bgnum)
      prioritySortedBgsCount :=
        Function.update scanline.prioritySortedBgsCount priority (priorityCount + 1) }

/-- The bookkeeping loop `for (bgnum = 0; bgnum < NUM_BACKGROUNDS; bgnum++)`. -/
def bookkeep (gpu : Gpu) (scanline : ScanlineData) : ScanlineData :=
  (List.range NUM_BACKGROUNDS).foldl (bookkeepStep gpu) scanline

/-- One iteration of the loop that renders the visible planes into their lines. -/
def renderStep (K : Consts) (H : Host) (gpu : Gpu) (vcount : Nat) (scanline : ScanlineData)
    (bgnum : Nat) : ScanlineData :=
  if isbgEnabled gpu bgnum && H.layerEnabled bgnum && !(gpu.bg bgnum).hidden then
    let bg_x := (gpu.bg bgnum).x % 4294967296
    let bg_y := (gpu.bg bgnum).y % 4294967296
    let line := scanline.layers bgnum
    { scanline with
      layers := Function.update scanline.layers bgnum
        (if (gpu.bg bgnum).affine.enabled then
          RenderRotScaleBGScanline K H gpu bgnum bg_x bg_y (vcount : Int) line
        else
          RenderBGScanline K H gpu bgnum bg_x bg_y (vcount : Int) line) }
  else scanline

/-- The loop `for (bgnum = 3; bgnum >= 0; bgnum--)` rendering the planes. -/
def renderLayers (K : Consts) (H : Host) (gpu : Gpu) (vcount : Nat) (scanline : ScanlineData) :
    ScanlineData :=
  [3, 2, 1, 0].foldl (renderStep K H gpu vcount) scanline

/-- `GetWindowCoords(which, &bottom, &top, &right, &left)`: the tuple
`(bottom, top, right, left)`. -/
def GetWindowCoords (K : Consts) (H : Host) (gpu : Gpu) (which : Nat) : Int × Int × Int × Int :=
  let bottom : Int := ((gpu.windowState which).y &&& 0xFFFF : Nat)
  let top : Int := ((((gpu.windowState which).y &&& 0xFFFF0000) >>> 16 : Nat) : Int)
  let right : Int := ((gpu.windowState which).x &&& 0xFFFF : Nat)
  let left : Int := ((((gpu.windowState which).x &&& 0xFFFF0000) >>> 16 : Nat) : Int)
  if InGbaRenderMode K gpu then
    (toS32 (bottom + offsetY K H), toS32 (top + offsetY K H),
     toS32 (right + offsetX K H), toS32 (left + offsetX K H))
  else (bottom, top, right, left)

/-- The vertical test of `DrawScanline` for the window `which`:
`top > bottom ? (vcount >= top || vcount < bottom) : (vcount >= top && vcount < bottom)`. -/
def winVerticalInside (K : Consts) (H : Host) (gpu : Gpu) (which : Nat) (vcount : Nat) : Bool :=
  let bottom := (GetWindowCoords K H gpu which).1
  let top := (GetWindowCoords K H gpu which).2.1
  if top > bottom then
    decide ((vcount : Int) ≥ top) || decide ((vcount : Int) < bottom)
  else
    decide ((vcount : Int) ≥ top) && decide ((vcount : Int) < bottom)

/-- The flag `WIN0enable` after the window 0 block of `DrawScanline`. -/
def WIN0enable (K : Consts) (H : Host) (gpu : Gpu) (vcount : Nat) : Bool :=
  (gpu.displayControl &&& K.DISPCNT_WIN0_ON != 0) && winVerticalInside K H gpu 0 vcount

/-- The flag `WIN1enable` after the window 1 block of `DrawScanline`. -/
def WIN1enable (K : Consts) (H : Host) (gpu : Gpu) (vcount : Nat) : Bool :=
  (gpu.displayControl &&& K.DISPCNT_WIN1_ON != 0) && winVerticalInside K H gpu 1 vcount

/-- The flag `windowsEnabled` after the three blocks that may set it. -/
def windowsEnabled (K : Consts) (gpu : Gpu) : Bool :=
  (gpu.displayControl &&& K.DISPCNT_WIN0_ON != 0)
    || (gpu.displayControl &&& K.DISPCNT_WIN1_ON != 0)
    || ((gpu.displayControl &&& K.DISPCNT_OBJWIN_ON != 0)
        && (gpu.displayControl &&& K.DISPCNT_OBJ_ON != 0))

/-- One iteration of the loop that draws the pixel mask. -/
def winMaskStep (K : Consts) (H : Host) (gpu : Gpu) (vcount : Nat) (winMask : Nat → Nat)
    (xpos : Nat) : Nat → Nat :=
  if WIN0enable K H gpu vcount
      && winCheckHorizontalBounds (toU32 (GetWindowCoords K H gpu 0).2.2.2)
          (toU32 (GetWindowCoords K H gpu 0).2.2.1) xpos then
    Function.update winMask xpos (toU16 (gpu.windowIn &&& 0x3F))
  else if WIN1enable K H gpu vcount
      && winCheckHorizontalBounds (toU32 (GetWindowCoords K H gpu 1).2.2.2)
          (toU32 (GetWindowCoords K H gpu 1).2.2.1) xpos then
    Function.update winMask xpos (toU16 ((gpu.windowIn >>> 8) &&& 0x3F))
  else
    Function.update winMask xpos (toU16 ((gpu.windowOut &&& 0x3F) ||| WINMASK_WINOUT))

/-- The block `if (windowsEnabled) for (xpos = 0; xpos < displayWidth; xpos++) ...`. -/
def drawWinMask (K : Consts) (H : Host) (gpu : Gpu) (vcount : Nat) (winMask : Nat → Nat) :
    Nat → Nat :=
  if windowsEnabled K gpu then
    (unsignedRange 0 H.displayWidth).foldl (winMaskStep K H gpu vcount) winMask
  else winMask

/-- The colour the merge step stores for an admitted pixel of plane `bgnum`: the
blending code between the window test and the store. -/
def mergeBgColor (K : Consts) (gpu : Gpu) (scanline : ScanlineData) (winOn : Bool)
    (prnum prsub bgnum xpos : Nat) : Nat :=
  let blendMode := (gpu.blendControl >>> 6) &&& 3
  let color := scanline.layers bgnum xpos
  let winEffectEnable : Bool :=
    if winOn then ((scanline.winMask xpos &&& WINMASK_CLR) >>> 5) != 0 else true
  if blendMode ≠ 0 ∧ gpu.blendControl &&& (1 <<< bgnum) ≠ 0 ∧ winEffectEnable = true then
    if blendMode = 1 then
      match alphaBlendSelectTargetB K gpu scanline prnum (prsub + 1) xpos
          (gpu.blendControl &&& K.BLDCNT_TGT2_OBJ != 0) with
      | some targetB => alphaBlendColor gpu color targetB
      | none => color
    else if blendMode = 2 then alphaBrightnessIncrease gpu color
    else if blendMode = 3 then alphaBrightnessDecrease gpu color
    else color
  else color

/-- One iteration of the pixel loop that copies plane `bgnum` to the output. -/
def mergeBgPixel (K : Consts) (gpu : Gpu) (scanline : ScanlineData) (winOn : Bool)
    (prnum prsub bgnum : Nat) (pixels : Nat → Nat) (xpos : Nat) : Nat → Nat :=
  if getAlphaBit (scanline.layers bgnum xpos) = 0 then pixels
  else if winOn = true ∧ scanline.winMask xpos &&& (1 <<< bgnum) = 0 then pixels
  else Function.update pixels xpos (mergeBgColor K gpu scanline winOn prnum prsub bgnum xpos)

/-- One iteration of the `prsub` loop of the merge step. -/
def mergeBgStep (K : Consts) (H : Host) (gpu : Gpu) (scanline : ScanlineData) (winOn : Bool)
    (prnum : Nat) (pixels : Nat → Nat) (prsub : Nat) : Nat → Nat :=
  let bgnum := scanline.prioritySortedBgs prnum prsub
  if isbgEnabled gpu bgnum then
    (unsignedRange (GetBGScanlinePos K H gpu bgnum).1 (GetBGScanlinePos K H gpu bgnum).2).foldl
      (mergeBgPixel K gpu scanline winOn prnum prsub bgnum) pixels
  else pixels

/-- One iteration of the pixel loop that copies the sprite line of `prnum`. -/
def mergeSpritePixel (scanline : ScanlineData) (winOn : Bool) (prnum : Nat)
    (pixels : Nat → Nat) (xpos : Nat) : Nat → Nat :=
  if getAlphaBit (scanline.spriteLayers prnum xpos) != 0 then
    (if winOn = true ∧ scanline.winMask xpos &&& WINMASK_OBJ = 0 then pixels
     else Function.update pixels xpos (scanline.spriteLayers prnum xpos))
  else pixels

/-- One iteration of the `prnum` loop of the merge step: the planes of the
bucket from its last entry to its first, then the sprite line. -/
def mergePriority (K : Consts) (H : Host) (gpu : Gpu) (scanline : ScanlineData) (winOn : Bool)
    (pixels : Nat → Nat) (prnum : Nat) : Nat → Nat :=
  let afterBgs := (List.range (scanline.prioritySortedBgsCount prnum)).reverse.foldl
    (mergeBgStep K H gpu scanline winOn prnum) pixels
  (unsignedRange (GetScanlinePos K H gpu).1 (GetScanlinePos K H gpu).2).foldl
    (mergeSpritePixel scanline winOn prnum) afterBgs

/-- The merge step of `DrawScanline`: `for (prnum = 3; prnum >= 0; prnum--)`. -/
def mergeLayers (K : Consts) (H : Host) (gpu : Gpu) (scanline : ScanlineData) (winOn : Bool)
    (pixels : Nat → Nat) : Nat → Nat :=
  [3, 2, 1, 0].foldl (mergePriority K H gpu scanline winOn) pixels

/-- The working set of `DrawScanline` as it stands when the merge step starts. -/
def scanlineBeforeMerge (K : Consts) (H : Host) (gpu : Gpu) (vcount : Nat) : ScanlineData :=
  let rendered := renderLayers K H gpu vcount (bookkeep gpu emptyScanline)
  let masked := { rendered with winMask := drawWinMask K H gpu vcount rendered.winMask }
  if (gpu.displayControl &&& K.DISPCNT_OBJ_ON != 0) && H.layerEnabled 4 then
    DrawSprites K H gpu masked vcount (windowsEnabled K gpu)
  else masked

/-- `DrawScanline(pixels, vcount)`: the resulting `pixels`. -/
def DrawScanline (K : Consts) (H : Host) (gpu : Gpu) (pixels : Nat → Nat) (vcount : Nat) :
    Nat → Nat :=
  let vcount16 := toU16 vcount
  mergeLayers K H gpu (scanlineBeforeMerge K H gpu vcount16) (windowsEnabled K gpu) pixels

/-! ## Frame assembler -/

/-- `GetBackdropColor`. -/
def GetBackdropColor (K : Consts) (gpu : Gpu) : Nat :=
  let backdropColor := palRead gpu.palette 0
  if gpu.blendControl &&& K.BLDCNT_TGT1_BD ≠ 0 then
    let blendMode := (gpu.blendControl >>> 6) &&& 3
    if blendMode = 2 then alphaBrightnessIncrease gpu backdropColor
    else if blendMode = 3 then alphaBrightnessDecrease gpu backdropColor
    else backdropColor
  else backdropColor

/-- `RunScanlineEffect`. -/
def RunScanlineEffect (H : Host) (gpu : Gpu) : Gpu :=
  let g := H.GpuRefreshScanlineEffect gpu
  if g.scanlineEffectPosition < H.displayHeight - 1 then
    { g with scanlineEffectPosition := toS32 (g.scanlineEffectPosition + 1) }
  else g

/-- The state threaded through the scanline loop of `DrawFrame`: the global
`gpu`, the function-static buffer `scanline` and the output image `pixels`. -/
structure FrameState where
  gpu : Gpu
  scanline : Nat → Nat
  pixels : Nat → Nat

/-- The unsigned bounds `(lineStart, lineEnd, scanlineStart, scanlineEnd)` of `DrawFrame`. -/
def frameBounds (K : Consts) (H : Host) (gpu : Gpu) : Nat × Nat × Nat × Nat :=
  if InGbaRenderMode K gpu then
    (toU32 (offsetX K H), (toU32 (offsetX K H) + toU32 K.BASE_DISPLAY_WIDTH) % 4294967296,
     toU32 (offsetY K H), (toU32 (offsetY K H) + toU32 K.BASE_DISPLAY_HEIGHT) % 4294967296)
  else
    (0, toU32 H.displayWidth, 0, toU32 H.displayHeight)

/-- The call `RunScanlineEffect()` guarded by
`gpu.scanlineEffect.type != GPU_SCANLINE_EFFECT_OFF`. -/
def scanlineEffectGpu (K : Consts) (H : Host) (gpu : Gpu) : Gpu :=
  if gpu.scanlineEffectType ≠ K.GPU_SCANLINE_EFFECT_OFF then RunScanlineEffect H gpu else gpu

/-- The statement `gpu.displayStatus |= INTR_FLAG_HBLANK`. -/
def raiseHBlank (K : Consts) (gpu : Gpu) : Gpu :=
  { gpu with displayStatus := gpu.displayStatus ||| K.INTR_FLAG_HBLANK }

/-- The call `DoHBlankUpdate()` guarded by
`runHBlank && (gpu.displayStatus & DISPSTAT_HBLANK_INTR)`. -/
def hblankHookGpu (K : Consts) (H : Host) (gpu : Gpu) : Gpu :=
  if H.runHBlank && (gpu.displayStatus &&& K.DISPSTAT_HBLANK_INTR != 0) then
    H.DoHBlankUpdate gpu
  else gpu

/-- The statement `gpu.displayStatus &= ~INTR_FLAG_HBLANK`: the bits of the flag
that are set are flipped to zero. -/
def clearHBlank (K : Consts) (gpu : Gpu) : Gpu :=
  { gpu with
    displayStatus := gpu.displayStatus ^^^ (gpu.displayStatus &&& K.INTR_FLAG_HBLANK) }

/-- The global `gpu` at the end of one iteration of the scanline loop of
`DrawFrame`, from its value `gpu` once `vCount` has been stored. -/
def frameLineGpu (K : Consts) (H : Host) (gpu : Gpu) : Gpu :=
  clearHBlank K (hblankHookGpu K H (raiseHBlank K (scanlineEffectGpu K H gpu)))

/-- The statement `gpu.vCount = v`. -/
def setVCount (gpu : Gpu) (v : Nat) : Gpu := { gpu with vCount := v }

/-- One iteration of the scanline loop of `DrawFrame`, for the bounds and the
backdrop colour fixed before the loop. -/
def frameLineStep (K : Consts) (H : Host) (backdropColor lineStart lineEnd scanlineStart : Nat)
    (st : FrameState) (i : Nat) : FrameState :=
  let filled := (List.range' lineStart (lineEnd - lineStart)).foldl
    (fun buf j => Function.update buf j backdropColor) st.scanline
  let gpu1 : Gpu := setVCount st.gpu (i - scanlineStart)
  let drawn := DrawScanline K H gpu1 filled i
  let base := (i * toU32 H.displayWidth + lineStart) % 4294967296
  { gpu := frameLineGpu K H gpu1
    scanline := drawn
    pixels := (List.range (toU32 ((lineEnd : Int) - (lineStart : Int)))).foldl
      (fun img k => Function.update img (base + k) (drawn (lineStart + k))) st.pixels }

/-- `DrawFrame(pixels)`.  The argument `st.pixels` is the image as `DrawBorder`
left it (the image passed in when no border is in use); `st.scanline` is the
content of the function-static scanline buffer on entry. -/
def DrawFrame (K : Consts) (H : Host) (st : FrameState) : FrameState :=
  let backdropColor := GetBackdropColor K st.gpu
  let lineStart := (frameBounds K H st.gpu).1
  let lineEnd := (frameBounds K H st.gpu).2.1
  let scanlineStart := (frameBounds K H st.gpu).2.2.1
  let scanlineEnd := (frameBounds K H st.gpu).2.2.2
  (List.range' scanlineStart (scanlineEnd - scanlineStart)).foldl
    (frameLineStep K H backdropColor lineStart lineEnd scanlineStart) st

/-! ## Concrete register files used to instantiate the theorems -/

/-- Values of the constants used to instantiate the theorems: the GBA register
layout with a 240 x 160 base display, and bit 16 of the display control taken
for `DISPCNT_GBA_MODE`. -/
def gbaConsts : Consts :=
  { BASE_DISPLAY_WIDTH := 240
    BASE_DISPLAY_HEIGHT := 160
    DISPLAY_WIDTH := 480
    DISPLAY_HEIGHT := 320
    DISPCNT_GBA_MODE := 0x10000
    DISPCNT_OBJ_ON := 0x1000
    DISPCNT_WIN0_ON := 0x2000
    DISPCNT_WIN1_ON := 0x4000
    DISPCNT_OBJWIN_ON := 0x8000
    BLDCNT_TGT1_OBJ := 0x10
    BLDCNT_TGT1_BD := 0x20
    BLDCNT_TGT2_OBJ := 0x1000
    BLDCNT_TGT2_BD := 0x2000
    INTR_FLAG_HBLANK := 2
    DISPSTAT_HBLANK_INTR := 0x10
    GPU_SCANLINE_EFFECT_OFF := 0
    BG_CHAR_SIZE := 0x4000
    BG_PLTT_SIZE := 0x200
    GBA_BG_SCREEN_SIZE := 0x800
    MAX_OAM_SPRITES := 128
    MAX_OAM_MATRICES := 32 }

/-- A plane state with every member zero (so the plane is not hidden). -/
def zeroBg : GpuBgState :=
  { hidden := false, priority := 0, palettes := false, gbaMode := false, mosaic := false
    areaOverflowMode := false, charBaseBlock := 0, screenBaseBlock := 0, screenWidth := 0
    screenHeight := 0, x := 0, y := 0
    affine := { enabled := false, pa := 0, pb := 0, pc := 0, pd := 0 } }

/-- A sprite entry with every member zero. -/
def zeroOam : OamData :=
  { x := 0, y := 0, affineMode := 0, objMode := 0, mosaic := 0, bpp := 0, shape := 0
    matrixNum := 0, size := 0, tileNum := 0, priority := 0, paletteNum := 0 }

/-- A register file with every register and every memory cell zero. -/
def zeroGpu : Gpu :=
  { displayControl := 0, displayStatus := 0, vCount := 0, mosaic := 0, blendControl := 0
    blendAlpha := 0, blendCoeff := 0, windowIn := 0, windowOut := 0
    windowState := fun _ => { x := 0, y := 0 }
    bg := fun _ => zeroBg
    spriteList := fun _ => zeroOam
    spriteMatrices := fun _ => { a := 0, b := 0, c := 0, d := 0 }
    scanlineEffectType := 0, scanlineEffectPosition := 0
    palette := fun _ => 0, objPltt := fun _ => 0
    charMem := fun _ _ => 0, screenMem := fun _ _ => 0, spriteGfxData := fun _ => 0 }

/-- A host with a 240 x 160 display, every layer enabled and inert callbacks. -/
def plainHost : Host :=
  { displayWidth := 240, displayHeight := 160, layerEnabled := fun _ => true
    runHBlank := true, GpuRefreshScanlineEffect := id, DoHBlankUpdate := id }

/-! ## Statements of the window rules in the words of the specification -/

/-- The region rule of the specification for one axis: `[lo, hi)` when
`lo <= hi`, and the wrapped region "at or after `lo`, or before `hi`" otherwise. -/
def InHalfOpenWrap (lo hi v : Int) : Prop :=
  if lo ≤ hi then lo ≤ v ∧ v < hi else v ≥ lo ∨ v < hi

/-- Window `which` (0 or 1) covers column `xpos` of scanline `vcount`: the window
is switched on by the bit `onBit` of the display control, the scanline is in its
vertical range and the column in its horizontal range. -/
def WindowCovers (K : Consts) (H : Host) (gpu : Gpu) (which onBit vcount xpos : Nat) : Bool :=
  (gpu.displayControl &&& onBit != 0)
    && winVerticalInside K H gpu which vcount
    && winCheckHorizontalBounds (toU32 (GetWindowCoords K H gpu which).2.2.2)
        (toU32 (GetWindowCoords K H gpu which).2.2.1) xpos

/-! ## The merge rule in the words of the specification -/

/-- A layer of the compositor: the sprite buffer of a priority value, or a plane. -/
inductive Layer where
  | sprite (priority : Nat)
  | plane (bg : Nat)

/-- The layers of one priority value, front to back: the sprite buffer of that
value, then the planes of that priority in ascending plane index. -/
def layersOfPriority (gpu : Gpu) (p : Nat) : List Layer :=
  Layer.sprite p ::
    ((List.range NUM_BACKGROUNDS).filter (fun b => (gpu.bg b).priority == p)).map Layer.plane

/-- All layers front to back: ascending priority value 0..3. -/
def layersFrontToBack (gpu : Gpu) : List Layer :=
  layersOfPriority gpu 0 ++ layersOfPriority gpu 1 ++ layersOfPriority gpu 2
    ++ layersOfPriority gpu 3

/-- A layer counts at column `x`: its pixel there is opaque and, when windows
are enabled, its bit is set in `winMask[x]` (bit 4, the OBJ bit, for a sprite
buffer); a plane must moreover be not hidden and enabled in the display control. -/
def layerCounts (gpu : Gpu) (scanline : ScanlineData) (winOn : Bool) (x : Nat) : Layer → Bool
  | Layer.sprite p =>
    (getAlphaBit (scanline.spriteLayers p x) == 1)
      && (!winOn || (scanline.winMask x).testBit 4)
  | Layer.plane b =>
    !(gpu.bg b).hidden && isbgEnabled gpu b
      && (getAlphaBit (scanline.layers b x) == 1)
      && (!winOn || (scanline.winMask x).testBit b)

/-- The pixel of a layer at column `x`. -/
def layerPixel (scanline : ScanlineData) (x : Nat) : Layer → Nat
  | Layer.sprite p => scanline.spriteLayers p x
  | Layer.plane b => scanline.layers b x

/-- The pixel of the front-most layer that counts at column `x`, or `entry` when
no layer counts. -/
def frontMostPixel (gpu : Gpu) (scanline : ScanlineData) (winOn : Bool) (entry x : Nat) : Nat :=
  match (layersFrontToBack gpu).find? (layerCounts gpu scanline winOn x) with
  | some l => layerPixel scanline x l
  | none => entry

/-- The test the merge step of `DrawScanline` applies to a layer at column `x`
before storing its pixel. -/
def mergeAdmits (K : Consts) (H : Host) (gpu : Gpu) (scanline : ScanlineData) (winOn : Bool)
    (x : Nat) : Layer → Bool
  | Layer.sprite p =>
    decide (x ∈ unsignedRange (GetScanlinePos K H gpu).1 (GetScanlinePos K H gpu).2
      ∧ getAlphaBit (scanline.spriteLayers p x) ≠ 0
      ∧ ¬ (winOn = true ∧ scanline.winMask x &&& WINMASK_OBJ = 0))
  | Layer.plane b =>
    decide (isbgEnabled gpu b = true
      ∧ x ∈ unsignedRange (GetBGScanlinePos K H gpu b).1 (GetBGScanlinePos K H gpu b).2
      ∧ getAlphaBit (scanline.layers b x) ≠ 0
      ∧ ¬ (winOn = true ∧ scanline.winMask x &&& (1 <<< b) = 0))

/-- The layers the merge step visits for one priority value, front to back. -/
def mergeOrderOfPriority (scanline : ScanlineData) (p : Nat) : List Layer :=
  Layer.sprite p ::
    (List.range (scanline.prioritySortedBgsCount p)).map
      (fun i => Layer.plane (scanline.prioritySortedBgs p i))

/-- The non-hidden planes below `n` whose priority is `p`, in ascending index:
the content the bookkeeping loop gives bucket `p` after visiting planes `0 .. n-1`. -/
def bucketList (gpu : Gpu) (n p : Nat) : List Nat :=
  (List.range n).filter (fun b => !(gpu.bg b).hidden && (toU16 (gpu.bg b).priority == p))

/-- Every bucket of the working set lists exactly `bucketList gpu n p`. -/
def BucketsAre (gpu : Gpu) (n : Nat) (scanline : ScanlineData) : Prop :=
  ∀ p, (List.range (scanline.prioritySortedBgsCount p)).map (scanline.prioritySortedBgs p)
    = bucketList gpu n p

/-- What `DrawSprites` may change between two working sets: nothing but the
window mask and the sprite lines, and a sprite line only at columns of the
range given by `GetScanlinePos`. -/
def SpriteFrame (K : Consts) (H : Host) (gpu : Gpu) (before after : ScanlineData) : Prop :=
  after.layers = before.layers
    ∧ after.prioritySortedBgs = before.prioritySortedBgs
    ∧ after.prioritySortedBgsCount = before.prioritySortedBgsCount
    ∧ ∀ p y, y ∉ unsignedRange (GetScanlinePos K H gpu).1 (GetScanlinePos K H gpu).2 →
        after.spriteLayers p y = before.spriteLayers p y

/-! ## Scenes for the end-to-end properties -/

/-- The resolution lies in the range `SetResolution` clamps it to, and the
canvas fits 16-bit coordinates. -/
def GeometryOK (K : Consts) (H : Host) : Prop :=
  0 ≤ K.BASE_DISPLAY_WIDTH ∧ K.BASE_DISPLAY_WIDTH ≤ H.displayWidth
    ∧ H.displayWidth ≤ (K.DISPLAY_WIDTH : Int)
    ∧ 0 ≤ K.BASE_DISPLAY_HEIGHT ∧ K.BASE_DISPLAY_HEIGHT ≤ H.displayHeight
    ∧ H.displayHeight ≤ (K.DISPLAY_HEIGHT : Int)
    ∧ K.DISPLAY_WIDTH ≤ 65535 ∧ K.DISPLAY_HEIGHT ≤ 65535

/-- Plane `b` is not visible: it is hidden, or switched off in the display
control, or switched off by the host's layer toggle. -/
def PlaneInvisible (H : Host) (gpu : Gpu) (b : Nat) : Prop :=
  (gpu.bg b).hidden = true ∨ isbgEnabled gpu b = false ∨ H.layerEnabled b = false

/-- No sprite is drawn: sprites are switched off in the display control or by
the host's layer toggle. -/
def SpritesOff (K : Consts) (H : Host) (gpu : Gpu) : Prop :=
  gpu.displayControl &&& K.DISPCNT_OBJ_ON = 0 ∨ H.layerEnabled 4 = false

/-- The otherwise-empty frame: no plane is visible and no sprite is drawn. -/
def EmptyScene (K : Consts) (H : Host) (gpu : Gpu) : Prop :=
  (∀ b, b < 4 → PlaneInvisible H gpu b) ∧ SpritesOff K H gpu

/-- Row `i`, column `j` of the canvas lies in the region `DrawFrame` draws,
for the bounds it computes from `gpu` on entry. -/
def InActiveRegion (K : Consts) (H : Host) (gpu : Gpu) (i j : Nat) : Prop :=
  (frameBounds K H gpu).2.2.1 ≤ i ∧ i < (frameBounds K H gpu).2.2.2
    ∧ (frameBounds K H gpu).1 ≤ j ∧ j < (frameBounds K H gpu).2.1

/-- The index of row `i`, column `j` in the image `DrawFrame` writes. -/
def pixelIndex (H : Host) (i j : Nat) : Nat := i * toU32 H.displayWidth + j

/-- The single-tile scene: plane `n` is a visible 4bpp text-mode plane with
zero scroll and no mosaic, drawn without letterbox offset; every other plane is
invisible, no sprite is drawn, no window is enabled and the blend mode is none;
map entry (0,0) of the plane references tile `t` with palette 0 and no flips,
all 64 pixels of tile `t` have colour index 5 (each of its 32 bytes is `0x55`),
the plane shows colour index 0 at column 8 of line 0, and palette entry 5 is `c5`. -/
structure TileScene (K : Consts) (H : Host) (n t c5 : Nat) (gpu : Gpu) : Prop where
  planeIndex : n < 4
  shown : (gpu.bg n).hidden = false
  enabled : isbgEnabled gpu n = true
  layerOn : H.layerEnabled n = true
  textMode : (gpu.bg n).affine.enabled = false
  fourBpp : (gpu.bg n).palettes = false
  noMosaic : (gpu.bg n).mosaic = false
  scrollX : (gpu.bg n).x = 0
  scrollY : (gpu.bg n).y = 0
  mapNonEmpty : (bgMapGeometry (gpu.bg n)).1 ≠ 0 ∧ (bgMapGeometry (gpu.bg n)).2.1 ≠ 0
  noLetterbox : (InGbaRenderMode K gpu || (gpu.bg n).gbaMode) = true →
    offsetX K H = 0 ∧ offsetY K H = 0
  priorities : ∀ b, b < 4 → (gpu.bg b).priority ≤ 3
  others : ∀ b, b < 4 → b ≠ n → PlaneInvisible H gpu b
  sprites : SpritesOff K H gpu
  noWindows : windowsEnabled K gpu = false
  noBlend : (gpu.blendControl >>> 6) &&& 3 = 0
  entryTile : bgEntryTile K (gpu.bg n) (bgMapEntry gpu (gpu.bg n) 0) = t
  entryPalette : bgEntryPalette K (gpu.bg n) (bgMapEntry gpu (gpu.bg n) 0) = 0
  entryNoFlipX : bgEntryFlipX (gpu.bg n) (bgMapEntry gpu (gpu.bg n) 0) = false
  entryNoFlipY : bgEntryFlipY (gpu.bg n) (bgMapEntry gpu (gpu.bg n) 0) = false
  solid : ∀ k, k < 32 → byteRead (gpu.charMem (gpu.bg n).charBaseBlock) (t * 32 + k) = 0x55
  nextTransparent : (bgFetchPixel K gpu n 0 0 0 0 8).1 = 0
  colour5 : palRead gpu.palette 5 = c5

/-- A register file showing one solid tile: plane 0 is a visible 256 x 256 4bpp
text-mode plane, the other planes are hidden; map entry 0 references tile 1 and
every other map entry tile 0; the 32 bytes of tile 1 are `0x55` and all other
character data is 0; palette entry 5 is `0x001F` and every other entry 0. -/
def tileGpu : Gpu :=
  { zeroGpu with
    displayControl := 0x100
    bg := fun b =>
      if b = 0 then { zeroBg with screenWidth := 256, screenHeight := 256 }
      else { zeroBg with hidden := true }
    palette := fun i => if i = 5 then 0x1F else 0
    screenMem := fun _ o => if o = 0 then 1 else 0
    charMem := fun _ o => if 32 ≤ o ∧ o < 64 then 0x55 else 0 }

/-! ## The vertical extent of a sprite in the words of the specification -/

/-- The footprint height of a sprite: the height of its shape and size class,
doubled for an affine double-size sprite, and 0 for the prohibited shape. -/
def spriteFootprintHeight (oam : OamData) : Int :=
  match spriteDims oam with
  | none => 0
  | some (_, height) =>
    if oam.affineMode &&& 1 != 0 ∧ (oam.affineMode >>> 1) &&& 1 != 0 then 2 * (height : Int)
    else (height : Int)

/-- The top line of a sprite on screen: the line of its centre less half its
footprint height. -/
def spriteTop (K : Consts) (H : Host) (gpu : Gpu) (oam : OamData) : Int :=
  match spriteDims oam with
  | none => 0
  | some (width, height) =>
    (spriteCentre K H gpu oam width height).2 - (spriteHalf oam width height).2

/-- The scanline `vcount` lies in the vertical extent `[top, top + footprint height)`
of the sprite. -/
def spriteOnLine (K : Consts) (H : Host) (gpu : Gpu) (oam : OamData) (vcount : Nat) : Prop :=
  spriteTop K H gpu oam ≤ (vcount : Int)
    ∧ (vcount : Int) < spriteTop K H gpu oam + spriteFootprintHeight oam

/-! ## Sprites that meet at one column, in the words of the specification -/

/-- The value of `local_y` for a sprite whose centre line is `y`, on the scanline `v`. -/
def spriteLocalY (gpu : Gpu) (oam : OamData) (v y : Int) : Int :=
  if oam.mosaic = 1 then applySpriteVerticalMosaicEffect gpu v - y else v - y

/-- The colour index the column `local_x` of a sprite fetches from its tiles. -/
def spriteColumnIndex (gpu : Gpu) (oam : OamData) (width height : Nat) (m : SpriteMatrix)
    (x local_y local_x : Int) : Nat :=
  spriteFetchPixel gpu oam width height
    (spriteTexCoords width height m
      (spriteSourceX gpu oam x local_x (toU32 (local_x + x))) local_y).1
    (spriteTexCoords width height m
      (spriteSourceX gpu oam x local_x (toU32 (local_x + x))) local_y).2

/-- The column `local_x` of a sprite lands on the display column `col`, inside the
scanline and inside the texture, with a colour index other than 0. -/
def spriteColumnDraws (K : Consts) (H : Host) (gpu : Gpu) (oam : OamData) (width height : Nat)
    (m : SpriteMatrix) (x local_y : Int) (col : Nat) (local_x : Int) : Prop :=
  toU32 (local_x + x) = col
    ∧ ¬ (col < toU32 (GetScanlinePos K H gpu).1 ∨ col ≥ toU32 (GetScanlinePos K H gpu).2)
    ∧ ¬ (toU32 (spriteTexCoords width height m
            (spriteSourceX gpu oam x local_x col) local_y).1 ≥ width
          ∨ toU32 (spriteTexCoords width height m
            (spriteSourceX gpu oam x local_x col) local_y).2 ≥ height
          ∨ (spriteTexCoords width height m (spriteSourceX gpu oam x local_x col) local_y).1 < 0
          ∨ (spriteTexCoords width height m (spriteSourceX gpu oam x local_x col) local_y).2 < 0)
    ∧ spriteColumnIndex gpu oam width height m x local_y local_x ≠ 0
    ∧ col < toU32 H.displayWidth

instance spriteColumnDrawsDecidable (K : Consts) (H : Host) (gpu : Gpu) (oam : OamData)
    (width height : Nat) (m : SpriteMatrix) (x local_y : Int) (col : Nat) (local_x : Int) :
    Decidable (spriteColumnDraws K H gpu oam width height m x local_y col local_x) := by
  unfold spriteColumnDraws
  infer_instance

/-- The sprite `oam`, met by the sprite loop with the matrix `previous` left by the
earlier iterations, produces the non-transparent colour index `pixel` at the
in-bounds display column `col` of the scanline `vcount`. -/
def SpriteShows (K : Consts) (H : Host) (gpu : Gpu) (vcount : Nat) (previous : SpriteMatrix)
    (oam : OamData) (col pixel : Nat) : Prop :=
  ¬ ((!(oam.affineMode &&& 1 != 0) && ((oam.affineMode >>> 1) &&& 1 != 0)) = true)
    ∧ ∃ width height, spriteDims oam = some (width, height)
      ∧ spriteOnLine K H gpu oam (toU16 vcount)
      ∧ ∃ local_x, local_x ∈ localXRange (spriteHalf oam width height).1
        ∧ spriteColumnDraws K H gpu oam width height (spriteMatrixFor K gpu oam previous)
            (spriteCentre K H gpu oam width height).1
            (spriteLocalY gpu oam ((toU16 vcount : Nat) : Int)
              (spriteCentre K H gpu oam width height).2) col local_x
        ∧ spriteColumnIndex gpu oam width height (spriteMatrixFor K gpu oam previous)
            (spriteCentre K H gpu oam width height).1
            (spriteLocalY gpu oam ((toU16 vcount : Nat) : Int)
              (spriteCentre K H gpu oam width height).2) local_x = pixel

/-- The colour `DrawSprites` stores for the colour index `pixel` of the sprite
`oam` at the column `col`: the palette entry, blended against the working set
`scanline`, with bit 15 set. -/
def spriteColour (K : Consts) (gpu : Gpu) (scanline : ScanlineData) (oam : OamData)
    (windowsEnabled : Bool) (col pixel : Nat) : Nat :=
  toU16 (spriteBlend K gpu scanline oam windowsEnabled col
    (palRead gpu.objPltt ((if oam.bpp &&& 1 != 0 then 0 else oam.paletteNum * 16) + pixel))
      ||| (1 <<< 15))

/-- The state of the sprite loop of `DrawSprites` once the sprites of index `n`
and above have been drawn: the state in which the iteration for sprite `n - 1`
starts. -/
def spritesAbove (K : Consts) (H : Host) (gpu : Gpu) (scanline : ScanlineData) (vcount : Nat)
    (windowsEnabled : Bool) (n : Nat) : SpriteMatrix × ScanlineData :=
  (List.range' n (K.MAX_OAM_SPRITES - n)).reverse.foldl
    (spriteStep K H gpu vcount windowsEnabled)
    ({ m00 := 0, m01 := 0, m10 := 0, m11 := 0 }, scanline)

/-- Two working sets that agree on everything but the sprite lines: the plane
lines, the window mask and the priority buckets. -/
def SameBlendContext (a b : ScanlineData) : Prop :=
  b.layers = a.layers ∧ b.winMask = a.winMask
    ∧ b.prioritySortedBgs = a.prioritySortedBgs
    ∧ b.prioritySortedBgsCount = a.prioritySortedBgsCount

/-- A register file whose sprite table holds 8 x 8 sprites at the origin, every
texel of colour index 1: sprite 0 uses palette 1, every other sprite palette 0,
and entry `i` of the sprite palette holds the value `i`. -/
def spriteGpu : Gpu :=
  { zeroGpu with
    spriteList := fun i => if i = 0 then { zeroOam with paletteNum := 1 } else zeroOam
    objPltt := fun i => i
    spriteGfxData := fun _ => 0x11 }

/-! ## The affine lookup in the words of the specification -/

/-- The accumulator `realX` (or `realY`) of the column loop of
`RenderRotScaleBGScanline` at the start of its iteration number `k`: the start
value advanced `k` times by the per-column delta `d`, as a 32-bit `int`. -/
def rotScaleCoord (d : Int) : Int → Nat → Int
  | start, 0 => start
  | start, k + 1 => rotScaleCoord d (toS32 (start + d)) k

/-- The content of a column after the texel `(xxx, yyy)` of a square map of
`size` pixels a side has been looked up: the tile number is the byte at map index
`(xxx >> 3) + (yyy >> 3) * (size / 8)`, the colour index the byte
`tile * 64 + (yyy & 7) * 8 + (xxx & 7)` of the character data; index 0 keeps the
former content `old`, any other index stores its palette entry with bit 15 set. -/
def affineTexelColour (gpu : Gpu) (bg : GpuBgState) (size xxx yyy old : Nat) : Nat :=
  let tile := byteRead (gpu.screenMem bg.screenBaseBlock)
    ((xxx >>> 3) + (yyy >>> 3) * (size / 8))
  let pixel := byteRead (gpu.charMem bg.charBaseBlock)
    ((tile <<< 6) + ((yyy &&& 7) <<< 3) + (xxx &&& 7))
  if pixel != 0 then toU16 (palRead gpu.palette pixel ||| 0x8000) else old

/-- The content of a column whose source coordinate is `(sx, sy)`: with the
area-overflow flag set the coordinate is reduced modulo `size` in both axes and
looked up; with the flag clear a coordinate outside `[0, size) x [0, size)`
keeps the former content `old`, and one inside is looked up as it is. -/
def affineColumn (gpu : Gpu) (bg : GpuBgState) (size : Nat) (sx sy : Int) (old : Nat) : Nat :=
  if bg.areaOverflowMode then
    affineTexelColour gpu bg size (sx % (size : Int)).toNat (sy % (size : Int)).toNat old
  else if sx < 0 ∨ sy < 0 ∨ sx ≥ (size : Int) ∨ sy ≥ (size : Int) then old
  else affineTexelColour gpu bg size sx.toNat sy.toNat old

/-- A register file whose plane 2 is an affine plane over a map of 128 pixels a
side with the identity matrix, the area-overflow flag clear, every map entry
tile 0, every texel of colour index 1 and palette entry 1 holding `0x1F`. -/
def affineGpu : Gpu :=
  { zeroGpu with
    bg := fun _ =>
      { zeroBg with
        screenWidth := 128
        affine := { enabled := true, pa := 0x100, pb := 0, pc := 0, pd := 0x100 } }
    palette := fun i => if i = 1 then 0x1F else 0
    charMem := fun _ _ => 1 }

/-! ## Background state manager (`src/bg.c`): state -/

/-- The value an argument of type `u8` has inside the callee. -/
def toU8 (x : Nat) : Nat := x % 256

/-- The value a bit-field of `w` bits holds after `v` is assigned to it. -/
def bitField (w v : Nat) : Nat := v % 2 ^ w

/-- `struct BgConfig`: each member holds its value as a number. -/
structure BgConfig where
  visible : Nat
  unknown_1 : Nat
  screenSize : Nat
  priority : Nat
  mosaic : Nat
  wraparound : Nat
  charBaseIndex : Nat
  mapBaseIndex : Nat
  paletteMode : Nat
  unknown_2 : Nat
  unknown_3 : Nat

/-- `struct BgConfig2`: `tilemap` is the pointer as an address, `NULL` being 0;
`bg_x` and `bg_y` are the `s32` scroll values. -/
structure BgConfig2 where
  baseTile : Nat
  basePalette : Nat
  unk_3 : Nat
  tilemap : Nat
  bg_x : Int
  bg_y : Int

/-- The state behind `SetGpuReg` and `GetGpuReg`, which are declared in
`gflib/gpu_regs.h` and defined outside the sources. -/
structure GpuRegs where
  cells : Nat → Nat

/-- The statics of `bg.c` (`sGpuBgConfigs.configs`, `sGpuBgConfigs.bgVisibilityAndMode`,
`sGpuBgConfigs2`, `sDmaBusyBitfield`), the global `gUnneededFireRedVariable`, and
the register state reached through `SetGpuReg`.  The arrays are indexed by any
number; the code guards its accesses to elements 0..3 except where noted. -/
structure BgState where
  configs : Nat → BgConfig
  bgVisibilityAndMode : Nat
  configs2 : Nat → BgConfig2
  sDmaBusyBitfield : Nat → Nat
  gUnneededFireRedVariable : Nat
  regs : GpuRegs

/-- Constants and functions that `bg.c` takes from headers and files outside the
sources: the register offsets, `DISPCNT_BG_ALL_ON`, and the two register
accessors acting on the register state. -/
structure BgEnv where
  DISPCNT_BG_ALL_ON : Nat
  REG_OFFSET_DISPCNT : Nat
  REG_OFFSET_BG0HOFS : Nat
  REG_OFFSET_BG1HOFS : Nat
  REG_OFFSET_BG2HOFS : Nat
  REG_OFFSET_BG3HOFS : Nat
  REG_OFFSET_BG0VOFS : Nat
  REG_OFFSET_BG1VOFS : Nat
  REG_OFFSET_BG2VOFS : Nat
  REG_OFFSET_BG3VOFS : Nat
  REG_OFFSET_BG2X_L : Nat
  REG_OFFSET_BG2X_H : Nat
  REG_OFFSET_BG2Y_L : Nat
  REG_OFFSET_BG2Y_H : Nat
  REG_OFFSET_BG3X_L : Nat
  REG_OFFSET_BG3X_H : Nat
  REG_OFFSET_BG3Y_L : Nat
  REG_OFFSET_BG3Y_H : Nat
  SetGpuReg : Nat → Nat → GpuRegs → GpuRegs
  GetGpuReg : Nat → GpuRegs → Nat

/-- The attribute ids `BG_ATTR_*` accepted by `SetBgAttribute` and
`GetBgAttribute`.  The enumeration is declared in `include/bg.h`, outside the
sources; its ten enumerators are distinct values (they label the cases of one
`switch`), and `other` stands for every value of the `u8` argument that is none
of them. -/
inductive BgAttr where
  | charBaseIndex
  | mapBaseIndex
  | screenSize
  | paletteMode
  | priority
  | mosaic
  | wraparound
  | metric
  | type
  | baseTile
  | other
  deriving DecidableEq

/-- `DISPCNT_ALL_BG_AND_MODE_BITS`. -/
def DISPCNT_ALL_BG_AND_MODE_BITS (E : BgEnv) : Nat := E.DISPCNT_BG_ALL_ON ||| 0x7

/-- `sZeroedBgControlStruct`. -/
def sZeroedBgControlStruct : BgConfig :=
  { visible := 0, unknown_1 := 0, screenSize := 0, priority := 0, mosaic := 0, wraparound := 0
    charBaseIndex := 0, mapBaseIndex := 0, paletteMode := 0, unknown_2 := 0, unknown_3 := 0 }

/-- `IsInvalidBg(bg)`. -/
def IsInvalidBg (bg : Nat) : Bool := decide (toU8 bg > 3)

/-- `IsInvalidBg32(bg)`. -/
def IsInvalidBg32 (bg : Nat) : Bool := decide (toU8 bg > 3)

/-- `GetBgMode()`. -/
def GetBgMode (st : BgState) : Nat := toU8 (st.bgVisibilityAndMode &&& 0x7)

/-- `SetBgModeInternal(bgMode)`. -/
def SetBgModeInternal (st : BgState) (bgMode : Nat) : BgState :=
  { st with
    bgVisibilityAndMode := toU16 ((st.bgVisibilityAndMode &&& 0xFFF8) ||| toU8 bgMode) }

/-- The seven conditional stores of `SetBgControlAttributes` into one
configuration, followed by the three unconditional ones. -/
def setControlFields (c : BgConfig)
    (charBaseIndex mapBaseIndex screenSize paletteMode priority mosaic wraparound : Nat) :
    BgConfig :=
  { visible := bitField 1 1
    unknown_1 := c.unknown_1
    screenSize := if screenSize ≠ 0xFF then bitField 2 (screenSize &&& 0x3) else c.screenSize
    priority := if priority ≠ 0xFF then bitField 2 (priority &&& 0x3) else c.priority
    mosaic := if mosaic ≠ 0xFF then bitField 1 (mosaic &&& 0x1) else c.mosaic
    wraparound := if wraparound ≠ 0xFF then bitField 1 wraparound else c.wraparound
    charBaseIndex :=
      if charBaseIndex ≠ 0xFF then bitField 2 (charBaseIndex &&& 0x3) else c.charBaseIndex
    mapBaseIndex :=
      if mapBaseIndex ≠ 0xFF then bitField 5 (mapBaseIndex &&& 0x1F) else c.mapBaseIndex
    paletteMode := if paletteMode ≠ 0xFF then bitField 1 paletteMode else c.paletteMode
    unknown_2 := 0
    unknown_3 := 0 }

/-- `SetBgControlAttributes(bg, charBaseIndex, mapBaseIndex, screenSize,
paletteMode, priority, mosaic, wraparound)`. -/
def SetBgControlAttributes (st : BgState)
    (bg charBaseIndex mapBaseIndex screenSize paletteMode priority mosaic wraparound : Nat) :
    BgState :=
  if !IsInvalidBg bg then
    { st with
      configs := Function.update st.configs (toU8 bg)
        (setControlFields (st.configs (toU8 bg)) (toU8 charBaseIndex) (toU8 mapBaseIndex)
          (toU8 screenSize) (toU8 paletteMode) (toU8 priority) (toU8 mosaic) (toU8 wraparound)) }
  else st

/-- `GetBgControlAttribute(bg, attributeId)`, with the `BG_CTRL_ATTR_*` values 1..8
of the enumeration in `bg.c`. -/
def GetBgControlAttribute (st : BgState) (bg attributeId : Nat) : Nat :=
  if !IsInvalidBg bg && ((st.configs (toU8 bg)).visible != 0) then
    if toU8 attributeId = 1 then (st.configs (toU8 bg)).visible
    else if toU8 attributeId = 2 then (st.configs (toU8 bg)).charBaseIndex
    else if toU8 attributeId = 3 then (st.configs (toU8 bg)).mapBaseIndex
    else if toU8 attributeId = 4 then (st.configs (toU8 bg)).screenSize
    else if toU8 attributeId = 5 then (st.configs (toU8 bg)).paletteMode
    else if toU8 attributeId = 6 then (st.configs (toU8 bg)).priority
    else if toU8 attributeId = 7 then (st.configs (toU8 bg)).mosaic
    else if toU8 attributeId = 8 then (st.configs (toU8 bg)).wraparound
    else 0xFF
  else 0xFF

/-! ## Background state manager: queries and attribute access -/

/-- `GetBgType(bg)`. -/
def GetBgType (st : BgState) (bg : Nat) : Nat :=
  let mode := GetBgMode st
  if toU8 bg = 0 ∨ toU8 bg = 1 then
    (if mode = 0 ∨ mode = 1 then 0 else 0xFFFF)
  else if toU8 bg = 2 then
    (if mode = 0 then 0 else if mode = 1 ∨ mode = 2 then 1 else 0xFFFF)
  else if toU8 bg = 3 then
    (if mode = 0 then 0 else if mode = 2 then 1 else 0xFFFF)
  else 0xFFFF

/-- `GetBgMetricTextMode(bg, whichMetric)`. -/
def GetBgMetricTextMode (st : BgState) (bg whichMetric : Nat) : Nat :=
  let screenSize := toU8 (GetBgControlAttribute st bg 4)
  if toU8 whichMetric = 0 then
    (if screenSize = 0 then 1
     else if screenSize = 1 ∨ screenSize = 2 then 2
     else if screenSize = 3 then 4
     else 0)
  else if toU8 whichMetric = 1 then
    (if screenSize = 0 then 1
     else if screenSize = 1 then 2
     else if screenSize = 2 then 1
     else if screenSize = 3 then 2
     else 0)
  else if toU8 whichMetric = 2 then
    (if screenSize = 0 ∨ screenSize = 1 then 1
     else if screenSize = 2 ∨ screenSize = 3 then 2
     else 0)
  else 0

/-- `GetBgMetricAffineMode(bg, whichMetric)`. -/
def GetBgMetricAffineMode (st : BgState) (bg whichMetric : Nat) : Nat :=
  let screenSize := toU8 (GetBgControlAttribute st bg 4)
  if toU8 whichMetric = 0 then
    (if screenSize = 0 then 0x1
     else if screenSize = 1 then 0x4
     else if screenSize = 2 then 0x10
     else if screenSize = 3 then 0x40
     else 0)
  else if toU8 whichMetric = 1 ∨ toU8 whichMetric = 2 then
    (0x10 <<< screenSize) % 4294967296
  else 0

/-- `SetBgAttribute(bg, attributeId, value)`. -/
def SetBgAttribute (st : BgState) (bg : Nat) (attributeId : BgAttr) (value : Nat) : BgState :=
  match attributeId with
  | BgAttr.charBaseIndex => SetBgControlAttributes st bg value 0xFF 0xFF 0xFF 0xFF 0xFF 0xFF
  | BgAttr.mapBaseIndex => SetBgControlAttributes st bg 0xFF value 0xFF 0xFF 0xFF 0xFF 0xFF
  | BgAttr.screenSize => SetBgControlAttributes st bg 0xFF 0xFF value 0xFF 0xFF 0xFF 0xFF
  | BgAttr.paletteMode => SetBgControlAttributes st bg 0xFF 0xFF 0xFF value 0xFF 0xFF 0xFF
  | BgAttr.priority => SetBgControlAttributes st bg 0xFF 0xFF 0xFF 0xFF value 0xFF 0xFF
  | BgAttr.mosaic => SetBgControlAttributes st bg 0xFF 0xFF 0xFF 0xFF 0xFF value 0xFF
  | BgAttr.wraparound => SetBgControlAttributes st bg 0xFF 0xFF 0xFF 0xFF 0xFF 0xFF value
  | _ => st

/-- `GetBgAttribute(bg, attributeId)`: the `u16` returned.  For `BG_ATTR_BASETILE`
the code reads `sGpuBgConfigs2[bg]` without a check of `bg`. -/
def GetBgAttribute (st : BgState) (bg : Nat) (attributeId : BgAttr) : Nat :=
  match attributeId with
  | BgAttr.charBaseIndex => toU16 (GetBgControlAttribute st bg 2)
  | BgAttr.mapBaseIndex => toU16 (GetBgControlAttribute st bg 3)
  | BgAttr.screenSize => toU16 (GetBgControlAttribute st bg 4)
  | BgAttr.paletteMode => toU16 (GetBgControlAttribute st bg 5)
  | BgAttr.priority => toU16 (GetBgControlAttribute st bg 6)
  | BgAttr.mosaic => toU16 (GetBgControlAttribute st bg 7)
  | BgAttr.wraparound => toU16 (GetBgControlAttribute st bg 8)
  | BgAttr.metric =>
    if GetBgType st bg = 0 then toU16 (GetBgMetricTextMode st bg 0 * 0x800)
    else if GetBgType st bg = 1 then toU16 (GetBgMetricAffineMode st bg 0 * 0x100)
    else 0
  | BgAttr.type => toU16 (GetBgType st bg)
  | BgAttr.baseTile => toU16 (st.configs2 (toU8 bg)).baseTile
  | BgAttr.other => 0xFFFF

/-! ## Background state manager: scroll values -/

/-- The `u16` value assigned from the `s32` expression `v`. -/
def s32ToU16 (v : Int) : Nat := toU16 (toU32 v)

/-- The `switch (op)` of `ChangeBgX` and `ChangeBgY` on a stored scroll value. -/
def applyScrollOp (old value : Int) (op : Nat) : Int :=
  if toU8 op = 1 then toS32 (old + toS32 value)
  else if toU8 op = 2 then toS32 (old - toS32 value)
  else toS32 value

/-- The `switch (bg)` of `ChangeBgX` and `ChangeBgY`: the register writes for the
scroll value `v` of plane `bg` in display mode `mode`, with `ofs` the offset
registers of planes 0..3 and `hi`, `lo` the affine register pairs of planes 2, 3. -/
def writeScrollRegs (E : BgEnv) (bg mode : Nat) (v : Int) (ofs : Nat → Nat) (hi lo : Nat → Nat)
    (regs : GpuRegs) : GpuRegs :=
  if bg = 0 then E.SetGpuReg (ofs 0) (s32ToU16 (v >>> 8)) regs
  else if bg = 1 then E.SetGpuReg (ofs 1) (s32ToU16 (v >>> 8)) regs
  else if bg = 2 then
    (if mode = 0 then E.SetGpuReg (ofs 2) (s32ToU16 (v >>> 8)) regs
     else
      E.SetGpuReg (lo 2) (toU16 (toU32 v &&& 0xFFFF))
        (E.SetGpuReg (hi 2) (s32ToU16 (v >>> 16)) regs))
  else if bg = 3 then
    (if mode = 0 then E.SetGpuReg (ofs 3) (s32ToU16 (v >>> 8)) regs
     else if mode = 2 then
      E.SetGpuReg (lo 3) (toU16 (toU32 v &&& 0xFFFF))
        (E.SetGpuReg (hi 3) (s32ToU16 (v >>> 16)) regs)
     else regs)
  else regs

/-- The offset registers `REG_OFFSET_BGnHOFS`. -/
def hofs (E : BgEnv) (n : Nat) : Nat :=
  if n = 0 then E.REG_OFFSET_BG0HOFS else if n = 1 then E.REG_OFFSET_BG1HOFS
  else if n = 2 then E.REG_OFFSET_BG2HOFS else E.REG_OFFSET_BG3HOFS

/-- The offset registers `REG_OFFSET_BGnVOFS`. -/
def vofs (E : BgEnv) (n : Nat) : Nat :=
  if n = 0 then E.REG_OFFSET_BG0VOFS else if n = 1 then E.REG_OFFSET_BG1VOFS
  else if n = 2 then E.REG_OFFSET_BG2VOFS else E.REG_OFFSET_BG3VOFS

/-- `ChangeBgX(bg, value, op)`: the `s32` returned and the state left. -/
def ChangeBgX (E : BgEnv) (st : BgState) (bg : Nat) (value : Int) (op : Nat) : Int × BgState :=
  if IsInvalidBg32 bg || (GetBgControlAttribute st bg 1 == 0) then (-1, st)
  else
    let x := applyScrollOp (st.configs2 (toU8 bg)).bg_x value op
    let st1 : BgState :=
      { st with
        configs2 := Function.update st.configs2 (toU8 bg)
          { st.configs2 (toU8 bg) with bg_x := x } }
    (x, { st1 with
          regs := writeScrollRegs E (toU8 bg) (GetBgMode st1) x (hofs E)
            (fun n => if n = 2 then E.REG_OFFSET_BG2X_H else E.REG_OFFSET_BG3X_H)
            (fun n => if n = 2 then E.REG_OFFSET_BG2X_L else E.REG_OFFSET_BG3X_L) st1.regs })

/-- `GetBgX(bg)`. -/
def GetBgX (st : BgState) (bg : Nat) : Int :=
  if IsInvalidBg32 bg then -1
  else if GetBgControlAttribute st bg 1 == 0 then -1
  else (st.configs2 (toU8 bg)).bg_x

/-- `ChangeBgY(bg, value, op)`: the `s32` returned and the state left. -/
def ChangeBgY (E : BgEnv) (st : BgState) (bg : Nat) (value : Int) (op : Nat) : Int × BgState :=
  if IsInvalidBg32 bg || (GetBgControlAttribute st bg 1 == 0) then (-1, st)
  else
    let y := applyScrollOp (st.configs2 (toU8 bg)).bg_y value op
    let st1 : BgState :=
      { st with
        configs2 := Function.update st.configs2 (toU8 bg)
          { st.configs2 (toU8 bg) with bg_y := y } }
    (y, { st1 with
          regs := writeScrollRegs E (toU8 bg) (GetBgMode st1) y (vofs E)
            (fun n => if n = 2 then E.REG_OFFSET_BG2Y_H else E.REG_OFFSET_BG3Y_H)
            (fun n => if n = 2 then E.REG_OFFSET_BG2Y_L else E.REG_OFFSET_BG3Y_L) st1.regs })

/-- `GetBgY(bg)`. -/
def GetBgY (st : BgState) (bg : Nat) : Int :=
  if IsInvalidBg32 bg then -1
  else if GetBgControlAttribute st bg 1 == 0 then -1
  else (st.configs2 (toU8 bg)).bg_y

/-! ## Background state manager: tilemap buffer, visibility, map index -/

/-- `SetBgTilemapBuffer(bg, tilemap)`. -/
def SetBgTilemapBuffer (st : BgState) (bg tilemap : Nat) : BgState :=
  if !IsInvalidBg32 bg && (GetBgControlAttribute st bg 1 != 0) then
    { st with
      configs2 := Function.update st.configs2 (toU8 bg)
        { st.configs2 (toU8 bg) with tilemap := tilemap } }
  else st

/-- `UnsetBgTilemapBuffer(bg)`. -/
def UnsetBgTilemapBuffer (st : BgState) (bg : Nat) : BgState :=
  if !IsInvalidBg32 bg && (GetBgControlAttribute st bg 1 != 0) then
    { st with
      configs2 := Function.update st.configs2 (toU8 bg)
        { st.configs2 (toU8 bg) with tilemap := 0 } }
  else st

/-- `GetBgTilemapBuffer(bg)`: the pointer returned, `NULL` being 0. -/
def GetBgTilemapBuffer (st : BgState) (bg : Nat) : Nat :=
  if IsInvalidBg32 bg then 0
  else if GetBgControlAttribute st bg 1 == 0 then 0
  else (st.configs2 (toU8 bg)).tilemap

/-- The control word `ShowBgInternal` assembles from a configuration. -/
def bgControlWord (c : BgConfig) : Nat :=
  toU16 (c.priority ||| (c.charBaseIndex <<< 2) ||| (c.mosaic <<< 6) ||| (c.paletteMode <<< 7)
    ||| (c.mapBaseIndex <<< 8) ||| (c.wraparound <<< 13) ||| (c.screenSize <<< 14))

/-- `ShowBgInternal(bg)`. -/
def ShowBgInternal (E : BgEnv) (st : BgState) (bg : Nat) : BgState :=
  if !IsInvalidBg bg && ((st.configs (toU8 bg)).visible != 0) then
    { st with
      regs := E.SetGpuReg (toU16 ((toU8 bg <<< 1) + 0x8)) (bgControlWord (st.configs (toU8 bg)))
        st.regs
      bgVisibilityAndMode :=
        toU16 (toU16 (st.bgVisibilityAndMode ||| (1 <<< (toU8 bg + 8)))
          &&& DISPCNT_ALL_BG_AND_MODE_BITS E) }
  else st

/-- `HideBgInternal(bg)`. -/
def HideBgInternal (E : BgEnv) (st : BgState) (bg : Nat) : BgState :=
  if !IsInvalidBg bg then
    { st with
      bgVisibilityAndMode :=
        toU16 (toU16 (st.bgVisibilityAndMode
            ^^^ (st.bgVisibilityAndMode &&& (1 <<< (toU8 bg + 8))))
          &&& DISPCNT_ALL_BG_AND_MODE_BITS E) }
  else st

/-- `SyncBgVisibilityAndMode()`: the bits of `DISPCNT_ALL_BG_AND_MODE_BITS` that
are set in the register are flipped to zero, then the word is or-ed in. -/
def SyncBgVisibilityAndMode (E : BgEnv) (st : BgState) : BgState :=
  { st with
    regs := E.SetGpuReg E.REG_OFFSET_DISPCNT
      (toU16 ((E.GetGpuReg E.REG_OFFSET_DISPCNT st.regs
          ^^^ (E.GetGpuReg E.REG_OFFSET_DISPCNT st.regs &&& DISPCNT_ALL_BG_AND_MODE_BITS E))
        ||| st.bgVisibilityAndMode))
      st.regs }

/-- `ShowBg(bg)`. -/
def ShowBg (E : BgEnv) (st : BgState) (bg : Nat) : BgState :=
  SyncBgVisibilityAndMode E (ShowBgInternal E st bg)

/-- `HideBg(bg)`. -/
def HideBg (E : BgEnv) (st : BgState) (bg : Nat) : BgState :=
  SyncBgVisibilityAndMode E (HideBgInternal E st bg)

/-- `GetTileMapIndexFromCoords(x, y, screenSize, screenWidth, screenHeight)`: the
`u32` returned.  The `case 3` of the `switch` falls through into `case 1`. -/
def GetTileMapIndexFromCoords (x y screenSize : Int) (screenWidth screenHeight : Nat) : Nat :=
  let x1 : Int := toS32 ((toU32 x &&& toU32 ((screenWidth : Int) - 1) : Nat) : Int)
  let y1 : Int := toS32 ((toU32 y &&& toU32 ((screenHeight : Int) - 1) : Nat) : Int)
  let y2 : Int := if toS32 screenSize = 3 ∧ y1 ≥ 0x20 then toS32 (y1 + 0x20) else y1
  let wide : Bool := decide ((toS32 screenSize = 3 ∨ toS32 screenSize = 1) ∧ x1 ≥ 0x20)
  let x3 : Int := if wide then toS32 (x1 - 0x20) else x1
  let y3 : Int := if wide then toS32 (y2 + 0x20) else y2
  toU32 (toS32 (toS32 (y3 * 0x20) + x3))

/-! ## Background state manager: states used to instantiate the theorems -/

/-- A configuration-manager state with every member zero: every plane hidden,
mode 0, no tilemap buffer. -/
def zeroBgState : BgState :=
  { configs := fun _ => sZeroedBgControlStruct
    bgVisibilityAndMode := 0
    configs2 := fun _ =>
      { baseTile := 0, basePalette := 0, unk_3 := 0, tilemap := 0, bg_x := 0, bg_y := 0 }
    sDmaBusyBitfield := fun _ => 0
    gUnneededFireRedVariable := 0
    regs := { cells := fun _ => 0 } }

/-- The GBA register offsets, with the register accessors taken as plain stores
into and loads from the register cells. -/
def gbaBgEnv : BgEnv :=
  { DISPCNT_BG_ALL_ON := 0x0F00
    REG_OFFSET_DISPCNT := 0x0
    REG_OFFSET_BG0HOFS := 0x10
    REG_OFFSET_BG1HOFS := 0x14
    REG_OFFSET_BG2HOFS := 0x18
    REG_OFFSET_BG3HOFS := 0x1C
    REG_OFFSET_BG0VOFS := 0x12
    REG_OFFSET_BG1VOFS := 0x16
    REG_OFFSET_BG2VOFS := 0x1A
    REG_OFFSET_BG3VOFS := 0x1E
    REG_OFFSET_BG2X_L := 0x28
    REG_OFFSET_BG2X_H := 0x2A
    REG_OFFSET_BG2Y_L := 0x2C
    REG_OFFSET_BG2Y_H := 0x2E
    REG_OFFSET_BG3X_L := 0x38
    REG_OFFSET_BG3X_H := 0x3A
    REG_OFFSET_BG3Y_L := 0x3C
    REG_OFFSET_BG3Y_H := 0x3E
    SetGpuReg := fun off v r => { cells := Function.update r.cells off v }
    GetGpuReg := fun off r => r.cells off }

/-- The state `zeroBgState` after plane 1 has been configured with every
parameter left unchanged: plane 1 is visible, all else is zero. -/
def shownBgState : BgState :=
  SetBgControlAttributes zeroBgState 1 0xFF 0xFF 0xFF 0xFF 0xFF 0xFF 0xFF

/-! ## The attribute rules in the words of the specification -/

/-- The seven attributes kept in a plane's configuration: char-base, map-base,
screen-size, palette-mode, priority, mosaic and wraparound. -/
def BgAttr.isControl : BgAttr → Bool
  | BgAttr.charBaseIndex => true
  | BgAttr.mapBaseIndex => true
  | BgAttr.screenSize => true
  | BgAttr.paletteMode => true
  | BgAttr.priority => true
  | BgAttr.mosaic => true
  | BgAttr.wraparound => true
  | _ => false

/-- The width mask of a configuration attribute: 2 bits for char-base,
screen-size and priority, 5 bits for map-base, 1 bit for mosaic, palette-mode
and wraparound. -/
def BgAttr.mask : BgAttr → Nat
  | BgAttr.charBaseIndex => 0x3
  | BgAttr.mapBaseIndex => 0x1F
  | BgAttr.screenSize => 0x3
  | BgAttr.priority => 0x3
  | BgAttr.mosaic => 0x1
  | BgAttr.paletteMode => 0x1
  | BgAttr.wraparound => 0x1
  | _ => 0

/-- The plane `bg` is hidden: the visible flag of its configuration is clear. -/
def BgHidden (st : BgState) (bg : Nat) : Prop := (st.configs (toU8 bg)).visible = 0

/-! ## The text-mode map index in the words of the specification -/

/-- The map size in tiles `(W, H)` of the screen-size class `s`: 32 x 32, 64 x 32,
32 x 64 and 64 x 64 for `s` = 0, 1, 2, 3. -/
def mapSizeInTiles (s : Nat) : Nat × Nat :=
  if s = 0 then (32, 32) else if s = 1 then (64, 32) else if s = 2 then (32, 64) else (64, 64)

/-- The screen block of the tile `(x, y)` of a map of class `s`: 0 for `s = 0`,
`x / 32` for `s = 1`, `y / 32` for `s = 2` and `2 * (y / 32) + x / 32` for `s = 3`. -/
def screenBlock (s x y : Nat) : Nat :=
  if s = 0 then 0 else if s = 1 then x / 32 else if s = 2 then y / 32
  else 2 * (y / 32) + x / 32

/-! ## Background state manager: reset -/

/-- `ResetBgControlStructs()`. -/
def ResetBgControlStructs (st : BgState) : BgState :=
  (List.range 4).foldl
    (fun s i => { s with configs := Function.update s.configs i sZeroedBgControlStruct }) st

/-- `SetTextModeAndHideBgs()`: the bits of `DISPCNT_ALL_BG_AND_MODE_BITS` that are
set in the register are flipped to zero. -/
def SetTextModeAndHideBgs (E : BgEnv) (st : BgState) : BgState :=
  { st with
    regs := E.SetGpuReg E.REG_OFFSET_DISPCNT
      (toU16 (E.GetGpuReg E.REG_OFFSET_DISPCNT st.regs
        ^^^ (E.GetGpuReg E.REG_OFFSET_DISPCNT st.regs &&& DISPCNT_ALL_BG_AND_MODE_BITS E)))
      st.regs }

/-- `ResetBgs()`. -/
def ResetBgs (E : BgEnv) (st : BgState) : BgState :=
  SetTextModeAndHideBgs E { ResetBgControlStructs st with bgVisibilityAndMode := 0 }

/-- `SetBgMode(bgMode)`. -/
def SetBgMode (st : BgState) (bgMode : Nat) : BgState := SetBgModeInternal st bgMode

/-- Modelled from the spec: the register accessors `SetGpuReg` and `GetGpuReg`
(defined in `gflib/gpu_regs.c`, outside the sources) act on "hardware-mirrored"
registers: a read returns the 16-bit value last written at that offset, and a
write at one offset leaves the value read at every other offset as it was. -/
structure RegisterStore (E : BgEnv) : Prop where
  read_written : ∀ off v r, v < 65536 → E.GetGpuReg off (E.SetGpuReg off v r) = v
  read_other : ∀ off other v r, other ≠ off →
    E.GetGpuReg other (E.SetGpuReg off v r) = E.GetGpuReg other r

/-- The state `shownBgState` after `SetBgMode(0x10)`: plane 1 is visible and bit 4
of the mode/visibility word is set. -/
def strayModeBgState : BgState := SetBgMode shownBgState 0x10

/-! ## The scroll registers in the words of the specification -/

/-- The high half of the affine X reference register pair of plane 2 or 3. -/
def affineXHigh (E : BgEnv) (bg : Nat) : Nat :=
  if bg = 2 then E.REG_OFFSET_BG2X_H else E.REG_OFFSET_BG3X_H

/-- The low half of the affine X reference register pair of plane 2 or 3. -/
def affineXLow (E : BgEnv) (bg : Nat) : Nat :=
  if bg = 2 then E.REG_OFFSET_BG2X_L else E.REG_OFFSET_BG3X_L

/-- The high half of the affine Y reference register pair of plane 2 or 3. -/
def affineYHigh (E : BgEnv) (bg : Nat) : Nat :=
  if bg = 2 then E.REG_OFFSET_BG2Y_H else E.REG_OFFSET_BG3Y_H

/-- The low half of the affine Y reference register pair of plane 2 or 3. -/
def affineYLow (E : BgEnv) (bg : Nat) : Nat :=
  if bg = 2 then E.REG_OFFSET_BG2Y_L else E.REG_OFFSET_BG3Y_L

/-- The register state after the single write of a text-type plane: the offset
register `ofs` receives bits 8..23 of the scroll value `v`. -/
def textScrollWrite (E : BgEnv) (ofs : Nat) (v : Int) (regs : GpuRegs) : GpuRegs :=
  E.SetGpuReg ofs ((toU32 v >>> 8) % 65536) regs

/-- The register state after the two writes of an affine-type plane: the register
`high` receives bits 16..31 of the scroll value `v`, then the register `low`
its bits 0..15. -/
def affineScrollWrite (E : BgEnv) (high low : Nat) (v : Int) (regs : GpuRegs) : GpuRegs :=
  E.SetGpuReg low (toU32 v % 65536) (E.SetGpuReg high (toU32 v >>> 16) regs)

/-! ## The mode/visibility word in the words of the specification -/

/-- Bit `k` is one of the mode bits 0..2 or one of the plane-enable bits 8..11. -/
def IsModeOrPlaneBit (k : Nat) : Prop := k < 3 ∨ (8 ≤ k ∧ k < 12)

instance isModeOrPlaneBitDecidable (k : Nat) : Decidable (IsModeOrPlaneBit k) := by
  unfold IsModeOrPlaneBit
  infer_instance

/-! ## Background state manager: transfers to video memory -/

/-- The value an `s8` variable holds after the integer `x` is assigned to it. -/
def toS8 (x : Int) : Int := (x + 128) % 256 - 128

/-- Constants and functions that the transfer paths of `bg.c` take from headers
and files outside the sources.  `RequestDma3Copy src dest size mode` and
`CheckForSpaceForDma3Request index` stand for the value the call returns. -/
structure DmaEnv where
  DISPCNT_MODE_1 : Nat
  DISPCNT_MODE_2 : Nat
  BG_CHAR_SIZE : Nat
  BG_SCREEN_SIZE : Nat
  BG_VRAM : Nat
  RequestDma3Copy : Nat → Nat → Nat → Nat → Int
  CheckForSpaceForDma3Request : Int → Int

/-- The value `offset` of `LoadBgVram` after `offset = destOffset + offset`, for
the two modes that reach that statement. -/
def loadVramOffset (D : DmaEnv) (st : BgState) (bg destOffset mode : Nat) : Nat :=
  toU16 (toU16 destOffset
    + (if toU8 mode = 1 then toU16 ((st.configs (toU8 bg)).charBaseIndex * D.BG_CHAR_SIZE)
       else toU16 ((st.configs (toU8 bg)).mapBaseIndex * D.BG_SCREEN_SIZE)))

/-- The value returned by the call of `RequestDma3Copy` in `LoadBgVram`. -/
def loadVramRequest (D : DmaEnv) (st : BgState) (bg src size destOffset mode : Nat) : Int :=
  D.RequestDma3Copy src (loadVramOffset D st bg destOffset mode + D.BG_VRAM) (toU16 size) 0

/-- `LoadBgVram(bg, src, size, destOffset, mode)`: the `u8` returned. -/
def LoadBgVram (D : DmaEnv) (st : BgState) (bg src size destOffset mode : Nat) : Nat :=
  if !IsInvalidBg bg && ((st.configs (toU8 bg)).visible != 0) then
    if toU8 mode = 1 ∨ toU8 mode = 2 then
      (if toS8 (loadVramRequest D st bg src size destOffset mode) = -1 then toU32 (-1) % 256
       else toU32 (toS8 (loadVramRequest D st bg src size destOffset mode)) % 256)
    else toU32 (-1) % 256
  else toU32 (-1) % 256

/-- The statement `sDmaBusyBitfield[cursor / 0x20] |= (1 << (cursor % 0x20))`. -/
def markDmaBusy (st : BgState) (cursor : Nat) : BgState :=
  { st with
    sDmaBusyBitfield := Function.update st.sDmaBusyBitfield (cursor / 0x20)
      ((st.sDmaBusyBitfield (cursor / 0x20) ||| (1 <<< (cursor % 0x20))) % 4294967296) }

/-- The value `tileOffset` of `LoadBgTiles`.  The code reads `sGpuBgConfigs2[bg]`
without a check of `bg`. -/
def loadTilesOffset (st : BgState) (bg destOffset : Nat) : Nat :=
  if GetBgControlAttribute st bg 5 = 0 then
    toU16 (((st.configs2 (toU8 bg)).baseTile + toU16 destOffset) * 0x20)
  else
    toU16 (((st.configs2 (toU8 bg)).baseTile + toU16 destOffset) * 0x40)

/-- `LoadBgTiles(bg, src, size, destOffset)`: the `u16` returned and the state
left.  The call of `DummiedOutFireRedLeafGreenTileAllocFunc` has no effect. -/
def LoadBgTiles (D : DmaEnv) (st : BgState) (bg src size destOffset : Nat) : Nat × BgState :=
  let cursor := LoadBgVram D st bg src size (loadTilesOffset st bg destOffset) D.DISPCNT_MODE_1
  if cursor = 0xFF then (toU32 (-1) % 65536, st)
  else (cursor, markDmaBusy st cursor)

/-- `LoadBgTilemap(bg, src, size, destOffset)`: the `u16` returned and the state left. -/
def LoadBgTilemap (D : DmaEnv) (st : BgState) (bg src size destOffset : Nat) : Nat × BgState :=
  let cursor := LoadBgVram D st bg src size (toU16 destOffset * 2) D.DISPCNT_MODE_2
  if cursor = 0xFF then (toU32 (-1) % 65536, st)
  else (cursor, markDmaBusy st cursor)

/-- The loop of `IsDma3ManagerBusyWithBgCopy` over the slots still to visit, on
the array `sDmaBusyBitfield`: the value returned and the array left. -/
def busyScan (D : DmaEnv) : List Nat → (Nat → Nat) → Bool × (Nat → Nat)
  | [], bitfield => (false, bitfield)
  | i :: rest, bitfield =>
    let div := toU8 (i / 0x20)
    let mod := toU8 (i % 0x20)
    if bitfield div &&& (1 <<< mod) ≠ 0 then
      (if toS8 (D.CheckForSpaceForDma3Request (i : Int)) = -1 then (true, bitfield)
       else
        busyScan D rest
          (Function.update bitfield div
            ((bitfield div ^^^ (bitfield div &&& (1 <<< mod))) % 4294967296)))
    else busyScan D rest bitfield

/-- `IsDma3ManagerBusyWithBgCopy()`: the value returned and the state left. -/
def IsDma3ManagerBusyWithBgCopy (D : DmaEnv) (st : BgState) : Bool × BgState :=
  ((busyScan D (List.range 0x80) st.sDmaBusyBitfield).1,
   { st with sDmaBusyBitfield := (busyScan D (List.range 0x80) st.sDmaBusyBitfield).2 })

/-! ## The transfer tracker in the words of the specification -/

/-- Bit `i` of the 128-bit busy tracker: bit `i mod 32` of word `i / 32`. -/
def trackerBit (bitfield : Nat → Nat) (i : Nat) : Bool :=
  (bitfield (i / 32)).testBit (i % 32)

/-- Slot `i` is pending in the tracker `bitfield` and the transfer subsystem's
check for it returns -1. -/
def SlotBusy (D : DmaEnv) (bitfield : Nat → Nat) (i : Nat) : Prop :=
  trackerBit bitfield i = true ∧ toS8 (D.CheckForSpaceForDma3Request (i : Int)) = -1

/-- A transfer environment with the GBA constants in which every request is
given slot 5 and the check reports no room for the slots 5 and above. -/
def slotFiveDmaEnv : DmaEnv :=
  { DISPCNT_MODE_1 := 1
    DISPCNT_MODE_2 := 2
    BG_CHAR_SIZE := 0x4000
    BG_SCREEN_SIZE := 0x800
    BG_VRAM := 0x6000000
    RequestDma3Copy := fun _ _ _ _ => 5
    CheckForSpaceForDma3Request := fun i => if i < 5 then 0 else -1 }

/-! ## Object-window sprites, in the words of the specification -/

/-- The column `local_x` of a sprite lands on the display column `col`, inside the
scanline and inside the texture, and fetches a colour index other than 0: the
conditions under which the column loop of `DrawSprites` reaches `if (isObjWin)`. -/
def spriteColumnFetches (K : Consts) (H : Host) (gpu : Gpu) (oam : OamData) (width height : Nat)
    (m : SpriteMatrix) (x local_y : Int) (col : Nat) (local_x : Int) : Prop :=
  toU32 (local_x + x) = col
    ∧ ¬ (col < toU32 (GetScanlinePos K H gpu).1 ∨ col ≥ toU32 (GetScanlinePos K H gpu).2)
    ∧ ¬ (toU32 (spriteTexCoords width height m
            (spriteSourceX gpu oam x local_x col) local_y).1 ≥ width
          ∨ toU32 (spriteTexCoords width height m
            (spriteSourceX gpu oam x local_x col) local_y).2 ≥ height
          ∨ (spriteTexCoords width height m (spriteSourceX gpu oam x local_x col) local_y).1 < 0
          ∨ (spriteTexCoords width height m (spriteSourceX gpu oam x local_x col) local_y).2 < 0)
    ∧ spriteColumnIndex gpu oam width height m x local_y local_x ≠ 0

instance spriteColumnFetchesDecidable (K : Consts) (H : Host) (gpu : Gpu) (oam : OamData)
    (width height : Nat) (m : SpriteMatrix) (x local_y : Int) (col : Nat) (local_x : Int) :
    Decidable (spriteColumnFetches K H gpu oam width height m x local_y col local_x) := by
  unfold spriteColumnFetches
  infer_instance

/-- The object-window sprite `oam`, met by the sprite loop with the matrix
`previous` left by the earlier iterations, produces a non-transparent pixel at the
display column `col` of the scanline `vcount`. -/
def ObjWindowCovers (K : Consts) (H : Host) (gpu : Gpu) (vcount : Nat) (previous : SpriteMatrix)
    (oam : OamData) (col : Nat) : Prop :=
  oam.objMode = 2
    ∧ ¬ ((!(oam.affineMode &&& 1 != 0) && ((oam.affineMode >>> 1) &&& 1 != 0)) = true)
    ∧ ∃ width height, spriteDims oam = some (width, height)
      ∧ spriteOnLine K H gpu oam (toU16 vcount)
      ∧ ∃ local_x, local_x ∈ localXRange (spriteHalf oam width height).1
        ∧ spriteColumnFetches K H gpu oam width height (spriteMatrixFor K gpu oam previous)
            (spriteCentre K H gpu oam width height).1
            (spriteLocalY gpu oam ((toU16 vcount : Nat) : Int)
              (spriteCentre K H gpu oam width height).2) col local_x

/-- The object-window mask: the value `(gpu.window.out >> 8) & 0x3F` as stored in
a cell of `winMask`. -/
def objWindowMask (gpu : Gpu) : Nat := toU16 ((gpu.windowOut >>> 8) &&& 0x3F)

/-- A register file whose sprite table holds 8 x 8 object-window sprites at the
origin, every texel of colour index 1, with `0x3F` in the upper byte of the
outside-window register. -/
def objWindowGpu : Gpu :=
  { zeroGpu with
    spriteList := fun _ => { zeroOam with objMode := 2 }
    windowOut := 0x3F00
    spriteGfxData := fun _ => 0x11 }

/-- A working set in which every cell of the window mask holds `0x60`: both the
CLR bit and the WINOUT bit are set. -/
def outsideScanline : ScanlineData :=
  { emptyScanline with winMask := fun _ => 0x60 }

/-! ## The texel a plain sprite shows, in the words of the specification -/

/-- The left column of a sprite on screen: the column of its centre less half its
footprint width. -/
def spriteLeft (K : Consts) (H : Host) (gpu : Gpu) (oam : OamData) : Int :=
  match spriteDims oam with
  | none => 0
  | some (width, height) =>
    (spriteCentre K H gpu oam width height).1 - (spriteHalf oam width height).1

/-- The horizontal flip flag of a non-affine sprite: bit 3 of `matrixNum`. -/
def spriteFlipX (oam : OamData) : Bool := (oam.matrixNum >>> 3) &&& 1 != 0

/-- The vertical flip flag of a non-affine sprite: bit 4 of `matrixNum`. -/
def spriteFlipY (oam : OamData) : Bool := (oam.matrixNum >>> 4) &&& 1 != 0

/-- The colour index of the texel `(tx, ty)` of a sprite of width `width`: the
tile addressing and the 4bpp nibble selection of `DrawSprites`, with no flip. -/
def spriteTexel (gpu : Gpu) (oam : OamData) (width : Nat) (tx ty : Nat) : Nat :=
  let block_offset :=
    ((ty / 8) * (if gpu.displayControl &&& 0x40 != 0 then width / 8 else 16)) + tx / 8
  if oam.bpp &&& 1 != 0 then
    byteRead gpu.spriteGfxData ((block_offset * 2 + oam.tileNum) * 32 + ((ty % 8) * 8) + tx % 8)
  else
    let raw :=
      byteRead gpu.spriteGfxData
        ((block_offset + oam.tileNum) * 32 + ((ty % 8) * 4) + ((tx % 8) / 2))
    if (tx % 8) &&& 1 != 0 then raw >>> 4 else raw &&& 0xF

/-- The texel a non-affine sprite of footprint `width x height` shows `k` columns
right of its left edge and `r` lines below its top edge: texel `(k, r)`, with `k`
replaced by `width - 1 - k` under the horizontal flip and `r` by
`height - 1 - r` under the vertical flip. -/
def spriteShownTexel (gpu : Gpu) (oam : OamData) (width height k r : Nat) : Nat :=
  spriteTexel gpu oam width
    (if spriteFlipX oam then width - 1 - k else k)
    (if spriteFlipY oam then height - 1 - r else r)

/-! ## LZ77 decompression -/

/-- `CPUReadMemory(src)` at the byte offset `off` of the stream: the 32-bit word
stored there (little-endian host). -/
def CPUReadMemory (mem : Nat → Nat) (off : Nat) : Nat :=
  byteRead mem off + 256 * byteRead mem (off + 1) + 65536 * byteRead mem (off + 2)
    + 16777216 * byteRead mem (off + 3)

/-- A byte of the memory around the destination buffer, at a signed offset from
the start of the buffer. -/
def destRead (mem : Int → Nat) (off : Int) : Nat := mem off % 256

/-- The state of an LZ77 decoder: the read position in the stream, the write
position in the destination, the memory around the destination buffer, and the
record of the destination offsets read and written so far, in order. -/
structure LzState where
  srcPos : Nat
  destPos : Nat
  dest : Int → Nat
  reads : List Int
  writes : List Int

/-- How a run of a decoder ended: by `return`, through the label `fail`, or
with the loop budget of the model used up. -/
inductive LzOutcome where
  | returned
  | failed
  | exhausted
  deriving DecidableEq

/-- Copy of the destination byte at offset `pos` to the write position, which
advances: `dest[destPos++] = dest[pos]`. -/
def lzCopyByte (s : LzState) (pos : Int) : LzState :=
  { s with
    destPos := s.destPos + 1
    dest := Function.update s.dest (s.destPos : Int) (destRead s.dest pos)
    reads := s.reads ++ [pos]
    writes := s.writes ++ [(s.destPos : Int)] }

/-- Copy of the next stream byte to the write position; both positions advance:
`dest[destPos++] = src[srcPos++]`. -/
def lzLiteral (src : Nat → Nat) (s : LzState) : LzState :=
  { s with
    srcPos := s.srcPos + 1
    destPos := s.destPos + 1
    dest := Function.update s.dest (s.destPos : Int) (byteRead src s.srcPos)
    writes := s.writes ++ [(s.destPos : Int)] }

/-- The initial state of both decoders: the stream position after the header. -/
def lzStart (dest : Int → Nat) : LzState :=
  { srcPos := 4, destPos := 0, dest := dest, reads := [], writes := [] }

/-- The value `destSize` of `LZ77UnCompVram`. -/
def vramDestSize (src : Nat → Nat) : Nat :=
  (byteRead src 3 <<< 16) ||| (byteRead src 2 <<< 8) ||| byteRead src 1

/-- The loop `for (int j = 0; j < blockSize; j++) dest[destPos++] = dest[blockPos + j];`. -/
def vramCopy (blockPos : Int) (blockSize : Nat) (s : LzState) : LzState :=
  (List.range blockSize).foldl (fun (st : LzState) (j : Nat) => lzCopyByte st (blockPos + (j : Int))) s

/-- The test `if (destPos == destSize) return;` that ends a block of
`LZ77UnCompVram`. -/
def vramAfter (destSize : Nat) (s : LzState) : LzState × Option LzOutcome :=
  (s, if s.destPos = destSize then some LzOutcome.returned else none)

/-- The value of `blockSize` after
`if (destPos + blockSize > destSize) blockSize = destSize - destPos;`. -/
def vramClamp (destPos destSize : Nat) (blockSize : Int) : Int :=
  if (destPos : Int) + blockSize > (destSize : Int) then (destSize : Int) - (destPos : Int)
  else blockSize

/-- One iteration of the inner loop of `LZ77UnCompVram`, up to `flags <<= 1`:
the state left, and how the function ended if it ended in this block. -/
def vramBlock (src : Nat → Nat) (destSize : Nat) (flags : Nat) (s : LzState) :
    LzState × Option LzOutcome :=
  if flags &&& 0x80 ≠ 0 then
    let blockSize : Int := ((byteRead src s.srcPos >>> 4 : Nat) : Int) + 3
    let blockDistance : Int :=
      ((((byteRead src s.srcPos &&& 0xF) <<< 8) ||| byteRead src (s.srcPos + 1) : Nat) : Int) + 1
    let blockPos : Int := (s.destPos : Int) - blockDistance
    let blockSize2 : Int := vramClamp s.destPos destSize blockSize
    if blockPos < 0 then ({ s with srcPos := s.srcPos + 2 }, some LzOutcome.failed)
    else vramAfter destSize (vramCopy blockPos blockSize2.toNat { s with srcPos := s.srcPos + 2 })
  else if s.destPos ≥ destSize then (s, some LzOutcome.failed)
  else vramAfter destSize (lzLiteral src s)

/-- The inner loop `for (int i = 0; i < 8; i++)` of `LZ77UnCompVram` with `k`
iterations left. -/
def vramBlocks (src : Nat → Nat) (destSize : Nat) : Nat → Nat → LzState → LzState × Option LzOutcome
  | 0, _, s => (s, none)
  | k + 1, flags, s =>
    match vramBlock src destSize flags s with
    | (s1, some o) => (s1, some o)
    | (s1, none) => vramBlocks src destSize k ((flags <<< 1) % 256) s1

/-- The loop `for (;;)` of `LZ77UnCompVram`, run for at most `fuel` iterations. -/
def vramLoop (src : Nat → Nat) (destSize : Nat) : Nat → LzState → LzState × LzOutcome
  | 0, s => (s, LzOutcome.exhausted)
  | fuel + 1, s =>
    match vramBlocks src destSize 8 (byteRead src s.srcPos) { s with srcPos := s.srcPos + 1 } with
    | (s1, some o) => (s1, o)
    | (s1, none) => vramLoop src destSize fuel s1

/-- `LZ77UnCompVram(src, dest)`: the final state and how the function ended.
Every iteration of the outer loop that does not end the function writes at
least one byte, so `destSize + 1` iterations are granted. -/
def LZ77UnCompVram (src : Nat → Nat) (dest : Int → Nat) : LzState × LzOutcome :=
  vramLoop src (vramDestSize src) (vramDestSize src + 1) (lzStart dest)

/-- The value `len` of `LZ77UnCompWram` before the loop: `header >> 8`. -/
def wramLen (src : Nat → Nat) : Int := ((CPUReadMemory src 0 >>> 8 : Nat) : Int)

/-- The copy loop `for (int i2 = 0; i2 < length; i2++)` of `LZ77UnCompWram` with
`k` iterations left: the state, the value of `len`, and whether the function
returned. -/
def wramCopy : Nat → Int → Int → LzState → LzState × Int × Bool
  | 0, _, len, s => (s, len, false)
  | k + 1, windowOffset, len, s =>
    if len - 1 = 0 then (lzCopyByte s windowOffset, len - 1, true)
    else wramCopy k (windowOffset + 1) (len - 1) (lzCopyByte s windowOffset)

/-- One iteration of the loop over the bits of a non-zero `d` in
`LZ77UnCompWram`, up to `d <<= 1`. -/
def wramBlock (src : Nat → Nat) (d : Nat) (len : Int) (s : LzState) : LzState × Int × Bool :=
  if d &&& 0x80 ≠ 0 then
    let data : Nat := toU16 (byteRead src s.srcPos <<< 8) ||| byteRead src (s.srcPos + 1)
    let length : Nat := (data >>> 12) + 3
    let offset : Nat := data &&& 0x0FFF
    wramCopy length ((s.destPos : Int) - (offset : Int) - 1) len { s with srcPos := s.srcPos + 2 }
  else (lzLiteral src s, len - 1, decide (len - 1 = 0))

/-- The loop over the bits of a non-zero `d` with `k` iterations left. -/
def wramBlocks (src : Nat → Nat) : Nat → Nat → Int → LzState → LzState × Int × Bool
  | 0, _, len, s => (s, len, false)
  | k + 1, d, len, s =>
    match wramBlock src d len s with
    | (s1, len1, true) => (s1, len1, true)
    | (s1, len1, false) => wramBlocks src k ((d <<< 1) % 256) len1 s1

/-- The loop of eight literal bytes taken when `d` is zero, with `k` iterations
left. -/
def wramLiterals (src : Nat → Nat) : Nat → Int → LzState → LzState × Int × Bool
  | 0, len, s => (s, len, false)
  | k + 1, len, s =>
    if len - 1 = 0 then (lzLiteral src s, len - 1, true)
    else wramLiterals src k (len - 1) (lzLiteral src s)

/-- One iteration of the body of `while (len > 0)` of `LZ77UnCompWram`. -/
def wramRound (src : Nat → Nat) (len : Int) (s : LzState) : LzState × Int × Bool :=
  if byteRead src s.srcPos ≠ 0 then
    wramBlocks src 8 (byteRead src s.srcPos) len { s with srcPos := s.srcPos + 1 }
  else wramLiterals src 8 len { s with srcPos := s.srcPos + 1 }

/-- The loop `while (len > 0)` of `LZ77UnCompWram`, run for at most `fuel`
iterations. -/
def wramLoop (src : Nat → Nat) : Nat → Int → LzState → LzState × LzOutcome
  | 0, len, s => (s, if len > 0 then LzOutcome.exhausted else LzOutcome.returned)
  | fuel + 1, len, s =>
    if len > 0 then
      (if (wramRound src len s).2.2 = true then ((wramRound src len s).1, LzOutcome.returned)
       else wramLoop src fuel (wramRound src len s).2.1 (wramRound src len s).1)
    else (s, LzOutcome.returned)

/-- `LZ77UnCompWram(src, dst)`: the final state and how the function ended.
Every iteration of the outer loop that does not end the function writes at
least one byte, so `len + 1` iterations are granted. -/
def LZ77UnCompWram (src : Nat → Nat) (dest : Int → Nat) : LzState × LzOutcome :=
  wramLoop src ((wramLen src).toNat + 1) (wramLen src) (lzStart dest)

/-! ## The LZ77 contract in the words of the specification -/

/-- The 24-bit decompressed size declared in the stream header: the bytes 1, 2
and 3 of the stream, least significant first. -/
def lzDeclaredSize (src : Nat → Nat) : Nat :=
  byteRead src 1 + 256 * byteRead src 2 + 65536 * byteRead src 3

/-- The offsets `0, 1, ..., m - 1`, in increasing order. -/
def firstOffsets (m : Nat) : List Int := List.map Int.ofNat (List.range m)

/-- A stream that declares 3 bytes and opens with a back-reference of length 3
and distance 1, a position before the start of the output. -/
def strayLzStream : Nat → Nat :=
  fun i => if i = 0 then 0x10 else if i = 1 then 3 else if i = 4 then 0x80 else 0

/-- The state `s` of a decoder whose destination memory was `mem` on entry keeps
the write contract for the declared size `n`: the write position is at most `n`,
the offsets written so far are `0, 1, ..., destPos - 1` in this order, and every
cell outside the offsets `0 .. n - 1` holds what it held on entry. -/
def LzInv (mem : Int → Nat) (n : Nat) (s : LzState) : Prop :=
  s.destPos ≤ n ∧ s.writes = firstOffsets s.destPos
    ∧ ∀ off : Int, ¬ (0 ≤ off ∧ off < (n : Int)) → s.dest off = mem off

/-! ## Real-time clock -/

/-- The `do ... while` loop of `BinToBcd` on the `u8` value `bin`, the `int`
`placeCounter` and the `u8` accumulator `out`, with `fuel` iterations granted:
the value of `out` when the loop ends. -/
def binToBcdLoop : Nat → Nat → Nat → Nat → Option Nat
  | 0, _, _, _ => none
  | fuel + 1, bin, placeCounter, out =>
    if toU8 (bin / 10) > 0 then
      binToBcdLoop fuel (toU8 (bin / 10)) (placeCounter * 16)
        (toU8 (out ||| ((bin % 10) * placeCounter)))
    else some (toU8 (out ||| ((bin % 10) * placeCounter)))

/-- `BinToBcd(bin)`: the `u8` returned.  A `u8` has at most three decimal
digits, so three iterations are granted. -/
def BinToBcd (bin : Nat) : Option Nat := binToBcdLoop 3 (toU8 bin) 1 0

/-- The members of `struct tm` read by `UpdateInternalClock`. -/
structure Tm where
  tm_year : Int
  tm_mon : Int
  tm_mday : Int
  tm_wday : Int
  tm_hour : Int
  tm_min : Int
  tm_sec : Int

/-- The members of `internalClock` (a `struct SiiRtcInfo`, all of them `u8`)
written by `UpdateInternalClock`. -/
structure SiiRtcInfo where
  year : Nat
  month : Nat
  day : Nat
  dayOfWeek : Nat
  hour : Nat
  minute : Nat
  second : Nat

/-- The value `UpdateInternalClock` stores in `internalClock.month` for the host
month index `tm_mon`: `BinToBcd(time->tm_mon) + 1`, as a `u8`. -/
def clockMonth (tm_mon : Int) : Option Nat :=
  (BinToBcd (toU32 tm_mon)).map (fun b => toU8 (b + 1))

/-- `UpdateInternalClock()` for the broken-down time `time` returned by
`localtime`: the new value of `internalClock`. -/
def UpdateInternalClock (time : Tm) : Option SiiRtcInfo :=
  (BinToBcd (toU32 (time.tm_year - 100))).bind fun year =>
  (clockMonth time.tm_mon).bind fun month =>
  (BinToBcd (toU32 time.tm_mday)).bind fun day =>
  (BinToBcd (toU32 time.tm_wday)).bind fun dayOfWeek =>
  (BinToBcd (toU32 time.tm_hour)).bind fun hour =>
  (BinToBcd (toU32 time.tm_min)).bind fun minute =>
  (BinToBcd (toU32 time.tm_sec)).map fun second =>
    { year := year, month := month, day := day, dayOfWeek := dayOfWeek, hour := hour
      minute := minute, second := second }

/-- The packed-BCD encoding of a value below 100: the tens digit in the high
nibble, the units digit in the low nibble. -/
def packedBcd (v : Nat) : Nat := 16 * (v / 10) + v % 10

/-- Noon on 1 October 2024, a Tuesday, as `localtime` reports it: the month
index is 9. -/
def octoberNoon : Tm :=
  { tm_year := 124, tm_mon := 9, tm_mday := 1, tm_wday := 2, tm_hour := 12, tm_min := 0
    tm_sec := 0 }

/-! ## The priority buckets in the words of the specification -/

/-- The planes listed in the bucket of priority `p`: the entries
`prioritySortedBgs[p][0 .. prioritySortedBgsCount[p] - 1]`, in this order. -/
def priorityBucket (scanline : ScanlineData) (p : Nat) : List Nat :=
  (List.range (scanline.prioritySortedBgsCount p)).map (scanline.prioritySortedBgs p)

/-- A register file whose planes 0 and 2 have priority 1, plane 1 priority 0 and
plane 3 is hidden. -/
def bucketGpu : Gpu :=
  { zeroGpu with
    bg := fun b =>
      if b = 1 then { zeroBg with hidden := false, priority := 0 }
      else if b = 3 then { zeroBg with hidden := true, priority := 1 }
      else { zeroBg with hidden := false, priority := 1 } }

/-! ## Run-length decompression -/

/-- The state of `RLUnCompWram`: the read position in the stream, the byte
offset of the pointer `dest_u32` from `dest`, the variable `remaining`, the
destination memory by byte offset, and the record of the byte offsets written,
in order. -/
structure RlState where
  srcPos : Nat
  destPos : Nat
  remaining : Int
  dest : Nat → Nat
  writes : List Nat

/-- The statements `CPUWriteByte(dest_u32, val); dest_u32++;`: one byte is
stored at the address the pointer holds, and the pointer, a `u32 *`, advances by
one element of four bytes. -/
def rlWrite (s : RlState) (val : Nat) : RlState :=
  { s with
    destPos := s.destPos + 4
    dest := Function.update s.dest s.destPos (val % 256)
    writes := s.writes ++ [s.destPos] }

/-- The loop `while (blockHeader-- && remaining)` of a compressed block, with
`blockHeader` equal to `k` on entry. -/
def rlFill (block : Nat) : Nat → RlState → RlState
  | 0, s => s
  | k + 1, s =>
    if s.remaining ≠ 0 then rlFill block k (rlWrite { s with remaining := s.remaining - 1 } block)
    else s

/-- The loop `while (blockHeader-- && remaining)` of an uncompressed block, with
`blockHeader` equal to `k` on entry. -/
def rlCopy (src : Nat → Nat) : Nat → RlState → RlState
  | 0, s => s
  | k + 1, s =>
    if s.remaining ≠ 0 then
      rlCopy src k
        (rlWrite { s with remaining := s.remaining - 1, srcPos := s.srcPos + 1 }
          (byteRead src s.srcPos))
    else s

/-- One iteration of the body of `while (remaining > 0)` of `RLUnCompWram`. -/
def rlBlock (src : Nat → Nat) (s : RlState) : RlState :=
  if byteRead src s.srcPos &&& 0x80 ≠ 0 then
    rlFill (byteRead src (s.srcPos + 1)) ((byteRead src s.srcPos &&& 0x7F) + 3)
      { s with srcPos := s.srcPos + 2 }
  else rlCopy src (byteRead src s.srcPos + 1) { s with srcPos := s.srcPos + 1 }

/-- The loop `while (remaining > 0)` of `RLUnCompWram`, run for at most `fuel`
iterations. -/
def rlLoop (src : Nat → Nat) : Nat → RlState → Option RlState
  | 0, s => if s.remaining > 0 then none else some s
  | fuel + 1, s => if s.remaining > 0 then rlLoop src fuel (rlBlock src s) else some s

/-- The loop `while (padding--)` of `RLUnCompWram`, with `padding` equal to `k`
on entry. -/
def rlPad : Nat → RlState → RlState
  | 0, s => s
  | k + 1, s => rlPad k (rlWrite s 0)

/-- The value `remaining` of `RLUnCompWram` before the loop: `header >> 8`. -/
def rlRemaining (src : Nat → Nat) : Int := ((CPUReadMemory src 0 >>> 8 : Nat) : Int)

/-- The value `padding` of `RLUnCompWram`: `(4 - remaining) & 0x3`. -/
def rlPadding (src : Nat → Nat) : Nat := toU32 (4 - rlRemaining src) &&& 0x3

/-- `RLUnCompWram(src, dest)`: the final state, or `none` when the loop budget
of the model is used up.  Every iteration of the outer loop writes at least one
byte, so `remaining + 1` iterations are granted. -/
def RLUnCompWram (src : Nat → Nat) (dest : Nat → Nat) : Option RlState :=
  (rlLoop src ((rlRemaining src).toNat + 1)
    { srcPos := 4, destPos := 0, remaining := rlRemaining src, dest := dest, writes := [] }).map
    (rlPad (rlPadding src))

/-! ## The run-length contract in the words of the specification -/

/-- A run-length stream that declares 2 bytes and holds them, `0xAA` and `0xBB`,
in one uncompressed block. -/
def twoByteRlStream : Nat → Nat :=
  fun i =>
    if i = 0 then 0x30 else if i = 1 then 2 else if i = 4 then 0x01
    else if i = 5 then 0xAA else if i = 6 then 0xBB else 0

/-- The byte offsets `0, 4, 8, ..., 4 * (m - 1)`, in increasing order. -/
def strideOffsets (m : Nat) : List Nat := List.map (fun k => 4 * k) (List.range m)

/-- The state `s` of `RLUnCompWram` on a stream declaring `n` bytes has written
`c` bytes so far, one every four bytes: `c + remaining = n`, the pointer stands
`4 * c` bytes after the start and the offsets written are `0, 4, ..., 4 * (c - 1)`. -/
def RlInv (n : Nat) (s : RlState) (c : Nat) : Prop :=
  (c : Int) + s.remaining = (n : Int) ∧ 0 ≤ s.remaining ∧ s.destPos = 4 * c
    ∧ s.writes = strideOffsets c

/-! ## Background state manager: tilemap buffers -/

/-- `IsTileMapOutsideWram(bg)`, with the header constant `IWRAM_END` as a
parameter.  The code reads `sGpuBgConfigs2[bg]` without a check of `bg`. -/
def IsTileMapOutsideWram (IWRAM_END : Nat) (st : BgState) (bg : Nat) : Bool :=
  if (st.configs2 (toU8 bg)).tilemap > IWRAM_END then true
  else if (st.configs2 (toU8 bg)).tilemap = 0 then true
  else false

/-- The arguments `(src, dest, size)` of the call of `RequestDma3Copy` that
`LoadBgVram(bg, src, size, destOffset, mode)` makes, when it makes one. -/
def loadVramCall (D : DmaEnv) (st : BgState) (bg src size destOffset mode : Nat) :
    Option (Nat × Nat × Nat) :=
  if !IsInvalidBg bg && ((st.configs (toU8 bg)).visible != 0) then
    if toU8 mode = 1 ∨ toU8 mode = 2 then
      some (src, loadVramOffset D st bg destOffset mode + D.BG_VRAM, toU16 size)
    else none
  else none

/-- The value `sizeToLoad` of `CopyBgTilemapBufferToVram`. -/
def tilemapSizeToLoad (st : BgState) (bg : Nat) : Nat :=
  if GetBgType st bg = 0 then toU16 (GetBgMetricTextMode st bg 0 * 0x800)
  else if GetBgType st bg = 1 then toU16 (GetBgMetricAffineMode st bg 0 * 0x100)
  else 0

/-- `CopyBgTilemapBufferToVram(bg)`: the arguments `(src, dest, size)` of the
transfer request it issues through `LoadBgVram`, when it issues one. -/
def CopyBgTilemapBufferToVram (D : DmaEnv) (IWRAM_END : Nat) (st : BgState) (bg : Nat) :
    Option (Nat × Nat × Nat) :=
  if !IsInvalidBg32 bg && !IsTileMapOutsideWram IWRAM_END st bg then
    loadVramCall D st bg (st.configs2 (toU8 bg)).tilemap (tilemapSizeToLoad st bg) 0 2
  else none

/-- The `u16` behind a byte pointer at the signed byte offset `p` of the source
(little-endian host). -/
def srcHalf (src : Int → Nat) (p : Int) : Nat := src p % 256 + 256 * (src (p + 1) % 256)

/-- The `u16` at the byte offset `p` of a tilemap buffer (little-endian host). -/
def bufHalf (buf : Nat → Nat) (p : Nat) : Nat := buf p % 256 + 256 * (buf (p + 1) % 256)

/-- The store of the `u16` value `v` at the byte offset `p` of a tilemap buffer. -/
def bufStoreHalf (buf : Nat → Nat) (p : Nat) (v : Nat) : Nat → Nat :=
  Function.update (Function.update buf p (v % 256)) (p + 1) (v / 256 % 256)

/-- `CopyTileMapEntry(src, dest, palette1, tileOffset, palette2)` (the C body):
`srcPtr` is the byte offset of `src` in the source, `dest` the byte offset of
`dest` in the tilemap buffer `buf`; the result is the buffer after `*dest = var`. -/
def CopyTileMapEntry (src : Int → Nat) (srcPtr : Int) (buf : Nat → Nat) (dest : Nat)
    (palette1 tileOffset palette2 : Int) : Nat → Nat :=
  let var : Nat :=
    if 0 ≤ toS32 palette1 ∧ toS32 palette1 ≤ 16 then
      (if toS32 palette1 ≠ 16 then
        toU16 (toU32
          (((toU32 ((srcHalf src srcPtr : Int) + toS32 tileOffset) &&& 0xFFF : Nat) : Int)
            + toS32 (toS32 (toS32 palette1 + toS32 palette2) * 4096)))
       else
        toU16 (toU32 (((bufHalf buf dest &&& 0xFC00 : Nat) : Int)
              + toS32 (toS32 palette2 * 4096))
          ||| (toU32 ((srcHalf src srcPtr : Int) + toS32 tileOffset) &&& 0x3FF)))
    else
      toU16 (toU32 ((srcHalf src srcPtr : Int) + toS32 tileOffset
        + toS32 (toS32 palette2 * 4096)))
  bufStoreHalf buf dest var

/-- One iteration of the inner loop of the text-mode branch of
`CopyRectToBgTilemapBufferRect`, for the outer variable `i`: the state is the
tilemap buffer and the byte offset `srcPtr`. -/
def copyRectEntry (src : Int → Nat) (screenSize screenWidth screenHeight rectHeight : Nat)
    (palette1 tileOffset : Int) (i : Nat) (st : (Nat → Nat) × Int) (j : Nat) :
    (Nat → Nat) × Int :=
  (CopyTileMapEntry src st.2 st.1
      (toU16 (GetTileMapIndexFromCoords (j : Int) (i : Int) (screenSize : Int)
        screenWidth screenHeight) * 2)
      (rectHeight : Int) palette1 tileOffset,
   st.2 + 2)

/-- One iteration of the outer loop of the text-mode branch of
`CopyRectToBgTilemapBufferRect`. -/
def copyRectRow (src : Int → Nat) (screenSize screenWidth screenHeight : Nat)
    (srcWidth srcHeight destY rectHeight : Nat) (palette1 tileOffset : Int)
    (st : (Nat → Nat) × Int) (i : Nat) : (Nat → Nat) × Int :=
  (((List.range' srcHeight destY).foldl
      (copyRectEntry src screenSize screenWidth screenHeight rectHeight palette1 tileOffset i)
      st).1,
   ((List.range' srcHeight destY).foldl
      (copyRectEntry src screenSize screenWidth screenHeight rectHeight palette1 tileOffset i)
      st).2 + ((srcWidth : Int) - (destY : Int)) * 2)

/-- One iteration of the inner loop of the affine branch of
`CopyRectToBgTilemapBufferRect`. -/
def copyRectAffineEntry (src : Int → Nat) (var : Nat) (palette1 : Int) (i : Nat)
    (st : (Nat → Nat) × Int) (j : Nat) : (Nat → Nat) × Int :=
  (Function.update st.1 (var * i + j) (toU32 ((src st.2 % 256 : Nat) + palette1) % 256),
   st.2 + 1)

/-- One iteration of the outer loop of the affine branch of
`CopyRectToBgTilemapBufferRect`. -/
def copyRectAffineRow (src : Int → Nat) (var : Nat) (srcWidth srcHeight destY : Nat)
    (palette1 : Int) (st : (Nat → Nat) × Int) (i : Nat) : (Nat → Nat) × Int :=
  (((List.range' srcHeight destY).foldl (copyRectAffineEntry src var palette1 i) st).1,
   ((List.range' srcHeight destY).foldl (copyRectAffineEntry src var palette1 i) st).2
     + ((srcWidth : Int) - (destY : Int)))

/-- `CopyRectToBgTilemapBufferRect(bg, src, srcX, srcY, srcWidth, unused,
srcHeight, destX, destY, rectWidth, rectHeight, palette1, tileOffset)`, with the
parameters in the order and under the names of the definition in `bg.c`: the
tilemap buffer of the plane afterwards.  `src` is the memory behind the pointer
`src` by signed byte offset, `buf` the memory behind `sGpuBgConfigs2[bg].tilemap`
by byte offset; the source is taken not to overlap the buffer. -/
def CopyRectToBgTilemapBufferRect (IWRAM_END : Nat) (st : BgState) (src : Int → Nat)
    (buf : Nat → Nat) (bg srcX srcY srcWidth _unused srcHeight destX destY rectWidth
      rectHeight : Nat) (palette1 tileOffset : Int) : Nat → Nat :=
  if !IsInvalidBg32 bg && !IsTileMapOutsideWram IWRAM_END st bg then
    if GetBgType st bg = 0 then
      ((List.range' (toU8 destX) (toU8 rectWidth)).foldl
        (copyRectRow src (toU16 (GetBgControlAttribute st bg 4))
          (toU16 (GetBgMetricTextMode st bg 1 * 0x20))
          (toU16 (GetBgMetricTextMode st bg 2 * 0x20))
          (toU8 srcWidth) (toU8 srcHeight) (toU8 destY) (toU8 rectHeight)
          (toS16 palette1) (toS16 tileOffset))
        (buf, (((toU8 srcY * toU8 srcWidth + toU8 srcX) * 2 : Nat) : Int))).1
    else if GetBgType st bg = 1 then
      ((List.range' (toU8 destX) (toU8 rectWidth)).foldl
        (copyRectAffineRow src (toU16 (GetBgMetricAffineMode st bg 1))
          (toU8 srcWidth) (toU8 srcHeight) (toU8 destY) (toS16 palette1))
        (buf, ((toU8 srcY * toU8 srcWidth + toU8 srcX : Nat) : Int))).1
    else buf
  else buf

/-- `CopyToBgTilemapBufferRect_ChangePalette(bg, src, destX, destY, rectWidth,
rectHeight, palette)`: the thirteen arguments of its call are passed in the
order in which the code writes them. -/
def CopyToBgTilemapBufferRect_ChangePalette (IWRAM_END : Nat) (st : BgState) (src : Int → Nat)
    (buf : Nat → Nat) (bg destX destY rectWidth rectHeight palette : Nat) : Nat → Nat :=
  CopyRectToBgTilemapBufferRect IWRAM_END st src buf bg 0 0 rectWidth rectHeight destX destY
    rectWidth rectHeight palette 0 0

/-! ## Tilemap entries in the words of the specification -/

/-- The tilemap entry number `k` of a buffer: the `u16` at byte offset `2 * k`. -/
def tilemapEntry (buf : Nat → Nat) (k : Nat) : Nat := bufHalf buf (2 * k)

/-- The entry `src[k]` of a source of 16-bit entries. -/
def srcEntry (src : Int → Nat) (k : Nat) : Nat := srcHalf src (2 * (k : Int))

/-- The map entry index `RenderBGScanline` reads for column `x`, counted in
entries from the screen base of the plane: the offset of the screen block plus
`mapY * mapWidth + mapX`. -/
def bgMapIndex (K : Consts) (gpu : Gpu) (bgNum : Nat) (hoffs voffs : Nat) (lineNum : Int)
    (lineStart : Int) (x : Nat) : Nat :=
  (bgSourcePixel K gpu bgNum hoffs voffs lineNum lineStart x).2.2
    + (((bgSourcePixel K gpu bgNum hoffs voffs lineNum lineStart x).2.1 / 8)
        * (bgMapGeometry (gpu.bg bgNum)).2.2
      + (bgSourcePixel K gpu bgNum hoffs voffs lineNum lineStart x).1 / 8)

/-- The source pixel `(xx, yy)` of column `x` for a `gbaMode` plane, after the
scroll and the masking with `0x1FF`, before the split into screen blocks. -/
def bgGbaSourcePixel (gpu : Gpu) (bgNum : Nat) (hoffs voffs : Nat) (lineNum : Int)
    (lineStart : Int) (x : Nat) : Nat × Nat :=
  (toU32 ((((if (gpu.bg bgNum).mosaic then
              (applyBGHorizontalMosaicEffect gpu x + hoffs) % 4294967296
            else (x + hoffs) % 4294967296) : Nat) : Int) - lineStart) &&& 0x1FF,
   toU32 (lineNum + (voffs : Int)) &&& 0x1FF)

/-- The screen-size class of a text map of `w x h` pixels, each 256 or 512:
bit 0 is set for a width of 512, bit 1 for a height of 512. -/
def screenSizeClass (w h : Nat) : Nat :=
  (if w = 512 then 1 else 0) + (if h = 512 then 2 else 0)

/-- The configuration state `shownBgState` with plane 1 given the screen-size
class 3 and a tilemap buffer at the address `0x2000000`. -/
def mapBgState : BgState :=
  SetBgTilemapBuffer (SetBgAttribute shownBgState 1 BgAttr.screenSize 3) 1 0x2000000

/-- A register file whose planes all use GBA-compatible addressing with a map of
512 x 512 pixels. -/
def gbaMapGpu : Gpu :=
  { zeroGpu with
    bg := fun _ => { zeroBg with gbaMode := true, screenWidth := 512, screenHeight := 512 } }

/-- A source of 16-bit entries in which entry `k` has the value `0x3000 + k`
(for `k < 256`). -/
def countingSource (p : Int) : Nat := if p % 2 = 0 then (p / 2 % 256).toNat else 0x30

/-! ## Integer square root -/

/-- The first loop of `Sqrt`: `while (bound < upper) { upper >>= 1; bound <<= 1; }`,
with `fuel` bounding the number of tests; the result is the final `bound`. -/
def sqrtScale : Nat → Nat → Nat → Option Nat
  | 0, _, _ => none
  | fuel + 1, upper, bound =>
    if bound < upper then sqrtScale fuel (upper >>> 1) ((bound <<< 1) % 4294967296)
    else some bound

/-- The loop of `Sqrt` that doubles `lower`: each round doubles it when
`lower <= upper >> 1` and leaves when the value before the doubling was at least
`upper >> 1`; the result is the final `lower`. -/
def sqrtRaise : Nat → Nat → Nat → Option Nat
  | 0, _, _ => none
  | fuel + 1, upper, lower =>
    if lower ≥ upper >>> 1 then
      some (if lower ≤ upper >>> 1 then (lower <<< 1) % 4294967296 else lower)
    else
      sqrtRaise fuel upper (if lower ≤ upper >>> 1 then (lower <<< 1) % 4294967296 else lower)

/-- The loop of `Sqrt` that divides by shift and subtract: each round doubles
`accum`, subtracts `lower` from `upper` when it fits (adding one to `accum`), and
leaves when `lower == bound`, else halves `lower`; the result is the final `accum`. -/
def sqrtDivide : Nat → Nat → Nat → Nat → Nat → Option Nat
  | 0, _, _, _, _ => none
  | fuel + 1, bound, upper, lower, accum =>
    if upper ≥ lower then
      (if lower = bound then some (((accum <<< 1) % 4294967296 + 1) % 4294967296)
       else sqrtDivide fuel bound (upper - lower) (lower >>> 1)
          (((accum <<< 1) % 4294967296 + 1) % 4294967296))
    else
      (if lower = bound then some ((accum <<< 1) % 4294967296)
       else sqrtDivide fuel bound upper (lower >>> 1) ((accum <<< 1) % 4294967296))

/-- The outer `while (1)` of `Sqrt`: one round sets `upper = num`, `accum = 0`,
`lower = bound`, runs the two inner loops, and replaces `bound` by
`(bound + accum) >> 1` unless that is not below the old bound, in which case the
old bound is the result. -/
def sqrtNewton : Nat → Nat → Nat → Option Nat
  | 0, _, _ => none
  | fuel + 1, num, bound =>
    (sqrtRaise 33 num bound).bind (fun lower =>
      (sqrtDivide 33 bound num lower 0).bind (fun accum =>
        if ((bound + accum) % 4294967296) >>> 1 ≥ bound then some bound
        else sqrtNewton fuel num (((bound + accum) % 4294967296) >>> 1)))

/-- `Sqrt(num)` for a `u32` argument: the `u16` it returns, or `none` when one of
the loops does not leave within its bound on the number of rounds (33 for the
shifting loops, the starting bound plus one for the outer loop). -/
def Sqrt (num : Nat) : Option Nat :=
  if num = 0 then some 0
  else
    (sqrtScale 33 num 1).bind (fun bound =>
      (sqrtNewton (bound + 1) num bound).map (fun b => b % 65536))


/-- A stream that declares 4 bytes: the literal `0xAA`, then a back-reference of
length 3 and distance 1, which stays inside the output. -/
def runLzStream : Nat → Nat :=
  fun i => if i = 0 then 0x10 else if i = 1 then 4 else if i = 4 then 0x40
    else if i = 5 then 0xAA else 0

/-- A decoder state whose record of reads holds an offset before the start of
the output: some back-reference pointed before the buffer. -/
def ReadsBeforeBuffer (s : LzState) : Prop := ∃ r ∈ s.reads, r < 0

/-- The result `v` of a piece of `LZ77UnCompVram` matches the result `w` of the
corresponding piece of `LZ77UnCompWram` for the declared size `n`: same state,
the one returned exactly when the other did, and `len` is what remains of `n`. -/
def LzAgree (n : Nat) (v : LzState × Option LzOutcome) (w : LzState × Int × Bool) : Prop :=
  v = (w.1, if w.2.2 = true then some LzOutcome.returned else none)
    ∧ w.2.1 = ((n - w.1.destPos : Nat) : Int)
    ∧ (w.2.2 = false → w.1.destPos < n)

/-! ## Further states and register files used to instantiate the theorems -/

/-- A register file with three text planes, one sprite and both windows on.
Planes 0 and 1 have priority 1 and plane 2 priority 0; every texel of plane 0 has
colour index 1 and every texel of plane 1 index 2, while plane 2 has index 4 in
the left half of each tile and index 0 in the right half; plane 3 is hidden.
Sprite 0 is an 8 x 8 sprite of priority 1 at the origin with colour index 3,
every other sprite is disabled.  Window 0 covers the columns 0 .. 11 and admits
planes 0 and 1 and the sprites, window 1 covers the columns 12 .. 23 and admits
nothing, and outside both windows planes 1 and 2 are admitted.  Palette entry
`i` holds `i` and sprite palette entry `i` holds `0x10 + i`. -/
def layeredGpu : Gpu :=
  { zeroGpu with
    displayControl := 0x7700
    windowIn := 0x0013
    windowOut := 0x0006
    windowState := fun w =>
      if w = 0 then { x := 12, y := 160 } else { x := 0xC0018, y := 160 }
    bg := fun b =>
      if b = 0 then { zeroBg with priority := 1, screenWidth := 256, screenHeight := 256 }
      else if b = 1 then
        { zeroBg with priority := 1, charBaseBlock := 1, screenWidth := 256, screenHeight := 256 }
      else if b = 2 then
        { zeroBg with priority := 0, charBaseBlock := 2, screenWidth := 256, screenHeight := 256 }
      else { zeroBg with hidden := true }
    spriteList := fun i =>
      if i = 0 then { zeroOam with priority := 1 } else { zeroOam with affineMode := 2 }
    palette := fun i => i
    objPltt := fun i => 0x10 + i
    charMem := fun b o =>
      if b = 0 then 0x11 else if b = 1 then 0x22 else if o % 4 < 2 then 0x44 else 0
    spriteGfxData := fun _ => 0x33 }

/-- A host with a display of 40 x 160 pixels, every layer enabled and inert
callbacks. -/
def narrowHost : Host := { plainHost with displayWidth := 40 }

/-- The register file `affineGpu` with the mosaic flag of every plane set and a
horizontal mosaic size of 1, so that the closing pass works on blocks of two
columns. -/
def mosaicAffineGpu : Gpu :=
  { affineGpu with
    mosaic := 1
    bg := fun b => { affineGpu.bg b with mosaic := true } }

/-- The reserved bytes `unknown_2` and `unknown_3` of the four plane
configurations are zero.  The static `sGpuBgConfigs` starts zeroed and the only
stores into its configurations, in `ResetBgControlStructs` and
`SetBgControlAttributes`, write zero to both bytes, so every state the program
reaches has this property. -/
def ReservedBytesClear (st : BgState) : Prop :=
  ∀ b, b < 4 → (st.configs b).unknown_2 = 0 ∧ (st.configs b).unknown_3 = 0

/-- The state `zeroBgState` after plane 1 has been given char base 2, map base 5,
screen size 3, palette mode 1, priority 2, mosaic 1 and wraparound 1. -/
def configuredBgState : BgState := SetBgControlAttributes zeroBgState 1 2 5 3 1 2 1 1

/-- Every bit set in the mode/visibility word is a mode bit (0..2) or a
plane-enable bit (8..11).  The word starts as 0, `ResetBgs` stores 0,
`SetBgMode` with a mode in 0..7 replaces the mode bits, and `ShowBg` and `HideBg`
mask the word with `DISPCNT_ALL_BG_AND_MODE_BITS`, so every word the program
reaches with modes in 0..7 has this property. -/
def ModeWordClean (st : BgState) : Prop :=
  ∀ k, st.bgVisibilityAndMode.testBit k = true → IsModeOrPlaneBit k

/-- The state `shownBgState` after `SetBgMode(1)`: plane 1 is configured and the
mode/visibility word is 1. -/
def modeOneBgState : BgState := SetBgMode shownBgState 1

/-! ## Bit-level lemmas -/

theorem and_0x1F (x : Nat) : x &&& 0x1F = x % 32 :=
  Nat.and_pow_two_sub_one_eq_mod x 5

theorem and_one (x : Nat) : x &&& 1 = x % 2 :=
  Nat.and_pow_two_sub_one_eq_mod x 1

theorem getRedChannel_eq (x : Nat) : getRedChannel x = x % 32 := by
  simp [getRedChannel, and_0x1F]

theorem getGreenChannel_eq (x : Nat) : getGreenChannel x = x / 32 % 32 := by
  simp [getGreenChannel, and_0x1F, Nat.shiftRight_eq_div_pow]

theorem getBlueChannel_eq (x : Nat) : getBlueChannel x = x / 1024 % 32 := by
  simp [getBlueChannel, and_0x1F, Nat.shiftRight_eq_div_pow]

theorem getAlphaBit_eq (x : Nat) : getAlphaBit x = x / 32768 % 2 := by
  simp [getAlphaBit, and_one, Nat.shiftRight_eq_div_pow]

theorem clamp31_le (c : Nat) : clamp31 c ≤ 31 := by
  unfold clamp31; split <;> omega

theorem clamp31_eq_min (c : Nat) : clamp31 c = min 31 c := by
  unfold clamp31; split <;> omega

theorem packColor_eq (r g b : Nat) (hr : r ≤ 31) (hg : g ≤ 31) (hb : b ≤ 31) :
    packColor r g b = r + 32 * g + 1024 * b + 32768 := by
  have h1 : r ||| (g <<< 5) = r + 32 * g := by
    have := Nat.mul_add_lt_is_or (i := 5) (b := r) (by omega) g
    rw [Nat.shiftLeft_eq, Nat.or_comm, Nat.mul_comm g, ← this]; omega
  have h2 : (r + 32 * g) ||| (b <<< 10) = r + 32 * g + 1024 * b := by
    have := Nat.mul_add_lt_is_or (i := 10) (b := r + 32 * g) (by omega) b
    rw [Nat.shiftLeft_eq, Nat.or_comm, Nat.mul_comm b, ← this]; omega
  have h3 : (r + 32 * g + 1024 * b) ||| (1 <<< 15) = r + 32 * g + 1024 * b + 32768 := by
    have := Nat.mul_add_lt_is_or (i := 15) (b := r + 32 * g + 1024 * b) (by omega) 1
    rw [Nat.shiftLeft_eq, Nat.or_comm, Nat.mul_comm 1, ← this]; omega
  unfold packColor toU16
  rw [h1, h2, h3]; omega

theorem packColor_channels (r g b : Nat) (hr : r ≤ 31) (hg : g ≤ 31) (hb : b ≤ 31) :
    getRedChannel (packColor r g b) = r ∧ getGreenChannel (packColor r g b) = g ∧
      getBlueChannel (packColor r g b) = b ∧ getAlphaBit (packColor r g b) = 1 := by
  rw [getRedChannel_eq, getGreenChannel_eq, getBlueChannel_eq, getAlphaBit_eq,
    packColor_eq r g b hr hg hb]
  omega

theorem or_0x8000 (A : Nat) (hA : A < 65536) : A ||| 0x8000 = A % 32768 + 32768 := by
  have hor := Nat.mul_add_lt_is_or (i := 15) (b := A % 32768) (by omega) (A / 32768)
  have hone := Nat.mul_add_lt_is_or (i := 15) (b := A % 32768) (by omega) 1
  have hq : A / 32768 = 0 ∨ A / 32768 = 1 := by omega
  rcases hq with hq | hq
  · have hlt : A % 32768 = A := by omega
    rw [hlt] at hone
    have hc : A ||| 0x8000 = 2 ^ 15 * 1 ||| A := Nat.or_comm _ _
    rw [hc, ← hone]
    omega
  · rw [hq] at hor
    have hA2 : A = 2 ^ 15 * 1 ||| A % 32768 := by rw [← hor]; omega
    have hc : A ||| 0x8000 = (2 ^ 15 * 1 ||| A % 32768) ||| 2 ^ 15 * 1 := by
      rw [← hA2]; norm_num
    rw [hc, Nat.or_comm (2 ^ 15 * 1) (A % 32768), Nat.or_assoc, Nat.or_self,
      Nat.or_comm, ← hone]
    omega

theorem toU32_natCast (n : Nat) (h : n < 4294967296) : toU32 (n : Int) = n := by
  unfold toU32; omega

/-! ## Loops that store into one column per iteration -/

theorem foldl_update_if (c : Nat → Prop) [DecidablePred c] (v : Nat → Nat) (l : List Nat)
    (p : Nat → Nat) (y : Nat) :
    (l.foldl (fun q x => if c x then Function.update q x (v x) else q) p) y
      = if y ∈ l ∧ c y then v y else p y := by
  induction l generalizing p with
  | nil => simp
  | cons a t ih =>
    rw [List.foldl_cons, ih]
    by_cases hya : y = a
    · subst hya
      by_cases hc : c y
      · simp [hc]
      · simp [hc]
    · by_cases hc : c a
      · simp [hc, hya, Function.update_noteq hya]
      · simp [hc, hya]

theorem mem_unsignedRange (lineStart lineEnd : Int) (x : Nat) :
    x ∈ unsignedRange lineStart lineEnd ↔ toU32 lineStart ≤ x ∧ x < toU32 lineEnd := by
  unfold unsignedRange
  rw [List.mem_range'_1]
  omega

theorem and_0x3F (x : Nat) : x &&& 0x3F = x % 64 :=
  Nat.and_pow_two_sub_one_eq_mod x 6

theorem or_WINMASK_WINOUT (w : Nat) : ((w &&& 0x3F) ||| WINMASK_WINOUT) = w % 64 + 64 := by
  have h := Nat.mul_add_lt_is_or (i := 6) (b := w % 64) (by omega) 1
  rw [and_0x3F, Nat.or_comm]
  have hw : WINMASK_WINOUT = 2 ^ 6 * 1 := by decide
  rw [hw, ← h]; omega

theorem winMaskStep_eq (K : Consts) (H : Host) (gpu : Gpu) (vcount : Nat) :
    winMaskStep K H gpu vcount = fun q x => if True then Function.update q x
      (if WindowCovers K H gpu 0 K.DISPCNT_WIN0_ON vcount x = true then gpu.windowIn &&& 0x3F
       else if WindowCovers K H gpu 1 K.DISPCNT_WIN1_ON vcount x = true then
        (gpu.windowIn >>> 8) &&& 0x3F
       else (gpu.windowOut &&& 0x3F) ||| WINMASK_WINOUT) else q := by
  funext q x
  have e0 : WindowCovers K H gpu 0 K.DISPCNT_WIN0_ON vcount x
      = (WIN0enable K H gpu vcount
        && winCheckHorizontalBounds (toU32 (GetWindowCoords K H gpu 0).2.2.2)
          (toU32 (GetWindowCoords K H gpu 0).2.2.1) x) := by
    simp [WindowCovers, WIN0enable]
  have e1 : WindowCovers K H gpu 1 K.DISPCNT_WIN1_ON vcount x
      = (WIN1enable K H gpu vcount
        && winCheckHorizontalBounds (toU32 (GetWindowCoords K H gpu 1).2.2.2)
          (toU32 (GetWindowCoords K H gpu 1).2.2.1) x) := by
    simp [WindowCovers, WIN1enable]
  have t0 : toU16 (gpu.windowIn &&& 0x3F) = gpu.windowIn &&& 0x3F := by
    rw [and_0x3F]; unfold toU16; omega
  have t1 : toU16 ((gpu.windowIn >>> 8) &&& 0x3F) = (gpu.windowIn >>> 8) &&& 0x3F := by
    rw [and_0x3F]; unfold toU16; omega
  have t2 : toU16 ((gpu.windowOut &&& 0x3F) ||| WINMASK_WINOUT)
      = (gpu.windowOut &&& 0x3F) ||| WINMASK_WINOUT := by
    rw [or_WINMASK_WINOUT]; unfold toU16; omega
  unfold winMaskStep
  rw [e0, e1, t0, t1, t2]
  simp only [if_true]
  split_ifs <;> rfl

/-! ## Properties of the colour helpers -/

/-- C2: every 5-bit channel of `alphaBlendColor(A, B)` is
`min(31, (A.c * eva + B.c * evb) >> 4)` with `eva = blendAlpha & 0x1F` and
`evb = (blendAlpha >> 8) & 0x1F`, and bit 15 of the result is set. -/
theorem alphaBlendColor_channels (gpu : Gpu) (A B : Nat) :
    getRedChannel (alphaBlendColor gpu A B)
        = min 31 ((getRedChannel A * (gpu.blendAlpha &&& 0x1F)
            + getRedChannel B * ((gpu.blendAlpha >>> 8) &&& 0x1F)) >>> 4)
    ∧ getGreenChannel (alphaBlendColor gpu A B)
        = min 31 ((getGreenChannel A * (gpu.blendAlpha &&& 0x1F)
            + getGreenChannel B * ((gpu.blendAlpha >>> 8) &&& 0x1F)) >>> 4)
    ∧ getBlueChannel (alphaBlendColor gpu A B)
        = min 31 ((getBlueChannel A * (gpu.blendAlpha &&& 0x1F)
            + getBlueChannel B * ((gpu.blendAlpha >>> 8) &&& 0x1F)) >>> 4)
    ∧ getAlphaBit (alphaBlendColor gpu A B) = 1
    ∧ (alphaBlendColor gpu A B).testBit 15 = true := by
  have h := packColor_channels _ _ _
    (clamp31_le (((getRedChannel A * (gpu.blendAlpha &&& 0x1F))
      + (getRedChannel B * ((gpu.blendAlpha >>> 8) &&& 0x1F))) >>> 4))
    (clamp31_le (((getGreenChannel A * (gpu.blendAlpha &&& 0x1F))
      + (getGreenChannel B * ((gpu.blendAlpha >>> 8) &&& 0x1F))) >>> 4))
    (clamp31_le (((getBlueChannel A * (gpu.blendAlpha &&& 0x1F))
      + (getBlueChannel B * ((gpu.blendAlpha >>> 8) &&& 0x1F))) >>> 4))
  obtain ⟨h1, h2, h3, h4⟩ := h
  refine ⟨?_, ?_, ?_, h4, ?_⟩
  · rw [← clamp31_eq_min]; exact h1
  · rw [← clamp31_eq_min]; exact h2
  · rw [← clamp31_eq_min]; exact h3
  · rw [getAlphaBit_eq] at h4
    rw [Nat.testBit_to_div_mod]
    exact decide_eq_true h4

/-- C3: with `eva = 16, evb = 0` the blend of 16-bit colours `A` and `B` is `A`
with bit 15 forced set; with `eva = 0, evb = 16` it is `B` with bit 15 forced set. -/
theorem alphaBlendColor_unit_coefficients (gpu : Gpu) (A B : Nat) (hA : A < 65536)
    (hB : B < 65536) :
    (gpu.blendAlpha &&& 0x1F = 16 → (gpu.blendAlpha >>> 8) &&& 0x1F = 0 →
        alphaBlendColor gpu A B = A ||| 0x8000)
    ∧ (gpu.blendAlpha &&& 0x1F = 0 → (gpu.blendAlpha >>> 8) &&& 0x1F = 16 →
        alphaBlendColor gpu A B = B ||| 0x8000) := by
  constructor
  · intro ha hb
    unfold alphaBlendColor
    simp only [ha, hb]
    rw [packColor_eq _ _ _ (clamp31_le _) (clamp31_le _) (clamp31_le _), or_0x8000 A hA]
    simp only [clamp31_eq_min, getRedChannel_eq, getGreenChannel_eq, getBlueChannel_eq,
      Nat.shiftRight_eq_div_pow]
    omega
  · intro ha hb
    unfold alphaBlendColor
    simp only [ha, hb]
    rw [packColor_eq _ _ _ (clamp31_le _) (clamp31_le _) (clamp31_le _), or_0x8000 B hB]
    simp only [clamp31_eq_min, getRedChannel_eq, getGreenChannel_eq, getBlueChannel_eq,
      Nat.shiftRight_eq_div_pow]
    omega

/-- C4: with blend coefficient 16, `alphaBrightnessIncrease(A)` has all three
channels equal to 31 and `alphaBrightnessDecrease(A)` has all three equal to 0. -/
theorem brightness_coefficient_16 (gpu : Gpu) (A : Nat) (hc : gpu.blendCoeff &&& 0x1F = 16) :
    (getRedChannel (alphaBrightnessIncrease gpu A) = 31
      ∧ getGreenChannel (alphaBrightnessIncrease gpu A) = 31
      ∧ getBlueChannel (alphaBrightnessIncrease gpu A) = 31)
    ∧ (getRedChannel (alphaBrightnessDecrease gpu A) = 0
      ∧ getGreenChannel (alphaBrightnessDecrease gpu A) = 0
      ∧ getBlueChannel (alphaBrightnessDecrease gpu A) = 0) := by
  have hinc : ∀ c : Nat, c ≤ 31 → clamp31 (c + (31 - c) * 16 / 16) = 31 := by
    intro c hc31; rw [clamp31_eq_min]; omega
  have hdec : ∀ c : Nat, clamp31 (toU32 ((c : Int) - ((c * 16 / 16 : Nat) : Int))) = 0 := by
    intro c
    have : ((c * 16 / 16 : Nat) : Int) = c := by omega
    rw [this, clamp31_eq_min]; unfold toU32; omega
  have hr : getRedChannel A ≤ 31 := by rw [getRedChannel_eq]; omega
  have hg : getGreenChannel A ≤ 31 := by rw [getGreenChannel_eq]; omega
  have hb : getBlueChannel A ≤ 31 := by rw [getBlueChannel_eq]; omega
  constructor
  · unfold alphaBrightnessIncrease
    simp only [hc, hinc _ hr, hinc _ hg, hinc _ hb]
    have := packColor_channels 31 31 31 (by omega) (by omega) (by omega)
    exact ⟨this.1, this.2.1, this.2.2.1⟩
  · unfold alphaBrightnessDecrease
    simp only [hc, hdec]
    have := packColor_channels 0 0 0 (by omega) (by omega) (by omega)
    exact ⟨this.1, this.2.1, this.2.2.1⟩

/-- Instance of C3 on a register file with `eva = 16, evb = 0`. -/
theorem alphaBlendColor_unit_coefficients_witness :
    alphaBlendColor { zeroGpu with blendAlpha := 16 } 0x1234 0x7FFF = 0x1234 ||| 0x8000 :=
  (alphaBlendColor_unit_coefficients { zeroGpu with blendAlpha := 16 } 0x1234 0x7FFF
    (by decide) (by decide)).1 (by decide) (by decide)

/-- Instance of C4 on a register file with blend coefficient 16. -/
theorem brightness_coefficient_16_witness :
    ({ zeroGpu with blendCoeff := 16 } : Gpu).blendCoeff &&& 0x1F = 16
    ∧ getRedChannel (alphaBrightnessIncrease { zeroGpu with blendCoeff := 16 } 0x1234) = 31
    ∧ getBlueChannel (alphaBrightnessDecrease { zeroGpu with blendCoeff := 16 } 0x1234) = 0 :=
  ⟨by decide,
   (brightness_coefficient_16 { zeroGpu with blendCoeff := 16 } 0x1234 (by decide)).1.1,
   (brightness_coefficient_16 { zeroGpu with blendCoeff := 16 } 0x1234 (by decide)).2.2.2⟩

/-! ## Properties of the window tests -/

/-- C6: for 16-bit arguments `winCheckHorizontalBounds(left, right, x)` holds iff
`left <= x < right` when `left <= right` and iff `x >= left` or `x < right` when
`left > right`; the vertical test of `DrawScanline` is the same rule on
`(top, bottom, vcount)`. -/
theorem window_bounds_half_open_wrap (K : Consts) (H : Host) (gpu : Gpu) (which vcount : Nat)
    (left right x : Nat) (hl : left < 65536) (hr : right < 65536) (hx : x < 65536) :
    (winCheckHorizontalBounds left right x = true ↔
        (if left ≤ right then left ≤ x ∧ x < right else x ≥ left ∨ x < right))
    ∧ (winCheckHorizontalBounds left right x = true ↔ InHalfOpenWrap left right x)
    ∧ (winVerticalInside K H gpu which vcount = true ↔
        InHalfOpenWrap (GetWindowCoords K H gpu which).2.1 (GetWindowCoords K H gpu which).1
          vcount) := by
  have h1 : winCheckHorizontalBounds left right x = true ↔
      (if left ≤ right then left ≤ x ∧ x < right else x ≥ left ∨ x < right) := by
    unfold winCheckHorizontalBounds toU16
    simp only [Nat.mod_eq_of_lt hl, Nat.mod_eq_of_lt hr, Nat.mod_eq_of_lt hx]
    by_cases h : left ≤ right
    · have h' : ¬ left > right := by omega
      simp [h, h']
    · have h' : left > right := by omega
      simp [h, h']
  refine ⟨h1, ?_, ?_⟩
  · rw [h1]; unfold InHalfOpenWrap
    by_cases h : left ≤ right
    · have h' : (left : Int) ≤ right := by omega
      simp only [h, h', if_true]; omega
    · have h' : ¬ (left : Int) ≤ right := by omega
      simp only [h, h', if_false]; omega
  · unfold winVerticalInside InHalfOpenWrap
    by_cases h : (GetWindowCoords K H gpu which).2.1 ≤ (GetWindowCoords K H gpu which).1
    · have h' : ¬ (GetWindowCoords K H gpu which).2.1 > (GetWindowCoords K H gpu which).1 := by
        omega
      simp [h, h']
    · have h' : (GetWindowCoords K H gpu which).2.1 > (GetWindowCoords K H gpu which).1 := by
        omega
      simp [h, h']

/-- Instance of C6: the wrapped window `[200, 40)` contains column 10. -/
theorem window_bounds_half_open_wrap_witness :
    winCheckHorizontalBounds 200 40 10 = true ↔ InHalfOpenWrap 200 40 10 :=
  (window_bounds_half_open_wrap gbaConsts plainHost zeroGpu 0 0 200 40 10
    (by decide) (by decide) (by decide)).2.1

/-- C5: when a window is enabled, every column `x` of the display gets the low
6 bits of the window-in register if window 0 covers it, else bits 8-13 of the
window-in register if window 1 covers it, else the low 6 bits of the window-out
register with bit 6 (`WINMASK_WINOUT`) set; a column inside both windows gets
window 0's mask, and bit 6 is set exactly on the columns outside both. -/
theorem drawWinMask_priority (K : Consts) (H : Host) (gpu : Gpu) (vcount : Nat)
    (winMask : Nat → Nat) (x : Nat) (hen : windowsEnabled K gpu = true)
    (hx : x < toU32 H.displayWidth) :
    (drawWinMask K H gpu vcount winMask x
        = if WindowCovers K H gpu 0 K.DISPCNT_WIN0_ON vcount x = true then
            gpu.windowIn &&& 0x3F
          else if WindowCovers K H gpu 1 K.DISPCNT_WIN1_ON vcount x = true then
            (gpu.windowIn >>> 8) &&& 0x3F
          else (gpu.windowOut &&& 0x3F) ||| WINMASK_WINOUT)
    ∧ (WindowCovers K H gpu 0 K.DISPCNT_WIN0_ON vcount x = true
        → WindowCovers K H gpu 1 K.DISPCNT_WIN1_ON vcount x = true
        → drawWinMask K H gpu vcount winMask x = gpu.windowIn &&& 0x3F)
    ∧ ((drawWinMask K H gpu vcount winMask x).testBit 6 = true
        ↔ (WindowCovers K H gpu 0 K.DISPCNT_WIN0_ON vcount x = false
            ∧ WindowCovers K H gpu 1 K.DISPCNT_WIN1_ON vcount x = false)) := by
  have hmem : x ∈ unsignedRange 0 H.displayWidth := by
    rw [mem_unsignedRange]
    exact ⟨by unfold toU32; omega, hx⟩
  have hval : drawWinMask K H gpu vcount winMask x
        = if WindowCovers K H gpu 0 K.DISPCNT_WIN0_ON vcount x = true then
            gpu.windowIn &&& 0x3F
          else if WindowCovers K H gpu 1 K.DISPCNT_WIN1_ON vcount x = true then
            (gpu.windowIn >>> 8) &&& 0x3F
          else (gpu.windowOut &&& 0x3F) ||| WINMASK_WINOUT := by
    unfold drawWinMask
    rw [if_pos hen, winMaskStep_eq, foldl_update_if]
    simp [hmem]
  refine ⟨hval, ?_, ?_⟩
  · intro h0 _
    rw [hval, if_pos h0]
  · rw [hval]
    have b0 : (gpu.windowIn &&& 0x3F).testBit 6 = false := by
      rw [and_0x3F]; exact Nat.testBit_lt_two_pow (by omega)
    have b1 : ((gpu.windowIn >>> 8) &&& 0x3F).testBit 6 = false := by
      rw [and_0x3F]; exact Nat.testBit_lt_two_pow (by omega)
    have b2 : ((gpu.windowOut &&& 0x3F) ||| WINMASK_WINOUT).testBit 6 = true := by
      rw [or_WINMASK_WINOUT, Nat.testBit_to_div_mod]
      exact decide_eq_true (by omega)
    cases h0 : WindowCovers K H gpu 0 K.DISPCNT_WIN0_ON vcount x <;>
      cases h1 : WindowCovers K H gpu 1 K.DISPCNT_WIN1_ON vcount x <;>
      simp [b0, b1, b2]

/-- Instance of C5: window 0 is on and covers no column, so column 3 gets the
window-out mask with bit 6 set. -/
theorem drawWinMask_priority_witness :
    (drawWinMask gbaConsts plainHost { zeroGpu with displayControl := 0x2000 } 0
        (fun _ => 0) 3).testBit 6 = true
      ↔ (WindowCovers gbaConsts plainHost { zeroGpu with displayControl := 0x2000 } 0
            gbaConsts.DISPCNT_WIN0_ON 0 3 = false
          ∧ WindowCovers gbaConsts plainHost { zeroGpu with displayControl := 0x2000 } 1
            gbaConsts.DISPCNT_WIN1_ON 0 3 = false) :=
  (drawWinMask_priority gbaConsts plainHost { zeroGpu with displayControl := 0x2000 } 0
    (fun _ => 0) 3 (by decide) (by decide)).2.2

/-! ## Properties of the blend target search -/

theorem selectTargetInBucket_none (gpu : Gpu) (scanline : ScanlineData)
    (prnum blndprnum pixelpos : Nat) (l : List Nat)
    (h : ∀ i ∈ l, getAlphaBit
      (scanline.layers (scanline.prioritySortedBgs blndprnum i) pixelpos) ≠ 1) :
    selectTargetInBucket gpu scanline prnum blndprnum pixelpos l = none := by
  induction l with
  | nil => rfl
  | cons a t ih =>
    have ha := h a (List.mem_cons_self a t)
    unfold selectTargetInBucket
    simp only [ha, false_and, if_false]
    exact ih (fun i hi => h i (List.mem_cons_of_mem a hi))

theorem selectTargetFrom_no_target (K : Consts) (gpu : Gpu) (scanline : ScanlineData)
    (prnum pixelpos : Nat) (spriteBlendEnabled : Bool) :
    ∀ (rest : List Nat) (b prsub : Nat),
      (spriteBlendEnabled = true →
        ∀ p ∈ b :: rest, getAlphaBit (scanline.spriteLayers p pixelpos) ≠ 1) →
      (∀ i, prsub ≤ i → i < scanline.prioritySortedBgsCount b →
        getAlphaBit (scanline.layers (scanline.prioritySortedBgs b i) pixelpos) ≠ 1) →
      (∀ p ∈ rest, ∀ i, i < scanline.prioritySortedBgsCount p →
        getAlphaBit (scanline.layers (scanline.prioritySortedBgs p i) pixelpos) ≠ 1) →
      selectTargetFrom K gpu scanline prnum pixelpos spriteBlendEnabled prsub (b :: rest)
        = if gpu.blendControl &&& K.BLDCNT_TGT2_BD ≠ 0 then some (palRead gpu.palette 0)
          else none := by
  intro rest
  induction rest with
  | nil =>
    intro b prsub hs h0 _
    have hsp : ¬ (spriteBlendEnabled = true
        ∧ getAlphaBit (scanline.spriteLayers b pixelpos) = 1) := by
      rintro ⟨h1, h2⟩
      exact hs h1 b (List.mem_cons_self b []) h2
    have hin := selectTargetInBucket_none gpu scanline prnum b pixelpos
      (List.range' prsub (scanline.prioritySortedBgsCount b - prsub))
      (fun i hi => by
        rw [List.mem_range'_1] at hi
        exact h0 i hi.1 (by omega))
    simp only [selectTargetFrom, hsp, if_false, hin]
  | cons c t ih =>
    intro b prsub hs h0 hrest
    have hsp : ¬ (spriteBlendEnabled = true
        ∧ getAlphaBit (scanline.spriteLayers b pixelpos) = 1) := by
      rintro ⟨h1, h2⟩
      exact hs h1 b (List.mem_cons_self b (c :: t)) h2
    have hin := selectTargetInBucket_none gpu scanline prnum b pixelpos
      (List.range' prsub (scanline.prioritySortedBgsCount b - prsub))
      (fun i hi => by
        rw [List.mem_range'_1] at hi
        exact h0 i hi.1 (by omega))
    have hnext := ih c 0
      (fun h1 p hp => hs h1 p (List.mem_cons_of_mem b hp))
      (fun i _ hi => hrest c (List.mem_cons_self c t) i hi)
      (fun p hp i hi => hrest p (List.mem_cons_of_mem c hp) i hi)
    simp only [selectTargetFrom, hsp, if_false, hin]
    exact hnext

/-- C7: when no sprite line (if sprite targets are allowed) and no plane line in
the searched buckets is opaque at the column, `alphaBlendSelectTargetB` succeeds
with palette entry 0 if `BLDCNT_TGT2_BD` is set and fails otherwise; and whenever
the search fails in blend mode 1, the merge step stores the source pixel of the
plane unmodified. -/
theorem alphaBlendSelectTargetB_no_target (K : Consts) (gpu : Gpu) (scanline : ScanlineData)
    (prnum prsub pixelpos : Nat) (spriteBlendEnabled : Bool) :
    ((spriteBlendEnabled = true →
        ∀ p, prnum ≤ p → p ≤ 3 → getAlphaBit (scanline.spriteLayers p pixelpos) ≠ 1) →
      (∀ p, prnum ≤ p → p ≤ 3 → ∀ i, i < scanline.prioritySortedBgsCount p →
        (p = prnum → prsub ≤ i) →
        getAlphaBit (scanline.layers (scanline.prioritySortedBgs p i) pixelpos) ≠ 1) →
      alphaBlendSelectTargetB K gpu scanline prnum prsub pixelpos spriteBlendEnabled
        = if gpu.blendControl &&& K.BLDCNT_TGT2_BD ≠ 0 then some (palRead gpu.palette 0)
          else none)
    ∧ (∀ (winOn : Bool) (bgnum : Nat) (pixels : Nat → Nat),
        (gpu.blendControl >>> 6) &&& 3 = 1 →
        alphaBlendSelectTargetB K gpu scanline prnum (prsub + 1) pixelpos
          (gpu.blendControl &&& K.BLDCNT_TGT2_OBJ != 0) = none →
        mergeBgColor K gpu scanline winOn prnum prsub bgnum pixelpos
            = scanline.layers bgnum pixelpos
          ∧ (getAlphaBit (scanline.layers bgnum pixelpos) ≠ 0 →
              ¬ (winOn = true ∧ scanline.winMask pixelpos &&& (1 <<< bgnum) = 0) →
              mergeBgPixel K gpu scanline winOn prnum prsub bgnum pixels pixelpos pixelpos
                = scanline.layers bgnum pixelpos)) := by
  constructor
  · intro hs hb
    unfold alphaBlendSelectTargetB
    by_cases hp : prnum ≤ 3
    · have hl : List.range' prnum (4 - prnum) = prnum :: List.range' (prnum + 1) (3 - prnum) := by
        have : 4 - prnum = (3 - prnum) + 1 := by omega
        rw [this, List.range'_succ]
      rw [hl]
      apply selectTargetFrom_no_target
      · intro h1 p hp'
        rw [← hl, List.mem_range'_1] at hp'
        exact hs h1 p hp'.1 (by omega)
      · intro i hi hlt
        exact hb prnum (le_refl _) hp i hlt (fun _ => hi)
      · intro p hp' i hi
        rw [List.mem_range'_1] at hp'
        exact hb p (by omega) (by omega) i hi (fun h => by omega)
    · have hl : List.range' prnum (4 - prnum) = [] := by
        have : 4 - prnum = 0 := by omega
        rw [this]; rfl
      rw [hl]
      simp only [selectTargetFrom]
  · intro winOn bgnum pixels hmode hnone
    have hcol : mergeBgColor K gpu scanline winOn prnum prsub bgnum pixelpos
        = scanline.layers bgnum pixelpos := by
      unfold mergeBgColor
      simp only [hmode, hnone]
      split_ifs <;> rfl
    refine ⟨hcol, ?_⟩
    intro ha hw
    unfold mergeBgPixel
    rw [if_neg ha, if_neg hw, Function.update_same, hcol]

/-! ## The merge step, column by column -/

theorem foldl_column {ι : Type} (S : (Nat → Nat) → ι → (Nat → Nat)) (A : ι → Bool)
    (V : ι → Nat) (y : Nat)
    (hS : ∀ q i, S q i y = if A i = true then V i else q y) (l : List ι) (q : Nat → Nat) :
    (l.foldl S q) y = l.foldl (fun acc i => if A i = true then V i else acc) (q y) := by
  induction l generalizing q with
  | nil => rfl
  | cons a t ih => rw [List.foldl_cons, ih, hS, List.foldl_cons]

theorem foldl_overwrite_reverse {ι : Type} (A : ι → Bool) (V : ι → Nat) (L : List ι)
    (e : Nat) :
    L.reverse.foldl (fun acc i => if A i = true then V i else acc) e
      = ((L.find? A).map V).getD e := by
  induction L with
  | nil => rfl
  | cons a t ih =>
    rw [List.reverse_cons, List.foldl_append, ih, List.find?_cons]
    cases h : A a <;> simp [h]

theorem mergeBgColor_no_blend (K : Consts) (gpu : Gpu) (scanline : ScanlineData) (winOn : Bool)
    (prnum prsub bgnum xpos : Nat) (hmode : (gpu.blendControl >>> 6) &&& 3 = 0) :
    mergeBgColor K gpu scanline winOn prnum prsub bgnum xpos = scanline.layers bgnum xpos := by
  unfold mergeBgColor
  simp [hmode]

theorem mergeBgStep_column (K : Consts) (H : Host) (gpu : Gpu) (scanline : ScanlineData)
    (winOn : Bool) (prnum prsub : Nat) (pixels : Nat → Nat) (y : Nat)
    (hmode : (gpu.blendControl >>> 6) &&& 3 = 0) :
    mergeBgStep K H gpu scanline winOn prnum pixels prsub y
      = if mergeAdmits K H gpu scanline winOn y
            (Layer.plane (scanline.prioritySortedBgs prnum prsub)) = true then
          layerPixel scanline y (Layer.plane (scanline.prioritySortedBgs prnum prsub))
        else pixels y := by
  have hstep : mergeBgPixel K gpu scanline winOn prnum prsub
        (scanline.prioritySortedBgs prnum prsub)
      = fun q x =>
          if (getAlphaBit (scanline.layers (scanline.prioritySortedBgs prnum prsub) x) ≠ 0
              ∧ ¬ (winOn = true ∧ scanline.winMask x
                    &&& (1 <<< scanline.prioritySortedBgs prnum prsub) = 0)) then
            Function.update q x (scanline.layers (scanline.prioritySortedBgs prnum prsub) x)
          else q := by
    funext q x
    unfold mergeBgPixel
    rw [mergeBgColor_no_blend K gpu scanline winOn prnum prsub _ x hmode]
    by_cases ha : getAlphaBit (scanline.layers (scanline.prioritySortedBgs prnum prsub) x) = 0
    · simp [ha]
    · by_cases hw : winOn = true ∧ scanline.winMask x
          &&& (1 <<< scanline.prioritySortedBgs prnum prsub) = 0
      · simp [ha, hw]
      · rw [if_neg ha, if_neg hw, if_pos ⟨ha, hw⟩]
  unfold mergeBgStep
  simp only [mergeAdmits, layerPixel]
  by_cases hen : isbgEnabled gpu (scanline.prioritySortedBgs prnum prsub) = true
  · rw [if_pos hen, hstep, foldl_update_if]
    simp only [hen, true_and, decide_eq_true_eq]
  · rw [if_neg hen]
    simp [hen]

theorem mergeSprite_column (K : Consts) (H : Host) (gpu : Gpu) (scanline : ScanlineData)
    (winOn : Bool) (prnum : Nat) (pixels : Nat → Nat) (y : Nat) :
    ((unsignedRange (GetScanlinePos K H gpu).1 (GetScanlinePos K H gpu).2).foldl
        (mergeSpritePixel scanline winOn prnum) pixels) y
      = if mergeAdmits K H gpu scanline winOn y (Layer.sprite prnum) = true then
          layerPixel scanline y (Layer.sprite prnum)
        else pixels y := by
  have hstep : mergeSpritePixel scanline winOn prnum
      = fun q x =>
          if (getAlphaBit (scanline.spriteLayers prnum x) ≠ 0
              ∧ ¬ (winOn = true ∧ scanline.winMask x &&& WINMASK_OBJ = 0)) then
            Function.update q x (scanline.spriteLayers prnum x)
          else q := by
    funext q x
    unfold mergeSpritePixel
    by_cases ha : getAlphaBit (scanline.spriteLayers prnum x) = 0
    · simp [ha]
    · by_cases hw : winOn = true ∧ scanline.winMask x &&& WINMASK_OBJ = 0
      · simp [ha, hw]
      · have hb : (getAlphaBit (scanline.spriteLayers prnum x) != 0) = true := by
          simpa using ha
        rw [if_pos hb, if_neg hw, if_pos ⟨ha, hw⟩]
  rw [hstep, foldl_update_if]
  simp only [mergeAdmits, layerPixel, decide_eq_true_eq]

theorem mergePriority_column (K : Consts) (H : Host) (gpu : Gpu) (scanline : ScanlineData)
    (winOn : Bool) (prnum : Nat) (pixels : Nat → Nat) (y : Nat)
    (hmode : (gpu.blendControl >>> 6) &&& 3 = 0) :
    mergePriority K H gpu scanline winOn pixels prnum y
      = (mergeOrderOfPriority scanline prnum).reverse.foldl
          (fun acc l => if mergeAdmits K H gpu scanline winOn y l = true then
            layerPixel scanline y l else acc) (pixels y) := by
  unfold mergePriority mergeOrderOfPriority
  rw [mergeSprite_column, List.reverse_cons, List.foldl_append, ← List.map_reverse,
    List.foldl_map]
  rw [foldl_column (mergeBgStep K H gpu scanline winOn prnum)
    (fun i => mergeAdmits K H gpu scanline winOn y
      (Layer.plane (scanline.prioritySortedBgs prnum i)))
    (fun i => layerPixel scanline y (Layer.plane (scanline.prioritySortedBgs prnum i))) y
    (fun q i => mergeBgStep_column K H gpu scanline winOn prnum i q y hmode)]
  rfl

theorem mergeLayers_column (K : Consts) (H : Host) (gpu : Gpu) (scanline : ScanlineData)
    (winOn : Bool) (pixels : Nat → Nat) (y : Nat)
    (hmode : (gpu.blendControl >>> 6) &&& 3 = 0) :
    mergeLayers K H gpu scanline winOn pixels y
      = (((mergeOrderOfPriority scanline 0 ++ mergeOrderOfPriority scanline 1
            ++ mergeOrderOfPriority scanline 2 ++ mergeOrderOfPriority scanline 3).find?
            (mergeAdmits K H gpu scanline winOn y)).map (layerPixel scanline y)).getD
          (pixels y) := by
  rw [← foldl_overwrite_reverse (mergeAdmits K H gpu scanline winOn y) (layerPixel scanline y)
    (mergeOrderOfPriority scanline 0 ++ mergeOrderOfPriority scanline 1
      ++ mergeOrderOfPriority scanline 2 ++ mergeOrderOfPriority scanline 3) (pixels y)]
  unfold mergeLayers
  simp only [List.foldl_cons, List.foldl_nil, List.reverse_append, List.foldl_append]
  rw [mergePriority_column K H gpu scanline winOn 0 _ y hmode,
    mergePriority_column K H gpu scanline winOn 1 _ y hmode,
    mergePriority_column K H gpu scanline winOn 2 _ y hmode,
    mergePriority_column K H gpu scanline winOn 3 _ y hmode]

/-! ## The bookkeeping loop -/

theorem and_one_shiftLeft_eq_zero (m b : Nat) :
    m &&& (1 <<< b) = 0 ↔ m.testBit b = false := by
  rw [Nat.one_shiftLeft]
  constructor
  · intro h
    have := Nat.testBit_and m (2 ^ b) b
    rw [h, Nat.zero_testBit, Nat.testBit_two_pow_self] at this
    simpa using this.symm
  · intro h
    apply Nat.eq_of_testBit_eq
    intro i
    rw [Nat.testBit_and, Nat.testBit_two_pow, Nat.zero_testBit]
    by_cases hbi : b = i
    · subst hbi; simp [h]
    · simp [hbi]

theorem find?_congr_mem {α : Type} {l : List α} {p q : α → Bool} (h : ∀ a ∈ l, p a = q a) :
    l.find? p = l.find? q := by
  induction l with
  | nil => rfl
  | cons a t ih =>
    rw [List.find?_cons, List.find?_cons, h a (List.mem_cons_self a t),
      ih (fun b hb => h b (List.mem_cons_of_mem a hb))]

theorem bucketList_succ (gpu : Gpu) (n p : Nat) :
    bucketList gpu (n + 1) p
      = bucketList gpu n p
        ++ (if (!(gpu.bg n).hidden && (toU16 (gpu.bg n).priority == p)) = true then [n]
            else []) := by
  unfold bucketList
  rw [List.range_succ, List.filter_append]
  by_cases h : (!(gpu.bg n).hidden && (toU16 (gpu.bg n).priority == p)) = true
  · rw [if_pos h]; simp [List.filter, h]
  · rw [if_neg h]; simp [List.filter, h]

theorem bookkeepStep_buckets (gpu : Gpu) (scanline : ScanlineData) (n : Nat)
    (h : BucketsAre gpu n scanline) : BucketsAre gpu (n + 1) (bookkeepStep gpu scanline n) := by
  intro p
  rw [bucketList_succ, ← h p]
  unfold bookkeepStep
  by_cases hh : (gpu.bg n).hidden = true
  · simp [hh]
  · have hh' : (gpu.bg n).hidden = false := by simpa using hh
    simp only [hh', Bool.false_eq_true, if_false, Bool.not_false, Bool.true_and]
    by_cases hp : toU16 (gpu.bg n).priority = p
    · subst hp
      simp only [Function.update_same, beq_self_eq_true, if_true]
      rw [List.range_succ, List.map_append, List.map_singleton, Function.update_same]
      congr 1
      apply List.map_congr_left
      intro i hi
      rw [List.mem_range] at hi
      exact Function.update_noteq (by omega) _ _
    · have hp' : (toU16 (gpu.bg n).priority == p) = false := by simpa using hp
      have hne : p ≠ toU16 (gpu.bg n).priority := fun e => hp e.symm
      simp only [hp', Bool.false_eq_true, if_false, List.append_nil,
        Function.update_noteq hne]

theorem bookkeep_buckets (gpu : Gpu) : BucketsAre gpu 4 (bookkeep gpu emptyScanline) := by
  have h0 : BucketsAre gpu 0 emptyScanline := by
    intro p; simp [emptyScanline, bucketList]
  have h1 := bookkeepStep_buckets gpu _ 0 h0
  have h2 := bookkeepStep_buckets gpu _ 1 h1
  have h3 := bookkeepStep_buckets gpu _ 2 h2
  have h4 := bookkeepStep_buckets gpu _ 3 h3
  exact h4

theorem bookkeepStep_lines (gpu : Gpu) (scanline : ScanlineData) (n : Nat) :
    (bookkeepStep gpu scanline n).layers = scanline.layers
      ∧ (bookkeepStep gpu scanline n).spriteLayers = scanline.spriteLayers
      ∧ (bookkeepStep gpu scanline n).winMask = scanline.winMask := by
  unfold bookkeepStep
  split_ifs <;> exact ⟨rfl, rfl, rfl⟩

theorem bookkeep_lines (gpu : Gpu) :
    (bookkeep gpu emptyScanline).layers = (fun _ _ => 0)
      ∧ (bookkeep gpu emptyScanline).spriteLayers = (fun _ _ => 0)
      ∧ (bookkeep gpu emptyScanline).winMask = (fun _ => 0) := by
  have e : bookkeep gpu emptyScanline
      = bookkeepStep gpu (bookkeepStep gpu (bookkeepStep gpu
          (bookkeepStep gpu emptyScanline 0) 1) 2) 3 := rfl
  rw [e]
  refine ⟨?_, ?_, ?_⟩
  · rw [(bookkeepStep_lines gpu _ 3).1, (bookkeepStep_lines gpu _ 2).1,
      (bookkeepStep_lines gpu _ 1).1, (bookkeepStep_lines gpu _ 0).1]; rfl
  · rw [(bookkeepStep_lines gpu _ 3).2.1, (bookkeepStep_lines gpu _ 2).2.1,
      (bookkeepStep_lines gpu _ 1).2.1, (bookkeepStep_lines gpu _ 0).2.1]; rfl
  · rw [(bookkeepStep_lines gpu _ 3).2.2, (bookkeepStep_lines gpu _ 2).2.2,
      (bookkeepStep_lines gpu _ 1).2.2, (bookkeepStep_lines gpu _ 0).2.2]; rfl

theorem mergeOrderOfPriority_eq (gpu : Gpu) (scanline : ScanlineData) (n p : Nat)
    (h : BucketsAre gpu n scanline) :
    mergeOrderOfPriority scanline p = Layer.sprite p :: (bucketList gpu n p).map Layer.plane := by
  unfold mergeOrderOfPriority
  rw [← h p, List.map_map]
  rfl

/-! ## What the plane renderers leave untouched -/

theorem foldl_invariant {σ ι : Type} (P : σ → Prop) (f : σ → ι → σ)
    (hf : ∀ s i, P s → P (f s i)) (l : List ι) (s : σ) (hs : P s) : P (l.foldl f s) := by
  induction l generalizing s with
  | nil => exact hs
  | cons a t ih => exact ih (f s a) (hf s a hs)

theorem bgColumnStep_eq (K : Consts) (gpu : Gpu) (bgNum : Nat) (hoffs voffs : Nat)
    (lineNum lineStart : Int) :
    bgColumnStep K gpu bgNum hoffs voffs lineNum lineStart
      = fun q x =>
          if ((gpu.bg bgNum).palettes = true
              ∨ (bgFetchPixel K gpu bgNum hoffs voffs lineNum lineStart x).1 ≠ 0) then
            Function.update q x
              (if (gpu.bg bgNum).palettes = true then
                toU16 (palRead gpu.palette
                  (bgFetchPixel K gpu bgNum hoffs voffs lineNum lineStart x).1 ||| 0x8000)
              else
                toU16 (palRead gpu.palette
                  (16 * (bgFetchPixel K gpu bgNum hoffs voffs lineNum lineStart x).2
                    + (bgFetchPixel K gpu bgNum hoffs voffs lineNum lineStart x).1) ||| 0x8000))
          else q := by
  funext q x
  unfold bgColumnStep
  by_cases hp : (gpu.bg bgNum).palettes = true
  · simp [hp]
  · by_cases hz : (bgFetchPixel K gpu bgNum hoffs voffs lineNum lineStart x).1 = 0
    · simp [hp, hz]
    · simp [hp, hz]

theorem RenderBGScanline_apply (K : Consts) (H : Host) (gpu : Gpu) (bgNum hoffs voffs : Nat)
    (lineNum : Int) (line : Nat → Nat) (y : Nat) :
    RenderBGScanline K H gpu bgNum hoffs voffs lineNum line y
      = if bgScanlineSkipped K H gpu bgNum lineNum = false
            ∧ y ∈ unsignedRange (GetBGScanlinePos K H gpu bgNum).1 (GetBGScanlinePos K H gpu bgNum).2
            ∧ ((gpu.bg bgNum).palettes = true
              ∨ (bgFetchPixel K gpu bgNum (bgScroll (gpu.bg bgNum) hoffs)
                  (bgScroll (gpu.bg bgNum) voffs) (bgSourceLine K H gpu bgNum lineNum)
                  (GetBGScanlinePos K H gpu bgNum).1 y).1 ≠ 0) then
          (if (gpu.bg bgNum).palettes = true then
            toU16 (palRead gpu.palette
              (bgFetchPixel K gpu bgNum (bgScroll (gpu.bg bgNum) hoffs)
                (bgScroll (gpu.bg bgNum) voffs) (bgSourceLine K H gpu bgNum lineNum)
                (GetBGScanlinePos K H gpu bgNum).1 y).1 ||| 0x8000)
          else
            toU16 (palRead gpu.palette
              (16 * (bgFetchPixel K gpu bgNum (bgScroll (gpu.bg bgNum) hoffs)
                (bgScroll (gpu.bg bgNum) voffs) (bgSourceLine K H gpu bgNum lineNum)
                (GetBGScanlinePos K H gpu bgNum).1 y).2
                + (bgFetchPixel K gpu bgNum (bgScroll (gpu.bg bgNum) hoffs)
                (bgScroll (gpu.bg bgNum) voffs) (bgSourceLine K H gpu bgNum lineNum)
                (GetBGScanlinePos K H gpu bgNum).1 y).1) ||| 0x8000))
        else line y := by
  unfold RenderBGScanline
  by_cases hs : bgScanlineSkipped K H gpu bgNum lineNum = true
  · simp [hs]
  · have hs' : bgScanlineSkipped K H gpu bgNum lineNum = false := by simpa using hs
    rw [if_neg hs, bgColumnStep_eq, foldl_update_if]
    simp only [hs', true_and]

theorem RenderBGScanline_outside (K : Consts) (H : Host) (gpu : Gpu) (bgNum hoffs voffs : Nat)
    (lineNum : Int) (line : Nat → Nat) (y : Nat)
    (hy : y ∉ unsignedRange (GetBGScanlinePos K H gpu bgNum).1 (GetBGScanlinePos K H gpu bgNum).2) :
    RenderBGScanline K H gpu bgNum hoffs voffs lineNum line y = line y := by
  rw [RenderBGScanline_apply]
  simp [hy]

theorem rotScaleStore_outside (gpu : Gpu) (bg : GpuBgState) (yshift xxx yyy : Nat)
    (line : Nat → Nat) (x y : Nat) (hxy : y ≠ x) :
    rotScaleStore gpu bg yshift xxx yyy line x y = line y := by
  unfold rotScaleStore
  split_ifs
  · exact Function.update_noteq hxy _ _
  · rfl

theorem rotScaleColumnStep_outside (gpu : Gpu) (bg : GpuBgState) (size yshift : Nat)
    (pa pc : Int) (st : (Nat → Nat) × Int × Int) (x y : Nat) (hxy : y ≠ x) :
    (rotScaleColumnStep gpu bg size yshift pa pc st x).1 y = st.1 y := by
  unfold rotScaleColumnStep
  dsimp only
  by_cases h : bg.areaOverflowMode = true
  · rw [if_pos h]
    exact rotScaleStore_outside gpu bg yshift _ _ _ x y hxy
  · rw [if_neg h]
    by_cases h2 : ¬ (st.2.1 >>> 8 < 0 ∨ st.2.2 >>> 8 < 0 ∨ st.2.1 >>> 8 ≥ (size : Int)
        ∨ st.2.2 >>> 8 ≥ (size : Int))
    · rw [if_pos h2]
      exact rotScaleStore_outside gpu bg yshift _ _ _ x y hxy
    · rw [if_neg h2]

theorem rotScaleColumns_outside (gpu : Gpu) (bg : GpuBgState) (size yshift : Nat)
    (pa pc : Int) (l : List Nat) (st : (Nat → Nat) × Int × Int) (y : Nat) (hy : y ∉ l) :
    (l.foldl (rotScaleColumnStep gpu bg size yshift pa pc) st).1 y = st.1 y := by
  induction l generalizing st with
  | nil => rfl
  | cons a t ih =>
    rw [List.foldl_cons, ih _ (fun h => hy (List.mem_cons_of_mem a h))]
    exact rotScaleColumnStep_outside gpu bg size yshift pa pc st a y
      (fun h => hy (by rw [h]; exact List.mem_cons_self a t))

theorem rotScaleMosaicPass_outside (gpu : Gpu) (bg : GpuBgState) (l : List Nat)
    (line : Nat → Nat) (y : Nat) (hy : y ∉ l) : rotScaleMosaicPass gpu bg l line y = line y := by
  unfold rotScaleMosaicPass
  split_ifs
  · clear * - hy
    induction l generalizing line with
    | nil => rfl
    | cons a t ih =>
      rw [List.foldl_cons, ih _ (fun h => hy (List.mem_cons_of_mem a h))]
      unfold rotScaleMosaicStep
      exact Function.update_noteq (fun h => hy (by rw [h]; exact List.mem_cons_self a t)) _ _
  · rfl

theorem RenderRotScaleBGScanline_outside (K : Consts) (H : Host) (gpu : Gpu)
    (bgNum bgX bgY : Nat) (lineNum : Int) (line : Nat → Nat) (y : Nat)
    (hy : y ∉ unsignedRange (GetBGScanlinePos K H gpu bgNum).1 (GetBGScanlinePos K H gpu bgNum).2) :
    RenderRotScaleBGScanline K H gpu bgNum bgX bgY lineNum line y = line y := by
  unfold RenderRotScaleBGScanline
  by_cases hs : rotScaleSkipped K H gpu bgNum lineNum = true
  · rw [if_pos hs]
  · rw [if_neg hs]
    cases hsz : rotScaleSize (gpu.bg bgNum).screenWidth with
    | none => rfl
    | some sz =>
      obtain ⟨size, yshift⟩ := sz
      dsimp only
      rw [rotScaleMosaicPass_outside gpu _ _ _ y hy, rotScaleColumns_outside _ _ _ _ _ _ _ _ y hy]

/-! ## What the sprite renderer leaves untouched -/

theorem SpriteFrame_refl (K : Consts) (H : Host) (gpu : Gpu) (sd : ScanlineData) :
    SpriteFrame K H gpu sd sd :=
  ⟨rfl, rfl, rfl, fun _ _ _ => rfl⟩

theorem spriteStore_frame (K : Consts) (H : Host) (gpu : Gpu) (oam : OamData) (winOn : Bool)
    (before sd : ScanlineData) (global_x pixel : Nat)
    (hx : global_x ∈ unsignedRange (GetScanlinePos K H gpu).1 (GetScanlinePos K H gpu).2)
    (h : SpriteFrame K H gpu before sd) :
    SpriteFrame K H gpu before (spriteStore K H gpu oam winOn sd global_x pixel) := by
  unfold spriteStore
  dsimp only
  by_cases h0 : pixel = 0
  · rw [if_pos h0]; exact h
  · rw [if_neg h0]
    by_cases h1 : oam.objMode = 2
    · rw [if_pos h1]
      by_cases h2 : (sd.winMask global_x &&& WINMASK_WINOUT != 0) = true
      · rw [if_pos h2]; exact ⟨h.1, h.2.1, h.2.2.1, h.2.2.2⟩
      · rw [if_neg h2]; exact h
    · rw [if_neg h1]
      by_cases h3 : global_x < toU32 H.displayWidth
      · rw [if_pos h3]
        refine ⟨h.1, h.2.1, h.2.2.1, ?_⟩
        intro p y hy
        have hne : y ≠ global_x := fun e => hy (e ▸ hx)
        dsimp only
        by_cases hp : p = oam.priority
        · subst hp
          rw [Function.update_same, Function.update_noteq hne]
          exact h.2.2.2 _ y hy
        · rw [Function.update_noteq hp]
          exact h.2.2.2 p y hy
      · rw [if_neg h3]; exact h

theorem spriteColumnStep_frame (K : Consts) (H : Host) (gpu : Gpu) (oam : OamData)
    (width height : Nat) (m : SpriteMatrix) (x local_y : Int) (winOn : Bool)
    (before sd : ScanlineData) (local_x : Int) (h : SpriteFrame K H gpu before sd) :
    SpriteFrame K H gpu before
      (spriteColumnStep K H gpu oam width height m x local_y winOn sd local_x) := by
  unfold spriteColumnStep
  dsimp only
  by_cases hr : toU32 (local_x + x) < toU32 (GetScanlinePos K H gpu).1
      ∨ toU32 (local_x + x) ≥ toU32 (GetScanlinePos K H gpu).2
  · rw [if_pos hr]; exact h
  · rw [if_neg hr]
    have hmem : toU32 (local_x + x)
        ∈ unsignedRange (GetScanlinePos K H gpu).1 (GetScanlinePos K H gpu).2 := by
      rw [mem_unsignedRange]; omega
    split
    · exact h
    · exact spriteStore_frame K H gpu oam winOn before sd _ _ hmem h

theorem spriteStep_frame (K : Consts) (H : Host) (gpu : Gpu) (vcount : Nat) (winOn : Bool)
    (before : ScanlineData) (st : SpriteMatrix × ScanlineData) (i : Nat)
    (h : SpriteFrame K H gpu before st.2) :
    SpriteFrame K H gpu before (spriteStep K H gpu vcount winOn st i).2 := by
  unfold spriteStep
  dsimp only
  split
  · exact h
  · split
    · exact h
    · split
      · exact foldl_invariant (SpriteFrame K H gpu before) _
          (fun s lx hs => spriteColumnStep_frame K H gpu _ _ _ _ _ _ winOn before s lx hs) _ _ h
      · exact h

theorem DrawSprites_frame (K : Consts) (H : Host) (gpu : Gpu) (scanline : ScanlineData)
    (vcount : Nat) (winOn : Bool) :
    SpriteFrame K H gpu scanline (DrawSprites K H gpu scanline vcount winOn) := by
  unfold DrawSprites
  exact foldl_invariant (fun st => SpriteFrame K H gpu scanline st.2)
    (spriteStep K H gpu vcount winOn)
    (fun st i hs => spriteStep_frame K H gpu vcount winOn scanline st i hs)
    (List.range K.MAX_OAM_SPRITES).reverse
    ({ m00 := 0, m01 := 0, m10 := 0, m11 := 0 }, scanline)
    (SpriteFrame_refl K H gpu scanline)

/-! ## The working set at the start of the merge step -/

theorem renderStep_frame (K : Consts) (H : Host) (gpu : Gpu) (vcount : Nat)
    (scanline : ScanlineData) (n : Nat) :
    (renderStep K H gpu vcount scanline n).prioritySortedBgs = scanline.prioritySortedBgs
      ∧ (renderStep K H gpu vcount scanline n).prioritySortedBgsCount
          = scanline.prioritySortedBgsCount
      ∧ (renderStep K H gpu vcount scanline n).spriteLayers = scanline.spriteLayers
      ∧ (renderStep K H gpu vcount scanline n).winMask = scanline.winMask
      ∧ ∀ b y, y ∉ unsignedRange (GetBGScanlinePos K H gpu b).1 (GetBGScanlinePos K H gpu b).2 →
          (renderStep K H gpu vcount scanline n).layers b y = scanline.layers b y := by
  unfold renderStep
  split_ifs with hc ha
  · refine ⟨rfl, rfl, rfl, rfl, ?_⟩
    intro b y hy
    dsimp only
    by_cases hb : b = n
    · subst hb
      rw [Function.update_same]
      exact RenderRotScaleBGScanline_outside K H gpu b _ _ _ _ y hy
    · rw [Function.update_noteq hb]
  · refine ⟨rfl, rfl, rfl, rfl, ?_⟩
    intro b y hy
    dsimp only
    by_cases hb : b = n
    · subst hb
      rw [Function.update_same]
      exact RenderBGScanline_outside K H gpu b _ _ _ _ y hy
    · rw [Function.update_noteq hb]
  · exact ⟨rfl, rfl, rfl, rfl, fun _ _ _ => rfl⟩

theorem renderLayers_frame (K : Consts) (H : Host) (gpu : Gpu) (vcount : Nat)
    (scanline : ScanlineData) :
    (renderLayers K H gpu vcount scanline).prioritySortedBgs = scanline.prioritySortedBgs
      ∧ (renderLayers K H gpu vcount scanline).prioritySortedBgsCount
          = scanline.prioritySortedBgsCount
      ∧ (renderLayers K H gpu vcount scanline).spriteLayers = scanline.spriteLayers
      ∧ (renderLayers K H gpu vcount scanline).winMask = scanline.winMask
      ∧ ∀ b y, y ∉ unsignedRange (GetBGScanlinePos K H gpu b).1 (GetBGScanlinePos K H gpu b).2 →
          (renderLayers K H gpu vcount scanline).layers b y = scanline.layers b y := by
  unfold renderLayers
  exact foldl_invariant
    (fun sd : ScanlineData => sd.prioritySortedBgs = scanline.prioritySortedBgs
      ∧ sd.prioritySortedBgsCount = scanline.prioritySortedBgsCount
      ∧ sd.spriteLayers = scanline.spriteLayers
      ∧ sd.winMask = scanline.winMask
      ∧ ∀ b y, y ∉ unsignedRange (GetBGScanlinePos K H gpu b).1 (GetBGScanlinePos K H gpu b).2 →
          sd.layers b y = scanline.layers b y) _
    (fun sd n hsd => by
      have hn := renderStep_frame K H gpu vcount sd n
      refine ⟨hn.1.trans hsd.1, hn.2.1.trans hsd.2.1, hn.2.2.1.trans hsd.2.2.1,
        hn.2.2.2.1.trans hsd.2.2.2.1, ?_⟩
      intro b y hy
      rw [hn.2.2.2.2 b y hy, hsd.2.2.2.2 b y hy]) _ _
    ⟨rfl, rfl, rfl, rfl, fun _ _ _ => rfl⟩

theorem scanlineBeforeMerge_frame (K : Consts) (H : Host) (gpu : Gpu) (vcount : Nat) :
    BucketsAre gpu 4 (scanlineBeforeMerge K H gpu vcount)
      ∧ (∀ b y, y ∉ unsignedRange (GetBGScanlinePos K H gpu b).1 (GetBGScanlinePos K H gpu b).2 →
          (scanlineBeforeMerge K H gpu vcount).layers b y = 0)
      ∧ (∀ p y, y ∉ unsignedRange (GetScanlinePos K H gpu).1 (GetScanlinePos K H gpu).2 →
          (scanlineBeforeMerge K H gpu vcount).spriteLayers p y = 0) := by
  have hr := renderLayers_frame K H gpu vcount (bookkeep gpu emptyScanline)
  have hb := bookkeep_buckets gpu
  have hl := bookkeep_lines gpu
  have hbuckets : BucketsAre gpu 4
      { renderLayers K H gpu vcount (bookkeep gpu emptyScanline) with
        winMask := drawWinMask K H gpu vcount
          (renderLayers K H gpu vcount (bookkeep gpu emptyScanline)).winMask } := by
    intro p
    have := hb p
    dsimp only
    rw [hr.1, hr.2.1]
    exact this
  have hlay : ∀ b y,
      y ∉ unsignedRange (GetBGScanlinePos K H gpu b).1 (GetBGScanlinePos K H gpu b).2 →
      (renderLayers K H gpu vcount (bookkeep gpu emptyScanline)).layers b y = 0 := by
    intro b y hy
    rw [hr.2.2.2.2 b y hy, hl.1]
  have hspr : ∀ p y,
      (renderLayers K H gpu vcount (bookkeep gpu emptyScanline)).spriteLayers p y = 0 := by
    intro p y
    rw [hr.2.2.1, hl.2.1]
  unfold scanlineBeforeMerge
  dsimp only
  split_ifs
  · have hf := DrawSprites_frame K H gpu
      { renderLayers K H gpu vcount (bookkeep gpu emptyScanline) with
        winMask := drawWinMask K H gpu vcount
          (renderLayers K H gpu vcount (bookkeep gpu emptyScanline)).winMask }
      vcount (windowsEnabled K gpu)
    refine ⟨?_, ?_, ?_⟩
    · intro p
      rw [hf.2.1, hf.2.2.1]
      exact hbuckets p
    · intro b y hy
      rw [hf.1]
      exact hlay b y hy
    · intro p y hy
      rw [hf.2.2.2 p y hy]
      exact hspr p y
  · exact ⟨hbuckets, hlay, fun p y _ => hspr p y⟩

/-! ## The merge step against the front-most-layer rule -/

theorem getAlphaBit_ne_zero_iff (v : Nat) : getAlphaBit v ≠ 0 ↔ getAlphaBit v = 1 := by
  rw [getAlphaBit_eq]; omega

theorem getAlphaBit_zero : getAlphaBit 0 = 0 := by decide

theorem window_bit_iff (winOn : Bool) (m b : Nat) :
    ¬ (winOn = true ∧ m &&& (1 <<< b) = 0) ↔ (!winOn || m.testBit b) = true := by
  rw [and_one_shiftLeft_eq_zero]
  cases winOn <;> cases m.testBit b <;> simp

theorem mergeAdmits_sprite (K : Consts) (H : Host) (gpu : Gpu) (sd : ScanlineData) (winOn : Bool)
    (x p : Nat)
    (hspr : x ∉ unsignedRange (GetScanlinePos K H gpu).1 (GetScanlinePos K H gpu).2 →
      sd.spriteLayers p x = 0) :
    mergeAdmits K H gpu sd winOn x (Layer.sprite p) = layerCounts gpu sd winOn x (Layer.sprite p) := by
  rw [Bool.eq_iff_iff]
  simp only [mergeAdmits, layerCounts, decide_eq_true_eq, Bool.and_eq_true, beq_iff_eq]
  have hw := window_bit_iff winOn (sd.winMask x) 4
  have ho : WINMASK_OBJ = 1 <<< 4 := rfl
  rw [ho, hw, getAlphaBit_ne_zero_iff]
  constructor
  · exact fun h => ⟨h.2.1, h.2.2⟩
  · intro h
    refine ⟨?_, h.1, h.2⟩
    by_contra hx
    have := h.1
    rw [hspr hx, getAlphaBit_zero] at this
    omega

theorem mergeAdmits_plane (K : Consts) (H : Host) (gpu : Gpu) (sd : ScanlineData) (winOn : Bool)
    (x b : Nat)
    (hlay : x ∉ unsignedRange (GetBGScanlinePos K H gpu b).1 (GetBGScanlinePos K H gpu b).2 →
      sd.layers b x = 0) :
    mergeAdmits K H gpu sd winOn x (Layer.plane b) = true
      ↔ isbgEnabled gpu b = true ∧ getAlphaBit (sd.layers b x) = 1
          ∧ (!winOn || (sd.winMask x).testBit b) = true := by
  simp only [mergeAdmits, decide_eq_true_eq]
  rw [window_bit_iff, getAlphaBit_ne_zero_iff]
  constructor
  · exact fun h => ⟨h.1, h.2.2.1, h.2.2.2⟩
  · intro h
    refine ⟨h.1, ?_, h.2.1, h.2.2⟩
    by_contra hx
    have := h.2.1
    rw [hlay hx, getAlphaBit_zero] at this
    omega

theorem toU16_of_le_three (n : Nat) (h : n ≤ 3) : toU16 n = n := by
  unfold toU16; omega

theorem merge_find_priority (K : Consts) (H : Host) (gpu : Gpu) (sd : ScanlineData)
    (winOn : Bool) (x p : Nat) (hb : BucketsAre gpu 4 sd)
    (hprio : ∀ b, b < 4 → (gpu.bg b).priority ≤ 3)
    (hlay : ∀ b, x ∉ unsignedRange (GetBGScanlinePos K H gpu b).1 (GetBGScanlinePos K H gpu b).2 →
      sd.layers b x = 0)
    (hspr : ∀ q, x ∉ unsignedRange (GetScanlinePos K H gpu).1 (GetScanlinePos K H gpu).2 →
      sd.spriteLayers q x = 0) :
    (mergeOrderOfPriority sd p).find? (mergeAdmits K H gpu sd winOn x)
      = (layersOfPriority gpu p).find? (layerCounts gpu sd winOn x) := by
  rw [mergeOrderOfPriority_eq gpu sd 4 p hb]
  unfold layersOfPriority bucketList
  rw [List.find?_cons, List.find?_cons, mergeAdmits_sprite K H gpu sd winOn x p (hspr p),
    List.find?_map, List.find?_map, List.find?_filter, List.find?_filter]
  have hplanes : List.find? (fun a => decide
        ((!(gpu.bg a).hidden && toU16 (gpu.bg a).priority == p) = true
          ∧ (mergeAdmits K H gpu sd winOn x ∘ Layer.plane) a = true)) (List.range 4)
      = List.find? (fun a => decide
        (((gpu.bg a).priority == p) = true
          ∧ (layerCounts gpu sd winOn x ∘ Layer.plane) a = true)) (List.range NUM_BACKGROUNDS) := by
    apply find?_congr_mem
    intro b hbm
    rw [List.mem_range] at hbm
    rw [Bool.eq_iff_iff]
    simp only [decide_eq_true_eq, Function.comp, Bool.and_eq_true, beq_iff_eq,
      Bool.not_eq_true']
    rw [mergeAdmits_plane K H gpu sd winOn x b (hlay b), toU16_of_le_three _ (hprio b hbm)]
    simp only [layerCounts, Bool.and_eq_true, beq_iff_eq, Bool.not_eq_true']
    tauto
  rw [hplanes]

theorem frontMostPixel_eq (gpu : Gpu) (sd : ScanlineData) (winOn : Bool) (entry x : Nat) :
    frontMostPixel gpu sd winOn entry x
      = (((layersFrontToBack gpu).find? (layerCounts gpu sd winOn x)).map
          (layerPixel sd x)).getD entry := by
  unfold frontMostPixel
  cases (layersFrontToBack gpu).find? (layerCounts gpu sd winOn x) <;> rfl

theorem mergeLayers_frontMost (K : Consts) (H : Host) (gpu : Gpu) (sd : ScanlineData)
    (winOn : Bool) (pixels : Nat → Nat) (x : Nat)
    (hmode : (gpu.blendControl >>> 6) &&& 3 = 0) (hb : BucketsAre gpu 4 sd)
    (hprio : ∀ b, b < 4 → (gpu.bg b).priority ≤ 3)
    (hlay : ∀ b, x ∉ unsignedRange (GetBGScanlinePos K H gpu b).1 (GetBGScanlinePos K H gpu b).2 →
      sd.layers b x = 0)
    (hspr : ∀ q, x ∉ unsignedRange (GetScanlinePos K H gpu).1 (GetScanlinePos K H gpu).2 →
      sd.spriteLayers q x = 0) :
    mergeLayers K H gpu sd winOn pixels x = frontMostPixel gpu sd winOn (pixels x) x := by
  rw [mergeLayers_column K H gpu sd winOn pixels x hmode, frontMostPixel_eq]
  unfold layersFrontToBack
  simp only [List.find?_append]
  rw [merge_find_priority K H gpu sd winOn x 0 hb hprio hlay hspr,
    merge_find_priority K H gpu sd winOn x 1 hb hprio hlay hspr,
    merge_find_priority K H gpu sd winOn x 2 hb hprio hlay hspr,
    merge_find_priority K H gpu sd winOn x 3 hb hprio hlay hspr]

theorem DrawScanline_eq_frontMost (K : Consts) (H : Host) (gpu : Gpu) (pixels : Nat → Nat)
    (vcount x : Nat) (hmode : (gpu.blendControl >>> 6) &&& 3 = 0)
    (hprio : ∀ b, b < 4 → (gpu.bg b).priority ≤ 3) :
    DrawScanline K H gpu pixels vcount x
      = frontMostPixel gpu (scanlineBeforeMerge K H gpu (toU16 vcount)) (windowsEnabled K gpu)
          (pixels x) x := by
  have hf := scanlineBeforeMerge_frame K H gpu (toU16 vcount)
  unfold DrawScanline
  exact mergeLayers_frontMost K H gpu _ _ pixels x hmode hf.1 hprio
    (fun b hx => hf.2.1 b x hx) (fun q hx => hf.2.2 q x hx)

/-- C1: with blend mode 0, `DrawScanline` leaves in each column `x` the pixel of
the front-most layer that counts there (sprite buffer before planes of the same
priority value, planes of equal priority by ascending index, priority values
ascending from 0 to 3), where a layer counts if its pixel is opaque and, with
windows enabled, its bit is set in `winMask[x]`, a plane moreover being not
hidden and enabled in the display control; if no layer counts the column keeps
its value on entry. -/
theorem DrawScanline_frontMost (K : Consts) (H : Host) (gpu : Gpu) (pixels : Nat → Nat)
    (vcount x : Nat) (hmode : (gpu.blendControl >>> 6) &&& 3 = 0)
    (hprio : ∀ b, b < 4 → (gpu.bg b).priority ≤ 3) :
    DrawScanline K H gpu pixels vcount x
      = frontMostPixel gpu (scanlineBeforeMerge K H gpu (toU16 vcount)) (windowsEnabled K gpu)
          (pixels x) x := by
  have hf := scanlineBeforeMerge_frame K H gpu (toU16 vcount)
  have hbuckets : BucketsAre gpu 4 (scanlineBeforeMerge K H gpu (toU16 vcount)) := hf.1
  have hlay : ∀ b,
      x ∉ unsignedRange (GetBGScanlinePos K H gpu b).1 (GetBGScanlinePos K H gpu b).2 →
      (scanlineBeforeMerge K H gpu (toU16 vcount)).layers b x = 0 :=
    fun b hx => hf.2.1 b x hx
  have hspr : ∀ q,
      x ∉ unsignedRange (GetScanlinePos K H gpu).1 (GetScanlinePos K H gpu).2 →
      (scanlineBeforeMerge K H gpu (toU16 vcount)).spriteLayers q x = 0 :=
    fun q hx => hf.2.2 q x hx
  unfold DrawScanline
  exact mergeLayers_frontMost K H gpu _ _ pixels x hmode hbuckets hprio hlay hspr

set_option maxRecDepth 20000 in
theorem layeredGpu_column5 :
    DrawScanline gbaConsts narrowHost layeredGpu (fun _ => 7) 0 5 = 0x8013 := by decide

set_option maxRecDepth 20000 in
theorem layeredGpu_column9 :
    DrawScanline gbaConsts narrowHost layeredGpu (fun _ => 7) 0 9 = 0x8001 := by decide

set_option maxRecDepth 20000 in
theorem layeredGpu_column15 :
    DrawScanline gbaConsts narrowHost layeredGpu (fun _ => 7) 0 15 = 7 := by decide

set_option maxRecDepth 20000 in
theorem layeredGpu_column32 :
    DrawScanline gbaConsts narrowHost layeredGpu (fun _ => 7) 0 32 = 0x8004 := by decide

/-- Instance of C1 on `layeredGpu` with a display 40 columns wide (blend mode 0,
planes 0 and 1 of priority 1, plane 2 of priority 0, a sprite of priority 1 over
the columns 0 .. 7, both windows on), line 0, every column holding 7 on entry.  Column 5 lies in window 0,
which admits planes 0 and 1 and the sprites but not plane 2: the sprite pixel
`0x8013` is shown, in front of the planes of its own priority.  Column 9 lies in
window 0 beyond the sprite: plane 0 (`0x8001`) is shown in front of plane 1, the
plane of equal priority and higher index.  Column 15 lies in window 1, which
admits nothing: the column keeps 7 although three planes are opaque there.
Column 32 lies outside both windows, where planes 1 and 2 are admitted: plane 2
(`0x8004`), of priority 0, is shown in front of plane 1. -/
theorem DrawScanline_frontMost_witness :
    (layeredGpu.blendControl >>> 6) &&& 3 = 0
      ∧ (∀ b, b < 4 → (layeredGpu.bg b).priority ≤ 3)
      ∧ frontMostPixel layeredGpu
          (scanlineBeforeMerge gbaConsts narrowHost layeredGpu (toU16 0))
          (windowsEnabled gbaConsts layeredGpu) 7 5 = 0x8013
      ∧ frontMostPixel layeredGpu
          (scanlineBeforeMerge gbaConsts narrowHost layeredGpu (toU16 0))
          (windowsEnabled gbaConsts layeredGpu) 7 9 = 0x8001
      ∧ frontMostPixel layeredGpu
          (scanlineBeforeMerge gbaConsts narrowHost layeredGpu (toU16 0))
          (windowsEnabled gbaConsts layeredGpu) 7 15 = 7
      ∧ frontMostPixel layeredGpu
          (scanlineBeforeMerge gbaConsts narrowHost layeredGpu (toU16 0))
          (windowsEnabled gbaConsts layeredGpu) 7 32 = 0x8004 := by
  have hmode : (layeredGpu.blendControl >>> 6) &&& 3 = 0 := by decide
  have hprio : ∀ b, b < 4 → (layeredGpu.bg b).priority ≤ 3 := by decide
  have e := DrawScanline_frontMost gbaConsts narrowHost layeredGpu (fun _ => 7) 0
  exact ⟨hmode, hprio, Eq.trans (Eq.symm (e 5 hmode hprio)) layeredGpu_column5,
    Eq.trans (Eq.symm (e 9 hmode hprio)) layeredGpu_column9,
    Eq.trans (Eq.symm (e 15 hmode hprio)) layeredGpu_column15,
    Eq.trans (Eq.symm (e 32 hmode hprio)) layeredGpu_column32⟩

/-- Instance of C7: nothing is opaque in the empty working set, the backdrop
flag is set, and the search yields palette entry 0. -/
theorem alphaBlendSelectTargetB_no_target_witness :
    alphaBlendSelectTargetB gbaConsts { zeroGpu with blendControl := 0x2040 } emptyScanline
        0 0 0 true
      = if ({ zeroGpu with blendControl := 0x2040 } : Gpu).blendControl
            &&& gbaConsts.BLDCNT_TGT2_BD ≠ 0 then
          some (palRead ({ zeroGpu with blendControl := 0x2040 } : Gpu).palette 0)
        else none :=
  (alphaBlendSelectTargetB_no_target gbaConsts { zeroGpu with blendControl := 0x2040 }
    emptyScanline 0 0 0 true).1
    (fun _ _ _ _ => show getAlphaBit 0 ≠ 1 by decide)
    (fun _ _ _ _ _ _ => show getAlphaBit 0 ≠ 1 by decide)

/-! ## The 8bpp store of the text-mode renderer -/

/-- C8, the defect: for an 8bpp text-mode plane whose fetched colour index is 0
(all character data zero), `RenderBGScanline` still stores palette entry 0 with
bit 15 set into `line[0]`, so the pixel is opaque instead of transparent. -/
theorem RenderBGScanline_8bpp_index0_stored :
    (bgFetchPixel gbaConsts
        { zeroGpu with
          bg := fun _ => { zeroBg with palettes := true, screenWidth := 256, screenHeight := 256 } }
        0 0 0 0 0 0).1 = 0
    ∧ RenderBGScanline gbaConsts plainHost
        { zeroGpu with
          bg := fun _ => { zeroBg with palettes := true, screenWidth := 256, screenHeight := 256 } }
        0 0 0 0 (fun _ => 0) 0 = 0x8000
    ∧ getAlphaBit (RenderBGScanline gbaConsts plainHost
        { zeroGpu with
          bg := fun _ => { zeroBg with palettes := true, screenWidth := 256, screenHeight := 256 } }
        0 0 0 0 (fun _ => 0) 0) = 1 := by
  have hv : RenderBGScanline gbaConsts plainHost
        { zeroGpu with
          bg := fun _ => { zeroBg with palettes := true, screenWidth := 256, screenHeight := 256 } }
        0 0 0 0 (fun _ => 0) 0 = 0x8000 := by
    rw [RenderBGScanline_apply, if_pos]
    · decide
    · refine ⟨by decide, ?_, Or.inl (by decide)⟩
      rw [mem_unsignedRange]
      decide
  refine ⟨by decide, hv, ?_⟩
  rw [hv]
  decide

/-! ## The frame loop -/

theorem foldl_update_all (v : Nat → Nat) (l : List Nat) (p : Nat → Nat) (y : Nat) :
    (l.foldl (fun q x => Function.update q x (v x)) p) y = if y ∈ l then v y else p y := by
  have h := foldl_update_if (fun _ => True) v l p y
  simpa using h

theorem copy_fold (img v : Nat → Nat) (base n idx : Nat) :
    ((List.range n).foldl (fun im k => Function.update im (base + k) (v k)) img) idx
      = if base ≤ idx ∧ idx < base + n then v (idx - base) else img idx := by
  induction n with
  | zero => rw [if_neg (by omega)]; rfl
  | succ m ih =>
    rw [List.range_succ, List.foldl_append, List.foldl_cons, List.foldl_nil]
    by_cases h : idx = base + m
    · subst h
      rw [Function.update_same, if_pos ⟨by omega, by omega⟩]
      congr 1; omega
    · rw [Function.update_noteq h, ih]
      by_cases h2 : base ≤ idx ∧ idx < base + m
      · rw [if_pos h2, if_pos ⟨h2.1, by omega⟩]
      · rw [if_neg h2, if_neg (by omega)]

theorem frameLineStep_pixels (K : Consts) (H : Host) (bd ls le s : Nat) (st : FrameState)
    (i idx : Nat) :
    (frameLineStep K H bd ls le s st i).pixels idx
      = if (i * toU32 H.displayWidth + ls) % 4294967296 ≤ idx
            ∧ idx < (i * toU32 H.displayWidth + ls) % 4294967296
                + toU32 ((le : Int) - (ls : Int)) then
          (frameLineStep K H bd ls le s st i).scanline
            (ls + (idx - (i * toU32 H.displayWidth + ls) % 4294967296))
        else st.pixels idx := by
  unfold frameLineStep
  exact copy_fold _ _ _ _ _

theorem frameLineStep_scanline (K : Consts) (H : Host) (bd ls le s : Nat) (st : FrameState)
    (i : Nat) :
    ∃ buf : Nat → Nat, (∀ j, ls ≤ j → j < le → buf j = bd)
      ∧ (frameLineStep K H bd ls le s st i).scanline
          = DrawScanline K H (setVCount st.gpu (i - s)) buf i := by
  refine ⟨(List.range' ls (le - ls)).foldl (fun buf j => Function.update buf j bd) st.scanline,
    ?_, rfl⟩
  intro j h1 h2
  rw [foldl_update_all (fun _ => bd), if_pos]
  rw [List.mem_range'_1]
  omega

theorem frameLineGpu_inv (K : Consts) (H : Host) (Inv : Gpu → Prop)
    (hd : ∀ g d, Inv g → Inv { g with displayStatus := d })
    (hp : ∀ g q, Inv g → Inv { g with scanlineEffectPosition := q })
    (hse : ∀ g, Inv g → Inv (H.GpuRefreshScanlineEffect g))
    (hhb : ∀ g, Inv g → Inv (H.DoHBlankUpdate g))
    (gpu : Gpu) (h : Inv gpu) : Inv (frameLineGpu K H gpu) := by
  have h2 : Inv (scanlineEffectGpu K H gpu) := by
    unfold scanlineEffectGpu
    by_cases hc : gpu.scanlineEffectType ≠ K.GPU_SCANLINE_EFFECT_OFF
    · rw [if_pos hc]
      unfold RunScanlineEffect
      by_cases hq : (H.GpuRefreshScanlineEffect gpu).scanlineEffectPosition < H.displayHeight - 1
      · rw [if_pos hq]; exact hp _ _ (hse _ h)
      · rw [if_neg hq]; exact hse _ h
    · rw [if_neg hc]; exact h
  have h3 : Inv (raiseHBlank K (scanlineEffectGpu K H gpu)) := hd _ _ h2
  have h4 : Inv (hblankHookGpu K H (raiseHBlank K (scanlineEffectGpu K H gpu))) := by
    unfold hblankHookGpu
    split
    · exact hhb _ h3
    · exact h3
  exact hd _ _ h4

theorem frameLineStep_inv (K : Consts) (H : Host) (bd ls le s : Nat) (Inv : Gpu → Prop)
    (hv : ∀ g v, Inv g → Inv (setVCount g v))
    (hd : ∀ g d, Inv g → Inv { g with displayStatus := d })
    (hp : ∀ g q, Inv g → Inv { g with scanlineEffectPosition := q })
    (hse : ∀ g, Inv g → Inv (H.GpuRefreshScanlineEffect g))
    (hhb : ∀ g, Inv g → Inv (H.DoHBlankUpdate g))
    (st : FrameState) (i : Nat) (h : Inv st.gpu) :
    Inv (frameLineStep K H bd ls le s st i).gpu :=
  frameLineGpu_inv K H Inv hd hp hse hhb _ (hv _ _ h)

theorem frame_rows (K : Consts) (H : Host) (bd ls le s : Nat) (hle : ls ≤ le)
    (hleW : le ≤ toU32 H.displayWidth) (Inv : Gpu → Prop) (Good : Nat → Nat → Nat → Prop)
    (hstep : ∀ st i, Inv st.gpu → Inv (frameLineStep K H bd ls le s st i).gpu)
    (hrow : ∀ g buf i j, Inv g → s ≤ i → ls ≤ j → j < le → buf j = bd →
      Good i j (DrawScanline K H (setVCount g (i - s)) buf i j))
    (n : Nat) (hbound : (s + n) * toU32 H.displayWidth < 4294967296) (st : FrameState)
    (h0 : Inv st.gpu) :
    Inv ((List.range' s n).foldl (frameLineStep K H bd ls le s) st).gpu
      ∧ ∀ i j, s ≤ i → i < s + n → ls ≤ j → j < le →
          Good i j (((List.range' s n).foldl (frameLineStep K H bd ls le s) st).pixels
            (pixelIndex H i j)) := by
  induction n with
  | zero =>
    refine ⟨h0, ?_⟩
    intro i j h1 h2
    omega
  | succ m ih =>
    have hmul : (s + m) * toU32 H.displayWidth + toU32 H.displayWidth
        = (s + (m + 1)) * toU32 H.displayWidth := by
      rw [← Nat.add_assoc, Nat.succ_mul]
    have ihm := ih (by omega)
    have hcat : List.range' s (m + 1) = List.range' s m ++ [s + m] := by
      rw [List.range'_concat]; simp
    rw [hcat, List.foldl_append, List.foldl_cons, List.foldl_nil]
    refine ⟨hstep _ _ ihm.1, ?_⟩
    intro i j hi1 hi2 hj1 hj2
    have hbase : ((s + m) * toU32 H.displayWidth + ls) % 4294967296
        = (s + m) * toU32 H.displayWidth + ls := Nat.mod_eq_of_lt (by omega)
    have hn : toU32 ((le : Int) - (ls : Int)) = le - ls := by
      unfold toU32; omega
    rw [frameLineStep_pixels, hbase, hn]
    unfold pixelIndex
    by_cases hlast : i = s + m
    · subst hlast
      rw [if_pos ⟨by omega, by omega⟩]
      have hcol : ls + ((s + m) * toU32 H.displayWidth + j
          - ((s + m) * toU32 H.displayWidth + ls)) = j := by omega
      rw [hcol]
      obtain ⟨buf, hbuf, hsc⟩ := frameLineStep_scanline K H bd ls le s
        ((List.range' s m).foldl (frameLineStep K H bd ls le s) st) (s + m)
      rw [hsc]
      exact hrow _ buf _ _ ihm.1 (by omega) hj1 hj2 (hbuf j hj1 hj2)
    · have hlt : i < s + m := by omega
      have hrowle : (i + 1) * toU32 H.displayWidth ≤ (s + m) * toU32 H.displayWidth :=
        Nat.mul_le_mul_right _ (by omega)
      rw [Nat.succ_mul] at hrowle
      rw [if_neg (by omega)]
      exact ihm.2 i j hi1 hlt hj1 hj2

theorem offsets_of_geometry (K : Consts) (H : Host) (hgeo : GeometryOK K H) :
    offsetX K H = (H.displayWidth - K.BASE_DISPLAY_WIDTH) / 2
      ∧ offsetY K H = (H.displayHeight - K.BASE_DISPLAY_HEIGHT) / 2 := by
  obtain ⟨h1, h2, _, h4, h5, _⟩ := hgeo
  unfold offsetX offsetY
  exact ⟨Int.tdiv_eq_ediv (by omega) (by omega), Int.tdiv_eq_ediv (by omega) (by omega)⟩

theorem frameBounds_facts (K : Consts) (H : Host) (gpu : Gpu) (hgeo : GeometryOK K H) :
    (frameBounds K H gpu).1 ≤ (frameBounds K H gpu).2.1
      ∧ (frameBounds K H gpu).2.1 ≤ toU32 H.displayWidth
      ∧ (frameBounds K H gpu).2.2.1 ≤ (frameBounds K H gpu).2.2.2
      ∧ (frameBounds K H gpu).2.2.2 * toU32 H.displayWidth < 4294967296 := by
  have ho := offsets_of_geometry K H hgeo
  obtain ⟨h1, h2, h3, h4, h5, h6, h7, h8⟩ := hgeo
  have hW : toU32 H.displayWidth ≤ 65535 := by unfold toU32; omega
  have hH : toU32 H.displayHeight ≤ 65535 := by unfold toU32; omega
  have hprod : ∀ e, e ≤ toU32 H.displayHeight → e * toU32 H.displayWidth < 4294967296 := by
    intro e he
    calc e * toU32 H.displayWidth ≤ 65535 * 65535 := Nat.mul_le_mul (by omega) hW
      _ < 4294967296 := by norm_num
  unfold frameBounds
  by_cases hg : InGbaRenderMode K gpu = true
  · rw [if_pos hg]
    dsimp only
    rw [ho.1, ho.2]
    refine ⟨?_, ?_, ?_, ?_⟩
    · unfold toU32; omega
    · unfold toU32; omega
    · unfold toU32; omega
    · apply hprod
      unfold toU32; omega
  · rw [if_neg hg]
    dsimp only
    exact ⟨by omega, le_refl _, by omega, hprod _ (le_refl _)⟩

/-! ## The otherwise-empty frame -/

theorem renderStep_unrendered (K : Consts) (H : Host) (gpu : Gpu) (vcount : Nat)
    (scanline : ScanlineData) (n b : Nat)
    (h : b = n → (isbgEnabled gpu n && H.layerEnabled n && !(gpu.bg n).hidden) = false) :
    (renderStep K H gpu vcount scanline n).layers b = scanline.layers b := by
  unfold renderStep
  by_cases hc : (isbgEnabled gpu n && H.layerEnabled n && !(gpu.bg n).hidden) = true
  · rw [if_pos hc]
    dsimp only
    have hne : b ≠ n := by
      intro e
      rw [h e] at hc
      exact Bool.noConfusion hc
    rw [Function.update_noteq hne]
  · rw [if_neg hc]

theorem renderLayers_unfold (K : Consts) (H : Host) (gpu : Gpu) (vcount : Nat)
    (scanline : ScanlineData) :
    renderLayers K H gpu vcount scanline
      = renderStep K H gpu vcount (renderStep K H gpu vcount (renderStep K H gpu vcount
          (renderStep K H gpu vcount scanline 3) 2) 1) 0 := rfl

theorem renderLayers_unrendered (K : Consts) (H : Host) (gpu : Gpu) (vcount : Nat)
    (scanline : ScanlineData) (b : Nat)
    (hb : b < 4 → (isbgEnabled gpu b && H.layerEnabled b && !(gpu.bg b).hidden) = false) :
    (renderLayers K H gpu vcount scanline).layers b = scanline.layers b := by
  rw [renderLayers_unfold,
    renderStep_unrendered K H gpu vcount _ 0 b (fun e => by subst e; exact hb (by omega)),
    renderStep_unrendered K H gpu vcount _ 1 b (fun e => by subst e; exact hb (by omega)),
    renderStep_unrendered K H gpu vcount _ 2 b (fun e => by subst e; exact hb (by omega)),
    renderStep_unrendered K H gpu vcount _ 3 b (fun e => by subst e; exact hb (by omega))]

theorem scanlineBeforeMerge_layers (K : Consts) (H : Host) (gpu : Gpu) (vcount : Nat) :
    (scanlineBeforeMerge K H gpu vcount).layers
      = (renderLayers K H gpu vcount (bookkeep gpu emptyScanline)).layers := by
  unfold scanlineBeforeMerge
  dsimp only
  split
  · exact (DrawSprites_frame K H gpu _ vcount (windowsEnabled K gpu)).1
  · rfl

theorem scanlineBeforeMerge_spritesOff (K : Consts) (H : Host) (gpu : Gpu) (vcount : Nat)
    (hspr : SpritesOff K H gpu) :
    (scanlineBeforeMerge K H gpu vcount).spriteLayers = fun _ _ => 0 := by
  have hoff : ((gpu.displayControl &&& K.DISPCNT_OBJ_ON != 0) && H.layerEnabled 4) = false := by
    rcases hspr with h1 | h1
    · rw [h1]; rfl
    · rw [h1]; exact Bool.and_false _
  unfold scanlineBeforeMerge
  dsimp only
  rw [hoff]
  exact ((renderLayers_frame K H gpu vcount (bookkeep gpu emptyScanline)).2.2.1).trans
    (bookkeep_lines gpu).2.1

theorem invisible_unrendered (H : Host) (gpu : Gpu) (b : Nat) (h : PlaneInvisible H gpu b) :
    (isbgEnabled gpu b && H.layerEnabled b && !(gpu.bg b).hidden) = false := by
  rcases h with h1 | h1 | h1
  · rw [h1]; simp
  · rw [h1]; simp
  · rw [h1]; simp

theorem mergeLayers_transparent (K : Consts) (H : Host) (gpu : Gpu) (sd : ScanlineData)
    (winOn : Bool) (pixels : Nat → Nat)
    (hl : ∀ b y, getAlphaBit (sd.layers b y) = 0)
    (hs : ∀ p y, getAlphaBit (sd.spriteLayers p y) = 0) :
    mergeLayers K H gpu sd winOn pixels = pixels := by
  unfold mergeLayers
  apply foldl_invariant (fun q : Nat → Nat => q = pixels)
  · intro q p hq
    unfold mergePriority
    apply foldl_invariant (fun r : Nat → Nat => r = pixels)
    · intro r x hr
      unfold mergeSpritePixel
      have h0 : (getAlphaBit (sd.spriteLayers p x) != 0) = false := by
        rw [hs p x]; rfl
      rw [h0]; exact hr
    · apply foldl_invariant (fun r : Nat → Nat => r = pixels)
      · intro r prsub hr
        unfold mergeBgStep
        dsimp only
        by_cases hen : isbgEnabled gpu (sd.prioritySortedBgs p prsub) = true
        · rw [if_pos hen]
          apply foldl_invariant (fun t : Nat → Nat => t = pixels)
          · intro t x ht
            unfold mergeBgPixel
            rw [if_pos (hl _ x)]
            exact ht
          · exact hr
        · rw [if_neg hen]; exact hr
      · exact hq
  · rfl

theorem DrawScanline_empty (K : Consts) (H : Host) (gpu : Gpu) (pixels : Nat → Nat)
    (vcount : Nat) (h : EmptyScene K H gpu) : DrawScanline K H gpu pixels vcount = pixels := by
  unfold DrawScanline
  apply mergeLayers_transparent
  · intro b y
    rw [scanlineBeforeMerge_layers,
      renderLayers_unrendered K H gpu _ _ b (fun hb => invisible_unrendered H gpu b (h.1 b hb)),
      (bookkeep_lines gpu).1]
    exact getAlphaBit_zero
  · intro p y
    rw [scanlineBeforeMerge_spritesOff K H gpu _ h.2]
    exact getAlphaBit_zero

theorem GetBackdropColor_no_blend (K : Consts) (gpu : Gpu)
    (hmode : (gpu.blendControl >>> 6) &&& 3 = 0) :
    GetBackdropColor K gpu = palRead gpu.palette 0 := by
  unfold GetBackdropColor
  simp [hmode]

theorem DrawFrame_empty_pixels (K : Consts) (H : Host) (st : FrameState) (hgeo : GeometryOK K H)
    (hempty : EmptyScene K H st.gpu)
    (hse : ∀ g, EmptyScene K H g → EmptyScene K H (H.GpuRefreshScanlineEffect g))
    (hhb : ∀ g, EmptyScene K H g → EmptyScene K H (H.DoHBlankUpdate g))
    (i j : Nat) (hin : InActiveRegion K H st.gpu i j) :
    (DrawFrame K H st).pixels (pixelIndex H i j) = GetBackdropColor K st.gpu := by
  have hb := frameBounds_facts K H st.gpu hgeo
  obtain ⟨hi1, hi2, hj1, hj2⟩ := hin
  have hrows := frame_rows K H (GetBackdropColor K st.gpu) (frameBounds K H st.gpu).1
    (frameBounds K H st.gpu).2.1 (frameBounds K H st.gpu).2.2.1 hb.1 hb.2.1 (EmptyScene K H)
    (fun _ _ v => v = GetBackdropColor K st.gpu)
    (fun s i hs => frameLineStep_inv K H _ _ _ _ (EmptyScene K H)
      (fun _ _ hg => hg) (fun _ _ hg => hg) (fun _ _ hg => hg) hse hhb s i hs)
    (fun g buf i j hg _ _ _ hbuf => by
      show DrawScanline K H (setVCount g (i - (frameBounds K H st.gpu).2.2.1)) buf i j
        = GetBackdropColor K st.gpu
      rw [DrawScanline_empty K H (setVCount g (i - (frameBounds K H st.gpu).2.2.1)) buf i hg]
      exact hbuf)
    ((frameBounds K H st.gpu).2.2.2 - (frameBounds K H st.gpu).2.2.1)
    (by
      have : (frameBounds K H st.gpu).2.2.1
          + ((frameBounds K H st.gpu).2.2.2 - (frameBounds K H st.gpu).2.2.1)
          = (frameBounds K H st.gpu).2.2.2 := by omega
      rw [this]; exact hb.2.2.2)
    st hempty
  unfold DrawFrame
  exact hrows.2 i j hi1 (by omega) hj1 hj2

theorem zeroGpu_emptyScene : EmptyScene gbaConsts plainHost zeroGpu := by
  refine ⟨fun b _ => Or.inr (Or.inl ?_), Or.inl (by decide)⟩
  simp [isbgEnabled, zeroGpu]

theorem geometry_gba_plain : GeometryOK gbaConsts plainHost := by
  unfold GeometryOK
  decide

/-- C9, counterexample to the claim as stated: on the all-zero register file
(no plane enabled, sprites off, no window, blend mode none, palette entry 0
equal to 0) the pixel in row 0, column 0 of the frame is 0, so its bit 15 is
clear. -/
theorem DrawFrame_empty_bit15_clear :
    EmptyScene gbaConsts plainHost zeroGpu
    ∧ windowsEnabled gbaConsts zeroGpu = false
    ∧ (zeroGpu.blendControl >>> 6) &&& 3 = 0
    ∧ InActiveRegion gbaConsts plainHost zeroGpu 0 0
    ∧ (DrawFrame gbaConsts plainHost
        { gpu := zeroGpu, scanline := fun _ => 0, pixels := fun _ => 0 }).pixels
          (pixelIndex plainHost 0 0) = 0
    ∧ ¬ ((DrawFrame gbaConsts plainHost
        { gpu := zeroGpu, scanline := fun _ => 0, pixels := fun _ => 0 }).pixels
          (pixelIndex plainHost 0 0)).testBit 15 = true := by
  have hreg : InActiveRegion gbaConsts plainHost zeroGpu 0 0 := by
    unfold InActiveRegion
    decide
  have hpix : (DrawFrame gbaConsts plainHost
        { gpu := zeroGpu, scanline := fun _ => 0, pixels := fun _ => 0 }).pixels
          (pixelIndex plainHost 0 0) = 0 := by
    rw [DrawFrame_empty_pixels gbaConsts plainHost _ geometry_gba_plain zeroGpu_emptyScene
      (fun _ h => h) (fun _ h => h) 0 0 hreg]
    decide
  refine ⟨zeroGpu_emptyScene, by decide, by decide, hreg, hpix, ?_⟩
  rw [hpix]
  decide

/-- C9, amended: when no plane is visible, no sprite is drawn and the blend mode
is none on entry, and the per-scanline callbacks keep the scene empty,
`DrawFrame` writes to every pixel of the active display region the 16-bit value
of palette entry 0 as it is stored (bit 15 is not forced). -/
theorem DrawFrame_empty_scene (K : Consts) (H : Host) (st : FrameState) (hgeo : GeometryOK K H)
    (hmode : (st.gpu.blendControl >>> 6) &&& 3 = 0)
    (hempty : EmptyScene K H st.gpu)
    (hse : ∀ g, EmptyScene K H g → EmptyScene K H (H.GpuRefreshScanlineEffect g))
    (hhb : ∀ g, EmptyScene K H g → EmptyScene K H (H.DoHBlankUpdate g))
    (i j : Nat) (hin : InActiveRegion K H st.gpu i j) :
    (DrawFrame K H st).pixels (pixelIndex H i j) = palRead st.gpu.palette 0 := by
  have hpix := DrawFrame_empty_pixels K H st hgeo hempty hse hhb i j hin
  have hbd : GetBackdropColor K st.gpu = palRead st.gpu.palette 0 :=
    GetBackdropColor_no_blend K st.gpu hmode
  rw [hpix, hbd]

/-- Instance of C9 (amended) on the all-zero register file, at row 3, column 5. -/
theorem DrawFrame_empty_scene_witness :
    (DrawFrame gbaConsts plainHost
        { gpu := zeroGpu, scanline := fun _ => 0, pixels := fun _ => 0 }).pixels
          (pixelIndex plainHost 3 5) = palRead zeroGpu.palette 0 :=
  DrawFrame_empty_scene gbaConsts plainHost
    { gpu := zeroGpu, scanline := fun _ => 0, pixels := fun _ => 0 }
    geometry_gba_plain (by decide) zeroGpu_emptyScene (fun _ h => h) (fun _ h => h) 3 5
    (by unfold InActiveRegion; decide)

/-! ## A single visible text-mode plane -/

theorem renderStep_rendered (K : Consts) (H : Host) (gpu : Gpu) (vcount : Nat)
    (scanline : ScanlineData) (n : Nat)
    (hc : (isbgEnabled gpu n && H.layerEnabled n && !(gpu.bg n).hidden) = true)
    (ha : (gpu.bg n).affine.enabled = false) :
    (renderStep K H gpu vcount scanline n).layers n
      = RenderBGScanline K H gpu n ((gpu.bg n).x % 4294967296) ((gpu.bg n).y % 4294967296)
          (vcount : Int) (scanline.layers n) := by
  unfold renderStep
  rw [if_pos hc]
  dsimp only
  rw [Function.update_same, ha]
  rfl

theorem renderStep_other (K : Consts) (H : Host) (gpu : Gpu) (vcount : Nat)
    (scanline : ScanlineData) (n b : Nat) (h : b ≠ n) :
    (renderStep K H gpu vcount scanline n).layers b = scanline.layers b :=
  renderStep_unrendered K H gpu vcount scanline n b (fun e => absurd e h)

theorem renderLayers_rendered (K : Consts) (H : Host) (gpu : Gpu) (vcount : Nat)
    (scanline : ScanlineData) (n : Nat) (hn : n < 4)
    (hc : (isbgEnabled gpu n && H.layerEnabled n && !(gpu.bg n).hidden) = true)
    (ha : (gpu.bg n).affine.enabled = false) :
    (renderLayers K H gpu vcount scanline).layers n
      = RenderBGScanline K H gpu n ((gpu.bg n).x % 4294967296) ((gpu.bg n).y % 4294967296)
          (vcount : Int) (scanline.layers n) := by
  rw [renderLayers_unfold]
  have h4 : n = 0 ∨ n = 1 ∨ n = 2 ∨ n = 3 := by omega
  rcases h4 with h | h | h | h
  · subst h
    rw [renderStep_rendered K H gpu vcount _ 0 hc ha,
      renderStep_other K H gpu vcount _ 1 0 (by decide),
      renderStep_other K H gpu vcount _ 2 0 (by decide),
      renderStep_other K H gpu vcount _ 3 0 (by decide)]
  · subst h
    rw [renderStep_other K H gpu vcount _ 0 1 (by decide),
      renderStep_rendered K H gpu vcount _ 1 hc ha,
      renderStep_other K H gpu vcount _ 2 1 (by decide),
      renderStep_other K H gpu vcount _ 3 1 (by decide)]
  · subst h
    rw [renderStep_other K H gpu vcount _ 0 2 (by decide),
      renderStep_other K H gpu vcount _ 1 2 (by decide),
      renderStep_rendered K H gpu vcount _ 2 hc ha,
      renderStep_other K H gpu vcount _ 3 2 (by decide)]
  · subst h
    rw [renderStep_other K H gpu vcount _ 0 3 (by decide),
      renderStep_other K H gpu vcount _ 1 3 (by decide),
      renderStep_other K H gpu vcount _ 2 3 (by decide),
      renderStep_rendered K H gpu vcount _ 3 hc ha]

theorem plane_mem_layersFrontToBack (gpu : Gpu) (n : Nat) (hn : n < 4)
    (hp : (gpu.bg n).priority ≤ 3) : Layer.plane n ∈ layersFrontToBack gpu := by
  have hmem : Layer.plane n ∈ layersOfPriority gpu (gpu.bg n).priority := by
    unfold layersOfPriority
    apply List.mem_cons_of_mem
    apply List.mem_map_of_mem
    rw [List.mem_filter]
    exact ⟨List.mem_range.mpr hn, by simp⟩
  unfold layersFrontToBack
  have h4 : (gpu.bg n).priority = 0 ∨ (gpu.bg n).priority = 1 ∨ (gpu.bg n).priority = 2
      ∨ (gpu.bg n).priority = 3 := by omega
  simp only [List.mem_append]
  rcases h4 with h | h | h | h
  · rw [h] at hmem; exact Or.inl (Or.inl (Or.inl hmem))
  · rw [h] at hmem; exact Or.inl (Or.inl (Or.inr hmem))
  · rw [h] at hmem; exact Or.inl (Or.inr hmem)
  · rw [h] at hmem; exact Or.inr hmem

theorem frontMostPixel_single (gpu : Gpu) (sd : ScanlineData) (winOn : Bool) (entry x n : Nat)
    (hn : n < 4) (hp : (gpu.bg n).priority ≤ 3)
    (hother : ∀ l, l ∈ layersFrontToBack gpu → layerCounts gpu sd winOn x l = true →
      l = Layer.plane n) :
    frontMostPixel gpu sd winOn entry x
      = if layerCounts gpu sd winOn x (Layer.plane n) = true then sd.layers n x else entry := by
  rw [frontMostPixel_eq]
  cases hf : (layersFrontToBack gpu).find? (layerCounts gpu sd winOn x) with
  | none =>
    have hnone := List.find?_eq_none.mp hf (Layer.plane n)
      (plane_mem_layersFrontToBack gpu n hn hp)
    rw [if_neg hnone]
    rfl
  | some l =>
    have hc := List.find?_some hf
    have hl := hother l (List.mem_of_find?_eq_some hf) hc
    subst hl
    rw [if_pos hc]
    rfl

theorem bgSourcePixel_first_tile (K : Consts) (gpu : Gpu) (n : Nat) (r c : Nat)
    (hr : r < 8) (hc : c < 8) (hm : (gpu.bg n).mosaic = false) :
    (bgSourcePixel K gpu n 0 0 (r : Int) 0 c).1 < 8
      ∧ (bgSourcePixel K gpu n 0 0 (r : Int) 0 c).2.1 < 8
      ∧ (bgSourcePixel K gpu n 0 0 (r : Int) 0 c).2.2 = 0 := by
  have hx : toU32 (((c + 0) % 4294967296 : Nat) - (0 : Int)) = c := by unfold toU32; omega
  have hy : toU32 ((r : Int) + ((0 : Nat) : Int)) = r := by unfold toU32; omega
  have h1FF : ∀ v : Nat, v &&& 0x1FF = v % 512 := fun v => Nat.and_pow_two_sub_one_eq_mod v 9
  have hFF : ∀ v : Nat, v &&& 0xFF = v % 256 := fun v => Nat.and_pow_two_sub_one_eq_mod v 8
  unfold bgSourcePixel
  simp only [hm, Bool.false_eq_true, if_false, hx, hy]
  by_cases hg : (gpu.bg n).gbaMode = true
  · simp only [hg, if_true, h1FF, hFF]
    have hc' : c % 512 = c := by omega
    have hr' : r % 512 = r := by omega
    rw [hc', hr']
    refine ⟨by omega, by omega, ?_⟩
    rw [if_neg (by omega), if_neg (by omega)]
  · have hg' : (gpu.bg n).gbaMode = false := by simpa using hg
    simp only [hg', Bool.false_eq_true, if_false]
    exact ⟨lt_of_le_of_lt (Nat.mod_le _ _) hc, lt_of_le_of_lt (Nat.mod_le _ _) hr, trivial⟩

theorem bgTexel_solid (gpu : Gpu) (bg : GpuBgState) (t tx ty : Nat) (hp : bg.palettes = false)
    (hsolid : ∀ k, k < 32 → byteRead (gpu.charMem bg.charBaseBlock) (t * 32 + k) = 0x55)
    (htx : tx < 8) (hty : ty < 8) : bgTexel gpu bg t tx ty = 5 := by
  unfold bgTexel
  simp only [hp, Bool.false_eq_true, if_false, if_true]
  have hidx : t * (4 * 8) + ty * 4 + tx / 2 = t * 32 + (ty * 4 + tx / 2) := by omega
  rw [hidx, hsolid _ (by omega)]
  split_ifs <;> decide

theorem bgFetchPixel_solid (K : Consts) (H : Host) (n t c5 : Nat) (gpu : Gpu)
    (hs : TileScene K H n t c5 gpu) (r c : Nat) (hr : r < 8) (hc : c < 8) :
    bgFetchPixel K gpu n 0 0 (r : Int) 0 c = (5, 0) := by
  obtain ⟨h1, h2, h3⟩ := bgSourcePixel_first_tile K gpu n r c hr hc hs.noMosaic
  unfold bgFetchPixel
  dsimp only
  have hmx : (bgSourcePixel K gpu n 0 0 (r : Int) 0 c).1 / 8 = 0 := by omega
  have hmy : (bgSourcePixel K gpu n 0 0 (r : Int) 0 c).2.1 / 8 = 0 := by omega
  rw [hmx, hmy, h3]
  simp only [Nat.zero_mul, Nat.add_zero, Nat.zero_add]
  rw [hs.entryNoFlipX, hs.entryNoFlipY, hs.entryTile, hs.entryPalette]
  simp only [Bool.false_eq_true, if_false]
  rw [bgTexel_solid gpu (gpu.bg n) t _ _ hs.fourBpp hs.solid (by omega) (by omega)]

theorem tileScene_line (K : Consts) (H : Host) (n t c5 : Nat) (gpu : Gpu)
    (hs : TileScene K H n t c5 gpu) (hgeo : GeometryOK K H) (r c : Nat)
    (hr : (r : Int) < K.BASE_DISPLAY_HEIGHT) (hc : (c : Int) < K.BASE_DISPLAY_WIDTH)
    (line : Nat → Nat) :
    RenderBGScanline K H gpu n 0 0 (r : Int) line c
      = if (bgFetchPixel K gpu n 0 0 (r : Int) 0 c).1 ≠ 0 then
          toU16 (palRead gpu.palette
            (16 * (bgFetchPixel K gpu n 0 0 (r : Int) 0 c).2
              + (bgFetchPixel K gpu n 0 0 (r : Int) 0 c).1) ||| 0x8000)
        else line c := by
  obtain ⟨g1, g2, g3, g4, g5, g6, g7, g8⟩ := hgeo
  have hbox : bgLetterboxLine K H gpu n (r : Int) = r := by
    unfold bgLetterboxLine
    by_cases hb : (InGbaRenderMode K gpu || (gpu.bg n).gbaMode) = true
    · rw [if_pos hb, (hs.noLetterbox hb).2]; omega
    · rw [if_neg hb]
  have hskip : bgScanlineSkipped K H gpu n (r : Int) = false := by
    unfold bgScanlineSkipped
    rw [hbox]
    have h1 : decide ((r : Int) < 0) = false := by simp
    have h2 : decide ((r : Int) ≥ K.BASE_DISPLAY_HEIGHT) = false := by
      simp only [decide_eq_false_iff_not]; omega
    have h3 : decide ((bgMapGeometry (gpu.bg n)).1 = 0) = false := by
      simp only [decide_eq_false_iff_not]; exact hs.mapNonEmpty.1
    have h4 : decide ((bgMapGeometry (gpu.bg n)).2.1 = 0) = false := by
      simp only [decide_eq_false_iff_not]; exact hs.mapNonEmpty.2
    rw [h1, h2, h3, h4]
    simp
  have hscroll : bgScroll (gpu.bg n) 0 = 0 := by
    unfold bgScroll
    split_ifs <;> decide
  have hsrc : bgSourceLine K H gpu n (r : Int) = r := by
    unfold bgSourceLine
    rw [hs.noMosaic, hbox]
    rfl
  have hpos : (GetBGScanlinePos K H gpu n).1 = 0
      ∧ ((GetBGScanlinePos K H gpu n).2 = K.BASE_DISPLAY_WIDTH
        ∨ (GetBGScanlinePos K H gpu n).2 = H.displayWidth) := by
    unfold GetBGScanlinePos
    by_cases hb : (InGbaRenderMode K gpu || (gpu.bg n).gbaMode) = true
    · rw [if_pos hb, (hs.noLetterbox hb).1]
      exact ⟨by omega, Or.inl (by omega)⟩
    · rw [if_neg hb]
      exact ⟨rfl, Or.inr rfl⟩
  have hmem : c ∈ unsignedRange (GetBGScanlinePos K H gpu n).1 (GetBGScanlinePos K H gpu n).2 := by
    rw [mem_unsignedRange, hpos.1]
    rcases hpos.2 with h | h
    · rw [h]; unfold toU32; omega
    · rw [h]; unfold toU32; omega
  have hmem0 : c ∈ unsignedRange 0 (GetBGScanlinePos K H gpu n).2 := by
    rw [← hpos.1]; exact hmem
  rw [RenderBGScanline_apply, hskip, hscroll, hsrc, hpos.1]
  simp only [hs.fourBpp, Bool.false_eq_true, false_or, if_false, true_and, hmem0]

theorem tileScene_layer (K : Consts) (H : Host) (n t c5 : Nat) (gpu : Gpu)
    (hs : TileScene K H n t c5 gpu) (v : Nat) :
    (scanlineBeforeMerge K H gpu v).layers n
      = RenderBGScanline K H gpu n 0 0 (v : Int) (fun _ => 0) := by
  have hcond : (isbgEnabled gpu n && H.layerEnabled n && !(gpu.bg n).hidden) = true := by
    rw [hs.enabled, hs.layerOn, hs.shown]; rfl
  rw [scanlineBeforeMerge_layers,
    renderLayers_rendered K H gpu v _ n hs.planeIndex hcond hs.textMode, hs.scrollX, hs.scrollY,
    (bookkeep_lines gpu).1]

theorem tileScene_other_layer (K : Consts) (H : Host) (n t c5 : Nat) (gpu : Gpu)
    (hs : TileScene K H n t c5 gpu) (v b : Nat) (hb : b ≠ n) :
    (scanlineBeforeMerge K H gpu v).layers b = fun _ => 0 := by
  rw [scanlineBeforeMerge_layers,
    renderLayers_unrendered K H gpu v _ b
      (fun hlt => invisible_unrendered H gpu b (hs.others b hlt hb)),
    (bookkeep_lines gpu).1]

theorem DrawScanline_tileScene (K : Consts) (H : Host) (n t c5 : Nat) (gpu : Gpu)
    (hs : TileScene K H n t c5 gpu) (buf : Nat → Nat) (v x : Nat) (hv : v < 65536) :
    DrawScanline K H gpu buf v x
      = if getAlphaBit (RenderBGScanline K H gpu n 0 0 (v : Int) (fun _ => 0) x) = 1 then
          RenderBGScanline K H gpu n 0 0 (v : Int) (fun _ => 0) x
        else buf x := by
  have htu : toU16 v = v := Nat.mod_eq_of_lt hv
  have hother : ∀ l, l ∈ layersFrontToBack gpu →
      layerCounts gpu (scanlineBeforeMerge K H gpu v) (windowsEnabled K gpu) x l = true →
      l = Layer.plane n := by
    intro l _ hc
    cases l with
    | sprite p =>
      exfalso
      simp only [layerCounts, Bool.and_eq_true, beq_iff_eq] at hc
      have h0 := hc.1
      rw [scanlineBeforeMerge_spritesOff K H gpu v hs.sprites, getAlphaBit_zero] at h0
      omega
    | plane b =>
      by_cases hb : b = n
      · rw [hb]
      · exfalso
        simp only [layerCounts, Bool.and_eq_true, beq_iff_eq] at hc
        have h0 := hc.1.2
        rw [tileScene_other_layer K H n t c5 gpu hs v b hb, getAlphaBit_zero] at h0
        omega
  rw [DrawScanline_eq_frontMost K H gpu buf v x hs.noBlend hs.priorities, htu,
    frontMostPixel_single gpu _ _ _ x n hs.planeIndex (hs.priorities n hs.planeIndex) hother,
    tileScene_layer K H n t c5 gpu hs v]
  have hcount : layerCounts gpu (scanlineBeforeMerge K H gpu v) (windowsEnabled K gpu) x
        (Layer.plane n) = true
      ↔ getAlphaBit (RenderBGScanline K H gpu n 0 0 (v : Int) (fun _ => 0) x) = 1 := by
    simp only [layerCounts, hs.shown, hs.enabled, hs.noWindows, Bool.not_false, Bool.true_and,
      Bool.true_or, Bool.and_true, beq_iff_eq, tileScene_layer K H n t c5 gpu hs v]
  by_cases ha : getAlphaBit (RenderBGScanline K H gpu n 0 0 (v : Int) (fun _ => 0) x) = 1
  · rw [if_pos (hcount.mpr ha), if_pos ha]
  · rw [if_neg (fun h => ha (hcount.mp h)), if_neg ha]

theorem toU16_or_0x8000 (p : Nat) (hp : p < 65536) :
    toU16 (p ||| 0x8000) = p ||| 0x8000 ∧ getAlphaBit (p ||| 0x8000) = 1 := by
  rw [or_0x8000 p hp, getAlphaBit_eq]
  unfold toU16
  omega

theorem palRead_lt (pal : Nat → Nat) (i : Nat) : palRead pal i < 65536 := by
  unfold palRead toU16; omega

theorem DrawScanline_tile_pixels (K : Consts) (H : Host) (n t c5 : Nat) (gpu : Gpu)
    (hs : TileScene K H n t c5 gpu) (hgeo : GeometryOK K H)
    (hW : 9 ≤ K.BASE_DISPLAY_WIDTH) (hH : 8 ≤ K.BASE_DISPLAY_HEIGHT) (buf : Nat → Nat) :
    (∀ r c, r < 8 → c < 8 → DrawScanline K H gpu buf r c = c5 ||| 0x8000)
      ∧ DrawScanline K H gpu buf 0 8 = buf 8 := by
  constructor
  · intro r c hr hc
    rw [DrawScanline_tileScene K H n t c5 gpu hs buf r c (by omega),
      tileScene_line K H n t c5 gpu hs hgeo r c (by omega) (by omega),
      bgFetchPixel_solid K H n t c5 gpu hs r c hr hc]
    have h5 : (5 : Nat) ≠ 0 := by decide
    simp only [h5, ne_eq, not_false_eq_true, if_true, Nat.mul_zero, Nat.zero_add]
    rw [hs.colour5]
    have hc5 : c5 < 65536 := by rw [← hs.colour5]; exact palRead_lt _ _
    rw [(toU16_or_0x8000 c5 hc5).1, if_pos (toU16_or_0x8000 c5 hc5).2]
  · rw [DrawScanline_tileScene K H n t c5 gpu hs buf 0 8 (by omega),
      tileScene_line K H n t c5 gpu hs hgeo 0 8 (by omega) (by omega)]
    have h0 : (bgFetchPixel K gpu n 0 0 ((0 : Nat) : Int) 0 8).1 = 0 := hs.nextTransparent
    rw [h0]
    simp only [ne_eq, not_true_eq_false, if_false]
    rw [getAlphaBit_zero, if_neg (by decide)]

theorem TileScene_fields (K : Consts) (H : Host) (n t c5 : Nat) (gpu : Gpu) (a b : Nat) (c : Int)
    (h : TileScene K H n t c5 gpu) :
    TileScene K H n t c5
      { gpu with vCount := a, displayStatus := b, scanlineEffectPosition := c } :=
  ⟨h.planeIndex, h.shown, h.enabled, h.layerOn, h.textMode, h.fourBpp, h.noMosaic, h.scrollX,
    h.scrollY, h.mapNonEmpty, h.noLetterbox, h.priorities, h.others, h.sprites, h.noWindows,
    h.noBlend, h.entryTile, h.entryPalette, h.entryNoFlipX, h.entryNoFlipY, h.solid,
    h.nextTransparent, h.colour5⟩

theorem tileScene_bounds (K : Consts) (H : Host) (n t c5 : Nat) (gpu : Gpu)
    (hs : TileScene K H n t c5 gpu) (hgeo : GeometryOK K H)
    (hW : 9 ≤ K.BASE_DISPLAY_WIDTH) (hH : 8 ≤ K.BASE_DISPLAY_HEIGHT) :
    (frameBounds K H gpu).1 = 0 ∧ 9 ≤ (frameBounds K H gpu).2.1
      ∧ (frameBounds K H gpu).2.2.1 = 0 ∧ 8 ≤ (frameBounds K H gpu).2.2.2 := by
  obtain ⟨g1, g2, g3, g4, g5, g6, g7, g8⟩ := hgeo
  unfold frameBounds
  by_cases hg : InGbaRenderMode K gpu = true
  · have ho := hs.noLetterbox (by rw [hg]; rfl)
    rw [if_pos hg, ho.1, ho.2]
    dsimp only
    unfold toU32
    refine ⟨by omega, by omega, by omega, by omega⟩
  · rw [if_neg hg]
    dsimp only
    unfold toU32
    refine ⟨rfl, by omega, rfl, by omega⟩

theorem DrawFrame_tile_pixels (K : Consts) (H : Host) (n t c5 : Nat) (st : FrameState)
    (hgeo : GeometryOK K H) (hW : 9 ≤ K.BASE_DISPLAY_WIDTH) (hH : 8 ≤ K.BASE_DISPLAY_HEIGHT)
    (hs : TileScene K H n t c5 st.gpu)
    (hse : ∀ g, TileScene K H n t c5 g → TileScene K H n t c5 (H.GpuRefreshScanlineEffect g))
    (hhb : ∀ g, TileScene K H n t c5 g → TileScene K H n t c5 (H.DoHBlankUpdate g)) :
    (∀ r c, r < 8 → c < 8 → (DrawFrame K H st).pixels (pixelIndex H r c) = c5 ||| 0x8000)
      ∧ (DrawFrame K H st).pixels (pixelIndex H 0 8) = GetBackdropColor K st.gpu := by
  have hb := frameBounds_facts K H st.gpu hgeo
  have ht := tileScene_bounds K H n t c5 st.gpu hs hgeo hW hH
  have hrows := frame_rows K H (GetBackdropColor K st.gpu) (frameBounds K H st.gpu).1
    (frameBounds K H st.gpu).2.1 (frameBounds K H st.gpu).2.2.1 hb.1 hb.2.1
    (TileScene K H n t c5)
    (fun i j v => (i < 8 → j < 8 → v = c5 ||| 0x8000)
      ∧ (i = 0 → j = 8 → v = GetBackdropColor K st.gpu))
    (fun s i hsc => frameLineStep_inv K H _ _ _ _ (TileScene K H n t c5)
      (fun g v hg => TileScene_fields K H n t c5 g v g.displayStatus g.scanlineEffectPosition hg)
      (fun g d hg => TileScene_fields K H n t c5 g g.vCount d g.scanlineEffectPosition hg)
      (fun g q hg => TileScene_fields K H n t c5 g g.vCount g.displayStatus q hg)
      hse hhb s i hsc)
    (fun g buf i j hg _ _ _ hbuf => by
      have hg' : TileScene K H n t c5 (setVCount g (i - (frameBounds K H st.gpu).2.2.1)) :=
        TileScene_fields K H n t c5 g _ g.displayStatus g.scanlineEffectPosition hg
      have hp := DrawScanline_tile_pixels K H n t c5 _ hg' hgeo hW hH buf
      constructor
      · intro hi hj
        exact hp.1 i j hi hj
      · intro hi hj
        subst hi; subst hj
        rw [hp.2]; exact hbuf)
    ((frameBounds K H st.gpu).2.2.2 - (frameBounds K H st.gpu).2.2.1)
    (by
      have : (frameBounds K H st.gpu).2.2.1
          + ((frameBounds K H st.gpu).2.2.2 - (frameBounds K H st.gpu).2.2.1)
          = (frameBounds K H st.gpu).2.2.2 := by omega
      rw [this]; exact hb.2.2.2)
    st hs
  unfold DrawFrame
  constructor
  · intro r c hr hc
    exact (hrows.2 r c (by omega) (by omega) (by omega) (by omega)).1 hr hc
  · exact (hrows.2 0 8 (by omega) (by omega) (by omega) (by omega)).2 rfl rfl

theorem tileGpu_scene : TileScene gbaConsts plainHost 0 1 0x1F tileGpu where
  planeIndex := by decide
  shown := by decide
  enabled := by decide
  layerOn := by decide
  textMode := by decide
  fourBpp := by decide
  noMosaic := by decide
  scrollX := by decide
  scrollY := by decide
  mapNonEmpty := by decide
  noLetterbox := fun _ => by decide
  priorities := by
    intro b _
    show (if b = 0 then ({ zeroBg with screenWidth := 256, screenHeight := 256 } : GpuBgState)
      else { zeroBg with hidden := true }).priority ≤ 3
    split_ifs <;> decide
  others := by
    intro b _ hb
    refine Or.inl ?_
    show (if b = 0 then ({ zeroBg with screenWidth := 256, screenHeight := 256 } : GpuBgState)
      else { zeroBg with hidden := true }).hidden = true
    rw [if_neg hb]
  sprites := Or.inl (by decide)
  noWindows := by decide
  noBlend := by decide
  entryTile := by decide
  entryPalette := by decide
  entryNoFlipX := by decide
  entryNoFlipY := by decide
  solid := by
    intro k hk
    show (if 32 ≤ 1 * 32 + k ∧ 1 * 32 + k < 64 then 0x55 else 0) % 256 = 0x55
    rw [if_pos ⟨by omega, by omega⟩]
  nextTransparent := by decide
  colour5 := by decide

/-- C10, counterexample to the claim as stated: in the single-tile scene
`tileGpu` (palette entry 5 equal to `0x001F`) the frame pixel (0,0) is `0x801F`,
the palette colour with bit 15 set, which differs from `palette[5]`. -/
theorem DrawFrame_tile_not_raw_palette :
    TileScene gbaConsts plainHost 0 1 0x1F tileGpu
    ∧ palRead tileGpu.palette 5 = 0x1F
    ∧ (DrawFrame gbaConsts plainHost
        { gpu := tileGpu, scanline := fun _ => 0, pixels := fun _ => 0 }).pixels
          (pixelIndex plainHost 0 0) = 0x801F
    ∧ (DrawFrame gbaConsts plainHost
        { gpu := tileGpu, scanline := fun _ => 0, pixels := fun _ => 0 }).pixels
          (pixelIndex plainHost 0 0) ≠ palRead tileGpu.palette 5 := by
  have hpix : (DrawFrame gbaConsts plainHost
        { gpu := tileGpu, scanline := fun _ => 0, pixels := fun _ => 0 }).pixels
          (pixelIndex plainHost 0 0) = 0x801F := by
    rw [(DrawFrame_tile_pixels gbaConsts plainHost 0 1 0x1F
      { gpu := tileGpu, scanline := fun _ => 0, pixels := fun _ => 0 }
      geometry_gba_plain (by decide) (by decide) tileGpu_scene
      (fun _ h => h) (fun _ h => h)).1 0 0 (by decide) (by decide)]
    decide
  refine ⟨tileGpu_scene, by decide, hpix, ?_⟩
  rw [hpix]
  decide

/-- C10, amended: for a visible 4bpp text-mode plane with zero scroll, no mosaic,
no windows and no blending, drawn without letterbox offset on an otherwise empty
frame, whose map entry (0,0) references with palette 0 and no flips a tile whose
64 pixels all have colour index 5, and which is transparent at column 8 of line
0, the rendered frame has pixels (0,0)..(7,7) equal to `palette[5]` with bit 15
set, and pixel (8,0) equal to the backdrop colour, palette entry 0 as stored. -/
theorem DrawFrame_single_tile (K : Consts) (H : Host) (n t c5 : Nat) (st : FrameState)
    (hgeo : GeometryOK K H) (hW : 9 ≤ K.BASE_DISPLAY_WIDTH) (hH : 8 ≤ K.BASE_DISPLAY_HEIGHT)
    (hs : TileScene K H n t c5 st.gpu)
    (hse : ∀ g, TileScene K H n t c5 g → TileScene K H n t c5 (H.GpuRefreshScanlineEffect g))
    (hhb : ∀ g, TileScene K H n t c5 g → TileScene K H n t c5 (H.DoHBlankUpdate g)) :
    (∀ x y, x < 8 → y < 8 →
        (DrawFrame K H st).pixels (pixelIndex H y x) = palRead st.gpu.palette 5 ||| 0x8000)
      ∧ (DrawFrame K H st).pixels (pixelIndex H 0 8) = palRead st.gpu.palette 0 := by
  have hp := DrawFrame_tile_pixels K H n t c5 st hgeo hW hH hs hse hhb
  have hbd : GetBackdropColor K st.gpu = palRead st.gpu.palette 0 :=
    GetBackdropColor_no_blend K st.gpu hs.noBlend
  constructor
  · intro x y hx hy
    rw [hp.1 y x hy hx, hs.colour5]
  · rw [hp.2, hbd]

/-- Instance of C10 (amended) on the scene `tileGpu`. -/
theorem DrawFrame_single_tile_witness :
    (∀ x y, x < 8 → y < 8 →
        (DrawFrame gbaConsts plainHost
          { gpu := tileGpu, scanline := fun _ => 0, pixels := fun _ => 0 }).pixels
            (pixelIndex plainHost y x) = palRead tileGpu.palette 5 ||| 0x8000)
      ∧ (DrawFrame gbaConsts plainHost
          { gpu := tileGpu, scanline := fun _ => 0, pixels := fun _ => 0 }).pixels
            (pixelIndex plainHost 0 8) = palRead tileGpu.palette 0 :=
  DrawFrame_single_tile gbaConsts plainHost 0 1 0x1F
    { gpu := tileGpu, scanline := fun _ => 0, pixels := fun _ => 0 }
    geometry_gba_plain (by decide) (by decide) tileGpu_scene (fun _ h => h) (fun _ h => h)

/-! ## Sprites off the current scanline -/

theorem foldl_invariant_mem {σ ι : Type} (P : σ → Prop) (f : σ → ι → σ) (l : List ι)
    (hf : ∀ s i, i ∈ l → P s → P (f s i)) (s : σ) (hs : P s) : P (l.foldl f s) := by
  induction l generalizing s with
  | nil => exact hs
  | cons a t ih =>
    exact ih (fun s i hi => hf s i (List.mem_cons_of_mem a hi)) (f s a)
      (hf s a (List.mem_cons_self a t) hs)

theorem spriteSizes_even (i j : Nat) : spriteSizes i j % 2 = 0 := by
  unfold spriteSizes
  split <;> rfl

theorem spriteDims_even (oam : OamData) (width height : Nat)
    (h : spriteDims oam = some (width, height)) : height % 2 = 0 := by
  unfold spriteDims at h
  by_cases h0 : oam.shape = 0
  · rw [if_pos h0] at h
    have e : height = (1 <<< oam.size) * 8 := by
      have := congrArg (fun o => (o.map Prod.snd).getD 0) h
      simpa using this.symm
    rw [e]; omega
  · rw [if_neg h0] at h
    by_cases h1 : oam.shape = 1
    · rw [if_pos h1] at h
      have e : height = spriteSizes oam.size 0 := by
        have := congrArg (fun o => (o.map Prod.snd).getD 0) h
        simpa using this.symm
      rw [e]; exact spriteSizes_even _ _
    · rw [if_neg h1] at h
      by_cases h2 : oam.shape = 2
      · rw [if_pos h2] at h
        have e : height = spriteSizes oam.size 1 := by
          have := congrArg (fun o => (o.map Prod.snd).getD 0) h
          simpa using this.symm
        rw [e]; exact spriteSizes_even _ _
      · rw [if_neg h2] at h
        exact absurd h (by simp)

theorem spriteOnLine_iff (K : Consts) (H : Host) (gpu : Gpu) (oam : OamData) (vcount : Nat)
    (width height : Nat) (h : spriteDims oam = some (width, height)) :
    spriteOnLine K H gpu oam vcount ↔
      ((vcount : Int) ≥ (spriteCentre K H gpu oam width height).2 - (spriteHalf oam width height).2
        ∧ (vcount : Int)
            < (spriteCentre K H gpu oam width height).2 + (spriteHalf oam width height).2) := by
  have hev := spriteDims_even oam width height h
  unfold spriteOnLine spriteTop spriteFootprintHeight
  rw [h]
  dsimp only
  unfold spriteHalf
  by_cases hd : oam.affineMode &&& 1 != 0 ∧ (oam.affineMode >>> 1) &&& 1 != 0
  · rw [if_pos hd, if_pos hd]; dsimp only; omega
  · rw [if_neg hd, if_neg hd]; dsimp only; omega

theorem spriteStep_off_line (K : Consts) (H : Host) (gpu : Gpu) (vcount : Nat) (winOn : Bool)
    (st : SpriteMatrix × ScanlineData) (i : Nat)
    (h : ¬ spriteOnLine K H gpu (gpu.spriteList i) (toU16 vcount)) :
    (spriteStep K H gpu vcount winOn st i).2 = st.2 := by
  unfold spriteStep
  dsimp only
  split
  · rfl
  · split
    · rfl
    · rename_i width height hd
      rw [spriteOnLine_iff K H gpu _ _ width height hd] at h
      rw [if_neg h]

/-- C11: when the scanline `vcount` lies in the vertical extent
`[top, top + footprint height)` of no sprite of the table (the footprint height
doubled for an affine double-size sprite), `DrawSprites` returns the working set
it was given: the four sprite priority buffers and the window mask are unchanged. -/
theorem DrawSprites_off_line (K : Consts) (H : Host) (gpu : Gpu) (scanline : ScanlineData)
    (vcount : Nat) (winOn : Bool)
    (hout : ∀ i, i < K.MAX_OAM_SPRITES →
      ¬ spriteOnLine K H gpu (gpu.spriteList i) (toU16 vcount)) :
    (DrawSprites K H gpu scanline vcount winOn).spriteLayers = scanline.spriteLayers
      ∧ (DrawSprites K H gpu scanline vcount winOn).winMask = scanline.winMask := by
  have key : DrawSprites K H gpu scanline vcount winOn = scanline := by
    unfold DrawSprites
    refine foldl_invariant_mem (fun st => st.2 = scanline) (spriteStep K H gpu vcount winOn)
      (List.range K.MAX_OAM_SPRITES).reverse ?_
      ({ m00 := 0, m01 := 0, m10 := 0, m11 := 0 }, scanline) rfl
    intro st i hi hs
    have hlt : i < K.MAX_OAM_SPRITES := by
      rw [List.mem_reverse, List.mem_range] at hi; exact hi
    show (spriteStep K H gpu vcount winOn st i).2 = scanline
    rw [spriteStep_off_line K H gpu vcount winOn st i (hout i hlt)]
    exact hs
  rw [key]
  exact ⟨rfl, rfl⟩

/-! ## Sprites of one priority that meet at one column -/

theorem spritesAbove_zero (K : Consts) (H : Host) (gpu : Gpu) (scanline : ScanlineData)
    (vcount : Nat) (winOn : Bool) :
    DrawSprites K H gpu scanline vcount winOn
      = (spritesAbove K H gpu scanline vcount winOn 0).2 := by
  unfold DrawSprites spritesAbove
  rw [List.range_eq_range', Nat.sub_zero]

theorem spritesAbove_step (K : Consts) (H : Host) (gpu : Gpu) (scanline : ScanlineData)
    (vcount : Nat) (winOn : Bool) (n : Nat) (hn : n < K.MAX_OAM_SPRITES) :
    spritesAbove K H gpu scanline vcount winOn n
      = spriteStep K H gpu vcount winOn (spritesAbove K H gpu scanline vcount winOn (n + 1)) n := by
  unfold spritesAbove
  have e : K.MAX_OAM_SPRITES - n = (K.MAX_OAM_SPRITES - (n + 1)) + 1 := by omega
  rw [e, List.range'_succ, List.reverse_cons, List.foldl_append]
  rfl

theorem spriteStore_eq (K : Consts) (H : Host) (gpu : Gpu) (oam : OamData) (winOn : Bool)
    (sd : ScanlineData) (col pixel : Nat) (hobj : oam.objMode ≠ 2) :
    spriteStore K H gpu oam winOn sd col pixel
      = if pixel ≠ 0 ∧ col < toU32 H.displayWidth then
          { sd with
            spriteLayers := Function.update sd.spriteLayers oam.priority
              (Function.update (sd.spriteLayers oam.priority) col
                (spriteColour K gpu sd oam winOn col pixel)) }
        else sd := by
  unfold spriteStore spriteColour
  dsimp only
  by_cases h0 : pixel = 0
  · rw [if_pos h0, if_neg (show ¬ (pixel ≠ 0 ∧ col < toU32 H.displayWidth) from fun h => h.1 h0)]
  · rw [if_neg h0, if_neg hobj]
    by_cases h3 : col < toU32 H.displayWidth
    · rw [if_pos h3, if_pos (show pixel ≠ 0 ∧ col < toU32 H.displayWidth from ⟨h0, h3⟩)]
    · rw [if_neg h3, if_neg (show ¬ (pixel ≠ 0 ∧ col < toU32 H.displayWidth) from fun h => h3 h.2)]

theorem spriteColumnStep_eq (K : Consts) (H : Host) (gpu : Gpu) (oam : OamData)
    (width height : Nat) (m : SpriteMatrix) (x local_y : Int) (winOn : Bool)
    (sd : ScanlineData) (local_x : Int) (hobj : oam.objMode ≠ 2) :
    spriteColumnStep K H gpu oam width height m x local_y winOn sd local_x
      = if spriteColumnDraws K H gpu oam width height m x local_y (toU32 (local_x + x)) local_x then
          { sd with
            spriteLayers := Function.update sd.spriteLayers oam.priority
              (Function.update (sd.spriteLayers oam.priority) (toU32 (local_x + x))
                (spriteColour K gpu sd oam winOn (toU32 (local_x + x))
                  (spriteColumnIndex gpu oam width height m x local_y local_x))) }
        else sd := by
  unfold spriteColumnStep spriteColumnDraws
  dsimp only
  by_cases hr : toU32 (local_x + x) < toU32 (GetScanlinePos K H gpu).1
      ∨ toU32 (local_x + x) ≥ toU32 (GetScanlinePos K H gpu).2
  · rw [if_pos hr, if_neg (fun h => h.2.1 hr)]
  · rw [if_neg hr]
    split
    · rename_i ht
      rw [if_neg (fun h => h.2.2.1 ht)]
    · rename_i ht
      rw [spriteStore_eq K H gpu oam winOn sd _ _ hobj]
      by_cases hw : spriteFetchPixel gpu oam width height
            (spriteTexCoords width height m
              (spriteSourceX gpu oam x local_x (toU32 (local_x + x))) local_y).1
            (spriteTexCoords width height m
              (spriteSourceX gpu oam x local_x (toU32 (local_x + x))) local_y).2 ≠ 0
          ∧ toU32 (local_x + x) < toU32 H.displayWidth
      · rw [if_pos hw, if_pos ⟨rfl, hr, ht, hw.1, hw.2⟩]
        rfl
      · rw [if_neg hw, if_neg (fun h => hw ⟨h.2.2.2.1, h.2.2.2.2⟩)]

theorem selectTargetInBucket_congr (gpu : Gpu) (a b : ScanlineData) (h : SameBlendContext a b)
    (prnum blndprnum pixelpos : Nat) (l : List Nat) :
    selectTargetInBucket gpu b prnum blndprnum pixelpos l
      = selectTargetInBucket gpu a prnum blndprnum pixelpos l := by
  induction l with
  | nil => rfl
  | cons s rest ih =>
    unfold selectTargetInBucket
    rw [h.1, h.2.2.1, ih]

theorem selectTargetFrom_congr (K : Consts) (gpu : Gpu) (a b : ScanlineData)
    (h : SameBlendContext a b) (prnum pixelpos : Nat) (l : List Nat) (prsub : Nat) :
    selectTargetFrom K gpu b prnum pixelpos false prsub l
      = selectTargetFrom K gpu a prnum pixelpos false prsub l := by
  induction l generalizing prsub with
  | nil => rfl
  | cons q rest ih =>
    unfold selectTargetFrom
    rw [if_neg (fun hh => Bool.noConfusion hh.1), if_neg (fun hh => Bool.noConfusion hh.1),
      selectTargetInBucket_congr gpu a b h, h.2.2.2, ih 0]

theorem spriteColour_congr (K : Consts) (gpu : Gpu) (a b : ScanlineData)
    (h : SameBlendContext a b) (oam : OamData) (winOn : Bool) (col pixel : Nat) :
    spriteColour K gpu b oam winOn col pixel = spriteColour K gpu a oam winOn col pixel := by
  unfold spriteColour spriteBlend alphaBlendSelectTargetB
  rw [selectTargetFrom_congr K gpu a b h, h.2.1]

theorem SameBlendContext_refl (a : ScanlineData) : SameBlendContext a a :=
  ⟨rfl, rfl, rfl, rfl⟩

theorem spriteColumn_inv (K : Consts) (H : Host) (gpu : Gpu) (oam : OamData)
    (width height : Nat) (m : SpriteMatrix) (x local_y : Int) (winOn : Bool)
    (sd s : ScanlineData) (local_x : Int) (hobj : oam.objMode ≠ 2) (p col v : Nat)
    (hv : spriteColumnDraws K H gpu oam width height m x local_y col local_x → oam.priority = p →
      spriteColour K gpu sd oam winOn col
        (spriteColumnIndex gpu oam width height m x local_y local_x) = v)
    (hs : SameBlendContext sd s ∧ s.spriteLayers p col = v) :
    SameBlendContext sd (spriteColumnStep K H gpu oam width height m x local_y winOn s local_x)
      ∧ (spriteColumnStep K H gpu oam width height m x local_y winOn s local_x).spriteLayers p col
          = v := by
  rw [spriteColumnStep_eq K H gpu oam width height m x local_y winOn s local_x hobj]
  by_cases hd : spriteColumnDraws K H gpu oam width height m x local_y (toU32 (local_x + x)) local_x
  · rw [if_pos hd]
    refine ⟨⟨hs.1.1, hs.1.2.1, hs.1.2.2.1, hs.1.2.2.2⟩, ?_⟩
    dsimp only
    by_cases hp : p = oam.priority
    · subst hp
      rw [Function.update_same]
      by_cases hc : col = toU32 (local_x + x)
      · subst hc
        rw [Function.update_same, spriteColour_congr K gpu sd s hs.1]
        exact hv hd rfl
      · rw [Function.update_noteq hc]; exact hs.2
    · rw [Function.update_noteq hp]; exact hs.2
  · rw [if_neg hd]; exact hs

theorem spriteColumnStep_objwin (K : Consts) (H : Host) (gpu : Gpu) (oam : OamData)
    (width height : Nat) (m : SpriteMatrix) (x local_y : Int) (winOn : Bool)
    (s : ScanlineData) (local_x : Int) (hobj : oam.objMode = 2) :
    (spriteColumnStep K H gpu oam width height m x local_y winOn s local_x).spriteLayers
      = s.spriteLayers := by
  unfold spriteColumnStep spriteStore
  dsimp only
  split
  · rfl
  · split
    · rfl
    · split
      · rfl
      · split <;> rfl

theorem spriteStep_keep (K : Consts) (H : Host) (gpu : Gpu) (vcount : Nat) (winOn : Bool)
    (st : SpriteMatrix × ScanlineData) (k p col : Nat)
    (h : ¬ ((gpu.spriteList k).priority = p ∧ (gpu.spriteList k).objMode ≠ 2
      ∧ ∃ pixel, SpriteShows K H gpu vcount st.1 (gpu.spriteList k) col pixel)) :
    (spriteStep K H gpu vcount winOn st k).2.spriteLayers p col = st.2.spriteLayers p col := by
  unfold spriteStep
  dsimp only
  split
  · rfl
  · rename_i hdis
    split
    · rfl
    · rename_i width height hd
      split
      · rename_i hline
        by_cases hobj : (gpu.spriteList k).objMode = 2
        · have hinv := foldl_invariant (fun s : ScanlineData => s.spriteLayers = st.2.spriteLayers)
            (spriteColumnStep K H gpu (gpu.spriteList k) width height
              (spriteMatrixFor K gpu (gpu.spriteList k) st.1)
              (spriteCentre K H gpu (gpu.spriteList k) width height).1
              (if (gpu.spriteList k).mosaic = 1 then
                applySpriteVerticalMosaicEffect gpu ((toU16 vcount : Nat) : Int)
                  - (spriteCentre K H gpu (gpu.spriteList k) width height).2
               else ((toU16 vcount : Nat) : Int)
                  - (spriteCentre K H gpu (gpu.spriteList k) width height).2) winOn)
            (fun s lx hs => by
              show (spriteColumnStep _ _ _ _ _ _ _ _ _ _ s lx).spriteLayers = st.2.spriteLayers
              rw [spriteColumnStep_objwin K H gpu _ _ _ _ _ _ winOn s lx hobj]; exact hs)
            (localXRange (spriteHalf (gpu.spriteList k) width height).1) st.2 rfl
          exact congrFun (congrFun hinv p) col
        · have hinv := foldl_invariant_mem
            (fun s : ScanlineData => SameBlendContext st.2 s
              ∧ s.spriteLayers p col = st.2.spriteLayers p col)
            (spriteColumnStep K H gpu (gpu.spriteList k) width height
              (spriteMatrixFor K gpu (gpu.spriteList k) st.1)
              (spriteCentre K H gpu (gpu.spriteList k) width height).1
              (spriteLocalY gpu (gpu.spriteList k) ((toU16 vcount : Nat) : Int)
                (spriteCentre K H gpu (gpu.spriteList k) width height).2) winOn)
            (localXRange (spriteHalf (gpu.spriteList k) width height).1)
            (fun s lx hlx hs =>
              spriteColumn_inv K H gpu _ width height _ _ _ winOn st.2 s lx hobj p col _
                (fun hdraw hp => absurd
                  ⟨hp, hobj, _, hdis, width, height, hd,
                    (spriteOnLine_iff K H gpu _ _ width height hd).2 hline, lx, hlx, hdraw, rfl⟩ h)
                hs)
            st.2 ⟨SameBlendContext_refl st.2, rfl⟩
          exact hinv.2
      · rfl

theorem mem_localXRange (hw lx : Int) (h : lx ∈ localXRange hw) : -hw ≤ lx ∧ lx ≤ hw := by
  unfold localXRange at h
  rw [List.mem_map] at h
  obtain ⟨k, hk, e⟩ := h
  simp at hk
  obtain ⟨a, ha, rfl⟩ := hk
  omega

theorem toU32_inj_near (a b x : Int) (ha : -65536 ≤ a ∧ a ≤ 65536) (hb : -65536 ≤ b ∧ b ≤ 65536)
    (h : toU32 (a + x) = toU32 (b + x)) : a = b := by
  unfold toU32 at h
  have h1 : (a + x) % 4294967296 = (b + x) % 4294967296 := by
    have := congrArg (fun n : Nat => (n : Int)) h
    simp only at this
    rw [Int.toNat_of_nonneg (Int.emod_nonneg _ (by norm_num)),
      Int.toNat_of_nonneg (Int.emod_nonneg _ (by norm_num))] at this
    exact this
  omega

theorem spriteSizes_le (i j : Nat) : spriteSizes i j ≤ 64 := by
  unfold spriteSizes
  split <;> decide

theorem spriteDims_width_le (oam : OamData) (width height : Nat) (hs : oam.size < 4)
    (h : spriteDims oam = some (width, height)) : width ≤ 64 := by
  unfold spriteDims at h
  by_cases h0 : oam.shape = 0
  · rw [if_pos h0] at h
    have e : width = (1 <<< oam.size) * 8 := by
      have := congrArg (fun o => (o.map Prod.fst).getD 0) h
      simpa using this.symm
    rw [e]
    have : oam.size = 0 ∨ oam.size = 1 ∨ oam.size = 2 ∨ oam.size = 3 := by omega
    rcases this with e | e | e | e <;> rw [e] <;> decide
  · rw [if_neg h0] at h
    by_cases h1 : oam.shape = 1
    · rw [if_pos h1] at h
      have e : width = spriteSizes oam.size 1 := by
        have := congrArg (fun o => (o.map Prod.fst).getD 0) h
        simpa using this.symm
      rw [e]; exact spriteSizes_le _ _
    · rw [if_neg h1] at h
      by_cases h2 : oam.shape = 2
      · rw [if_pos h2] at h
        have e : width = spriteSizes oam.size 0 := by
          have := congrArg (fun o => (o.map Prod.fst).getD 0) h
          simpa using this.symm
        rw [e]; exact spriteSizes_le _ _
      · rw [if_neg h2] at h
        exact absurd h (by simp)

theorem spriteHalf_le (oam : OamData) (width height : Nat) :
    0 ≤ (spriteHalf oam width height).1 ∧ (spriteHalf oam width height).1 ≤ (width : Int) := by
  unfold spriteHalf
  split <;> dsimp only <;> omega

theorem spriteColumn_ctx (K : Consts) (H : Host) (gpu : Gpu) (oam : OamData)
    (width height : Nat) (m : SpriteMatrix) (x local_y : Int) (winOn : Bool)
    (sd s : ScanlineData) (local_x : Int) (hobj : oam.objMode ≠ 2)
    (hs : SameBlendContext sd s) :
    SameBlendContext sd
      (spriteColumnStep K H gpu oam width height m x local_y winOn s local_x) := by
  rw [spriteColumnStep_eq K H gpu oam width height m x local_y winOn s local_x hobj]
  split
  · exact ⟨hs.1, hs.2.1, hs.2.2.1, hs.2.2.2⟩
  · exact hs

theorem spriteColumns_show (K : Consts) (H : Host) (gpu : Gpu) (oam : OamData)
    (width height : Nat) (m : SpriteMatrix) (x local_y : Int) (winOn : Bool)
    (sd : ScanlineData) (col : Nat) (lx : Int) (hobj : oam.objMode ≠ 2)
    (hwidth : width ≤ 64)
    (hlx : lx ∈ localXRange (spriteHalf oam width height).1)
    (hdraw : spriteColumnDraws K H gpu oam width height m x local_y col lx) :
    ((localXRange (spriteHalf oam width height).1).foldl
        (spriteColumnStep K H gpu oam width height m x local_y winOn) sd).spriteLayers
          oam.priority col
      = spriteColour K gpu sd oam winOn col
          (spriteColumnIndex gpu oam width height m x local_y lx) := by
  have hb := spriteHalf_le oam width height
  have hlx' := mem_localXRange _ _ hlx
  obtain ⟨l1, l2, hl⟩ := List.append_of_mem hlx
  have hmem2 : ∀ a, a ∈ l2 → a ∈ localXRange (spriteHalf oam width height).1 := by
    intro a ha
    rw [hl]
    exact List.mem_append_right _ (List.mem_cons_of_mem _ ha)
  rw [hl, List.foldl_append, List.foldl_cons]
  have h1 : SameBlendContext sd
      (l1.foldl (spriteColumnStep K H gpu oam width height m x local_y winOn) sd) :=
    foldl_invariant (fun s : ScanlineData => SameBlendContext sd s) _
      (fun s a hs => spriteColumn_ctx K H gpu oam width height m x local_y winOn sd s a hobj hs)
      l1 sd (SameBlendContext_refl sd)
  have hcol : toU32 (lx + x) = col := hdraw.1
  have h2 : SameBlendContext sd
        (spriteColumnStep K H gpu oam width height m x local_y winOn
          (l1.foldl (spriteColumnStep K H gpu oam width height m x local_y winOn) sd) lx)
      ∧ (spriteColumnStep K H gpu oam width height m x local_y winOn
          (l1.foldl (spriteColumnStep K H gpu oam width height m x local_y winOn) sd) lx).spriteLayers
            oam.priority col
          = spriteColour K gpu sd oam winOn col
              (spriteColumnIndex gpu oam width height m x local_y lx) := by
    refine ⟨spriteColumn_ctx K H gpu oam width height m x local_y winOn sd _ lx hobj h1, ?_⟩
    rw [spriteColumnStep_eq K H gpu oam width height m x local_y winOn _ lx hobj, hcol,
      if_pos hdraw]
    dsimp only
    rw [Function.update_same, Function.update_same, spriteColour_congr K gpu sd _ h1]
  exact (foldl_invariant_mem
    (fun s : ScanlineData => SameBlendContext sd s
      ∧ s.spriteLayers oam.priority col
          = spriteColour K gpu sd oam winOn col
              (spriteColumnIndex gpu oam width height m x local_y lx))
    (spriteColumnStep K H gpu oam width height m x local_y winOn) l2
    (fun s a ha hs =>
      spriteColumn_inv K H gpu oam width height m x local_y winOn sd s a hobj oam.priority col _
        (fun hd _ => by
          have hb' := mem_localXRange _ _ (hmem2 a ha)
          have e : a = lx := toU32_inj_near a lx x (by omega) (by omega) (hd.1.trans hcol.symm)
          rw [e])
        hs)
    _ h2).2

theorem spriteStep_show (K : Consts) (H : Host) (gpu : Gpu) (vcount : Nat) (winOn : Bool)
    (st : SpriteMatrix × ScanlineData) (i col pixel : Nat)
    (hobj : (gpu.spriteList i).objMode ≠ 2) (hsize : (gpu.spriteList i).size < 4)
    (h : SpriteShows K H gpu vcount st.1 (gpu.spriteList i) col pixel) :
    (spriteStep K H gpu vcount winOn st i).2.spriteLayers (gpu.spriteList i).priority col
      = spriteColour K gpu st.2 (gpu.spriteList i) winOn col pixel := by
  obtain ⟨hdis, width, height, hd, hline, lx, hlx, hdraw, hidx⟩ := h
  have hwidth := spriteDims_width_le _ width height hsize hd
  unfold spriteStep
  dsimp only
  split
  · rename_i hc; exact absurd hc hdis
  · split
    · rename_i hn; rw [hd] at hn; exact absurd hn (by simp)
    · rename_i w h' hd'
      rw [hd] at hd'
      have ew : width = w := by
        have := congrArg (fun o => (o.map Prod.fst).getD 0) hd'
        simpa using this
      have eh : height = h' := by
        have := congrArg (fun o => (o.map Prod.snd).getD 0) hd'
        simpa using this
      subst ew
      subst eh
      split
      · rw [← hidx]
        exact spriteColumns_show K H gpu _ width height _ _ _ winOn st.2 col lx hobj hwidth hlx hdraw
      · rename_i hnl
        exact absurd ((spriteOnLine_iff K H gpu _ _ width height hd).1 hline) hnl

theorem spritesAbove_descend (K : Consts) (H : Host) (gpu : Gpu) (scanline : ScanlineData)
    (vcount : Nat) (winOn : Bool) (i p col : Nat) (hi : i ≤ K.MAX_OAM_SPRITES)
    (hlow : ∀ k, k < i →
      ¬ ((gpu.spriteList k).priority = p ∧ (gpu.spriteList k).objMode ≠ 2
        ∧ ∃ pixel, SpriteShows K H gpu vcount
            (spritesAbove K H gpu scanline vcount winOn (k + 1)).1 (gpu.spriteList k) col pixel)) :
    ∀ d, d ≤ i →
      (spritesAbove K H gpu scanline vcount winOn (i - d)).2.spriteLayers p col
        = (spritesAbove K H gpu scanline vcount winOn i).2.spriteLayers p col := by
  intro d
  induction d with
  | zero => intro _; rfl
  | succ d ih =>
    intro hd
    have hk : i - (d + 1) < i := by omega
    have e : i - (d + 1) + 1 = i - d := by omega
    rw [spritesAbove_step K H gpu scanline vcount winOn (i - (d + 1)) (by omega),
      spriteStep_keep K H gpu vcount winOn _ (i - (d + 1)) p col (hlow _ hk), e]
    exact ih (by omega)

theorem spriteMatrixFor_plain (K : Consts) (gpu : Gpu) (oam : OamData) (previous : SpriteMatrix)
    (h : (oam.affineMode &&& 1 != 0) = false) :
    spriteMatrixFor K gpu oam previous = { m00 := 0x100, m01 := 0, m10 := 0, m11 := 0x100 } := by
  unfold spriteMatrixFor
  rw [h]
  rfl

theorem spriteGpu_shows (previous : SpriteMatrix) (i : Nat) :
    SpriteShows gbaConsts plainHost spriteGpu 2 previous (spriteGpu.spriteList i) 3 1 := by
  have hcase : spriteGpu.spriteList i = { zeroOam with paletteNum := 1 }
      ∨ spriteGpu.spriteList i = zeroOam := by
    show (if i = 0 then ({ zeroOam with paletteNum := 1 } : OamData) else zeroOam) = _
      ∨ (if i = 0 then ({ zeroOam with paletteNum := 1 } : OamData) else zeroOam) = _
    by_cases h : i = 0
    · rw [if_pos h]; exact Or.inl rfl
    · rw [if_neg h]; exact Or.inr rfl
  rcases hcase with e | e <;> rw [e]
  · refine ⟨by decide, 8, 8, by decide, by unfold spriteOnLine; decide, -1, by decide, ?_, ?_⟩
    · rw [spriteMatrixFor_plain _ _ _ _ (by decide)]
      unfold spriteColumnDraws
      decide
    · rw [spriteMatrixFor_plain _ _ _ _ (by decide)]
      decide
  · refine ⟨by decide, 8, 8, by decide, by unfold spriteOnLine; decide, -1, by decide, ?_, ?_⟩
    · rw [spriteMatrixFor_plain _ _ _ _ (by decide)]
      unfold spriteColumnDraws
      decide
    · rw [spriteMatrixFor_plain _ _ _ _ (by decide)]
      decide

theorem spriteGpu_buffer :
    (DrawSprites gbaConsts plainHost spriteGpu emptyScanline 2 false).spriteLayers 0 3
      = 0x8011 := by
  rw [spritesAbove_zero, spritesAbove_step gbaConsts plainHost spriteGpu emptyScanline 2 false 0
    (by decide)]
  have h := spriteStep_show gbaConsts plainHost spriteGpu 2 false
    (spritesAbove gbaConsts plainHost spriteGpu emptyScanline 2 false (0 + 1)) 0 3 1
    (by decide) (by decide) (spriteGpu_shows _ 0)
  have hp : (spriteGpu.spriteList 0).priority = 0 := rfl
  rw [hp] at h
  rw [h]
  unfold spriteColour spriteBlend
  decide

/-- Counterexample to C12 as stated: in a table of overlapping 8 x 8 sprites of
priority 0, none an object-window sprite, sprites 1 and 2 both produce a
non-transparent in-bounds pixel at column 3 of scanline 2, yet the buffer of
priority 0 ends with `0x8011`, the colour of sprite 0, which also draws there,
and not with `0x8001`, the colour computed for sprite 1. -/
theorem DrawSprites_third_sprite_in_front :
    (spriteGpu.spriteList 1).priority = (spriteGpu.spriteList 2).priority
      ∧ (spriteGpu.spriteList 1).objMode ≠ 2 ∧ (spriteGpu.spriteList 2).objMode ≠ 2
      ∧ SpriteShows gbaConsts plainHost spriteGpu 2
          (spritesAbove gbaConsts plainHost spriteGpu emptyScanline 2 false (1 + 1)).1
          (spriteGpu.spriteList 1) 3 1
      ∧ SpriteShows gbaConsts plainHost spriteGpu 2
          (spritesAbove gbaConsts plainHost spriteGpu emptyScanline 2 false (2 + 1)).1
          (spriteGpu.spriteList 2) 3 1
      ∧ (DrawSprites gbaConsts plainHost spriteGpu emptyScanline 2 false).spriteLayers
          (spriteGpu.spriteList 2).priority 3 = 0x8011
      ∧ spriteColour gbaConsts spriteGpu
          (spritesAbove gbaConsts plainHost spriteGpu emptyScanline 2 false (1 + 1)).2
          (spriteGpu.spriteList 1) false 3 1 = 0x8001 := by
  refine ⟨rfl, by decide, by decide, spriteGpu_shows _ 1, spriteGpu_shows _ 2,
    spriteGpu_buffer, ?_⟩
  unfold spriteColour spriteBlend
  decide

/-- C12, amended: two sprites `i < j` of one declared priority, neither an
object-window sprite, both produce a non-transparent in-bounds pixel at the
column `col` of the current scanline, and no sprite of that priority with a table
index below `i` produces a pixel at `col` (so `i` is the lowest index that draws
there).  Then the sprite buffer of that priority holds at `col`, after
`DrawSprites`, the colour computed for sprite `i`: its palette entry, blended
against the working set it met, with bit 15 set.  The size field of sprite `i`
is taken within its two bits. -/
theorem DrawSprites_lowest_index_wins (K : Consts) (H : Host) (gpu : Gpu)
    (scanline : ScanlineData) (vcount : Nat) (winOn : Bool) (i j col pixelI pixelJ : Nat)
    (hij : i < j) (hj : j < K.MAX_OAM_SPRITES)
    (hprio : (gpu.spriteList i).priority = (gpu.spriteList j).priority)
    (hobjI : (gpu.spriteList i).objMode ≠ 2) (_hobjJ : (gpu.spriteList j).objMode ≠ 2)
    (hsize : (gpu.spriteList i).size < 4)
    (hshowI : SpriteShows K H gpu vcount
      (spritesAbove K H gpu scanline vcount winOn (i + 1)).1 (gpu.spriteList i) col pixelI)
    (_hshowJ : SpriteShows K H gpu vcount
      (spritesAbove K H gpu scanline vcount winOn (j + 1)).1 (gpu.spriteList j) col pixelJ)
    (hlow : ∀ k, k < i →
      ¬ ((gpu.spriteList k).priority = (gpu.spriteList i).priority
        ∧ (gpu.spriteList k).objMode ≠ 2
        ∧ ∃ pixel, SpriteShows K H gpu vcount
            (spritesAbove K H gpu scanline vcount winOn (k + 1)).1 (gpu.spriteList k) col pixel)) :
    (DrawSprites K H gpu scanline vcount winOn).spriteLayers (gpu.spriteList j).priority col
      = spriteColour K gpu (spritesAbove K H gpu scanline vcount winOn (i + 1)).2
          (gpu.spriteList i) winOn col pixelI := by
  have hi : i < K.MAX_OAM_SPRITES := Nat.lt_trans hij hj
  have hdown := spritesAbove_descend K H gpu scanline vcount winOn i
    (gpu.spriteList i).priority col (Nat.le_of_lt hi) hlow i (Nat.le_refl i)
  rw [Nat.sub_self] at hdown
  rw [spritesAbove_zero, ← hprio, hdown,
    spritesAbove_step K H gpu scanline vcount winOn i hi]
  exact spriteStep_show K H gpu vcount winOn _ i col pixelI hobjI hsize hshowI

/-- Instance of C12, amended: in a table of overlapping 8 x 8 sprites of priority
0, sprite 0 (palette 1, colour index 1) and sprite 1 both draw at column 3 of
scanline 2; the buffer of priority 0 ends with palette entry 17 of sprite 0, bit
15 set. -/
theorem DrawSprites_lowest_index_wins_witness :
    (DrawSprites gbaConsts plainHost spriteGpu emptyScanline 2 false).spriteLayers 0 3
      = 0x8011 := by
  have h : (DrawSprites gbaConsts plainHost spriteGpu emptyScanline 2 false).spriteLayers 0 3
      = spriteColour gbaConsts spriteGpu
          (spritesAbove gbaConsts plainHost spriteGpu emptyScanline 2 false (0 + 1)).2
          (spriteGpu.spriteList 0) false 3 1 :=
    DrawSprites_lowest_index_wins gbaConsts plainHost spriteGpu emptyScanline 2 false 0 1 3 1 1
      (by decide) (by decide) rfl (by decide) (by decide) (by decide)
      (spriteGpu_shows _ 0) (spriteGpu_shows _ 1)
      (fun k hk => absurd hk (Nat.not_lt_zero k))
  rw [h]
  unfold spriteColour spriteBlend
  decide

/-- Instance of C11: scanline 100 lies below every sprite of a table of 8 x 8
sprites at the origin, so the sprite buffers and the window mask stay as given. -/
theorem DrawSprites_off_line_witness :
    (DrawSprites gbaConsts plainHost spriteGpu emptyScanline 100 false).spriteLayers
        = emptyScanline.spriteLayers
      ∧ (DrawSprites gbaConsts plainHost spriteGpu emptyScanline 100 false).winMask
        = emptyScanline.winMask :=
  DrawSprites_off_line gbaConsts plainHost spriteGpu emptyScanline 100 false
    (fun i _ => by
      show ¬ spriteOnLine gbaConsts plainHost spriteGpu
        (if i = 0 then { zeroOam with paletteNum := 1 } else zeroOam) (toU16 100)
      unfold spriteOnLine
      split_ifs <;> decide)

/-! ## The affine lookup -/

theorem rotScaleSize_cases (w size yshift : Nat) (h : rotScaleSize w = some (size, yshift)) :
    (size = 128 ∧ yshift = 4) ∨ (size = 256 ∧ yshift = 5) ∨ (size = 512 ∧ yshift = 6)
      ∨ (size = 1024 ∧ yshift = 7) := by
  unfold rotScaleSize at h
  split_ifs at h <;> simp at h <;> omega

theorem toU32_and_mask (z : Int) (k : Nat) (hk : k ≤ 32) :
    toU32 z &&& (2 ^ k - 1) = (z % ((2 ^ k : Nat) : Int)).toNat := by
  rw [Nat.and_pow_two_sub_one_eq_mod]
  unfold toU32
  have hpos : (0 : Int) < ((2 ^ k : Nat) : Int) := by positivity
  have hdvd : ((2 ^ k : Nat) : Int) ∣ 4294967296 := by
    have : (4294967296 : Int) = ((2 ^ k : Nat) : Int) * ((2 ^ (32 - k) : Nat) : Int) := by
      rw [← Nat.cast_mul, ← Nat.pow_add, Nat.add_sub_cancel' hk]; norm_num
    exact Dvd.intro _ this.symm
  have h1 : (z % 4294967296) % ((2 ^ k : Nat) : Int) = z % ((2 ^ k : Nat) : Int) :=
    Int.emod_emod_of_dvd z hdvd
  have h2 : 0 ≤ z % 4294967296 := Int.emod_nonneg _ (by norm_num)
  have h3 : 0 ≤ z % ((2 ^ k : Nat) : Int) := Int.emod_nonneg _ (ne_of_gt hpos)
  apply Int.ofNat.inj
  show ((((z % 4294967296).toNat % 2 ^ k : Nat)) : Int) = (((z % ((2 ^ k : Nat) : Int)).toNat : Nat) : Int)
  rw [Int.toNat_of_nonneg h3, Int.natCast_mod, Int.toNat_of_nonneg h2, h1]

theorem rotScaleStore_at (gpu : Gpu) (bg : GpuBgState) (w size yshift : Nat)
    (h : rotScaleSize w = some (size, yshift)) (xxx yyy : Nat) (line : Nat → Nat) (x : Nat) :
    rotScaleStore gpu bg yshift xxx yyy line x x
      = affineTexelColour gpu bg size xxx yyy (line x) := by
  have e : ∀ n : Nat, n <<< yshift = n * (size / 8) := by
    intro n
    rw [Nat.shiftLeft_eq]
    rcases rotScaleSize_cases w size yshift h with ⟨a, b⟩ | ⟨a, b⟩ | ⟨a, b⟩ | ⟨a, b⟩ <;>
      rw [a, b]
  unfold rotScaleStore affineTexelColour
  dsimp only
  rw [e]
  split_ifs
  · exact Function.update_same _ _ _
  · rfl

theorem rotScaleColumnStep_at (gpu : Gpu) (bg : GpuBgState) (w size yshift : Nat)
    (h : rotScaleSize w = some (size, yshift)) (pa pc : Int) (st : (Nat → Nat) × Int × Int)
    (x : Nat) :
    (rotScaleColumnStep gpu bg size yshift pa pc st x).1 x
      = affineColumn gpu bg size (st.2.1 >>> 8) (st.2.2 >>> 8) (st.1 x) := by
  have hm : ∀ z : Int, toU32 z &&& (size - 1) = (z % (size : Int)).toNat := by
    intro z
    rcases rotScaleSize_cases w size yshift h with ⟨a, _⟩ | ⟨a, _⟩ | ⟨a, _⟩ | ⟨a, _⟩
    · rw [a]; exact toU32_and_mask z 7 (by omega)
    · rw [a]; exact toU32_and_mask z 8 (by omega)
    · rw [a]; exact toU32_and_mask z 9 (by omega)
    · rw [a]; exact toU32_and_mask z 10 (by omega)
  unfold rotScaleColumnStep affineColumn
  dsimp only
  by_cases ho : bg.areaOverflowMode = true
  · rw [if_pos ho, if_pos ho, rotScaleStore_at gpu bg w size yshift h, hm, hm]
  · rw [if_neg ho, if_neg ho]
    by_cases hin : st.2.1 >>> 8 < 0 ∨ st.2.2 >>> 8 < 0 ∨ st.2.1 >>> 8 ≥ (size : Int)
        ∨ st.2.2 >>> 8 ≥ (size : Int)
    · rw [if_neg (not_not_intro hin), if_pos hin]
    · rw [if_pos hin, if_neg hin, rotScaleStore_at gpu bg w size yshift h]

theorem rotScaleColumnStep_coords (gpu : Gpu) (bg : GpuBgState) (size yshift : Nat)
    (pa pc : Int) (st : (Nat → Nat) × Int × Int) (x : Nat) :
    (rotScaleColumnStep gpu bg size yshift pa pc st x).2
      = (toS32 (st.2.1 + pa), toS32 (st.2.2 + pc)) := rfl

theorem rotScaleLoop_column (gpu : Gpu) (bg : GpuBgState) (w size yshift : Nat)
    (h : rotScaleSize w = some (size, yshift)) (pa pc : Int) (n : Nat) :
    ∀ (a k : Nat) (st : (Nat → Nat) × Int × Int), k < n →
      ((List.range' a n).foldl (rotScaleColumnStep gpu bg size yshift pa pc) st).1 (a + k)
        = affineColumn gpu bg size (rotScaleCoord pa st.2.1 k >>> 8)
            (rotScaleCoord pc st.2.2 k >>> 8) (st.1 (a + k)) := by
  induction n with
  | zero => intro a k st hk; omega
  | succ n ih =>
    intro a k st hk
    rw [List.range'_succ, List.foldl_cons]
    cases k with
    | zero =>
      show ((List.range' (a + 1) n).foldl (rotScaleColumnStep gpu bg size yshift pa pc)
          (rotScaleColumnStep gpu bg size yshift pa pc st a)).1 a
        = affineColumn gpu bg size (st.2.1 >>> 8) (st.2.2 >>> 8) (st.1 a)
      rw [rotScaleColumns_outside gpu bg size yshift pa pc _ _ a
        (by rw [List.mem_range'_1]; omega)]
      exact rotScaleColumnStep_at gpu bg w size yshift h pa pc st a
    | succ k =>
      have e : a + (k + 1) = (a + 1) + k := by omega
      rw [e, ih (a + 1) k _ (by omega), rotScaleColumnStep_outside gpu bg size yshift pa pc st a
        (a + 1 + k) (by omega)]
      rfl

/-! ## Background state manager: invalid plane indices -/

theorem IsInvalidBg_of_gt (bg : Nat) (h : 3 < bg) (h8 : bg < 256) : IsInvalidBg bg = true := by
  unfold IsInvalidBg toU8
  exact decide_eq_true (by omega)

theorem IsInvalidBg32_of_gt (bg : Nat) (h : 3 < bg) (h8 : bg < 256) : IsInvalidBg32 bg = true := by
  unfold IsInvalidBg32 toU8
  exact decide_eq_true (by omega)

theorem SetBgControlAttributes_invalid (st : BgState) (bg a b c d e f g : Nat)
    (h : IsInvalidBg bg = true) : SetBgControlAttributes st bg a b c d e f g = st := by
  unfold SetBgControlAttributes
  rw [h]
  rfl

/-- C14: for every plane index `bg` above 3 (and within the `u8` range of the
argument), every value and every opcode, `GetBgX`, `GetBgY`, `ChangeBgX` and
`ChangeBgY` return -1 and `GetBgTilemapBuffer` returns `NULL`; `ChangeBgX`,
`ChangeBgY`, `SetBgAttribute`, `SetBgTilemapBuffer` and the plane update of
`ShowBg` leave the whole state as it was, and `ShowBg` itself leaves every plane
configuration, scroll value, tilemap reference and the mode/visibility word as
they were. -/
theorem invalid_plane_sentinels (E : BgEnv) (st : BgState) (bg : Nat) (value : Int)
    (op tilemap byteValue : Nat) (attributeId : BgAttr) (h : 3 < bg) (h8 : bg < 256) :
    GetBgX st bg = -1 ∧ GetBgY st bg = -1
      ∧ ChangeBgX E st bg value op = (-1, st) ∧ ChangeBgY E st bg value op = (-1, st)
      ∧ GetBgTilemapBuffer st bg = 0
      ∧ SetBgAttribute st bg attributeId byteValue = st
      ∧ SetBgTilemapBuffer st bg tilemap = st
      ∧ ShowBgInternal E st bg = st
      ∧ (ShowBg E st bg).configs = st.configs
      ∧ (ShowBg E st bg).configs2 = st.configs2
      ∧ (ShowBg E st bg).bgVisibilityAndMode = st.bgVisibilityAndMode := by
  have hi := IsInvalidBg_of_gt bg h h8
  have hi32 := IsInvalidBg32_of_gt bg h h8
  have hshow : ShowBgInternal E st bg = st := by
    unfold ShowBgInternal
    rw [hi]
    rfl
  refine ⟨?_, ?_, ?_, ?_, ?_, ?_, ?_, hshow, ?_, ?_, ?_⟩
  · unfold GetBgX; rw [hi32]; rfl
  · unfold GetBgY; rw [hi32]; rfl
  · unfold ChangeBgX; rw [hi32]; rfl
  · unfold ChangeBgY; rw [hi32]; rfl
  · unfold GetBgTilemapBuffer; rw [hi32]; rfl
  · unfold SetBgAttribute
    cases attributeId <;> first
      | exact SetBgControlAttributes_invalid st bg _ _ _ _ _ _ _ hi
      | rfl
  · unfold SetBgTilemapBuffer; rw [hi32]; rfl
  · unfold ShowBg; rw [hshow]; rfl
  · unfold ShowBg; rw [hshow]; rfl
  · unfold ShowBg; rw [hshow]; rfl

/-- Instance of C14: plane index 4 on the all-zero state. -/
theorem invalid_plane_sentinels_witness :
    GetBgX zeroBgState 4 = -1 ∧ GetBgY zeroBgState 4 = -1
      ∧ ChangeBgX gbaBgEnv zeroBgState 4 0x100 0 = (-1, zeroBgState)
      ∧ ChangeBgY gbaBgEnv zeroBgState 4 0x100 0 = (-1, zeroBgState)
      ∧ GetBgTilemapBuffer zeroBgState 4 = 0
      ∧ SetBgAttribute zeroBgState 4 BgAttr.priority 2 = zeroBgState
      ∧ SetBgTilemapBuffer zeroBgState 4 0x2000000 = zeroBgState
      ∧ ShowBgInternal gbaBgEnv zeroBgState 4 = zeroBgState
      ∧ (ShowBg gbaBgEnv zeroBgState 4).configs = zeroBgState.configs
      ∧ (ShowBg gbaBgEnv zeroBgState 4).configs2 = zeroBgState.configs2
      ∧ (ShowBg gbaBgEnv zeroBgState 4).bgVisibilityAndMode = zeroBgState.bgVisibilityAndMode :=
  invalid_plane_sentinels gbaBgEnv zeroBgState 4 0x100 0 0x2000000 2 BgAttr.priority
    (by decide) (by decide)

/-! ## Background state manager: attribute queries on invalid and hidden planes -/

theorem GetBgControlAttribute_rejected (st : BgState) (bg attributeId : Nat)
    (h : IsInvalidBg bg = true ∨ BgHidden st bg) :
    GetBgControlAttribute st bg attributeId = 0xFF := by
  unfold GetBgControlAttribute
  rcases h with h | h
  · rw [h]; rfl
  · unfold BgHidden at h
    rw [h]
    cases IsInvalidBg bg <;> rfl

/-- Counterexample to C15 as stated: for the invalid plane index 4 the attribute id
`BG_ATTR_TYPE` yields `0xFFFF`, the value of `GetBgType`, and not `0xFF`; so does
an id that is none of the ten attributes, through the `default` case. -/
theorem GetBgAttribute_type_invalid_plane :
    IsInvalidBg 4 = true
      ∧ GetBgAttribute zeroBgState 4 BgAttr.type = 0xFFFF
      ∧ GetBgAttribute zeroBgState 4 BgAttr.other = 0xFFFF
      ∧ ¬ (∀ attributeId, GetBgAttribute zeroBgState 4 attributeId = 0xFF) := by
  refine ⟨by decide, by decide, by decide, ?_⟩
  intro h
  exact absurd (h BgAttr.type) (by decide)

/-- C15, amended: for each of the seven attributes kept in a plane's configuration
(char-base, map-base, screen-size, palette-mode, priority, mosaic, wraparound),
`GetBgAttribute(bg, attributeId)` returns `0xFF` whenever `bg` is outside 0..3 or
the plane is hidden. -/
theorem GetBgAttribute_control_rejected (st : BgState) (bg : Nat) (attributeId : BgAttr)
    (hattr : attributeId.isControl = true)
    (h : IsInvalidBg bg = true ∨ BgHidden st bg) :
    GetBgAttribute st bg attributeId = 0xFF := by
  unfold GetBgAttribute
  cases attributeId <;> first
    | (dsimp only; rw [GetBgControlAttribute_rejected st bg _ h]; rfl)
    | exact absurd hattr (by decide)

/-- Instance of C15, amended: the priority of the hidden plane 0 of the all-zero
state reads as `0xFF`. -/
theorem GetBgAttribute_control_rejected_witness :
    BgHidden zeroBgState 0 ∧ GetBgAttribute zeroBgState 0 BgAttr.priority = 0xFF :=
  ⟨rfl, GetBgAttribute_control_rejected zeroBgState 0 BgAttr.priority rfl (Or.inr rfl)⟩

/-! ## Background state manager: configuring with every parameter left unchanged -/

theorem toU8_of_lt (bg : Nat) (h : bg < 4) : toU8 bg = bg := by
  unfold toU8; omega

theorem IsInvalidBg_of_lt (bg : Nat) (h : bg < 4) : IsInvalidBg bg = false := by
  unfold IsInvalidBg toU8
  exact decide_eq_false (by omega)

theorem IsInvalidBg32_of_lt (bg : Nat) (h : bg < 4) : IsInvalidBg32 bg = false := by
  unfold IsInvalidBg32 toU8
  exact decide_eq_false (by omega)

theorem SetBgControlAttributes_valid (st : BgState) (bg a b c d e f g : Nat) (h : bg < 4) :
    SetBgControlAttributes st bg a b c d e f g
      = { st with
          configs := Function.update st.configs bg
            (setControlFields (st.configs bg) (toU8 a) (toU8 b) (toU8 c) (toU8 d) (toU8 e)
              (toU8 f) (toU8 g)) } := by
  unfold SetBgControlAttributes
  rw [IsInvalidBg_of_lt bg h, toU8_of_lt bg h]
  rfl

theorem ReservedBytesClear_zero : ReservedBytesClear zeroBgState :=
  fun _ _ => ⟨rfl, rfl⟩

theorem ReservedBytesClear_reset (st : BgState) :
    ReservedBytesClear (ResetBgControlStructs st) := by
  intro b hb
  have hc : b = 0 ∨ b = 1 ∨ b = 2 ∨ b = 3 := by omega
  rcases hc with e | e | e | e <;> subst e <;> exact ⟨rfl, rfl⟩

theorem ReservedBytesClear_set (st : BgState) (bg a b c d e f g : Nat)
    (h : ReservedBytesClear st) :
    ReservedBytesClear (SetBgControlAttributes st bg a b c d e f g) := by
  intro p hp
  unfold SetBgControlAttributes
  split
  · show (Function.update st.configs (toU8 bg) _ p).unknown_2 = 0
      ∧ (Function.update st.configs (toU8 bg) _ p).unknown_3 = 0
    by_cases hpe : p = toU8 bg
    · rw [hpe, Function.update_same]
      exact ⟨rfl, rfl⟩
    · rw [Function.update_noteq hpe]
      exact h p hp
  · exact h p hp

theorem ReservedBytesClear_of_configs (a b : BgState) (hc : b.configs = a.configs)
    (h : ReservedBytesClear a) : ReservedBytesClear b := by
  intro p hp
  rw [hc]
  exact h p hp

theorem configs_left_alone (E : BgEnv) (st : BgState) (bg bgMode : Nat) :
    (ShowBg E st bg).configs = st.configs
      ∧ (HideBg E st bg).configs = st.configs
      ∧ (SetBgMode st bgMode).configs = st.configs := by
  refine ⟨?_, ?_, rfl⟩
  · unfold ShowBg SyncBgVisibilityAndMode ShowBgInternal
    split <;> rfl
  · unfold HideBg SyncBgVisibilityAndMode HideBgInternal
    split <;> rfl

theorem setControlFields_unchanged (c : BgConfig) (h2 : c.unknown_2 = 0) (h3 : c.unknown_3 = 0) :
    setControlFields c (toU8 0xFF) (toU8 0xFF) (toU8 0xFF) (toU8 0xFF) (toU8 0xFF) (toU8 0xFF)
        (toU8 0xFF)
      = { c with visible := 1 } := by
  obtain ⟨v, u1, ss, pr, mo, wr, cb, mb, pm, u2, u3⟩ := c
  simp only at h2 h3
  subst h2
  subst h3
  rfl

/-- C16: on every state whose reserved configuration bytes are zero (every state
the program reaches, see `ReservedBytesClear`), for every valid plane
`SetBgControlAttributes` called with `0xFF` for all seven parameters leaves every
field of that plane's configuration other than the visibility flag as it was,
sets the visibility flag to 1, leaves every other plane's configuration and all
the rest of the state untouched, and the reserved bytes are zero again
afterwards. -/
theorem SetBgControlAttributes_all_unchanged (st : BgState) (bg : Nat) (h : bg < 4)
    (hres : ReservedBytesClear st) :
    SetBgControlAttributes st bg 0xFF 0xFF 0xFF 0xFF 0xFF 0xFF 0xFF
      = { st with
          configs := Function.update st.configs bg { st.configs bg with visible := 1 } }
      ∧ (∀ other, other ≠ bg →
          (SetBgControlAttributes st bg 0xFF 0xFF 0xFF 0xFF 0xFF 0xFF 0xFF).configs other
            = st.configs other)
      ∧ ReservedBytesClear (SetBgControlAttributes st bg 0xFF 0xFF 0xFF 0xFF 0xFF 0xFF 0xFF) := by
  refine ⟨?_, ?_, ReservedBytesClear_set st bg _ _ _ _ _ _ _ hres⟩
  · rw [SetBgControlAttributes_valid st bg _ _ _ _ _ _ _ h,
      setControlFields_unchanged (st.configs bg) (hres bg h).1 (hres bg h).2]
  · intro other ho
    rw [SetBgControlAttributes_valid st bg _ _ _ _ _ _ _ h]
    exact Function.update_noteq ho _ _

/-- Instance of C16: plane 1 of `configuredBgState` has priority 2 and map base 5;
configuring it again, or configuring the hidden plane 2, with `0xFF` for all
seven parameters leaves the configuration of plane 1 as it was, and plane 2 gets
its visibility flag set and nothing else. -/
theorem SetBgControlAttributes_all_unchanged_witness :
    ReservedBytesClear configuredBgState
      ∧ (configuredBgState.configs 1).priority = 2
      ∧ (configuredBgState.configs 1).mapBaseIndex = 5
      ∧ (SetBgControlAttributes configuredBgState 1 0xFF 0xFF 0xFF 0xFF 0xFF 0xFF 0xFF).configs 1
          = configuredBgState.configs 1
      ∧ (SetBgControlAttributes configuredBgState 2 0xFF 0xFF 0xFF 0xFF 0xFF 0xFF 0xFF).configs 1
          = configuredBgState.configs 1
      ∧ (SetBgControlAttributes configuredBgState 2 0xFF 0xFF 0xFF 0xFF 0xFF 0xFF 0xFF).configs 2
          = { sZeroedBgControlStruct with visible := 1 } := by
  have hres : ReservedBytesClear configuredBgState :=
    ReservedBytesClear_set zeroBgState 1 2 5 3 1 2 1 1 ReservedBytesClear_zero
  have h1 := SetBgControlAttributes_all_unchanged configuredBgState 1 (by decide) hres
  have h2 := SetBgControlAttributes_all_unchanged configuredBgState 2 (by decide) hres
  refine ⟨hres, by decide, by decide, ?_, h2.2.1 1 (by decide), ?_⟩
  · rw [h1.1]
    rfl
  · rw [h2.1]
    rfl

/-! ## Background state manager: scroll values -/

theorem toS32_of_range (v : Int) (h : -2147483648 ≤ v ∧ v < 2147483648) : toS32 v = v := by
  unfold toS32; omega

theorem toS32_range (v : Int) : -2147483648 ≤ toS32 v ∧ toS32 v < 2147483648 := by
  unfold toS32; omega

theorem GetBgControlAttribute_visible (st : BgState) (bg : Nat) (h : bg < 4)
    (hv : (st.configs bg).visible ≠ 0) :
    (GetBgControlAttribute st bg 1 == 0) = false := by
  unfold GetBgControlAttribute
  rw [IsInvalidBg_of_lt bg h, toU8_of_lt bg h]
  have e : ((st.configs bg).visible != 0) = true := by simpa using hv
  rw [e]
  simpa using hv

theorem ChangeBgX_valid (E : BgEnv) (st : BgState) (bg : Nat) (value : Int) (op : Nat)
    (h : bg < 4) (hv : (st.configs bg).visible ≠ 0) :
    (ChangeBgX E st bg value op).1 = applyScrollOp (st.configs2 bg).bg_x value op
      ∧ (ChangeBgX E st bg value op).2.configs = st.configs
      ∧ (ChangeBgX E st bg value op).2.configs2
          = Function.update st.configs2 bg
              { st.configs2 bg with bg_x := applyScrollOp (st.configs2 bg).bg_x value op } := by
  unfold ChangeBgX
  rw [IsInvalidBg32_of_lt bg h, GetBgControlAttribute_visible st bg h hv, toU8_of_lt bg h]
  exact ⟨rfl, rfl, rfl⟩

theorem ChangeBgY_valid (E : BgEnv) (st : BgState) (bg : Nat) (value : Int) (op : Nat)
    (h : bg < 4) (hv : (st.configs bg).visible ≠ 0) :
    (ChangeBgY E st bg value op).1 = applyScrollOp (st.configs2 bg).bg_y value op
      ∧ (ChangeBgY E st bg value op).2.configs = st.configs
      ∧ (ChangeBgY E st bg value op).2.configs2
          = Function.update st.configs2 bg
              { st.configs2 bg with bg_y := applyScrollOp (st.configs2 bg).bg_y value op } := by
  unfold ChangeBgY
  rw [IsInvalidBg32_of_lt bg h, GetBgControlAttribute_visible st bg h hv, toU8_of_lt bg h]
  exact ⟨rfl, rfl, rfl⟩

theorem GetBgX_valid (st : BgState) (bg : Nat) (h : bg < 4)
    (hv : (st.configs bg).visible ≠ 0) : GetBgX st bg = (st.configs2 bg).bg_x := by
  unfold GetBgX
  rw [IsInvalidBg32_of_lt bg h, GetBgControlAttribute_visible st bg h hv, toU8_of_lt bg h]
  rfl

theorem GetBgY_valid (st : BgState) (bg : Nat) (h : bg < 4)
    (hv : (st.configs bg).visible ≠ 0) : GetBgY st bg = (st.configs2 bg).bg_y := by
  unfold GetBgY
  rw [IsInvalidBg32_of_lt bg h, GetBgControlAttribute_visible st bg h hv, toU8_of_lt bg h]
  rfl

/-- C17: for every configured (visible) plane `bg` in 0..3, whatever the display
mode held in the mode/visibility word, and every 32-bit `v`, `ChangeBgX(bg, v, 0)`
(opcode SET) returns `v` and a following `GetBgX(bg)` returns `v`; the same holds
for `ChangeBgY` and `GetBgY`. -/
theorem scroll_set_then_get (E : BgEnv) (st : BgState) (bg : Nat) (v : Int)
    (h : bg < 4) (hv : (st.configs bg).visible ≠ 0)
    (hr : -2147483648 ≤ v ∧ v < 2147483648) :
    (ChangeBgX E st bg v 0).1 = v ∧ GetBgX (ChangeBgX E st bg v 0).2 bg = v
      ∧ (ChangeBgY E st bg v 0).1 = v ∧ GetBgY (ChangeBgY E st bg v 0).2 bg = v := by
  have hx := ChangeBgX_valid E st bg v 0 h hv
  have hy := ChangeBgY_valid E st bg v 0 h hv
  have hset : ∀ old, applyScrollOp old v 0 = v := by
    intro old
    unfold applyScrollOp
    rw [if_neg (by decide), if_neg (by decide)]
    exact toS32_of_range v hr
  refine ⟨?_, ?_, ?_, ?_⟩
  · rw [hx.1]; exact hset _
  · rw [GetBgX_valid _ bg h (by rw [hx.2.1]; exact hv), hx.2.2, Function.update_same]
    exact hset (st.configs2 bg).bg_x
  · rw [hy.1]; exact hset _
  · rw [GetBgY_valid _ bg h (by rw [hy.2.1]; exact hv), hy.2.2, Function.update_same]
    exact hset (st.configs2 bg).bg_y

/-- Instance of C17: plane 1, shown, set to the scroll value -0x1234. -/
theorem scroll_set_then_get_witness :
    (ChangeBgX gbaBgEnv shownBgState 1 (-0x1234) 0).1 = -0x1234
      ∧ GetBgX (ChangeBgX gbaBgEnv shownBgState 1 (-0x1234) 0).2 1 = -0x1234
      ∧ (ChangeBgY gbaBgEnv shownBgState 1 (-0x1234) 0).1 = -0x1234
      ∧ GetBgY (ChangeBgY gbaBgEnv shownBgState 1 (-0x1234) 0).2 1 = -0x1234 :=
  scroll_set_then_get gbaBgEnv shownBgState 1 (-0x1234) (by decide) (by decide)
    ⟨by decide, by decide⟩

/-- C18: for every configured plane and every 32-bit `d`, `ChangeBgX(bg, d, 1)`
(opcode ADD) followed by `ChangeBgX(bg, d, 2)` (opcode SUB) leaves the stored X
scroll value equal to its value before the two calls, the two operations being
taken modulo 2^32; likewise for `ChangeBgY` and the Y scroll value. -/
theorem scroll_add_then_sub (E : BgEnv) (st : BgState) (bg : Nat) (d : Int)
    (h : bg < 4) (hv : (st.configs bg).visible ≠ 0)
    (hx : -2147483648 ≤ (st.configs2 bg).bg_x ∧ (st.configs2 bg).bg_x < 2147483648)
    (hy : -2147483648 ≤ (st.configs2 bg).bg_y ∧ (st.configs2 bg).bg_y < 2147483648) :
    ((ChangeBgX E (ChangeBgX E st bg d 1).2 bg d 2).2.configs2 bg).bg_x = (st.configs2 bg).bg_x
      ∧ ((ChangeBgY E (ChangeBgY E st bg d 1).2 bg d 2).2.configs2 bg).bg_y
          = (st.configs2 bg).bg_y := by
  have hx1 := ChangeBgX_valid E st bg d 1 h hv
  have hy1 := ChangeBgY_valid E st bg d 1 h hv
  have hx2 := ChangeBgX_valid E (ChangeBgX E st bg d 1).2 bg d 2 h (by rw [hx1.2.1]; exact hv)
  have hy2 := ChangeBgY_valid E (ChangeBgY E st bg d 1).2 bg d 2 h (by rw [hy1.2.1]; exact hv)
  have hround : ∀ old : Int, -2147483648 ≤ old ∧ old < 2147483648 →
      applyScrollOp (applyScrollOp old d 1) d 2 = old := by
    intro old ho
    have e1 : applyScrollOp old d 1 = toS32 (old + toS32 d) := by
      unfold applyScrollOp
      rw [if_pos (by decide)]
    have e2 : ∀ o, applyScrollOp o d 2 = toS32 (o - toS32 d) := by
      intro o
      unfold applyScrollOp
      rw [if_neg (by decide), if_pos (by decide)]
    rw [e1, e2]
    unfold toS32
    omega
  constructor
  · rw [hx2.2.2, Function.update_same, hx1.2.2, Function.update_same]
    exact hround (st.configs2 bg).bg_x hx
  · rw [hy2.2.2, Function.update_same, hy1.2.2, Function.update_same]
    exact hround (st.configs2 bg).bg_y hy

/-- Instance of C18: plane 1, shown, with `d = 0x7FFFFFFF` added to and
subtracted from the scroll value 0. -/
theorem scroll_add_then_sub_witness :
    ((ChangeBgX gbaBgEnv (ChangeBgX gbaBgEnv shownBgState 1 0x7FFFFFFF 1).2 1 0x7FFFFFFF
        2).2.configs2 1).bg_x = (shownBgState.configs2 1).bg_x
      ∧ ((ChangeBgY gbaBgEnv (ChangeBgY gbaBgEnv shownBgState 1 0x7FFFFFFF 1).2 1 0x7FFFFFFF
        2).2.configs2 1).bg_y = (shownBgState.configs2 1).bg_y :=
  scroll_add_then_sub gbaBgEnv shownBgState 1 0x7FFFFFFF (by decide) (by decide)
    ⟨by decide, by decide⟩ ⟨by decide, by decide⟩

/-! ## Background state manager: attributes are stored masked to their width -/

theorem bitField_and_3 (v : Nat) : bitField 2 (v &&& 0x3) = v &&& 0x3 := by
  have e : v &&& 0x3 = v % 4 := Nat.and_pow_two_sub_one_eq_mod v 2
  unfold bitField
  rw [e]
  exact Nat.mod_mod _ _

theorem bitField_and_1F (v : Nat) : bitField 5 (v &&& 0x1F) = v &&& 0x1F := by
  unfold bitField
  rw [and_0x1F]
  exact Nat.mod_mod _ _

theorem bitField_and_1 (v : Nat) : bitField 1 (v &&& 0x1) = v &&& 0x1 := by
  unfold bitField
  rw [and_one]
  exact Nat.mod_mod _ _

theorem bitField_one (v : Nat) : bitField 1 v = v &&& 0x1 := by
  unfold bitField
  rw [and_one]
  rfl

theorem toU16_and_mask (v m : Nat) (hm : m < 65536) : toU16 (v &&& m) = v &&& m := by
  unfold toU16
  exact Nat.mod_eq_of_lt (lt_of_le_of_lt Nat.and_le_right hm)

theorem toU16_mod_two (v : Nat) : toU16 (v % 2) = v % 2 := by
  unfold toU16
  omega

theorem GetBgControlAttribute_shown (st : BgState) (bg attributeId : Nat) (h : bg < 4)
    (hv : (st.configs bg).visible = 1) :
    GetBgControlAttribute st bg attributeId
      = if toU8 attributeId = 1 then (st.configs bg).visible
        else if toU8 attributeId = 2 then (st.configs bg).charBaseIndex
        else if toU8 attributeId = 3 then (st.configs bg).mapBaseIndex
        else if toU8 attributeId = 4 then (st.configs bg).screenSize
        else if toU8 attributeId = 5 then (st.configs bg).paletteMode
        else if toU8 attributeId = 6 then (st.configs bg).priority
        else if toU8 attributeId = 7 then (st.configs bg).mosaic
        else if toU8 attributeId = 8 then (st.configs bg).wraparound
        else 0xFF := by
  unfold GetBgControlAttribute
  rw [IsInvalidBg_of_lt bg h, toU8_of_lt bg h, hv]
  rfl

/-- C19: for every valid plane, each of the seven configuration attributes and
every byte `v` other than `0xFF`, `SetBgAttribute(bg, attr, v)` followed by
`GetBgAttribute(bg, attr)` returns `v` masked to the width of the field
(`v & 0x3` for char-base, screen-size and priority, `v & 0x1F` for map-base,
`v & 0x1` for mosaic, palette-mode and wraparound), a value within that width. -/
theorem attribute_set_then_get (st : BgState) (bg : Nat) (attributeId : BgAttr) (v : Nat)
    (h : bg < 4) (hattr : attributeId.isControl = true) (hv : v < 256) (hff : v ≠ 0xFF) :
    GetBgAttribute (SetBgAttribute st bg attributeId v) bg attributeId = v &&& attributeId.mask
      ∧ GetBgAttribute (SetBgAttribute st bg attributeId v) bg attributeId
          ≤ attributeId.mask := by
  have hu : toU8 v = v := Nat.mod_eq_of_lt hv
  have key : GetBgAttribute (SetBgAttribute st bg attributeId v) bg attributeId
      = v &&& attributeId.mask := by
    unfold GetBgAttribute SetBgAttribute
    cases attributeId <;> first
      | exact absurd hattr (by decide)
      | (dsimp only
         rw [SetBgControlAttributes_valid st bg _ _ _ _ _ _ _ h,
           GetBgControlAttribute_shown _ bg _ h (by dsimp only; rw [Function.update_same]; rfl)]
         dsimp only
         rw [Function.update_same]
         simp only [setControlFields, hu, BgAttr.mask]
         simp [toU8, hff, bitField_and_3, bitField_and_1F, bitField_and_1, bitField_one,
           toU16_and_mask, toU16_mod_two])
  exact ⟨key, by rw [key]; exact Nat.and_le_right⟩

/-- Instance of C19: the byte `0x7E` stored as the map-base of plane 2 reads back
as `0x1E`. -/
theorem attribute_set_then_get_witness :
    GetBgAttribute (SetBgAttribute zeroBgState 2 BgAttr.mapBaseIndex 0x7E) 2 BgAttr.mapBaseIndex
        = 0x1E
      ∧ GetBgAttribute (SetBgAttribute zeroBgState 2 BgAttr.mapBaseIndex 0x7E) 2
          BgAttr.mapBaseIndex ≤ 0x1F :=
  attribute_set_then_get zeroBgState 2 BgAttr.mapBaseIndex 0x7E (by decide) rfl (by decide)
    (by decide)

/-! ## The text-mode map index -/

theorem coord_mask_32 (z : Int) :
    toS32 ((toU32 z &&& toU32 (((32 : Nat) : Int) - 1) : Nat) : Int) = ((z % 32).toNat : Int)
      ∧ (z % 32).toNat < 32 := by
  have hm : toU32 (((32 : Nat) : Int) - 1) = 2 ^ 5 - 1 := by decide
  have h := toU32_and_mask z 5 (by omega)
  have e : (((2 ^ 5 : Nat)) : Int) = 32 := by norm_num
  rw [e] at h
  rw [hm, h]
  unfold toS32
  omega

theorem coord_mask_64 (z : Int) :
    toS32 ((toU32 z &&& toU32 (((64 : Nat) : Int) - 1) : Nat) : Int) = ((z % 64).toNat : Int)
      ∧ (z % 64).toNat < 64 := by
  have hm : toU32 (((64 : Nat) : Int) - 1) = 2 ^ 6 - 1 := by decide
  have h := toU32_and_mask z 6 (by omega)
  have e : (((2 ^ 6 : Nat)) : Int) = 64 := by norm_num
  rw [e] at h
  rw [hm, h]
  unfold toS32
  omega

theorem toS32_small (z : Int) (hz : -4096 ≤ z ∧ z < 4096) : toS32 z = z := by
  unfold toS32; omega

theorem tileIndex_final (Y X : Int) (hY : 0 ≤ Y ∧ Y < 128) (hX : 0 ≤ X ∧ X < 64) :
    toU32 (toS32 (toS32 (Y * 32) + X)) = (Y * 32 + X).toNat := by
  have h1 : toS32 (Y * 32) = Y * 32 := by unfold toS32; omega
  rw [h1]
  have h2 : toS32 (Y * 32 + X) = Y * 32 + X := by unfold toS32; omega
  rw [h2]
  unfold toU32
  have h3 : (Y * 32 + X) % 4294967296 = Y * 32 + X := by omega
  rw [h3]

theorem tileIndex_of_masked (s : Nat) (a b : Nat) (W H : Nat) (x y : Int)
    (hx : toS32 ((toU32 x &&& toU32 ((W : Int) - 1) : Nat) : Int) = (a : Int))
    (hy : toS32 ((toU32 y &&& toU32 ((H : Int) - 1) : Nat) : Int) = (b : Int))
    (ha : a < 64) (hb : b < 64) (hs : s < 4)
    (hsa : (s = 0 ∨ s = 2) → a < 32) (hsb : (s = 0 ∨ s = 1) → b < 32) :
    GetTileMapIndexFromCoords x y (s : Int) W H
      = 1024 * screenBlock s a b + 32 * (b % 32) + a % 32 := by
  unfold GetTileMapIndexFromCoords
  rw [hx, hy]
  have hs32 : toS32 (s : Int) = (s : Int) := toS32_small _ ⟨by omega, by omega⟩
  rw [hs32]
  have hy2 : (if (s : Int) = 3 ∧ (b : Int) ≥ 0x20 then toS32 ((b : Int) + 0x20) else (b : Int))
      = if s = 3 ∧ 32 ≤ b then (b : Int) + 32 else (b : Int) := by
    by_cases c : s = 3 ∧ 32 ≤ b
    · rw [if_pos c, if_pos (by omega), toS32_small ((b : Int) + 32) ⟨by omega, by omega⟩]
    · rw [if_neg c, if_neg (by omega)]
  dsimp only
  rw [hy2]
  by_cases hw : (s = 3 ∨ s = 1) ∧ 32 ≤ a
  · have hwd : decide (((s : Int) = 3 ∨ (s : Int) = 1) ∧ (a : Int) ≥ 0x20) = true :=
      decide_eq_true (by omega)
    rw [hwd]
    simp only [if_true]
    by_cases c : s = 3 ∧ 32 ≤ b
    · rw [if_pos c, toS32_small ((a : Int) - 32) ⟨by omega, by omega⟩,
        toS32_small ((b : Int) + 32 + 32) ⟨by omega, by omega⟩,
        tileIndex_final ((b : Int) + 32 + 32) ((a : Int) - 32) ⟨by omega, by omega⟩
          ⟨by omega, by omega⟩]
      unfold screenBlock
      rw [if_neg (by omega), if_neg (by omega), if_neg (by omega)]
      omega
    · rw [if_neg c, toS32_small ((a : Int) - 32) ⟨by omega, by omega⟩,
        toS32_small ((b : Int) + 32) ⟨by omega, by omega⟩,
        tileIndex_final ((b : Int) + 32) ((a : Int) - 32) ⟨by omega, by omega⟩
          ⟨by omega, by omega⟩]
      unfold screenBlock
      rcases hw.1 with e | e
      · rw [if_neg (by omega), if_neg (by omega), if_neg (by omega)]
        omega
      · rw [if_neg (by omega), if_pos e]
        have := hsb (Or.inr e)
        omega
  · have hwd : decide (((s : Int) = 3 ∨ (s : Int) = 1) ∧ (a : Int) ≥ 0x20) = false :=
      decide_eq_false (by omega)
    rw [hwd]
    simp only [Bool.false_eq_true, if_false]
    by_cases c : s = 3 ∧ 32 ≤ b
    · rw [if_pos c, tileIndex_final ((b : Int) + 32) (a : Int) ⟨by omega, by omega⟩
        ⟨by omega, by omega⟩]
      unfold screenBlock
      rw [if_neg (by omega), if_neg (by omega), if_neg (by omega)]
      omega
    · rw [if_neg c, tileIndex_final (b : Int) (a : Int) ⟨by omega, by omega⟩
        ⟨by omega, by omega⟩]
      unfold screenBlock
      have hcases : s = 0 ∨ s = 1 ∨ s = 2 ∨ s = 3 := by omega
      rcases hcases with e | e | e | e
      · rw [if_pos e]
        have := hsa (Or.inl e); have := hsb (Or.inl e)
        omega
      · rw [if_neg (by omega), if_pos e]
        have := hsb (Or.inr e)
        omega
      · rw [if_neg (by omega), if_neg (by omega), if_pos e]
        have := hsa (Or.inr e)
        omega
      · rw [if_neg (by omega), if_neg (by omega), if_neg (by omega)]
        omega

/-- C20: for every screen-size class `s` in 0..3 and all `x`, `y`, with `W x H` the
map size in tiles of class `s` (32 x 32, 64 x 32, 32 x 64, 64 x 64),
`GetTileMapIndexFromCoords(x, y, s, W, H)` is `1024 * q + 32 * (y' mod 32) + (x' mod 32)`
where `x' = x mod W`, `y' = y mod H` and `q` is the screen block of `(x', y')`:
0 for `s = 0`, `x' / 32` for `s = 1`, `y' / 32` for `s = 2` and
`2 * (y' / 32) + x' / 32` for `s = 3`. -/
theorem GetTileMapIndexFromCoords_formula (s : Nat) (x y : Int) (hs : s < 4) :
    GetTileMapIndexFromCoords x y (s : Int) (mapSizeInTiles s).1 (mapSizeInTiles s).2
      = 1024 * screenBlock s (x % ((mapSizeInTiles s).1 : Int)).toNat
            (y % ((mapSizeInTiles s).2 : Int)).toNat
          + 32 * ((y % ((mapSizeInTiles s).2 : Int)).toNat % 32)
          + (x % ((mapSizeInTiles s).1 : Int)).toNat % 32 := by
  have hcases : s = 0 ∨ s = 1 ∨ s = 2 ∨ s = 3 := by omega
  have x32 := coord_mask_32 x
  have x64 := coord_mask_64 x
  have y32 := coord_mask_32 y
  have y64 := coord_mask_64 y
  rcases hcases with e | e | e | e
  · subst e
    exact tileIndex_of_masked 0 (x % 32).toNat (y % 32).toNat 32 32 x y x32.1 y32.1
      (Nat.lt_trans x32.2 (by decide)) (Nat.lt_trans y32.2 (by decide)) (by decide)
      (fun _ => x32.2) (fun _ => y32.2)
  · subst e
    exact tileIndex_of_masked 1 (x % 64).toNat (y % 32).toNat 64 32 x y x64.1 y32.1 x64.2
      (Nat.lt_trans y32.2 (by decide)) (by decide)
      (fun h => absurd h (by decide)) (fun _ => y32.2)
  · subst e
    exact tileIndex_of_masked 2 (x % 32).toNat (y % 64).toNat 32 64 x y x32.1 y64.1
      (Nat.lt_trans x32.2 (by decide)) y64.2 (by decide)
      (fun _ => x32.2) (fun h => absurd h (by decide))
  · subst e
    exact tileIndex_of_masked 3 (x % 64).toNat (y % 64).toNat 64 64 x y x64.1 y64.1 x64.2 y64.2
      (by decide) (fun h => absurd h (by decide)) (fun h => absurd h (by decide))

/-- Instance of C20: in a 64 x 64 map the tile (-1, 33) wraps to (63, 33), which
lies in screen block 3 at row 1, column 31: index 3072 + 32 + 31. -/
theorem GetTileMapIndexFromCoords_formula_witness :
    GetTileMapIndexFromCoords (-1) 33 3 64 64 = 3135 := by
  have h : GetTileMapIndexFromCoords (-1) 33 3 64 64
      = 1024 * screenBlock 3 ((-1 : Int) % ((mapSizeInTiles 3).1 : Int)).toNat
            ((33 : Int) % ((mapSizeInTiles 3).2 : Int)).toNat
          + 32 * (((33 : Int) % ((mapSizeInTiles 3).2 : Int)).toNat % 32)
          + ((-1 : Int) % ((mapSizeInTiles 3).1 : Int)).toNat % 32 :=
    GetTileMapIndexFromCoords_formula 3 (-1) 33 (by decide)
  rw [h]
  decide

/-! ## Brightness decrease with a coefficient above 16 -/

theorem alphaBrightnessDecrease_le_of_coeff_le_16 (gpu : Gpu) (A : Nat)
    (hc : gpu.blendCoeff &&& 0x1F ≤ 16) :
    getRedChannel (alphaBrightnessDecrease gpu A) ≤ getRedChannel A
      ∧ getGreenChannel (alphaBrightnessDecrease gpu A) ≤ getGreenChannel A
      ∧ getBlueChannel (alphaBrightnessDecrease gpu A) ≤ getBlueChannel A := by
  have hdec : ∀ c e : Nat, c ≤ 31 → e ≤ 16 →
      clamp31 (toU32 ((c : Int) - ((c * e / 16 : Nat) : Int))) ≤ c := by
    intro c e hc31 he
    have h1 : c * e / 16 ≤ c := by
      have : c * e ≤ c * 16 := Nat.mul_le_mul_left c he
      omega
    rw [clamp31_eq_min]
    unfold toU32
    omega
  have hr : getRedChannel A ≤ 31 := by rw [getRedChannel_eq]; omega
  have hg : getGreenChannel A ≤ 31 := by rw [getGreenChannel_eq]; omega
  have hb : getBlueChannel A ≤ 31 := by rw [getBlueChannel_eq]; omega
  unfold alphaBrightnessDecrease
  dsimp only
  have hp := packColor_channels
    (clamp31 (toU32 ((getRedChannel A : Int)
      - ((getRedChannel A * (gpu.blendCoeff &&& 0x1F) / 16 : Nat) : Int))))
    (clamp31 (toU32 ((getGreenChannel A : Int)
      - ((getGreenChannel A * (gpu.blendCoeff &&& 0x1F) / 16 : Nat) : Int))))
    (clamp31 (toU32 ((getBlueChannel A : Int)
      - ((getBlueChannel A * (gpu.blendCoeff &&& 0x1F) / 16 : Nat) : Int))))
    (clamp31_le _) (clamp31_le _) (clamp31_le _)
  rw [hp.1, hp.2.1, hp.2.2.1]
  exact ⟨hdec _ _ hr hc, hdec _ _ hg hc, hdec _ _ hb hc⟩


/-- C28: with the coefficient 31 in the low five bits of the blend-coefficient
register, `alphaBrightnessDecrease` raises the red channel of the colour `0x000A`
from 10 to 31: `10 * 31 / 16` is 19, the `unsigned int` difference `10 - 19`
wraps to `2 ^ 32 - 9`, and the clamp `if (r > 31) r = 31` turns it into 31. -/
theorem alphaBrightnessDecrease_coefficient_31 :
    ({ zeroGpu with blendCoeff := 31 } : Gpu).blendCoeff &&& 0x1F = 31
      ∧ getRedChannel 0x000A = 10
      ∧ toU32 ((10 : Int) - ((10 * 31 / 16 : Nat) : Int)) = 4294967287
      ∧ getRedChannel (alphaBrightnessDecrease { zeroGpu with blendCoeff := 31 } 0x000A) = 31
      ∧ ¬ (getRedChannel (alphaBrightnessDecrease { zeroGpu with blendCoeff := 31 } 0x000A)
            ≤ getRedChannel 0x000A) := by
  refine ⟨by decide, by decide, by decide, by decide, by decide⟩

/-! ## Background state manager: the registers written by the scroll functions -/

theorem shiftRight_int_nat (m : Int) (n : Nat) : m >>> (n : Int) = m >>> n := by
  cases m with
  | ofNat k => exact Int.shiftRight_coe_nat k n
  | negSucc k => exact Int.shiftRight_negSucc k n

theorem int_shr8 (v : Int) : v >>> 8 = v / 256 := by
  have h : v >>> ((8 : Nat) : Int) = v >>> (8 : Nat) := shiftRight_int_nat v 8
  have e : (((8 : Nat) : Int)) = (8 : Int) := rfl
  rw [e] at h
  rw [h, Int.shiftRight_eq_div_pow]
  norm_num

theorem int_shr16 (v : Int) : v >>> 16 = v / 65536 := by
  have h : v >>> ((16 : Nat) : Int) = v >>> (16 : Nat) := shiftRight_int_nat v 16
  have e : (((16 : Nat) : Int)) = (16 : Int) := rfl
  rw [e] at h
  rw [h, Int.shiftRight_eq_div_pow]
  norm_num

theorem s32ToU16_shift8 (v : Int) :
    s32ToU16 (v >>> 8) = (toU32 v >>> 8) % 65536 := by
  unfold s32ToU16 toU16 toU32
  rw [int_shr8, Nat.shiftRight_eq_div_pow]
  omega

theorem s32ToU16_shift16 (v : Int) :
    s32ToU16 (v >>> 16) = toU32 v >>> 16 := by
  unfold s32ToU16 toU16 toU32
  rw [int_shr16, Nat.shiftRight_eq_div_pow]
  omega

theorem halves_join (n : Nat) :
    ((n >>> 16) <<< 16) ||| toU16 (n &&& 0xFFFF) = n := by
  have e1 : n &&& 0xFFFF = n % 65536 := Nat.and_pow_two_sub_one_eq_mod n 16
  rw [e1]
  unfold toU16
  rw [Nat.mod_mod, Nat.shiftRight_eq_div_pow, Nat.shiftLeft_eq, Nat.mul_comm]
  have hlt : n % 65536 < 2 ^ 16 := Nat.mod_lt _ (by norm_num)
  rw [← Nat.mul_add_lt_is_or hlt]
  omega

theorem GetBgMode_lt (st : BgState) : GetBgMode st < 8 := by
  unfold GetBgMode toU8
  have e : st.bgVisibilityAndMode &&& 0x7 = st.bgVisibilityAndMode % 8 :=
    Nat.and_pow_two_sub_one_eq_mod _ 3
  rw [e]
  omega

theorem GetBgType_text (st : BgState) (bg : Nat) (h : bg < 4) (ht : GetBgType st bg = 0) :
    bg = 0 ∨ bg = 1 ∨ ((bg = 2 ∨ bg = 3) ∧ GetBgMode st = 0) := by
  unfold GetBgType at ht
  rw [toU8_of_lt bg h] at ht
  dsimp only at ht
  have hc : bg = 0 ∨ bg = 1 ∨ bg = 2 ∨ bg = 3 := by omega
  rcases hc with e | e | e | e
  · exact Or.inl e
  · exact Or.inr (Or.inl e)
  · subst e
    rw [if_neg (by decide), if_pos rfl] at ht
    by_cases hm : GetBgMode st = 0
    · exact Or.inr (Or.inr ⟨Or.inl rfl, hm⟩)
    · rw [if_neg hm] at ht
      split_ifs at ht
  · subst e
    rw [if_neg (by decide), if_neg (by decide), if_pos rfl] at ht
    by_cases hm : GetBgMode st = 0
    · exact Or.inr (Or.inr ⟨Or.inr rfl, hm⟩)
    · rw [if_neg hm] at ht
      split_ifs at ht

theorem GetBgType_affine (st : BgState) (bg : Nat) (h : bg < 4) (ht : GetBgType st bg = 1) :
    (bg = 2 ∧ (GetBgMode st = 1 ∨ GetBgMode st = 2)) ∨ (bg = 3 ∧ GetBgMode st = 2) := by
  unfold GetBgType at ht
  rw [toU8_of_lt bg h] at ht
  dsimp only at ht
  have hc : bg = 0 ∨ bg = 1 ∨ bg = 2 ∨ bg = 3 := by omega
  rcases hc with e | e | e | e
  · subst e
    rw [if_pos (Or.inl rfl)] at ht
    split_ifs at ht
    omega
  · subst e
    rw [if_pos (Or.inr rfl)] at ht
    split_ifs at ht
    omega
  · subst e
    rw [if_neg (by decide), if_pos rfl] at ht
    split_ifs at ht <;> omega
  · subst e
    rw [if_neg (by decide), if_neg (by decide), if_pos rfl] at ht
    split_ifs at ht <;> omega

theorem writeScrollRegs_text (E : BgEnv) (bg mode : Nat) (v : Int) (ofs hi lo : Nat → Nat)
    (regs : GpuRegs) (h : bg = 0 ∨ bg = 1 ∨ ((bg = 2 ∨ bg = 3) ∧ mode = 0)) :
    writeScrollRegs E bg mode v ofs hi lo regs = textScrollWrite E (ofs bg) v regs := by
  unfold writeScrollRegs textScrollWrite
  rw [s32ToU16_shift8]
  rcases h with e | e | ⟨e | e, hm⟩
  · subst e; rw [if_pos rfl]
  · subst e; rw [if_neg (by decide), if_pos rfl]
  · subst e; rw [if_neg (by decide), if_neg (by decide), if_pos rfl, if_pos hm]
  · subst e
    rw [if_neg (by decide), if_neg (by decide), if_neg (by decide), if_pos rfl, if_pos hm]

theorem writeScrollRegs_affine (E : BgEnv) (bg mode : Nat) (v : Int) (ofs hi lo : Nat → Nat)
    (regs : GpuRegs) (h : (bg = 2 ∧ (mode = 1 ∨ mode = 2)) ∨ (bg = 3 ∧ mode = 2)) :
    writeScrollRegs E bg mode v ofs hi lo regs
      = affineScrollWrite E (hi bg) (lo bg) v regs := by
  have hlow : toU16 (toU32 v &&& 0xFFFF) = toU32 v % 65536 := by
    have e1 : toU32 v &&& 0xFFFF = toU32 v % 65536 := Nat.and_pow_two_sub_one_eq_mod _ 16
    rw [e1]
    unfold toU16
    exact Nat.mod_mod _ _
  unfold writeScrollRegs affineScrollWrite
  rw [s32ToU16_shift16, hlow]
  rcases h with ⟨e, hm⟩ | ⟨e, hm⟩
  · subst e
    rw [if_neg (by decide), if_neg (by decide), if_pos rfl, if_neg (by omega)]
  · subst e
    rw [if_neg (by decide), if_neg (by decide), if_neg (by decide), if_pos rfl,
      if_neg (by omega), if_pos hm]

theorem ChangeBgX_regs (E : BgEnv) (st : BgState) (bg : Nat) (value : Int) (op : Nat)
    (h : bg < 4) (hv : (st.configs bg).visible ≠ 0) :
    (ChangeBgX E st bg value op).2.regs
      = writeScrollRegs E bg (GetBgMode st) (ChangeBgX E st bg value op).1 (hofs E)
          (affineXHigh E) (affineXLow E) st.regs := by
  unfold ChangeBgX
  rw [IsInvalidBg32_of_lt bg h, GetBgControlAttribute_visible st bg h hv, toU8_of_lt bg h]
  rfl

theorem ChangeBgY_regs (E : BgEnv) (st : BgState) (bg : Nat) (value : Int) (op : Nat)
    (h : bg < 4) (hv : (st.configs bg).visible ≠ 0) :
    (ChangeBgY E st bg value op).2.regs
      = writeScrollRegs E bg (GetBgMode st) (ChangeBgY E st bg value op).1 (vofs E)
          (affineYHigh E) (affineYLow E) st.regs := by
  unfold ChangeBgY
  rw [IsInvalidBg32_of_lt bg h, GetBgControlAttribute_visible st bg h hv, toU8_of_lt bg h]
  rfl

/-- C23: for every configured plane, `ChangeBgX` having stored the scroll value
`v` (the value it returns) writes, for a text-type plane (`GetBgType` 0), only
that plane's horizontal offset register, with `(v >> 8)` truncated to 16 bits;
for an affine-type plane (`GetBgType` 1: plane 2 in modes 1 and 2, plane 3 in
mode 2), only that plane's X high and low registers, with bits 16..31 and bits
0..15 of `v`, so that `(high << 16) | low` is `v` as an unsigned 32-bit value.
`ChangeBgY` does the same with the vertical registers. -/
theorem scroll_register_writes (E : BgEnv) (st : BgState) (bg : Nat) (value : Int) (op : Nat)
    (h : bg < 4) (hv : (st.configs bg).visible ≠ 0) :
    (GetBgType st bg = 0 →
        (ChangeBgX E st bg value op).2.regs
            = textScrollWrite E (hofs E bg) (ChangeBgX E st bg value op).1 st.regs
          ∧ (ChangeBgY E st bg value op).2.regs
            = textScrollWrite E (vofs E bg) (ChangeBgY E st bg value op).1 st.regs)
      ∧ (GetBgType st bg = 1 →
        ((bg = 2 ∧ (GetBgMode st = 1 ∨ GetBgMode st = 2)) ∨ (bg = 3 ∧ GetBgMode st = 2))
          ∧ (ChangeBgX E st bg value op).2.regs
            = affineScrollWrite E (affineXHigh E bg) (affineXLow E bg)
                (ChangeBgX E st bg value op).1 st.regs
          ∧ (ChangeBgY E st bg value op).2.regs
            = affineScrollWrite E (affineYHigh E bg) (affineYLow E bg)
                (ChangeBgY E st bg value op).1 st.regs)
      ∧ (∀ v : Int, ((toU32 v >>> 16) <<< 16) ||| (toU32 v % 65536) = toU32 v) := by
  refine ⟨?_, ?_, ?_⟩
  · intro ht
    have hc := GetBgType_text st bg h ht
    rw [ChangeBgX_regs E st bg value op h hv, ChangeBgY_regs E st bg value op h hv]
    exact ⟨writeScrollRegs_text E bg _ _ _ _ _ _ hc, writeScrollRegs_text E bg _ _ _ _ _ _ hc⟩
  · intro ht
    have hc := GetBgType_affine st bg h ht
    rw [ChangeBgX_regs E st bg value op h hv, ChangeBgY_regs E st bg value op h hv]
    exact ⟨hc, writeScrollRegs_affine E bg _ _ _ _ _ _ hc,
      writeScrollRegs_affine E bg _ _ _ _ _ _ hc⟩
  · intro v
    have hj := halves_join (toU32 v)
    have e1 : toU32 v &&& 0xFFFF = toU32 v % 65536 := Nat.and_pow_two_sub_one_eq_mod _ 16
    rw [e1] at hj
    unfold toU16 at hj
    rw [Nat.mod_mod] at hj
    exact hj

/-- Instance of C23: in mode 0, plane 1 set to the scroll value `0x12345` has
`0x123` written to its horizontal and vertical offset registers. -/
theorem scroll_register_writes_witness :
    (ChangeBgX gbaBgEnv shownBgState 1 0x12345 0).2.regs.cells 0x14 = 0x123
      ∧ (ChangeBgY gbaBgEnv shownBgState 1 0x12345 0).2.regs.cells 0x16 = 0x123 := by
  have h := (scroll_register_writes gbaBgEnv shownBgState 1 0x12345 0 (by decide)
    (by decide)).1 (by decide)
  rw [h.1, h.2]
  constructor <;> decide

/-! ## Background state manager: the mode/visibility word and the display control -/

theorem mode_plane_mask_testBit (E : BgEnv) (hE : E.DISPCNT_BG_ALL_ON = 0x0F00) (k : Nat) :
    (DISPCNT_ALL_BG_AND_MODE_BITS E).testBit k = decide (IsModeOrPlaneBit k) := by
  unfold DISPCNT_ALL_BG_AND_MODE_BITS IsModeOrPlaneBit
  rw [hE]
  by_cases hk : k < 16
  · interval_cases k <;> decide
  · have h1 : (0x0F00 ||| 0x7 : Nat).testBit k = false :=
      Nat.testBit_lt_two_pow (lt_of_lt_of_le (by decide : (0x0F00 ||| 0x7 : Nat) < 2 ^ 16)
        (Nat.pow_le_pow_right (by decide) (by omega)))
    rw [h1]
    exact (decide_eq_false (by omega)).symm

theorem toU16_testBit (x k : Nat) : (toU16 x).testBit k = (decide (k < 16) && x.testBit k) := by
  unfold toU16
  exact Nat.testBit_mod_two_pow x 16 k

theorem cleared_testBit (x m k : Nat) :
    (x ^^^ (x &&& m)).testBit k = (x.testBit k && !(m.testBit k)) := by
  rw [Nat.testBit_xor, Nat.testBit_and]
  cases x.testBit k <;> cases m.testBit k <;> rfl

theorem one_shiftLeft_testBit (n k : Nat) : (1 <<< n).testBit k = decide (k = n) := by
  rw [Nat.one_shiftLeft, Nat.testBit_two_pow]
  by_cases h : n = k
  · subst h; simp
  · have h' : ¬ k = n := fun e => h e.symm
    simp [h, h']

theorem ShowBgInternal_word (E : BgEnv) (hE : E.DISPCNT_BG_ALL_ON = 0x0F00) (st : BgState)
    (bg : Nat) (h : bg < 4) (hv : (st.configs bg).visible ≠ 0) (k : Nat) :
    (ShowBgInternal E st bg).bgVisibilityAndMode.testBit k
      = (decide (IsModeOrPlaneBit k)
          && (decide (k = 8 + bg) || st.bgVisibilityAndMode.testBit k)) := by
  unfold ShowBgInternal
  rw [IsInvalidBg_of_lt bg h, toU8_of_lt bg h]
  have e : ((st.configs bg).visible != 0) = true := by simpa using hv
  rw [e]
  show (toU16 (toU16 (st.bgVisibilityAndMode ||| (1 <<< (bg + 8)))
      &&& DISPCNT_ALL_BG_AND_MODE_BITS E)).testBit k = _
  rw [toU16_testBit, Nat.testBit_and, toU16_testBit, Nat.testBit_or, one_shiftLeft_testBit,
    mode_plane_mask_testBit E hE]
  have hb : decide (k = bg + 8) = decide (k = 8 + bg) := by
    congr 1
    exact propext ⟨fun a => by omega, fun a => by omega⟩
  rw [hb]
  by_cases hk : k < 16
  · simp [hk, Bool.and_comm, Bool.or_comm]
  · have : ¬ IsModeOrPlaneBit k := by unfold IsModeOrPlaneBit; omega
    simp [hk, this]

theorem HideBgInternal_word (E : BgEnv) (hE : E.DISPCNT_BG_ALL_ON = 0x0F00) (st : BgState)
    (bg : Nat) (h : bg < 4) (k : Nat) :
    (HideBgInternal E st bg).bgVisibilityAndMode.testBit k
      = (decide (IsModeOrPlaneBit k)
          && (!decide (k = 8 + bg) && st.bgVisibilityAndMode.testBit k)) := by
  unfold HideBgInternal
  rw [IsInvalidBg_of_lt bg h, toU8_of_lt bg h]
  show (toU16 (toU16 (st.bgVisibilityAndMode
      ^^^ (st.bgVisibilityAndMode &&& (1 <<< (bg + 8))))
      &&& DISPCNT_ALL_BG_AND_MODE_BITS E)).testBit k = _
  rw [toU16_testBit, Nat.testBit_and, toU16_testBit, cleared_testBit, one_shiftLeft_testBit,
    mode_plane_mask_testBit E hE]
  have hb : decide (k = bg + 8) = decide (k = 8 + bg) := by
    congr 1
    exact propext ⟨fun a => by omega, fun a => by omega⟩
  rw [hb]
  by_cases hk : k < 16
  · simp [hk, Bool.and_comm]
  · have : ¬ IsModeOrPlaneBit k := by unfold IsModeOrPlaneBit; omega
    simp [hk, this]

theorem toU16_lt (x : Nat) : toU16 x < 65536 := by
  unfold toU16
  exact Nat.mod_lt _ (by decide)

theorem SyncBgVisibilityAndMode_register (E : BgEnv) (hR : RegisterStore E)
    (hE : E.DISPCNT_BG_ALL_ON = 0x0F00) (st : BgState)
    (hw : ∀ k, st.bgVisibilityAndMode.testBit k = true → IsModeOrPlaneBit k) (k : Nat)
    (hk : k < 16) :
    (E.GetGpuReg E.REG_OFFSET_DISPCNT (SyncBgVisibilityAndMode E st).regs).testBit k
      = if IsModeOrPlaneBit k then st.bgVisibilityAndMode.testBit k
        else (E.GetGpuReg E.REG_OFFSET_DISPCNT st.regs).testBit k := by
  unfold SyncBgVisibilityAndMode
  dsimp only
  rw [hR.read_written _ _ _ (toU16_lt _), toU16_testBit, Nat.testBit_or, cleared_testBit,
    mode_plane_mask_testBit E hE]
  by_cases hm : IsModeOrPlaneBit k
  · rw [if_pos hm]
    simp [hk, hm]
  · rw [if_neg hm]
    have hz : st.bgVisibilityAndMode.testBit k = false := by
      cases hb : st.bgVisibilityAndMode.testBit k
      · rfl
      · exact absurd (hw k hb) hm
    simp [hk, hm, hz]

theorem ShowBgInternal_dispcnt (E : BgEnv) (hR : RegisterStore E) (st : BgState) (bg : Nat)
    (h : bg < 4) (hoff : E.REG_OFFSET_DISPCNT ≠ (bg <<< 1) + 0x8) :
    E.GetGpuReg E.REG_OFFSET_DISPCNT (ShowBgInternal E st bg).regs
      = E.GetGpuReg E.REG_OFFSET_DISPCNT st.regs := by
  unfold ShowBgInternal
  rw [toU8_of_lt bg h]
  split
  · dsimp only
    have e : toU16 ((bg <<< 1) + 0x8) = (bg <<< 1) + 0x8 := by
      unfold toU16
      rw [Nat.shiftLeft_eq]
      omega
    rw [e]
    exact hR.read_other _ _ _ _ hoff
  · rfl

theorem ModeWordClean_of_zero (st : BgState) (h : st.bgVisibilityAndMode = 0) :
    ModeWordClean st := by
  intro k hk
  rw [h, Nat.zero_testBit] at hk
  exact absurd hk (by decide)

theorem ModeWordClean_ResetBgs (E : BgEnv) (st : BgState) : ModeWordClean (ResetBgs E st) :=
  ModeWordClean_of_zero _ rfl

theorem ModeWordClean_SetBgMode (st : BgState) (bgMode : Nat) (hm : bgMode ≤ 7)
    (h : ModeWordClean st) : ModeWordClean (SetBgMode st bgMode) := by
  intro k hk
  have e : (SetBgMode st bgMode).bgVisibilityAndMode
      = toU16 ((st.bgVisibilityAndMode &&& 0xFFF8) ||| toU8 bgMode) := rfl
  have e8 : toU8 bgMode = bgMode := by unfold toU8; omega
  rw [e, e8, toU16_testBit, Nat.testBit_or, Nat.testBit_and] at hk
  by_cases hk3 : k < 3
  · exact Or.inl hk3
  · have hmk : bgMode.testBit k = false :=
      Nat.testBit_lt_two_pow (lt_of_lt_of_le (by omega : bgMode < 2 ^ 3)
        (Nat.pow_le_pow_right (by decide) (by omega)))
    rw [hmk, Bool.or_false] at hk
    have hs : st.bgVisibilityAndMode.testBit k = true := by
      cases hb : st.bgVisibilityAndMode.testBit k
      · rw [hb] at hk
        simp at hk
      · rfl
    exact h k hs

theorem ModeWordClean_ShowBg (E : BgEnv) (hE : E.DISPCNT_BG_ALL_ON = 0x0F00) (st : BgState)
    (bg : Nat) (h : ModeWordClean st) : ModeWordClean (ShowBg E st bg) := by
  intro k hk
  have e : (ShowBg E st bg).bgVisibilityAndMode = (ShowBgInternal E st bg).bgVisibilityAndMode :=
    rfl
  rw [e] at hk
  unfold ShowBgInternal at hk
  split at hk
  · change (toU16 (toU16 (st.bgVisibilityAndMode ||| (1 <<< (toU8 bg + 8)))
        &&& DISPCNT_ALL_BG_AND_MODE_BITS E)).testBit k = true at hk
    rw [toU16_testBit, Nat.testBit_and, mode_plane_mask_testBit E hE] at hk
    by_contra hn
    simp [hn] at hk
  · exact h k hk

theorem ModeWordClean_HideBg (E : BgEnv) (hE : E.DISPCNT_BG_ALL_ON = 0x0F00) (st : BgState)
    (bg : Nat) (h : ModeWordClean st) : ModeWordClean (HideBg E st bg) := by
  intro k hk
  have e : (HideBg E st bg).bgVisibilityAndMode = (HideBgInternal E st bg).bgVisibilityAndMode :=
    rfl
  rw [e] at hk
  unfold HideBgInternal at hk
  split at hk
  · change (toU16 (toU16 (st.bgVisibilityAndMode
          ^^^ (st.bgVisibilityAndMode &&& (1 <<< (toU8 bg + 8))))
        &&& DISPCNT_ALL_BG_AND_MODE_BITS E)).testBit k = true at hk
    rw [toU16_testBit, Nat.testBit_and, mode_plane_mask_testBit E hE] at hk
    by_contra hn
    simp [hn] at hk
  · exact h k hk

theorem decide_ne_false (k n : Nat) (h : k ≠ n) : decide (k = n) = false :=
  decide_eq_false h

/-- C21: with the plane-enable bits being bits 8..11 and the register accessors
acting as a store, on every state whose mode/visibility word holds only mode and
plane-enable bits (every word the program reaches with modes in 0..7, see
`ModeWordClean`), for a valid configured plane `ShowBg(bg)` sets bit (8 + bg) of
the word and leaves every other bit of the word, the mode bits included, as it
was; for a valid plane `HideBg(bg)` clears bit (8 + bg) and leaves every other
bit as it was; after either call the mode and plane-enable bits of the
display-control register equal those of the word, its remaining bits are as
before the call, and the word again holds only mode and plane-enable bits. -/
theorem show_hide_word_and_register (E : BgEnv) (hR : RegisterStore E)
    (hE : E.DISPCNT_BG_ALL_ON = 0x0F00) (st : BgState) (bg : Nat) (h : bg < 4)
    (hoff : E.REG_OFFSET_DISPCNT ≠ (bg <<< 1) + 0x8) (hword : ModeWordClean st) :
    ((st.configs bg).visible ≠ 0 →
        (ShowBg E st bg).bgVisibilityAndMode.testBit (8 + bg) = true
          ∧ (∀ k, k ≠ 8 + bg →
              (ShowBg E st bg).bgVisibilityAndMode.testBit k = st.bgVisibilityAndMode.testBit k)
          ∧ (∀ k, k < 16 →
              (E.GetGpuReg E.REG_OFFSET_DISPCNT (ShowBg E st bg).regs).testBit k
                = if IsModeOrPlaneBit k then (ShowBg E st bg).bgVisibilityAndMode.testBit k
                  else (E.GetGpuReg E.REG_OFFSET_DISPCNT st.regs).testBit k))
      ∧ (HideBg E st bg).bgVisibilityAndMode.testBit (8 + bg) = false
      ∧ (∀ k, k ≠ 8 + bg →
          (HideBg E st bg).bgVisibilityAndMode.testBit k = st.bgVisibilityAndMode.testBit k)
      ∧ (∀ k, k < 16 →
          (E.GetGpuReg E.REG_OFFSET_DISPCNT (HideBg E st bg).regs).testBit k
            = if IsModeOrPlaneBit k then (HideBg E st bg).bgVisibilityAndMode.testBit k
              else (E.GetGpuReg E.REG_OFFSET_DISPCNT st.regs).testBit k)
      ∧ ModeWordClean (ShowBg E st bg)
      ∧ ModeWordClean (HideBg E st bg) := by
  have hshow : ∀ s : BgState, (SyncBgVisibilityAndMode E s).bgVisibilityAndMode
      = s.bgVisibilityAndMode := fun _ => rfl
  have hplane : IsModeOrPlaneBit (8 + bg) := Or.inr ⟨by omega, by omega⟩
  have hkeep : ∀ k, (decide (IsModeOrPlaneBit k) && st.bgVisibilityAndMode.testBit k)
      = st.bgVisibilityAndMode.testBit k := by
    intro k
    cases hb : st.bgVisibilityAndMode.testBit k
    · simp
    · simp [hword k hb]
  have hcs := ModeWordClean_ShowBg E hE st bg hword
  have hch := ModeWordClean_HideBg E hE st bg hword
  have hhide := HideBgInternal_word E hE st bg h
  refine ⟨?_, ?_, ?_, ?_, hcs, hch⟩
  · intro hv
    have hsw := ShowBgInternal_word E hE st bg h hv
    refine ⟨?_, fun k hk => ?_, fun k hk => ?_⟩
    · unfold ShowBg
      rw [hshow, hsw]
      simp [hplane]
    · unfold ShowBg
      rw [hshow, hsw, decide_ne_false k (8 + bg) hk, Bool.false_or]
      exact hkeep k
    · have hc : ModeWordClean (ShowBgInternal E st bg) := hcs
      unfold ShowBg
      rw [SyncBgVisibilityAndMode_register E hR hE _ hc k hk, hshow,
        ShowBgInternal_dispcnt E hR st bg h hoff]
  · unfold HideBg
    rw [hshow, hhide]
    simp
  · intro k hk
    unfold HideBg
    rw [hshow, hhide, decide_ne_false k (8 + bg) hk, Bool.not_false, Bool.true_and]
    exact hkeep k
  · intro k hk
    have hc : ModeWordClean (HideBgInternal E st bg) := hch
    unfold HideBg
    rw [SyncBgVisibilityAndMode_register E hR hE _ hc k hk, hshow]
    have hregs : (HideBgInternal E st bg).regs = st.regs := by
      unfold HideBgInternal
      split <;> rfl
    rw [hregs]

theorem gbaBgEnv_registerStore : RegisterStore gbaBgEnv where
  read_written := fun off v r _ => by
    show Function.update r.cells off v off = v
    exact Function.update_same _ _ _
  read_other := fun off other v r hne => by
    show Function.update r.cells off v other = r.cells other
    exact Function.update_noteq hne _ _

/-- Instance of C21: on the state with plane 1 configured and mode 1 (word 1),
`ShowBg(1)` sets bit 9 and keeps the mode bit 0, giving the word `0x201`, the
display-control register then has bit 9 set, and `HideBg(1)` keeps the word 1. -/
theorem show_hide_word_and_register_witness :
    ModeWordClean modeOneBgState
      ∧ modeOneBgState.bgVisibilityAndMode = 1
      ∧ (ShowBg gbaBgEnv modeOneBgState 1).bgVisibilityAndMode.testBit 9 = true
      ∧ (ShowBg gbaBgEnv modeOneBgState 1).bgVisibilityAndMode.testBit 0 = true
      ∧ (ShowBg gbaBgEnv modeOneBgState 1).bgVisibilityAndMode = 0x201
      ∧ (gbaBgEnv.GetGpuReg gbaBgEnv.REG_OFFSET_DISPCNT
          (ShowBg gbaBgEnv modeOneBgState 1).regs).testBit 9 = true
      ∧ (HideBg gbaBgEnv modeOneBgState 1).bgVisibilityAndMode.testBit 9 = false
      ∧ (HideBg gbaBgEnv modeOneBgState 1).bgVisibilityAndMode.testBit 0 = true := by
  have hclean : ModeWordClean modeOneBgState :=
    ModeWordClean_SetBgMode shownBgState 1 (by decide) (ModeWordClean_of_zero _ rfl)
  have h := show_hide_word_and_register gbaBgEnv gbaBgEnv_registerStore rfl modeOneBgState 1
    (by decide) (by decide) hclean
  have hs := h.1 (by decide)
  refine ⟨hclean, by decide, hs.1, ?_, by decide, ?_, h.2.1, ?_⟩
  · rw [hs.2.1 0 (by decide)]; decide
  · rw [hs.2.2 9 (by decide), if_pos (by decide)]; exact hs.1
  · rw [h.2.2.1 0 (by decide)]; decide

/-! ## Background state manager: reset -/

theorem ResetBgControlStructs_eq (st : BgState) :
    ResetBgControlStructs st
      = { st with
          configs := Function.update (Function.update (Function.update
            (Function.update st.configs 0 sZeroedBgControlStruct) 1 sZeroedBgControlStruct)
            2 sZeroedBgControlStruct) 3 sZeroedBgControlStruct } := rfl

/-- C22: with the plane-enable bits being bits 8..11 and the register accessors
acting as a store, after `ResetBgs` from any state all four plane configurations
are all-zero (so every plane is hidden), the mode/visibility word is 0 and
`GetBgMode()` returns 0, and the display-control register has its mode bits 0..2
and its plane-enable bits 8..11 clear and every other bit as before. -/
theorem ResetBgs_clears (E : BgEnv) (hR : RegisterStore E)
    (hE : E.DISPCNT_BG_ALL_ON = 0x0F00) (st : BgState) :
    (∀ bg, bg < 4 → (ResetBgs E st).configs bg = sZeroedBgControlStruct
        ∧ BgHidden (ResetBgs E st) bg)
      ∧ (ResetBgs E st).bgVisibilityAndMode = 0
      ∧ GetBgMode (ResetBgs E st) = 0
      ∧ ∀ k, k < 16 →
          (E.GetGpuReg E.REG_OFFSET_DISPCNT (ResetBgs E st).regs).testBit k
            = if IsModeOrPlaneBit k then false
              else (E.GetGpuReg E.REG_OFFSET_DISPCNT st.regs).testBit k := by
  have hcfg : (ResetBgs E st).configs
      = Function.update (Function.update (Function.update
          (Function.update st.configs 0 sZeroedBgControlStruct) 1 sZeroedBgControlStruct)
          2 sZeroedBgControlStruct) 3 sZeroedBgControlStruct := rfl
  have hword : (ResetBgs E st).bgVisibilityAndMode = 0 := rfl
  refine ⟨?_, hword, ?_, ?_⟩
  · intro bg hbg
    have hz : (ResetBgs E st).configs bg = sZeroedBgControlStruct := by
      rw [hcfg]
      have hc : bg = 0 ∨ bg = 1 ∨ bg = 2 ∨ bg = 3 := by omega
      rcases hc with e | e | e | e <;> subst e <;> simp [Function.update]
    refine ⟨hz, ?_⟩
    unfold BgHidden
    rw [toU8_of_lt bg hbg, hz]
    rfl
  · unfold GetBgMode
    rw [hword]
    rfl
  · intro k hk
    have hregs : (ResetBgs E st).regs
        = E.SetGpuReg E.REG_OFFSET_DISPCNT
            (toU16 (E.GetGpuReg E.REG_OFFSET_DISPCNT st.regs
              ^^^ (E.GetGpuReg E.REG_OFFSET_DISPCNT st.regs
                &&& DISPCNT_ALL_BG_AND_MODE_BITS E))) st.regs := rfl
    rw [hregs, hR.read_written _ _ _ (toU16_lt _), toU16_testBit, cleared_testBit,
      mode_plane_mask_testBit E hE]
    by_cases hm : IsModeOrPlaneBit k
    · rw [if_pos hm]; simp [hm]
    · rw [if_neg hm]; simp [hk, hm]

/-- Instance of C22: resetting the state in which plane 1 is configured and bit 4
of the word is set leaves plane 1 all-zero and the word 0. -/
theorem ResetBgs_clears_witness :
    (ResetBgs gbaBgEnv strayModeBgState).configs 1 = sZeroedBgControlStruct
      ∧ (ResetBgs gbaBgEnv strayModeBgState).bgVisibilityAndMode = 0
      ∧ GetBgMode (ResetBgs gbaBgEnv strayModeBgState) = 0 :=
  have h := ResetBgs_clears gbaBgEnv gbaBgEnv_registerStore rfl strayModeBgState
  ⟨(h.1 1 (by decide)).1, h.2.1, h.2.2.1⟩

/-! ## The transfer tracker -/

theorem and_one_shiftLeft_ne_zero (w m : Nat) : w &&& (1 <<< m) ≠ 0 ↔ w.testBit m = true := by
  constructor
  · intro h
    by_contra hb
    apply h
    apply Nat.eq_of_testBit_eq
    intro k
    rw [Nat.testBit_and, one_shiftLeft_testBit, Nat.zero_testBit]
    by_cases hk : k = m
    · subst hk
      simp at hb
      simp [hb]
    · simp [hk]
  · intro hb h
    have ht := congrArg (fun x => Nat.testBit x m) h
    simp only [Nat.testBit_and, one_shiftLeft_testBit, Nat.zero_testBit] at ht
    simp [hb] at ht

theorem trackerBit_clear (bitfield : Nat → Nat) (i j : Nat) (hi : i < 128) :
    trackerBit (Function.update bitfield (toU8 (i / 0x20))
        ((bitfield (toU8 (i / 0x20))
            ^^^ (bitfield (toU8 (i / 0x20)) &&& (1 <<< toU8 (i % 0x20)))) % 4294967296)) j
      = if j = i then false else trackerBit bitfield j := by
  have hd : toU8 (i / 0x20) = i / 32 := by unfold toU8; omega
  have hm : toU8 (i % 0x20) = i % 32 := by unfold toU8; omega
  rw [hd, hm]
  unfold trackerBit
  have hp : (4294967296 : Nat) = 2 ^ 32 := by norm_num
  by_cases hw : j / 32 = i / 32
  · rw [hw, Function.update_same, hp, Nat.testBit_mod_two_pow, Nat.testBit_xor, Nat.testBit_and,
      one_shiftLeft_testBit]
    have hlt : j % 32 < 32 := Nat.mod_lt _ (by decide)
    by_cases hji : j = i
    · subst hji
      simp
    · have hne : ¬ j % 32 = i % 32 := by omega
      simp [hji, hne, hlt]
  · have hji : ¬ j = i := fun e => hw (by rw [e])
    rw [Function.update_noteq hw, if_neg hji]

theorem trackerBit_mark (bitfield : Nat → Nat) (c j : Nat) :
    trackerBit (Function.update bitfield (c / 0x20)
        ((bitfield (c / 0x20) ||| (1 <<< (c % 0x20))) % 4294967296)) j
      = if j = c then true else trackerBit bitfield j := by
  unfold trackerBit
  have hp : (4294967296 : Nat) = 2 ^ 32 := by norm_num
  by_cases hw : j / 32 = c / 32
  · rw [hw, Function.update_same, hp, Nat.testBit_mod_two_pow, Nat.testBit_or,
      one_shiftLeft_testBit]
    have hlt : j % 32 < 32 := Nat.mod_lt _ (by decide)
    by_cases hjc : j = c
    · subst hjc
      simp [hlt]
    · have hne : ¬ j % 32 = c % 32 := by omega
      simp [hjc, hne, hlt]
  · have hjc : ¬ j = c := fun e => hw (by rw [e])
    rw [Function.update_noteq hw, if_neg hjc]

theorem busyScan_cons (D : DmaEnv) (i : Nat) (rest : List Nat) (bitfield : Nat → Nat) :
    busyScan D (i :: rest) bitfield
      = if bitfield (toU8 (i / 0x20)) &&& (1 <<< toU8 (i % 0x20)) ≠ 0 then
          (if toS8 (D.CheckForSpaceForDma3Request (i : Int)) = -1 then (true, bitfield)
           else
            busyScan D rest
              (Function.update bitfield (toU8 (i / 0x20))
                ((bitfield (toU8 (i / 0x20))
                  ^^^ (bitfield (toU8 (i / 0x20)) &&& (1 <<< toU8 (i % 0x20))))
                    % 4294967296)))
        else busyScan D rest bitfield := rfl

theorem busyScan_test (bitfield : Nat → Nat) (i : Nat) (hi : i < 128) :
    bitfield (toU8 (i / 0x20)) &&& (1 <<< toU8 (i % 0x20)) ≠ 0 ↔ trackerBit bitfield i = true := by
  have hd : toU8 (i / 0x20) = i / 32 := by unfold toU8; omega
  have hm : toU8 (i % 0x20) = i % 32 := by unfold toU8; omega
  rw [hd, hm, and_one_shiftLeft_ne_zero]
  rfl

theorem busyScan_range (D : DmaEnv) (n : Nat) :
    ∀ (s : Nat) (bitfield : Nat → Nat), s + n ≤ 128 →
      (∀ j, (j < s ∨ s + n ≤ j) →
          trackerBit (busyScan D (List.range' s n) bitfield).2 j = trackerBit bitfield j)
      ∧ ((busyScan D (List.range' s n) bitfield).1 = false →
          ∀ j, s ≤ j → j < s + n →
            ¬ SlotBusy D bitfield j
              ∧ trackerBit (busyScan D (List.range' s n) bitfield).2 j = false)
      ∧ ((busyScan D (List.range' s n) bitfield).1 = true →
          ∃ i0, s ≤ i0 ∧ i0 < s + n ∧ SlotBusy D bitfield i0
            ∧ (∀ j, s ≤ j → j < i0 →
                ¬ SlotBusy D bitfield j
                  ∧ trackerBit (busyScan D (List.range' s n) bitfield).2 j = false)
            ∧ ∀ j, i0 ≤ j →
                trackerBit (busyScan D (List.range' s n) bitfield).2 j
                  = trackerBit bitfield j) := by
  induction n with
  | zero =>
    intro s bitfield _
    refine ⟨fun j _ => rfl, fun _ j h1 h2 => absurd h2 (by omega), fun h => ?_⟩
    exact absurd h (by simp [busyScan])
  | succ n ih =>
    intro s bitfield hs
    have hs128 : s < 128 := by omega
    rw [List.range'_succ, busyScan_cons]
    by_cases hbit : trackerBit bitfield s = true
    · rw [if_pos ((busyScan_test bitfield s hs128).2 hbit)]
      by_cases hchk : toS8 (D.CheckForSpaceForDma3Request (s : Int)) = -1
      · rw [if_pos hchk]
        refine ⟨fun j _ => rfl, fun h => absurd h (by simp), fun _ => ?_⟩
        exact ⟨s, Nat.le_refl s, by omega, ⟨hbit, hchk⟩,
          fun j h1 h2 => absurd h2 (by omega), fun j _ => rfl⟩
      · rw [if_neg hchk]
        obtain ⟨ih1, ih2, ih3⟩ := ih (s + 1)
          (Function.update bitfield (toU8 (s / 0x20))
            ((bitfield (toU8 (s / 0x20))
              ^^^ (bitfield (toU8 (s / 0x20)) &&& (1 <<< toU8 (s % 0x20)))) % 4294967296))
          (by omega)
        have hclr := fun j => trackerBit_clear bitfield s j hs128
        have hbusy : ∀ j, j ≠ s →
            (SlotBusy D (Function.update bitfield (toU8 (s / 0x20))
              ((bitfield (toU8 (s / 0x20))
                ^^^ (bitfield (toU8 (s / 0x20)) &&& (1 <<< toU8 (s % 0x20))))
                  % 4294967296)) j ↔ SlotBusy D bitfield j) := by
          intro j hj
          unfold SlotBusy
          rw [hclr j, if_neg hj]
        refine ⟨?_, ?_, ?_⟩
        · intro j hj
          by_cases hjs : j = s
          · exact absurd hjs (by omega)
          · rw [ih1 j (by omega), hclr j, if_neg hjs]
        · intro hres j h1 h2
          by_cases hjs : j = s
          · subst hjs
            refine ⟨fun hb => hchk hb.2, ?_⟩
            rw [ih1 j (Or.inl (by omega)), hclr j, if_pos rfl]
          · have h := ih2 hres j (by omega) (by omega)
            exact ⟨fun hb => h.1 ((hbusy j hjs).2 hb), h.2⟩
        · intro hres
          obtain ⟨i0, h1, h2, h3, h4, h5⟩ := ih3 hres
          have hi0 : i0 ≠ s := by omega
          refine ⟨i0, by omega, by omega, (hbusy i0 hi0).1 h3, ?_, ?_⟩
          · intro j hj1 hj2
            by_cases hjs : j = s
            · subst hjs
              refine ⟨fun hb => hchk hb.2, ?_⟩
              rw [ih1 j (Or.inl (by omega)), hclr j, if_pos rfl]
            · have h := h4 j (by omega) hj2
              exact ⟨fun hb => h.1 ((hbusy j hjs).2 hb), h.2⟩
          · intro j hj
            have hjs : j ≠ s := by omega
            rw [h5 j hj, hclr j, if_neg hjs]
    · rw [if_neg (fun h => hbit ((busyScan_test bitfield s hs128).1 h))]
      obtain ⟨ih1, ih2, ih3⟩ := ih (s + 1) bitfield (by omega)
      have hoff : trackerBit bitfield s = false := by simpa using hbit
      refine ⟨fun j hj => ih1 j (by omega), ?_, ?_⟩
      · intro hres j h1 h2
        by_cases hjs : j = s
        · subst hjs
          refine ⟨fun hb => hbit hb.1, ?_⟩
          rw [ih1 j (Or.inl (by omega)), hoff]
        · exact ih2 hres j (by omega) (by omega)
      · intro hres
        obtain ⟨i0, h1, h2, h3, h4, h5⟩ := ih3 hres
        refine ⟨i0, by omega, by omega, h3, ?_, h5⟩
        intro j hj1 hj2
        by_cases hjs : j = s
        · subst hjs
          refine ⟨fun hb => hbit hb.1, ?_⟩
          rw [ih1 j (Or.inl (by omega)), hoff]
        · exact h4 j (by omega) hj2

/-- C24: `IsDma3ManagerBusyWithBgCopy` clears a tracker bit only when the check
for that slot returned a value other than -1; it returns TRUE exactly when some
pending slot's check returns -1, and then for the first such slot `i0` every bit
below `i0` is clear on exit while bit `i0` and all higher bits are as they were;
when it returns FALSE all 128 bits are clear on exit. -/
theorem IsDma3ManagerBusyWithBgCopy_scan (D : DmaEnv) (st : BgState) :
    (∀ i, trackerBit st.sDmaBusyBitfield i = true →
        trackerBit (IsDma3ManagerBusyWithBgCopy D st).2.sDmaBusyBitfield i = false →
        toS8 (D.CheckForSpaceForDma3Request (i : Int)) ≠ -1)
    ∧ ((IsDma3ManagerBusyWithBgCopy D st).1 = true ↔
        ∃ i, i < 128 ∧ SlotBusy D st.sDmaBusyBitfield i)
    ∧ ((IsDma3ManagerBusyWithBgCopy D st).1 = true →
        ∃ i0, i0 < 128 ∧ SlotBusy D st.sDmaBusyBitfield i0
          ∧ (∀ j, j < i0 →
              ¬ SlotBusy D st.sDmaBusyBitfield j
                ∧ trackerBit (IsDma3ManagerBusyWithBgCopy D st).2.sDmaBusyBitfield j = false)
          ∧ ∀ j, i0 ≤ j →
              trackerBit (IsDma3ManagerBusyWithBgCopy D st).2.sDmaBusyBitfield j
                = trackerBit st.sDmaBusyBitfield j)
    ∧ ((IsDma3ManagerBusyWithBgCopy D st).1 = false →
        ∀ i, i < 128 →
          trackerBit (IsDma3ManagerBusyWithBgCopy D st).2.sDmaBusyBitfield i = false) := by
  obtain ⟨h1, h2, h3⟩ := busyScan_range D 128 0 st.sDmaBusyBitfield (by omega)
  have hr : List.range 0x80 = List.range' 0 128 := List.range_eq_range' 128
  unfold IsDma3ManagerBusyWithBgCopy
  rw [hr]
  simp only []
  refine ⟨?_, ?_, ?_, ?_⟩
  · intro i hset hclr hchk
    cases hres : (busyScan D (List.range' 0 128) st.sDmaBusyBitfield).1 with
    | false =>
      by_cases hi : i < 128
      · exact (h2 hres i (Nat.zero_le i) (by omega)).1 ⟨hset, hchk⟩
      · rw [h1 i (Or.inr (by omega)), hset] at hclr
        exact absurd hclr (by simp)
    | true =>
      obtain ⟨i0, _, _, _, h4, h5⟩ := h3 hres
      by_cases hi : i < i0
      · exact (h4 i (Nat.zero_le i) hi).1 ⟨hset, hchk⟩
      · rw [h5 i (by omega), hset] at hclr
        exact absurd hclr (by simp)
  · constructor
    · intro hres
      obtain ⟨i0, _, hlt, hb, _, _⟩ := h3 hres
      exact ⟨i0, by omega, hb⟩
    · rintro ⟨i, hi, hb⟩
      cases hres : (busyScan D (List.range' 0 128) st.sDmaBusyBitfield).1 with
      | false => exact absurd hb (h2 hres i (Nat.zero_le i) (by omega)).1
      | true => rfl
  · intro hres
    obtain ⟨i0, _, hlt, hb, h4, h5⟩ := h3 hres
    exact ⟨i0, by omega, hb, fun j hj => h4 j (Nat.zero_le j) hj, h5⟩
  · intro hres i hi
    exact (h2 hres i (Nat.zero_le i) (by omega)).2

/-- Instance of C24: with slots 3 and 5 pending, room reported for slot 3 and
none for slot 5, the call returns TRUE, clears bit 3 and leaves bit 5 set. -/
theorem IsDma3ManagerBusyWithBgCopy_scan_witness :
    (IsDma3ManagerBusyWithBgCopy slotFiveDmaEnv
        (markDmaBusy (markDmaBusy zeroBgState 3) 5)).1 = true
      ∧ toS8 (slotFiveDmaEnv.CheckForSpaceForDma3Request ((3 : Nat) : Int)) ≠ -1 :=
  ⟨(IsDma3ManagerBusyWithBgCopy_scan slotFiveDmaEnv
      (markDmaBusy (markDmaBusy zeroBgState 3) 5)).2.1.2
      ⟨5, by decide, by decide, by decide⟩,
   (IsDma3ManagerBusyWithBgCopy_scan slotFiveDmaEnv
      (markDmaBusy (markDmaBusy zeroBgState 3) 5)).1 3 (by decide) (by decide)⟩

/-! ## Loading tiles and tilemaps -/

theorem LoadBgVram_rejected (D : DmaEnv) (st : BgState) (bg src size destOffset mode : Nat)
    (h : IsInvalidBg bg = true ∨ BgHidden st bg
      ∨ loadVramRequest D st bg src size destOffset mode = -1) :
    LoadBgVram D st bg src size destOffset mode = 0xFF := by
  have hff : toU32 (-1) % 256 = 0xFF := by decide
  unfold LoadBgVram
  rw [hff]
  rcases h with h | h | h
  · simp [h]
  · unfold BgHidden at h
    simp [h]
  · have hs : toS8 (loadVramRequest D st bg src size destOffset mode) = -1 := by
      rw [h]; decide
    rw [if_pos hs]
    simp

theorem LoadBgVram_slot (D : DmaEnv) (st : BgState) (bg src size destOffset mode c : Nat)
    (hv : IsInvalidBg bg = false) (hs : ¬ BgHidden st bg) (hm : toU8 mode = 1 ∨ toU8 mode = 2)
    (hc : c < 128) (hr : loadVramRequest D st bg src size destOffset mode = (c : Int)) :
    LoadBgVram D st bg src size destOffset mode = c := by
  have h8 : toS8 (c : Int) = (c : Int) := by unfold toS8; omega
  have hne : ¬ ((c : Int) = -1) := by omega
  have hu : toU32 (c : Int) % 256 = c := by
    unfold toU32
    have : ((c : Int) % 4294967296).toNat = c := by omega
    rw [this]
    omega
  unfold BgHidden at hs
  unfold LoadBgVram
  rw [hr, h8, if_neg hne, hu, if_pos hm]
  simp [hv, hs]

/-- C25: `LoadBgTiles` and `LoadBgTilemap` return 0xFFFF and leave the state,
the busy tracker included, unchanged when the plane index is invalid, the plane
is hidden or the transfer request returns -1; when the plane is valid and
visible and the request returns a slot `c` below 128 they return `c`, set bit
`c` of the tracker and change no other bit. -/
theorem LoadBg_transfer_result (D : DmaEnv) (st : BgState) (bg src size destOffset : Nat)
    (h1 : D.DISPCNT_MODE_1 = 1) (h2 : D.DISPCNT_MODE_2 = 2) :
    ((IsInvalidBg bg = true ∨ BgHidden st bg
        ∨ loadVramRequest D st bg src size (loadTilesOffset st bg destOffset) 1 = -1) →
      LoadBgTiles D st bg src size destOffset = (0xFFFF, st))
    ∧ ((IsInvalidBg bg = true ∨ BgHidden st bg
        ∨ loadVramRequest D st bg src size (toU16 destOffset * 2) 2 = -1) →
      LoadBgTilemap D st bg src size destOffset = (0xFFFF, st))
    ∧ (∀ c : Nat, IsInvalidBg bg = false → ¬ BgHidden st bg → c < 128 →
        loadVramRequest D st bg src size (loadTilesOffset st bg destOffset) 1 = (c : Int) →
        (LoadBgTiles D st bg src size destOffset).1 = c
          ∧ trackerBit (LoadBgTiles D st bg src size destOffset).2.sDmaBusyBitfield c = true
          ∧ ∀ j, j ≠ c →
              trackerBit (LoadBgTiles D st bg src size destOffset).2.sDmaBusyBitfield j
                = trackerBit st.sDmaBusyBitfield j)
    ∧ (∀ c : Nat, IsInvalidBg bg = false → ¬ BgHidden st bg → c < 128 →
        loadVramRequest D st bg src size (toU16 destOffset * 2) 2 = (c : Int) →
        (LoadBgTilemap D st bg src size destOffset).1 = c
          ∧ trackerBit (LoadBgTilemap D st bg src size destOffset).2.sDmaBusyBitfield c = true
          ∧ ∀ j, j ≠ c →
              trackerBit (LoadBgTilemap D st bg src size destOffset).2.sDmaBusyBitfield j
                = trackerBit st.sDmaBusyBitfield j) := by
  have hff : toU32 (-1) % 65536 = 0xFFFF := by decide
  refine ⟨?_, ?_, ?_, ?_⟩
  · intro h
    unfold LoadBgTiles
    simp only []
    rw [h1, LoadBgVram_rejected D st bg src size _ 1 h, if_pos rfl, hff]
  · intro h
    unfold LoadBgTilemap
    simp only []
    rw [h2, LoadBgVram_rejected D st bg src size _ 2 h, if_pos rfl, hff]
  · intro c hv hs hc hr
    have hcur := LoadBgVram_slot D st bg src size (loadTilesOffset st bg destOffset) 1 c hv hs
      (Or.inl (by decide)) hc hr
    have hne : ¬ c = 0xFF := by omega
    unfold LoadBgTiles
    simp only []
    rw [h1, hcur, if_neg hne]
    refine ⟨rfl, ?_, ?_⟩
    · show trackerBit (markDmaBusy st c).sDmaBusyBitfield c = true
      unfold markDmaBusy
      simp only []
      rw [trackerBit_mark, if_pos rfl]
    · intro j hj
      show trackerBit (markDmaBusy st c).sDmaBusyBitfield j = _
      unfold markDmaBusy
      simp only []
      rw [trackerBit_mark, if_neg hj]
  · intro c hv hs hc hr
    have hcur := LoadBgVram_slot D st bg src size (toU16 destOffset * 2) 2 c hv hs
      (Or.inr (by decide)) hc hr
    have hne : ¬ c = 0xFF := by omega
    unfold LoadBgTilemap
    simp only []
    rw [h2, hcur, if_neg hne]
    refine ⟨rfl, ?_, ?_⟩
    · show trackerBit (markDmaBusy st c).sDmaBusyBitfield c = true
      unfold markDmaBusy
      simp only []
      rw [trackerBit_mark, if_pos rfl]
    · intro j hj
      show trackerBit (markDmaBusy st c).sDmaBusyBitfield j = _
      unfold markDmaBusy
      simp only []
      rw [trackerBit_mark, if_neg hj]

/-- Instance of C25: with every request given slot 5, loading tiles into the
visible plane 1 returns 5, and loading a tilemap into the hidden plane 0 returns
0xFFFF with the state unchanged. -/
theorem LoadBg_transfer_result_witness :
    slotFiveDmaEnv.DISPCNT_MODE_1 = 1 ∧ slotFiveDmaEnv.DISPCNT_MODE_2 = 2
      ∧ (LoadBgTiles slotFiveDmaEnv shownBgState 1 0 0x20 0).1 = 5
      ∧ LoadBgTilemap slotFiveDmaEnv shownBgState 0 0 0x20 0 = (0xFFFF, shownBgState) :=
  ⟨rfl, rfl,
   ((LoadBg_transfer_result slotFiveDmaEnv shownBgState 1 0 0x20 0 rfl rfl).2.2.1 5
      (by decide) (by unfold BgHidden; decide) (by decide) rfl).1,
   (LoadBg_transfer_result slotFiveDmaEnv shownBgState 0 0 0x20 0 rfl rfl).2.1
      (Or.inr (Or.inl (by unfold BgHidden; decide)))⟩

/-! ## Object-window sprites -/

theorem objWindowMask_outside (gpu : Gpu) : ¬ (objWindowMask gpu &&& WINMASK_WINOUT ≠ 0) := by
  have hle : (gpu.windowOut >>> 8) &&& 0x3F ≤ 0x3F := Nat.and_le_right
  have hu : objWindowMask gpu = (gpu.windowOut >>> 8) &&& 0x3F := by
    unfold objWindowMask toU16; omega
  have hb : (objWindowMask gpu).testBit 6 = false := by
    rw [hu]
    exact Nat.testBit_lt_two_pow (by omega)
  intro h
  have h6 : WINMASK_WINOUT = 1 <<< 6 := rfl
  rw [h6, and_one_shiftLeft_ne_zero, hb] at h
  exact Bool.noConfusion h

theorem spriteColumnStep_winMask (K : Consts) (H : Host) (gpu : Gpu) (oam : OamData)
    (width height : Nat) (m : SpriteMatrix) (x local_y : Int) (winOn : Bool)
    (s : ScanlineData) (local_x : Int) (col : Nat) (hobj : oam.objMode = 2) :
    (spriteColumnStep K H gpu oam width height m x local_y winOn s local_x).winMask col
      = if spriteColumnFetches K H gpu oam width height m x local_y col local_x
            ∧ s.winMask col &&& WINMASK_WINOUT ≠ 0 then objWindowMask gpu
        else s.winMask col := by
  unfold spriteColumnStep spriteColumnFetches spriteColumnIndex spriteStore objWindowMask
  dsimp only
  by_cases hr : toU32 (local_x + x) < toU32 (GetScanlinePos K H gpu).1
      ∨ toU32 (local_x + x) ≥ toU32 (GetScanlinePos K H gpu).2
  · rw [if_pos hr, if_neg (fun h => h.1.2.1 (by rw [← h.1.1]; exact hr))]
  · rw [if_neg hr]
    split
    · rename_i ht
      rw [if_neg (fun h => h.1.2.2.1 (by rw [← h.1.1]; exact ht))]
    · rename_i ht
      split
      · rename_i hp
        rw [if_neg (fun h => h.1.2.2.2 hp)]
      · rename_i hp
        by_cases hc : toU32 (local_x + x) = col
        · subst hc
          by_cases hb : s.winMask (toU32 (local_x + x)) &&& WINMASK_WINOUT ≠ 0
          · have hb' : (s.winMask (toU32 (local_x + x)) &&& WINMASK_WINOUT != 0) = true := by
              simpa using hb
            rw [if_pos hb', if_pos ⟨⟨rfl, hr, ht, hp⟩, hb⟩]
            dsimp only
            rw [Function.update_same]
          · have hb' : ¬ (s.winMask (toU32 (local_x + x)) &&& WINMASK_WINOUT != 0) = true := by
              simpa using hb
            rw [if_neg hb', if_neg (fun h => hb h.2)]
        · split
          · rw [if_neg (fun h => hc h.1.1)]
            exact Function.update_noteq (fun e => hc e.symm) _ _
          · rw [if_neg (fun h => hc h.1.1)]

theorem spriteColumns_winMask (K : Consts) (H : Host) (gpu : Gpu) (oam : OamData)
    (width height : Nat) (m : SpriteMatrix) (x local_y : Int) (winOn : Bool) (col : Nat)
    (hobj : oam.objMode = 2) (l : List Int) :
    ∀ s : ScanlineData,
      ((s.winMask col &&& WINMASK_WINOUT ≠ 0
          ∧ ∃ lx, lx ∈ l ∧ spriteColumnFetches K H gpu oam width height m x local_y col lx) →
        (l.foldl (spriteColumnStep K H gpu oam width height m x local_y winOn) s).winMask col
          = objWindowMask gpu)
      ∧ (¬ (s.winMask col &&& WINMASK_WINOUT ≠ 0
          ∧ ∃ lx, lx ∈ l ∧ spriteColumnFetches K H gpu oam width height m x local_y col lx) →
        (l.foldl (spriteColumnStep K H gpu oam width height m x local_y winOn) s).winMask col
          = s.winMask col) := by
  induction l with
  | nil =>
    intro s
    refine ⟨fun h => ?_, fun _ => rfl⟩
    obtain ⟨_, lx, hlx, _⟩ := h
    exact absurd hlx (List.not_mem_nil lx)
  | cons a rest ih =>
    intro s
    rw [List.foldl_cons]
    have hstep := spriteColumnStep_winMask K H gpu oam width height m x local_y winOn s a col hobj
    obtain ⟨ih1, ih2⟩ := ih (spriteColumnStep K H gpu oam width height m x local_y winOn s a)
    by_cases hnow : spriteColumnFetches K H gpu oam width height m x local_y col a
        ∧ s.winMask col &&& WINMASK_WINOUT ≠ 0
    · rw [if_pos hnow] at hstep
      have hdone : (rest.foldl (spriteColumnStep K H gpu oam width height m x local_y winOn)
          (spriteColumnStep K H gpu oam width height m x local_y winOn s a)).winMask col
            = objWindowMask gpu := by
        rw [ih2 (fun h => objWindowMask_outside gpu (by rw [← hstep]; exact h.1)), hstep]
      exact ⟨fun _ => hdone, fun h => absurd ⟨hnow.2, a, List.mem_cons_self a rest, hnow.1⟩ h⟩
    · rw [if_neg hnow] at hstep
      constructor
      · rintro ⟨hb, lx, hlx, hf⟩
        rcases List.mem_cons.1 hlx with e | hmem
        · subst e
          exact absurd ⟨hf, hb⟩ hnow
        · exact ih1 ⟨by rw [hstep]; exact hb, lx, hmem, hf⟩
      · intro h
        have hrest : ¬ ((spriteColumnStep K H gpu oam width height m x local_y winOn s a).winMask
              col &&& WINMASK_WINOUT ≠ 0
            ∧ ∃ lx, lx ∈ rest
              ∧ spriteColumnFetches K H gpu oam width height m x local_y col lx) := by
          rintro ⟨hb, lx, hlx, hf⟩
          exact h ⟨by rw [← hstep]; exact hb, lx, List.mem_cons_of_mem a hlx, hf⟩
        rw [ih2 hrest, hstep]

theorem spriteStep_on_line (K : Consts) (H : Host) (gpu : Gpu) (vcount : Nat) (winOn : Bool)
    (st : SpriteMatrix × ScanlineData) (i width height : Nat)
    (hdis : ¬ ((!((gpu.spriteList i).affineMode &&& 1 != 0)
      && (((gpu.spriteList i).affineMode >>> 1) &&& 1 != 0)) = true))
    (hd : spriteDims (gpu.spriteList i) = some (width, height))
    (hline : spriteOnLine K H gpu (gpu.spriteList i) (toU16 vcount)) :
    (spriteStep K H gpu vcount winOn st i).2
      = (localXRange (spriteHalf (gpu.spriteList i) width height).1).foldl
          (spriteColumnStep K H gpu (gpu.spriteList i) width height
            (spriteMatrixFor K gpu (gpu.spriteList i) st.1)
            (spriteCentre K H gpu (gpu.spriteList i) width height).1
            (spriteLocalY gpu (gpu.spriteList i) ((toU16 vcount : Nat) : Int)
              (spriteCentre K H gpu (gpu.spriteList i) width height).2) winOn) st.2 := by
  unfold spriteStep
  dsimp only
  split
  · rename_i h
    exact absurd h hdis
  · split
    · rename_i hnone
      rw [hd] at hnone
      exact Option.noConfusion hnone
    · rename_i w h hsome
      rw [hd] at hsome
      have hw : width = w := by injection hsome with e; injection e
      have hh : height = h := by injection hsome with e; injection e
      subst hw
      subst hh
      rw [if_pos ((spriteOnLine_iff K H gpu _ _ width height hd).1 hline)]
      rfl

theorem spriteStep_skipped (K : Consts) (H : Host) (gpu : Gpu) (vcount : Nat) (winOn : Bool)
    (st : SpriteMatrix × ScanlineData) (i : Nat)
    (h : ((!((gpu.spriteList i).affineMode &&& 1 != 0)
        && (((gpu.spriteList i).affineMode >>> 1) &&& 1 != 0)) = true)
      ∨ spriteDims (gpu.spriteList i) = none) :
    (spriteStep K H gpu vcount winOn st i).2 = st.2 := by
  unfold spriteStep
  dsimp only
  split
  · rfl
  · rename_i hdis
    split
    · rfl
    · rename_i w hh hsome
      rcases h with h | h
      · exact absurd h hdis
      · rw [h] at hsome
        exact Option.noConfusion hsome

theorem spriteStep_winMask (K : Consts) (H : Host) (gpu : Gpu) (vcount : Nat) (winOn : Bool)
    (st : SpriteMatrix × ScanlineData) (i col : Nat) :
    ((st.2.winMask col &&& WINMASK_WINOUT ≠ 0
        ∧ ObjWindowCovers K H gpu vcount st.1 (gpu.spriteList i) col) →
      (spriteStep K H gpu vcount winOn st i).2.winMask col = objWindowMask gpu)
    ∧ (¬ (st.2.winMask col &&& WINMASK_WINOUT ≠ 0
        ∧ ObjWindowCovers K H gpu vcount st.1 (gpu.spriteList i) col) →
      (spriteStep K H gpu vcount winOn st i).2.winMask col = st.2.winMask col) := by
  constructor
  · rintro ⟨hb, hobj, hdis, width, height, hd, hline, lx, hlx, hf⟩
    rw [spriteStep_on_line K H gpu vcount winOn st i width height hdis hd hline]
    exact (spriteColumns_winMask K H gpu _ width height _ _ _ winOn col hobj _ st.2).1
      ⟨hb, lx, hlx, hf⟩
  · intro h
    by_cases hdis : ((!((gpu.spriteList i).affineMode &&& 1 != 0)
        && (((gpu.spriteList i).affineMode >>> 1) &&& 1 != 0)) = true)
    · rw [spriteStep_skipped K H gpu vcount winOn st i (Or.inl hdis)]
    · cases hd : spriteDims (gpu.spriteList i) with
      | none => rw [spriteStep_skipped K H gpu vcount winOn st i (Or.inr hd)]
      | some wh =>
        obtain ⟨width, height⟩ := wh
        by_cases hline : spriteOnLine K H gpu (gpu.spriteList i) (toU16 vcount)
        · rw [spriteStep_on_line K H gpu vcount winOn st i width height hdis hd hline]
          by_cases hobj : (gpu.spriteList i).objMode = 2
          · exact (spriteColumns_winMask K H gpu _ width height _ _ _ winOn col hobj _ st.2).2
              (fun hh => h ⟨hh.1, hobj, hdis, width, height, hd, hline, hh.2⟩)
          · have hinv := foldl_invariant (fun s : ScanlineData => SameBlendContext st.2 s)
              (spriteColumnStep K H gpu (gpu.spriteList i) width height
                (spriteMatrixFor K gpu (gpu.spriteList i) st.1)
                (spriteCentre K H gpu (gpu.spriteList i) width height).1
                (spriteLocalY gpu (gpu.spriteList i) ((toU16 vcount : Nat) : Int)
                  (spriteCentre K H gpu (gpu.spriteList i) width height).2) winOn)
              (fun s lx hs => spriteColumn_ctx K H gpu _ width height _ _ _ winOn st.2 s lx hobj hs)
              (localXRange (spriteHalf (gpu.spriteList i) width height).1) st.2
              (SameBlendContext_refl st.2)
            exact congrFun hinv.2.1 col
        · rw [spriteStep_off_line K H gpu vcount winOn st i hline]

theorem spriteStep_objwin_layers (K : Consts) (H : Host) (gpu : Gpu) (vcount : Nat)
    (winOn : Bool) (st : SpriteMatrix × ScanlineData) (i : Nat)
    (hobj : (gpu.spriteList i).objMode = 2) :
    (spriteStep K H gpu vcount winOn st i).2.spriteLayers = st.2.spriteLayers := by
  funext p col
  exact spriteStep_keep K H gpu vcount winOn st i p col (fun h => h.2.1 hobj)

theorem spritesAbove_winMask (K : Consts) (H : Host) (gpu : Gpu) (scanline : ScanlineData)
    (vcount : Nat) (winOn : Bool) (col : Nat) :
    ∀ d, d ≤ K.MAX_OAM_SPRITES →
      ((scanline.winMask col &&& WINMASK_WINOUT ≠ 0
          ∧ ∃ i, K.MAX_OAM_SPRITES - d ≤ i ∧ i < K.MAX_OAM_SPRITES
            ∧ ObjWindowCovers K H gpu vcount
                (spritesAbove K H gpu scanline vcount winOn (i + 1)).1 (gpu.spriteList i) col) →
        (spritesAbove K H gpu scanline vcount winOn (K.MAX_OAM_SPRITES - d)).2.winMask col
          = objWindowMask gpu)
      ∧ (¬ (scanline.winMask col &&& WINMASK_WINOUT ≠ 0
          ∧ ∃ i, K.MAX_OAM_SPRITES - d ≤ i ∧ i < K.MAX_OAM_SPRITES
            ∧ ObjWindowCovers K H gpu vcount
                (spritesAbove K H gpu scanline vcount winOn (i + 1)).1 (gpu.spriteList i) col) →
        (spritesAbove K H gpu scanline vcount winOn (K.MAX_OAM_SPRITES - d)).2.winMask col
          = scanline.winMask col) := by
  intro d
  induction d with
  | zero =>
    intro _
    have h0 : spritesAbove K H gpu scanline vcount winOn (K.MAX_OAM_SPRITES - 0)
        = ({ m00 := 0, m01 := 0, m10 := 0, m11 := 0 }, scanline) := by
      unfold spritesAbove
      simp
    rw [h0]
    refine ⟨fun h => ?_, fun _ => rfl⟩
    obtain ⟨_, i, h1, h2, _⟩ := h
    exact absurd h2 (by omega)
  | succ d ih =>
    intro hd
    obtain ⟨ih1, ih2⟩ := ih (by omega)
    have hn : K.MAX_OAM_SPRITES - (d + 1) < K.MAX_OAM_SPRITES := by omega
    have hnext : K.MAX_OAM_SPRITES - (d + 1) + 1 = K.MAX_OAM_SPRITES - d := by omega
    rw [spritesAbove_step K H gpu scanline vcount winOn _ hn]
    have hs := spriteStep_winMask K H gpu vcount winOn
      (spritesAbove K H gpu scanline vcount winOn (K.MAX_OAM_SPRITES - (d + 1) + 1))
      (K.MAX_OAM_SPRITES - (d + 1)) col
    rw [hnext] at hs ⊢
    obtain ⟨hs1, hs2⟩ := hs
    by_cases hA : scanline.winMask col &&& WINMASK_WINOUT ≠ 0
        ∧ ∃ i, K.MAX_OAM_SPRITES - d ≤ i ∧ i < K.MAX_OAM_SPRITES
          ∧ ObjWindowCovers K H gpu vcount
              (spritesAbove K H gpu scanline vcount winOn (i + 1)).1 (gpu.spriteList i) col
    · have hm := ih1 hA
      have hkeep := hs2 (fun hh => objWindowMask_outside gpu (by rw [← hm]; exact hh.1))
      refine ⟨fun _ => by rw [hkeep, hm], fun h => ?_⟩
      obtain ⟨hb, i, h1, h2, h3⟩ := hA
      exact absurd ⟨hb, i, by omega, h2, h3⟩ h
    · have hm := ih2 hA
      by_cases hB : scanline.winMask col &&& WINMASK_WINOUT ≠ 0
          ∧ ObjWindowCovers K H gpu vcount
              (spritesAbove K H gpu scanline vcount winOn (K.MAX_OAM_SPRITES - d)).1
              (gpu.spriteList (K.MAX_OAM_SPRITES - (d + 1))) col
      · refine ⟨fun _ => hs1 ⟨by rw [hm]; exact hB.1, hB.2⟩, fun h => ?_⟩
        exact absurd ⟨hB.1, K.MAX_OAM_SPRITES - (d + 1), Nat.le_refl _, hn,
          by rw [hnext]; exact hB.2⟩ h
      · have hkeep := hs2 (fun hh => hB ⟨by rw [← hm]; exact hh.1, hh.2⟩)
        constructor
        · rintro ⟨hb, i, h1, h2, h3⟩
          by_cases hi : i = K.MAX_OAM_SPRITES - (d + 1)
          · subst hi
            rw [hnext] at h3
            exact absurd ⟨hb, h3⟩ hB
          · exact absurd ⟨hb, i, by omega, h2, h3⟩ hA
        · intro _
          rw [hkeep, hm]

theorem DrawSprites_winMask (K : Consts) (H : Host) (gpu : Gpu) (scanline : ScanlineData)
    (vcount : Nat) (winOn : Bool) (col : Nat) :
    ((scanline.winMask col &&& WINMASK_WINOUT ≠ 0
        ∧ ∃ i, i < K.MAX_OAM_SPRITES
          ∧ ObjWindowCovers K H gpu vcount
              (spritesAbove K H gpu scanline vcount winOn (i + 1)).1 (gpu.spriteList i) col) →
      (DrawSprites K H gpu scanline vcount winOn).winMask col = objWindowMask gpu)
    ∧ (¬ (scanline.winMask col &&& WINMASK_WINOUT ≠ 0
        ∧ ∃ i, i < K.MAX_OAM_SPRITES
          ∧ ObjWindowCovers K H gpu vcount
              (spritesAbove K H gpu scanline vcount winOn (i + 1)).1 (gpu.spriteList i) col) →
      (DrawSprites K H gpu scanline vcount winOn).winMask col = scanline.winMask col) := by
  obtain ⟨h1, h2⟩ := spritesAbove_winMask K H gpu scanline vcount winOn col K.MAX_OAM_SPRITES
    (Nat.le_refl _)
  rw [Nat.sub_self] at h1 h2
  rw [spritesAbove_zero]
  constructor
  · rintro ⟨hb, i, hi, hc⟩
    exact h1 ⟨hb, i, Nat.zero_le i, hi, hc⟩
  · intro h
    apply h2
    rintro ⟨hb, i, _, hi, hc⟩
    exact h ⟨hb, i, hi, hc⟩

theorem objWindowGpu_covers (previous : SpriteMatrix) (i : Nat) :
    ObjWindowCovers gbaConsts plainHost objWindowGpu 2 previous (objWindowGpu.spriteList i) 3 := by
  have e : objWindowGpu.spriteList i = { zeroOam with objMode := 2 } := rfl
  rw [e]
  refine ⟨rfl, by decide, 8, 8, by decide, by unfold spriteOnLine; decide, -1, by decide, ?_⟩
  rw [spriteMatrixFor_plain _ _ _ _ (by decide)]
  unfold spriteColumnFetches
  decide

/-- Counterexample to C29 as stated: an object-window sprite produces a
non-transparent pixel at column 3 of scanline 2.  Where the cell of the window
mask holds 0 (CLR bit clear) `DrawSprites` leaves it at 0 and does not write the
object-window mask `0x3F`; where the cell holds `0x60` (CLR bit set) it is
replaced by `0x3F`. -/
theorem DrawSprites_object_window_tests_winout :
    ObjWindowCovers gbaConsts plainHost objWindowGpu 2
        (spritesAbove gbaConsts plainHost objWindowGpu emptyScanline 2 false (0 + 1)).1
        (objWindowGpu.spriteList 0) 3
      ∧ objWindowMask objWindowGpu = 0x3F
      ∧ emptyScanline.winMask 3 &&& WINMASK_CLR = 0
      ∧ (DrawSprites gbaConsts plainHost objWindowGpu emptyScanline 2 false).winMask 3 = 0
      ∧ outsideScanline.winMask 3 &&& WINMASK_CLR ≠ 0
      ∧ (DrawSprites gbaConsts plainHost objWindowGpu outsideScanline 2 false).winMask 3
          = 0x3F := by
  refine ⟨objWindowGpu_covers _ 0, by decide, by decide, ?_, by decide, ?_⟩
  · exact (DrawSprites_winMask gbaConsts plainHost objWindowGpu emptyScanline 2 false 3).2
      (fun h => h.1 (by decide))
  · have h := (DrawSprites_winMask gbaConsts plainHost objWindowGpu outsideScanline 2 false 3).1
      ⟨by decide, 0, by decide, objWindowGpu_covers _ 0⟩
    rw [h]
    decide

/-- C29, amended: when some object-window sprite of the table produces a
non-transparent pixel at the column `col` of the scanline, `DrawSprites` leaves
the object-window mask `(gpu.window.out >> 8) & 0x3F` in `winMask[col]` exactly
when the WINOUT bit (bit 6, `WINMASK_WINOUT`) of the cell was set on entry, and
leaves `winMask[col]` as it was otherwise (also when no such sprite covers the
column); the iteration of an object-window sprite writes no sprite priority
buffer. -/
theorem DrawSprites_object_window (K : Consts) (H : Host) (gpu : Gpu) (scanline : ScanlineData)
    (vcount : Nat) (winOn : Bool) (col : Nat) :
    ((scanline.winMask col &&& WINMASK_WINOUT ≠ 0
        ∧ ∃ i, i < K.MAX_OAM_SPRITES
          ∧ ObjWindowCovers K H gpu vcount
              (spritesAbove K H gpu scanline vcount winOn (i + 1)).1 (gpu.spriteList i) col) →
      (DrawSprites K H gpu scanline vcount winOn).winMask col = objWindowMask gpu)
    ∧ (¬ (scanline.winMask col &&& WINMASK_WINOUT ≠ 0
        ∧ ∃ i, i < K.MAX_OAM_SPRITES
          ∧ ObjWindowCovers K H gpu vcount
              (spritesAbove K H gpu scanline vcount winOn (i + 1)).1 (gpu.spriteList i) col) →
      (DrawSprites K H gpu scanline vcount winOn).winMask col = scanline.winMask col)
    ∧ (∀ (st : SpriteMatrix × ScanlineData) (i : Nat), (gpu.spriteList i).objMode = 2 →
      (spriteStep K H gpu vcount winOn st i).2.spriteLayers = st.2.spriteLayers) :=
  ⟨(DrawSprites_winMask K H gpu scanline vcount winOn col).1,
   (DrawSprites_winMask K H gpu scanline vcount winOn col).2,
   fun st i hobj => spriteStep_objwin_layers K H gpu vcount winOn st i hobj⟩

/-- Instance of C29, amended: with `0x60` in every cell of the window mask, the
object-window sprites of `objWindowGpu` leave `0x3F` at column 3 of scanline 2. -/
theorem DrawSprites_object_window_witness :
    (DrawSprites gbaConsts plainHost objWindowGpu outsideScanline 2 false).winMask 3
      = objWindowMask objWindowGpu :=
  (DrawSprites_object_window gbaConsts plainHost objWindowGpu outsideScanline 2 false 3).1
    ⟨by decide, 0, by decide, objWindowGpu_covers _ 0⟩

/-! ## The texel a plain sprite shows -/

theorem spriteDims_bounds (oam : OamData) (width height : Nat) (hs : oam.size < 4)
    (h : spriteDims oam = some (width, height)) :
    width % 2 = 0 ∧ height % 2 = 0 ∧ width ≤ 64 ∧ height ≤ 64 := by
  have hw := congrArg (fun o => (o.map Prod.fst).getD 0) h
  have hh := congrArg (fun o => (o.map Prod.snd).getD 0) h
  have hsz : oam.size = 0 ∨ oam.size = 1 ∨ oam.size = 2 ∨ oam.size = 3 := by omega
  unfold spriteDims at hw hh h
  by_cases h0 : oam.shape = 0
  · rw [if_pos h0] at hw hh
    rcases hsz with e | e | e | e <;> rw [e] at hw hh <;> simp at hw hh <;> omega
  · rw [if_neg h0] at hw hh h
    by_cases h1 : oam.shape = 1
    · rw [if_pos h1] at hw hh
      rcases hsz with e | e | e | e <;> rw [e] at hw hh <;> simp [spriteSizes] at hw hh <;> omega
    · rw [if_neg h1] at hw hh h
      by_cases h2 : oam.shape = 2
      · rw [if_pos h2] at hw hh
        rcases hsz with e | e | e | e <;> rw [e] at hw hh <;> simp [spriteSizes] at hw hh <;>
          omega
      · rw [if_neg h2] at h
        exact absurd h (by simp)

theorem spriteHalf_plain (oam : OamData) (width height : Nat)
    (hna : (oam.affineMode &&& 1 != 0) = false) :
    spriteHalf oam width height = (((width / 2 : Nat) : Int), ((height / 2 : Nat) : Int)) := by
  unfold spriteHalf
  rw [if_neg (fun h => by rw [hna] at h; exact Bool.noConfusion h.1)]

theorem spriteFetchPixel_plain (gpu : Gpu) (oam : OamData) (width height : Nat) (tx ty : Nat)
    (hna : (oam.affineMode &&& 1 != 0) = false) :
    spriteFetchPixel gpu oam width height (tx : Int) (ty : Int)
      = spriteTexel gpu oam width
          (if spriteFlipX oam then width - tx - 1 else tx)
          (if spriteFlipY oam then height - ty - 1 else ty) := by
  unfold spriteFetchPixel spriteTexel spriteFlipX spriteFlipY
  simp only [hna, Bool.not_false, Bool.true_and, Int.toNat_ofNat]

theorem spriteTexCoords_plain (width height : Nat) (lx ly : Int)
    (hw : width ≤ 64) (hh : height ≤ 64) (hlx : -64 ≤ lx ∧ lx ≤ 64) (hly : -64 ≤ ly ∧ ly ≤ 64) :
    spriteTexCoords width height { m00 := 0x100, m01 := 0, m10 := 0, m11 := 0x100 } lx ly
      = (lx + ((width / 2 : Nat) : Int), ly + ((height / 2 : Nat) : Int)) := by
  unfold spriteTexCoords
  dsimp only
  rw [int_shr8, int_shr8]
  have e1 : (0x100 * lx + 0 * ly) / 256 = lx := by omega
  have e2 : (0 * lx + 0x100 * ly) / 256 = ly := by omega
  rw [e1, e2, toS32_small _ (by omega), toS32_small _ (by omega)]

theorem spriteSourceX_plain (gpu : Gpu) (oam : OamData) (x local_x : Int) (global_x : Nat)
    (hmos : oam.mosaic ≠ 1) : spriteSourceX gpu oam x local_x global_x = local_x := by
  unfold spriteSourceX
  rw [if_neg hmos]

theorem spriteLocalY_plain (gpu : Gpu) (oam : OamData) (v y : Int) (hmos : oam.mosaic ≠ 1) :
    spriteLocalY gpu oam v y = v - y := by
  unfold spriteLocalY
  rw [if_neg hmos]

theorem localXRange_plain (width : Nat) (hw : width % 2 = 0) (lx : Int) :
    lx ∈ localXRange ((width / 2 : Nat) : Int)
      ↔ ∃ k : Nat, k ≤ width ∧ lx = (k : Int) - ((width / 2 : Nat) : Int) := by
  unfold localXRange
  constructor
  · intro h
    simp at h
    obtain ⟨a, ⟨k, hk, ea⟩, e⟩ := h
    subst ea
    exact ⟨k, by omega, by omega⟩
  · rintro ⟨k, hk, e⟩
    simp
    exact ⟨(k : Int), ⟨k, by omega, rfl⟩, by omega⟩

theorem spriteColumnIndex_plain (K : Consts) (gpu : Gpu) (oam : OamData) (width height : Nat)
    (previous : SpriteMatrix) (x : Int) (k r : Nat)
    (hna : (oam.affineMode &&& 1 != 0) = false) (hmos : oam.mosaic ≠ 1)
    (hw : width ≤ 64) (hh : height ≤ 64) (hk : k ≤ width) (hr : r < height) :
    spriteColumnIndex gpu oam width height (spriteMatrixFor K gpu oam previous) x
        ((r : Int) - ((height / 2 : Nat) : Int)) ((k : Int) - ((width / 2 : Nat) : Int))
      = spriteShownTexel gpu oam width height k r := by
  unfold spriteColumnIndex
  rw [spriteMatrixFor_plain K gpu oam previous hna, spriteSourceX_plain gpu oam x _ _ hmos,
    spriteTexCoords_plain width height _ _ hw hh (by omega) (by omega)]
  dsimp only
  have e1 : (k : Int) - ((width / 2 : Nat) : Int) + ((width / 2 : Nat) : Int) = (k : Int) := by
    omega
  have e2 : (r : Int) - ((height / 2 : Nat) : Int) + ((height / 2 : Nat) : Int) = (r : Int) := by
    omega
  rw [e1, e2, spriteFetchPixel_plain gpu oam width height k r hna]
  unfold spriteShownTexel
  rw [Nat.sub_right_comm width k 1, Nat.sub_right_comm height r 1]

theorem toU32_natCast_small (k : Nat) (hk : k ≤ 64) : toU32 (k : Int) = k := by
  unfold toU32
  omega

theorem spriteColumnDraws_plain (K : Consts) (H : Host) (gpu : Gpu) (oam : OamData)
    (width height : Nat) (previous : SpriteMatrix) (x : Int) (col k r : Nat)
    (hna : (oam.affineMode &&& 1 != 0) = false) (hmos : oam.mosaic ≠ 1)
    (hw : width ≤ 64) (hh : height ≤ 64) (hk : k ≤ width) (hr : r < height) :
    spriteColumnDraws K H gpu oam width height (spriteMatrixFor K gpu oam previous) x
        ((r : Int) - ((height / 2 : Nat) : Int)) col ((k : Int) - ((width / 2 : Nat) : Int))
      ↔ (toU32 ((k : Int) - ((width / 2 : Nat) : Int) + x) = col
          ∧ ¬ (col < toU32 (GetScanlinePos K H gpu).1 ∨ col ≥ toU32 (GetScanlinePos K H gpu).2)
          ∧ k < width
          ∧ spriteShownTexel gpu oam width height k r ≠ 0
          ∧ col < toU32 H.displayWidth) := by
  unfold spriteColumnDraws
  rw [spriteColumnIndex_plain K gpu oam width height previous x k r hna hmos hw hh hk hr,
    spriteMatrixFor_plain K gpu oam previous hna, spriteSourceX_plain gpu oam x _ _ hmos,
    spriteTexCoords_plain width height _ _ hw hh (by omega) (by omega)]
  dsimp only
  have e1 : (k : Int) - ((width / 2 : Nat) : Int) + ((width / 2 : Nat) : Int) = (k : Int) := by
    omega
  have e2 : (r : Int) - ((height / 2 : Nat) : Int) + ((height / 2 : Nat) : Int) = (r : Int) := by
    omega
  rw [e1, e2, toU32_natCast_small k (by omega), toU32_natCast_small r (by omega)]
  constructor
  · rintro ⟨h1, h2, h3, h4, h5⟩
    refine ⟨h1, h2, ?_, h4, h5⟩
    by_contra hge
    exact h3 (Or.inl (by omega))
  · rintro ⟨h1, h2, h3, h4, h5⟩
    refine ⟨h1, h2, ?_, h4, h5⟩
    rintro (h | h | h | h) <;> omega

theorem SpriteShows_plain (K : Consts) (H : Host) (gpu : Gpu) (vcount : Nat)
    (previous : SpriteMatrix) (oam : OamData) (width height col pixel : Nat)
    (hna : (oam.affineMode &&& 1 != 0) = false)
    (hen : ((oam.affineMode >>> 1) &&& 1 != 0) = false)
    (hmos : oam.mosaic ≠ 1) (hsize : oam.size < 4)
    (hd : spriteDims oam = some (width, height)) :
    SpriteShows K H gpu vcount previous oam col pixel
      ↔ ∃ k r : Nat, k < width ∧ r < height
          ∧ ((toU16 vcount : Nat) : Int) = spriteTop K H gpu oam + (r : Int)
          ∧ toU32 (spriteLeft K H gpu oam + (k : Int)) = col
          ∧ ¬ (col < toU32 (GetScanlinePos K H gpu).1 ∨ col ≥ toU32 (GetScanlinePos K H gpu).2)
          ∧ col < toU32 H.displayWidth
          ∧ spriteShownTexel gpu oam width height k r ≠ 0
          ∧ spriteShownTexel gpu oam width height k r = pixel := by
  obtain ⟨hwe, hhe, hw, hh⟩ := spriteDims_bounds oam width height hsize hd
  have hhalf := spriteHalf_plain oam width height hna
  have hleft : spriteLeft K H gpu oam
      = (spriteCentre K H gpu oam width height).1 - ((width / 2 : Nat) : Int) := by
    unfold spriteLeft
    rw [hd]
    dsimp only
    rw [hhalf]
  have htop : spriteTop K H gpu oam
      = (spriteCentre K H gpu oam width height).2 - ((height / 2 : Nat) : Int) := by
    unfold spriteTop
    rw [hd]
    dsimp only
    rw [hhalf]
  have hline := spriteOnLine_iff K H gpu oam (toU16 vcount) width height hd
  rw [hhalf] at hline
  dsimp only at hline
  unfold SpriteShows
  rw [hleft, htop]
  constructor
  · rintro ⟨_, w, h, hd2, hon, lx, hlx, hdraw, hidx⟩
    rw [hd] at hd2
    have ew : width = w := by injection hd2 with e; injection e
    have eh : height = h := by injection hd2 with e; injection e
    subst ew
    subst eh
    rw [hhalf] at hlx
    obtain ⟨k, hk, elx⟩ := (localXRange_plain width hwe lx).1 hlx
    obtain ⟨hl1, hl2⟩ := hline.1 hon
    have er : ((toU16 vcount : Nat) : Int) - (spriteCentre K H gpu oam width height).2
        = (((((toU16 vcount : Nat) : Int) - (spriteCentre K H gpu oam width height).2
            + ((height / 2 : Nat) : Int)).toNat : Nat) : Int) - ((height / 2 : Nat) : Int) := by
      omega
    have hr : (((toU16 vcount : Nat) : Int) - (spriteCentre K H gpu oam width height).2
        + ((height / 2 : Nat) : Int)).toNat < height := by omega
    rw [spriteLocalY_plain gpu oam _ _ hmos, er, elx] at hdraw hidx
    rw [spriteColumnDraws_plain K H gpu oam width height previous _ col k _ hna hmos hw hh hk hr]
      at hdraw
    rw [spriteColumnIndex_plain K gpu oam width height previous _ k _ hna hmos hw hh hk hr]
      at hidx
    obtain ⟨h1, h2, h3, h4, h5⟩ := hdraw
    refine ⟨k, _, h3, hr, by omega, ?_, h2, h5, h4, hidx⟩
    rw [← h1]
    congr 1
    omega
  · rintro ⟨k, r, hk, hr, hv, hcol, hin, hdw, hne, hpix⟩
    have hdis : ¬ ((!(oam.affineMode &&& 1 != 0) && ((oam.affineMode >>> 1) &&& 1 != 0)) = true) := by
      rw [hna, hen]
      decide
    have er : ((toU16 vcount : Nat) : Int) - (spriteCentre K H gpu oam width height).2
        = (r : Int) - ((height / 2 : Nat) : Int) := by omega
    refine ⟨hdis, width, height, hd, hline.2 ⟨by omega, by omega⟩,
      (k : Int) - ((width / 2 : Nat) : Int), ?_, ?_, ?_⟩
    · rw [hhalf]
      exact (localXRange_plain width hwe _).2 ⟨k, by omega, rfl⟩
    · rw [spriteLocalY_plain gpu oam _ _ hmos, er,
        spriteColumnDraws_plain K H gpu oam width height previous _ col k r hna hmos hw hh
          (by omega) hr]
      refine ⟨?_, hin, hk, hne, hdw⟩
      rw [← hcol]
      congr 1
      omega
    · rw [spriteLocalY_plain gpu oam _ _ hmos, er,
        spriteColumnIndex_plain K gpu oam width height previous _ k r hna hmos hw hh
          (by omega) hr]
      exact hpix

theorem castList_length (l : List Nat) :
    (l.flatMap (fun a => [((a : Nat) : Int)])).length = l.length := by
  induction l with
  | nil => rfl
  | cons a l ih =>
    rw [List.flatMap_cons, List.length_append, ih, List.length_cons, List.length_cons,
      List.length_nil]
    omega

theorem localXRange_length (hw : Int) : (localXRange hw).length = (2 * hw + 1).toNat := by
  unfold localXRange
  rw [List.length_map]
  exact (castList_length _).trans (List.length_range _)

/-- C30: for a non-affine, non-mosaic sprite of footprint `width x height` that
is neither disabled nor an object-window sprite, with left column
`spriteLeft` and top line `spriteTop`, the iteration of the sprite loop of
`DrawSprites` on the scanline `spriteTop + r` stores at the column
`spriteLeft + k` (for `k < width`, `r < height`, the column inside the scanline
and the display) the colour of texel `(k, r)`, with `k` replaced by
`width - 1 - k` under the horizontal flip and `r` by `height - 1 - r` under the
vertical flip, and leaves the cell as it was when that texel has colour index 0;
the column loop runs over `width + 1` positions, yet no column other than
`spriteLeft + k` with `k < width` is written in any priority buffer. -/
theorem DrawSprites_plain_sprite_texel (K : Consts) (H : Host) (gpu : Gpu) (vcount : Nat)
    (winOn : Bool) (st : SpriteMatrix × ScanlineData) (i width height : Nat)
    (hna : ((gpu.spriteList i).affineMode &&& 1 != 0) = false)
    (hen : (((gpu.spriteList i).affineMode >>> 1) &&& 1 != 0) = false)
    (hmos : (gpu.spriteList i).mosaic ≠ 1)
    (hobj : (gpu.spriteList i).objMode ≠ 2)
    (hsize : (gpu.spriteList i).size < 4)
    (hd : spriteDims (gpu.spriteList i) = some (width, height)) :
    (localXRange (spriteHalf (gpu.spriteList i) width height).1).length = width + 1
    ∧ (∀ k r : Nat, k < width → r < height →
        ((toU16 vcount : Nat) : Int) = spriteTop K H gpu (gpu.spriteList i) + (r : Int) →
        ¬ (toU32 (spriteLeft K H gpu (gpu.spriteList i) + (k : Int))
              < toU32 (GetScanlinePos K H gpu).1
            ∨ toU32 (spriteLeft K H gpu (gpu.spriteList i) + (k : Int))
              ≥ toU32 (GetScanlinePos K H gpu).2) →
        toU32 (spriteLeft K H gpu (gpu.spriteList i) + (k : Int)) < toU32 H.displayWidth →
        (spriteStep K H gpu vcount winOn st i).2.spriteLayers (gpu.spriteList i).priority
            (toU32 (spriteLeft K H gpu (gpu.spriteList i) + (k : Int)))
          = if spriteShownTexel gpu (gpu.spriteList i) width height k r ≠ 0 then
              spriteColour K gpu st.2 (gpu.spriteList i) winOn
                (toU32 (spriteLeft K H gpu (gpu.spriteList i) + (k : Int)))
                (spriteShownTexel gpu (gpu.spriteList i) width height k r)
            else
              st.2.spriteLayers (gpu.spriteList i).priority
                (toU32 (spriteLeft K H gpu (gpu.spriteList i) + (k : Int))))
    ∧ (∀ p col : Nat,
        (∀ k : Nat, k < width →
          toU32 (spriteLeft K H gpu (gpu.spriteList i) + (k : Int)) ≠ col) →
        (spriteStep K H gpu vcount winOn st i).2.spriteLayers p col
          = st.2.spriteLayers p col) := by
  obtain ⟨hwe, hhe, hw, hh⟩ := spriteDims_bounds (gpu.spriteList i) width height hsize hd
  have hshow := fun col pixel =>
    SpriteShows_plain K H gpu vcount st.1 (gpu.spriteList i) width height col pixel hna hen hmos
      hsize hd
  refine ⟨?_, ?_, ?_⟩
  · rw [spriteHalf_plain (gpu.spriteList i) width height hna]
    rw [localXRange_length]
    omega
  · intro k r hk hr hv hin hdw
    by_cases hp : spriteShownTexel gpu (gpu.spriteList i) width height k r ≠ 0
    · rw [if_pos hp]
      exact spriteStep_show K H gpu vcount winOn st i _ _ hobj hsize
        ((hshow _ _).2 ⟨k, r, hk, hr, hv, rfl, hin, hdw, hp, rfl⟩)
    · rw [if_neg hp]
      apply spriteStep_keep
      rintro ⟨_, _, pixel, hs⟩
      obtain ⟨k2, r2, hk2, hr2, hv2, hcol2, _, _, hne2, _⟩ := (hshow _ _).1 hs
      have ek : (k2 : Int) = (k : Int) := by
        apply toU32_inj_near (k2 : Int) (k : Int) (spriteLeft K H gpu (gpu.spriteList i))
          (by omega) (by omega)
        rw [Int.add_comm (k2 : Int), Int.add_comm (k : Int)]
        exact hcol2
      have ek2 : k2 = k := by omega
      have er2 : r2 = r := by omega
      subst ek2
      subst er2
      exact hp hne2
  · intro p col hout
    apply spriteStep_keep
    rintro ⟨_, _, pixel, hs⟩
    obtain ⟨k2, r2, hk2, _, _, hcol2, _⟩ := (hshow _ _).1 hs
    exact hout k2 hk2 hcol2

/-- Instance of C30: sprite 0 of `spriteGpu` is an 8 x 8 sprite at the origin
whose texels all have colour index 1 in palette 1; on scanline 2 its iteration
stores palette entry 17, bit 15 set, at column 3. -/
theorem DrawSprites_plain_sprite_texel_witness :
    (spriteStep gbaConsts plainHost spriteGpu 2 false
        ({ m00 := 0, m01 := 0, m10 := 0, m11 := 0 }, emptyScanline) 0).2.spriteLayers 0 3
      = 0x8011 := by
  have h := (DrawSprites_plain_sprite_texel gbaConsts plainHost spriteGpu 2 false
    ({ m00 := 0, m01 := 0, m10 := 0, m11 := 0 }, emptyScanline) 0 8 8
    (by decide) (by decide) (by decide) (by decide) (by decide) (by decide)).2.1 3 2
    (by decide) (by decide) (by decide) (by decide) (by decide)
  have e : toU32 (spriteLeft gbaConsts plainHost spriteGpu (spriteGpu.spriteList 0)
      + ((3 : Nat) : Int)) = 3 := by decide
  have ep : (spriteGpu.spriteList 0).priority = 0 := rfl
  rw [e, ep] at h
  rw [h]
  unfold spriteColour spriteBlend
  decide

/-! ## LZ77 decompression: the write contract -/

theorem byteRead_lt (mem : Nat → Nat) (off : Nat) : byteRead mem off < 256 := by
  unfold byteRead
  exact Nat.mod_lt _ (by decide)

theorem vramDestSize_eq (src : Nat → Nat) : vramDestSize src = lzDeclaredSize src := by
  unfold vramDestSize lzDeclaredSize
  have h1 := byteRead_lt src 1
  have h2 := byteRead_lt src 2
  have h3 := byteRead_lt src 3
  rw [Nat.shiftLeft_eq, Nat.shiftLeft_eq, Nat.lor_assoc]
  have e1 : byteRead src 2 * 2 ^ 8 ||| byteRead src 1
      = 2 ^ 8 * byteRead src 2 + byteRead src 1 := by
    rw [Nat.mul_comm]
    exact (Nat.mul_add_lt_is_or (by omega) _).symm
  rw [e1]
  have e2 : byteRead src 3 * 2 ^ 16 ||| (2 ^ 8 * byteRead src 2 + byteRead src 1)
      = 2 ^ 16 * byteRead src 3 + (2 ^ 8 * byteRead src 2 + byteRead src 1) := by
    rw [Nat.mul_comm]
    exact (Nat.mul_add_lt_is_or (by omega) _).symm
  rw [e2]
  omega

theorem wramLen_eq (src : Nat → Nat) : wramLen src = (lzDeclaredSize src : Int) := by
  unfold wramLen CPUReadMemory lzDeclaredSize
  have h0 := byteRead_lt src 0
  rw [Nat.shiftRight_eq_div_pow]
  simp only [Nat.zero_add]
  congr 1
  omega

theorem firstOffsets_succ (m : Nat) : firstOffsets (m + 1) = firstOffsets m ++ [(m : Int)] := by
  unfold firstOffsets
  rw [List.range_succ, List.map_append]
  rfl

theorem lzCopyByte_inv (mem : Int → Nat) (n : Nat) (s : LzState) (pos : Int)
    (h : LzInv mem n s) (hlt : s.destPos < n) : LzInv mem n (lzCopyByte s pos) := by
  obtain ⟨_, h2, h3⟩ := h
  refine ⟨hlt, ?_, ?_⟩
  · show s.writes ++ [(s.destPos : Int)] = firstOffsets (s.destPos + 1)
    rw [firstOffsets_succ, h2]
  · intro off hoff
    show Function.update s.dest (s.destPos : Int) _ off = mem off
    rw [Function.update_noteq (by omega)]
    exact h3 off hoff

theorem lzLiteral_inv (src : Nat → Nat) (mem : Int → Nat) (n : Nat) (s : LzState)
    (h : LzInv mem n s) (hlt : s.destPos < n) : LzInv mem n (lzLiteral src s) := by
  obtain ⟨_, h2, h3⟩ := h
  refine ⟨hlt, ?_, ?_⟩
  · show s.writes ++ [(s.destPos : Int)] = firstOffsets (s.destPos + 1)
    rw [firstOffsets_succ, h2]
  · intro off hoff
    show Function.update s.dest (s.destPos : Int) _ off = mem off
    rw [Function.update_noteq (by omega)]
    exact h3 off hoff

theorem vramCopy_succ (blockPos : Int) (k : Nat) (s : LzState) :
    vramCopy blockPos (k + 1) s = lzCopyByte (vramCopy blockPos k s) (blockPos + (k : Int)) := by
  unfold vramCopy
  rw [List.range_succ, List.foldl_append]
  rfl

theorem vramCopy_inv (mem : Int → Nat) (n : Nat) (blockPos : Int) (k : Nat) (s : LzState)
    (h : LzInv mem n s) (hk : s.destPos + k ≤ n) :
    LzInv mem n (vramCopy blockPos k s) ∧ (vramCopy blockPos k s).destPos = s.destPos + k := by
  induction k with
  | zero => exact ⟨h, rfl⟩
  | succ k ih =>
    obtain ⟨i1, i2⟩ := ih (by omega)
    rw [vramCopy_succ]
    refine ⟨lzCopyByte_inv mem n _ _ i1 (by omega), ?_⟩
    show (vramCopy blockPos k s).destPos + 1 = _
    omega

theorem vramClamp_spec (destPos n : Nat) (blockSize : Int) (hle : destPos ≤ n)
    (hbs : 3 ≤ blockSize) :
    destPos + (vramClamp destPos n blockSize).toNat ≤ n
      ∧ ((vramClamp destPos n blockSize).toNat = 0 → destPos = n) := by
  unfold vramClamp
  split <;> omega

theorem vramBlock_spec (src : Nat → Nat) (mem : Int → Nat) (n flags : Nat) (s : LzState)
    (h : LzInv mem n s) :
    LzInv mem n (vramBlock src n flags s).1
      ∧ (vramBlock src n flags s).2 ≠ some LzOutcome.exhausted
      ∧ ((vramBlock src n flags s).2 = none → s.destPos < (vramBlock src n flags s).1.destPos) := by
  unfold vramBlock
  dsimp only
  split
  · split
    · exact ⟨h, by simp, by simp⟩
    · obtain ⟨hk, hk0⟩ := vramClamp_spec s.destPos n
        (((byteRead src s.srcPos >>> 4 : Nat) : Int) + 3) h.1 (by omega)
      generalize (vramClamp s.destPos n (((byteRead src s.srcPos >>> 4 : Nat) : Int) + 3)).toNat
        = k at hk hk0 ⊢
      obtain ⟨i1, i2⟩ := vramCopy_inv mem n
        ((s.destPos : Int) - (((((byteRead src s.srcPos &&& 0xF) <<< 8)
          ||| byteRead src (s.srcPos + 1) : Nat) : Int) + 1)) k
        { s with srcPos := s.srcPos + 2 } h hk
      dsimp only at i2
      unfold vramAfter
      dsimp only
      refine ⟨i1, ?_, ?_⟩
      · split <;> simp
      · intro hnone
        rw [i2]
        by_cases he : s.destPos + k = n
        · rw [i2, if_pos he] at hnone
          exact absurd hnone (by simp)
        · have hk1 : k ≠ 0 := fun e => he (by rw [e]; exact hk0 e)
          omega
  · split
    · exact ⟨h, by simp, by simp⟩
    · rename_i hflag hlt
      unfold vramAfter
      dsimp only
      refine ⟨lzLiteral_inv src mem n s h (by omega), ?_, ?_⟩
      · split <;> simp
      · intro _
        show s.destPos < s.destPos + 1
        omega

theorem vramBlocks_spec (src : Nat → Nat) (mem : Int → Nat) (n k : Nat) :
    ∀ (flags : Nat) (s : LzState), LzInv mem n s →
      LzInv mem n (vramBlocks src n k flags s).1
        ∧ (vramBlocks src n k flags s).2 ≠ some LzOutcome.exhausted
        ∧ ((vramBlocks src n k flags s).2 = none →
            s.destPos + k ≤ (vramBlocks src n k flags s).1.destPos) := by
  induction k with
  | zero =>
    intro flags s h
    exact ⟨h, by simp [vramBlocks], fun _ => Nat.le_refl _⟩
  | succ k ih =>
    intro flags s h
    obtain ⟨b1, b2, b3⟩ := vramBlock_spec src mem n flags s h
    unfold vramBlocks
    cases hb : vramBlock src n flags s with
    | mk s1 o =>
      rw [hb] at b1 b2 b3
      cases o with
      | some o =>
        dsimp only
        exact ⟨b1, b2, fun hn => absurd hn (by simp)⟩
      | none =>
        dsimp only
        obtain ⟨c1, c2, c3⟩ := ih ((flags <<< 1) % 256) s1 b1
        refine ⟨c1, c2, fun hn => ?_⟩
        have := c3 hn
        have := b3 rfl
        dsimp only at this
        omega

theorem vramLoop_spec (src : Nat → Nat) (mem : Int → Nat) (n fuel : Nat) :
    ∀ s : LzState, LzInv mem n s → n < s.destPos + fuel →
      LzInv mem n (vramLoop src n fuel s).1
        ∧ (vramLoop src n fuel s).2 ≠ LzOutcome.exhausted := by
  induction fuel with
  | zero =>
    intro s h hf
    exact absurd h.1 (by omega)
  | succ fuel ih =>
    intro s h hf
    obtain ⟨b1, b2, b3⟩ := vramBlocks_spec src mem n 8 (byteRead src s.srcPos)
      { s with srcPos := s.srcPos + 1 } h
    unfold vramLoop
    cases hb : vramBlocks src n 8 (byteRead src s.srcPos) { s with srcPos := s.srcPos + 1 } with
    | mk s1 o =>
      rw [hb] at b1 b2 b3
      cases o with
      | some o =>
        dsimp only
        exact ⟨b1, fun e => b2 (by rw [e])⟩
      | none =>
        dsimp only
        have := b3 rfl
        dsimp only at this
        exact ih s1 b1 (by omega)

theorem lzStart_inv (mem : Int → Nat) (n : Nat) : LzInv mem n (lzStart mem) :=
  ⟨Nat.zero_le n, rfl, fun _ _ => rfl⟩

theorem LZ77UnCompVram_spec (src : Nat → Nat) (mem : Int → Nat) :
    LzInv mem (lzDeclaredSize src) (LZ77UnCompVram src mem).1
      ∧ (LZ77UnCompVram src mem).2 ≠ LzOutcome.exhausted := by
  unfold LZ77UnCompVram
  rw [vramDestSize_eq]
  exact vramLoop_spec src mem (lzDeclaredSize src) (lzDeclaredSize src + 1) (lzStart mem)
    (lzStart_inv mem _) (by show lzDeclaredSize src < 0 + (lzDeclaredSize src + 1); omega)

theorem wramCopy_spec (mem : Int → Nat) (n k : Nat) :
    ∀ (windowOffset len : Int) (s : LzState), LzInv mem n s →
      (s.destPos : Int) + len = (n : Int) → 0 < len →
      LzInv mem n (wramCopy k windowOffset len s).1
        ∧ ((wramCopy k windowOffset len s).1.destPos : Int) + (wramCopy k windowOffset len s).2.1
            = (n : Int)
        ∧ ((wramCopy k windowOffset len s).2.2 = true → (wramCopy k windowOffset len s).2.1 = 0)
        ∧ ((wramCopy k windowOffset len s).2.2 = false →
            0 < (wramCopy k windowOffset len s).2.1
              ∧ (wramCopy k windowOffset len s).1.destPos = s.destPos + k) := by
  induction k with
  | zero =>
    intro w len s h hsum hlen
    exact ⟨h, hsum, fun e => absurd e (by simp [wramCopy]), fun _ => ⟨hlen, rfl⟩⟩
  | succ k ih =>
    intro w len s h hsum hlen
    have hinv := lzCopyByte_inv mem n s w h (by omega)
    have hpos : (lzCopyByte s w).destPos = s.destPos + 1 := rfl
    unfold wramCopy
    by_cases h0 : len - 1 = 0
    · rw [if_pos h0]
      refine ⟨hinv, ?_, fun _ => h0, fun e => absurd e (by simp)⟩
      show (((lzCopyByte s w).destPos : Nat) : Int) + (len - 1) = (n : Int)
      rw [hpos]
      omega
    · rw [if_neg h0]
      obtain ⟨c1, c2, c3, c4⟩ := ih (w + 1) (len - 1) (lzCopyByte s w) hinv
        (by rw [hpos]; omega) (by omega)
      refine ⟨c1, c2, c3, fun e => ?_⟩
      obtain ⟨d1, d2⟩ := c4 e
      exact ⟨d1, by rw [d2, hpos]; omega⟩

theorem wramLiterals_spec (src : Nat → Nat) (mem : Int → Nat) (n k : Nat) :
    ∀ (len : Int) (s : LzState), LzInv mem n s →
      (s.destPos : Int) + len = (n : Int) → 0 < len →
      LzInv mem n (wramLiterals src k len s).1
        ∧ ((wramLiterals src k len s).1.destPos : Int) + (wramLiterals src k len s).2.1 = (n : Int)
        ∧ ((wramLiterals src k len s).2.2 = true → (wramLiterals src k len s).2.1 = 0)
        ∧ ((wramLiterals src k len s).2.2 = false →
            0 < (wramLiterals src k len s).2.1
              ∧ (wramLiterals src k len s).1.destPos = s.destPos + k) := by
  induction k with
  | zero =>
    intro len s h hsum hlen
    exact ⟨h, hsum, fun e => absurd e (by simp [wramLiterals]), fun _ => ⟨hlen, rfl⟩⟩
  | succ k ih =>
    intro len s h hsum hlen
    have hinv := lzLiteral_inv src mem n s h (by omega)
    have hpos : (lzLiteral src s).destPos = s.destPos + 1 := rfl
    unfold wramLiterals
    by_cases h0 : len - 1 = 0
    · rw [if_pos h0]
      refine ⟨hinv, ?_, fun _ => h0, fun e => absurd e (by simp)⟩
      show (((lzLiteral src s).destPos : Nat) : Int) + (len - 1) = (n : Int)
      rw [hpos]
      omega
    · rw [if_neg h0]
      obtain ⟨c1, c2, c3, c4⟩ := ih (len - 1) (lzLiteral src s) hinv
        (by rw [hpos]; omega) (by omega)
      refine ⟨c1, c2, c3, fun e => ?_⟩
      obtain ⟨d1, d2⟩ := c4 e
      exact ⟨d1, by rw [d2, hpos]; omega⟩

theorem wramBlock_spec (src : Nat → Nat) (mem : Int → Nat) (n d : Nat) (len : Int) (s : LzState)
    (h : LzInv mem n s) (hsum : (s.destPos : Int) + len = (n : Int)) (hlen : 0 < len) :
    LzInv mem n (wramBlock src d len s).1
      ∧ ((wramBlock src d len s).1.destPos : Int) + (wramBlock src d len s).2.1 = (n : Int)
      ∧ ((wramBlock src d len s).2.2 = true → (wramBlock src d len s).2.1 = 0)
      ∧ ((wramBlock src d len s).2.2 = false →
          0 < (wramBlock src d len s).2.1 ∧ s.destPos < (wramBlock src d len s).1.destPos) := by
  unfold wramBlock
  dsimp only
  split
  · obtain ⟨c1, c2, c3, c4⟩ := wramCopy_spec mem n
      (((toU16 (byteRead src s.srcPos <<< 8) ||| byteRead src (s.srcPos + 1)) >>> 12) + 3)
      ((s.destPos : Int)
        - (((toU16 (byteRead src s.srcPos <<< 8) ||| byteRead src (s.srcPos + 1)) &&& 0x0FFF
            : Nat) : Int) - 1)
      len { s with srcPos := s.srcPos + 2 } h hsum hlen
    refine ⟨c1, c2, c3, fun e => ?_⟩
    obtain ⟨d1, d2⟩ := c4 e
    refine ⟨d1, ?_⟩
    rw [d2]
    show s.destPos < s.destPos + _
    omega
  · have hinv := lzLiteral_inv src mem n s h (by omega)
    have hpos : (lzLiteral src s).destPos = s.destPos + 1 := rfl
    refine ⟨hinv, ?_, ?_, ?_⟩
    · show (((lzLiteral src s).destPos : Nat) : Int) + (len - 1) = (n : Int)
      rw [hpos]
      omega
    · intro e
      simpa using e
    · intro e
      have : ¬ (len - 1 = 0) := by simpa using e
      exact ⟨by show 0 < len - 1; omega, by rw [hpos]; omega⟩

theorem wramBlocks_spec (src : Nat → Nat) (mem : Int → Nat) (n k : Nat) :
    ∀ (d : Nat) (len : Int) (s : LzState), LzInv mem n s →
      (s.destPos : Int) + len = (n : Int) → 0 < len →
      LzInv mem n (wramBlocks src k d len s).1
        ∧ ((wramBlocks src k d len s).1.destPos : Int) + (wramBlocks src k d len s).2.1 = (n : Int)
        ∧ ((wramBlocks src k d len s).2.2 = true → (wramBlocks src k d len s).2.1 = 0)
        ∧ ((wramBlocks src k d len s).2.2 = false →
            0 < (wramBlocks src k d len s).2.1
              ∧ s.destPos + k ≤ (wramBlocks src k d len s).1.destPos) := by
  induction k with
  | zero =>
    intro d len s h hsum hlen
    exact ⟨h, hsum, fun e => absurd e (by simp [wramBlocks]), fun _ => ⟨hlen, Nat.le_refl _⟩⟩
  | succ k ih =>
    intro d len s h hsum hlen
    obtain ⟨b1, b2, b3, b4⟩ := wramBlock_spec src mem n d len s h hsum hlen
    unfold wramBlocks
    cases hb : wramBlock src d len s with
    | mk s1 rest =>
      cases rest with
      | mk len1 ret =>
        rw [hb] at b1 b2 b3 b4
        cases ret with
        | true =>
          dsimp only
          exact ⟨b1, b2, b3, fun e => absurd e (by simp)⟩
        | false =>
          dsimp only
          obtain ⟨e1, e2⟩ := b4 rfl
          dsimp only at e1 e2 b1 b2
          obtain ⟨c1, c2, c3, c4⟩ := ih ((d <<< 1) % 256) len1 s1 b1 b2 e1
          refine ⟨c1, c2, c3, fun e => ?_⟩
          obtain ⟨f1, f2⟩ := c4 e
          exact ⟨f1, by omega⟩

theorem wramRound_spec (src : Nat → Nat) (mem : Int → Nat) (n : Nat) (len : Int) (s : LzState)
    (h : LzInv mem n s) (hsum : (s.destPos : Int) + len = (n : Int)) (hlen : 0 < len) :
    LzInv mem n (wramRound src len s).1
      ∧ ((wramRound src len s).1.destPos : Int) + (wramRound src len s).2.1 = (n : Int)
      ∧ ((wramRound src len s).2.2 = true → (wramRound src len s).2.1 = 0)
      ∧ ((wramRound src len s).2.2 = false →
          0 < (wramRound src len s).2.1 ∧ s.destPos + 8 ≤ (wramRound src len s).1.destPos) := by
  unfold wramRound
  split
  · exact wramBlocks_spec src mem n 8 _ len { s with srcPos := s.srcPos + 1 } h hsum hlen
  · obtain ⟨c1, c2, c3, c4⟩ := wramLiterals_spec src mem n 8 len { s with srcPos := s.srcPos + 1 }
      h hsum hlen
    refine ⟨c1, c2, c3, fun e => ?_⟩
    obtain ⟨d1, d2⟩ := c4 e
    exact ⟨d1, by rw [d2]⟩

theorem wramLoop_spec (src : Nat → Nat) (mem : Int → Nat) (n fuel : Nat) :
    ∀ (len : Int) (s : LzState), LzInv mem n s → (s.destPos : Int) + len = (n : Int) →
      0 ≤ len → len < (fuel : Int) →
      LzInv mem n (wramLoop src fuel len s).1
        ∧ (wramLoop src fuel len s).1.destPos = n
        ∧ (wramLoop src fuel len s).2 = LzOutcome.returned := by
  induction fuel with
  | zero =>
    intro len s h hsum h0 hf
    exact absurd hf (by omega)
  | succ fuel ih =>
    intro len s h hsum h0 hf
    unfold wramLoop
    by_cases hlen : len > 0
    · rw [if_pos hlen]
      obtain ⟨c1, c2, c3, c4⟩ := wramRound_spec src mem n len s h hsum hlen
      by_cases hret : (wramRound src len s).2.2 = true
      · rw [if_pos hret]
        have hz := c3 hret
        refine ⟨c1, ?_, rfl⟩
        show (wramRound src len s).1.destPos = n
        omega
      · rw [if_neg hret]
        have hfalse : (wramRound src len s).2.2 = false := by simpa using hret
        obtain ⟨d1, d2⟩ := c4 hfalse
        exact ih _ _ c1 c2 (by omega) (by omega)
    · rw [if_neg hlen]
      refine ⟨h, ?_, rfl⟩
      show s.destPos = n
      omega

theorem LZ77UnCompWram_spec (src : Nat → Nat) (mem : Int → Nat) :
    LzInv mem (lzDeclaredSize src) (LZ77UnCompWram src mem).1
      ∧ (LZ77UnCompWram src mem).1.destPos = lzDeclaredSize src
      ∧ (LZ77UnCompWram src mem).2 = LzOutcome.returned := by
  unfold LZ77UnCompWram
  rw [wramLen_eq]
  exact wramLoop_spec src mem (lzDeclaredSize src) _ _ (lzStart mem) (lzStart_inv mem _)
    (by show ((0 : Nat) : Int) + _ = _; omega) (by omega) (by omega)

/-- C26: for every input stream and every destination memory, `LZ77UnCompVram`
and `LZ77UnCompWram` end (the loop budget of the model is never used up) and
write only the destination offsets `0 .. n - 1`, in increasing order, where `n`
is the 24-bit size declared in the stream header: the offsets written by
`LZ77UnCompVram` are `0, 1, ..., m - 1` for some `m <= n`, those written by
`LZ77UnCompWram` are `0, 1, ..., n - 1`, and every cell of the memory outside
the offsets `0 .. n - 1` holds afterwards what it held before. -/
theorem LZ77_writes_within_declared_size (src : Nat → Nat) (mem : Int → Nat) :
    (LZ77UnCompVram src mem).2 ≠ LzOutcome.exhausted
      ∧ (LZ77UnCompWram src mem).2 = LzOutcome.returned
      ∧ (∃ m, m ≤ lzDeclaredSize src ∧ (LZ77UnCompVram src mem).1.writes = firstOffsets m)
      ∧ (LZ77UnCompWram src mem).1.writes = firstOffsets (lzDeclaredSize src)
      ∧ (∀ off : Int, ¬ (0 ≤ off ∧ off < (lzDeclaredSize src : Int)) →
          (LZ77UnCompVram src mem).1.dest off = mem off
            ∧ (LZ77UnCompWram src mem).1.dest off = mem off) := by
  obtain ⟨⟨v1, v2, v3⟩, v4⟩ := LZ77UnCompVram_spec src mem
  obtain ⟨⟨w1, w2, w3⟩, w4, w5⟩ := LZ77UnCompWram_spec src mem
  refine ⟨v4, w5, ⟨_, v1, v2⟩, ?_, fun off hoff => ⟨v3 off hoff, w3 off hoff⟩⟩
  rw [w2, w4]

/-- Instance of C26: on a stream that declares 3 bytes, `LZ77UnCompWram` writes
the offsets 0, 1 and 2 in this order. -/
theorem LZ77_writes_within_declared_size_witness :
    (LZ77UnCompWram strayLzStream (fun _ => 0)).1.writes = [0, 1, 2] :=
  (LZ77_writes_within_declared_size strayLzStream (fun _ => 0)).2.2.2.1

/-! ## LZ77 decompression: back-references before the buffer -/

theorem vramBlock_before_buffer (src : Nat → Nat) (destSize flags : Nat) (s : LzState)
    (hflag : flags &&& 0x80 ≠ 0)
    (hpos : (s.destPos : Int)
      - (((((byteRead src s.srcPos &&& 0xF) <<< 8) ||| byteRead src (s.srcPos + 1) : Nat) : Int)
          + 1) < 0) :
    vramBlock src destSize flags s
      = ({ s with srcPos := s.srcPos + 2 }, some LzOutcome.failed) := by
  unfold vramBlock
  dsimp only
  rw [if_pos hflag, if_pos hpos]

/-- C27, the diverging input: the stream `strayLzStream` declares 3 bytes and
opens with a back-reference of distance 1 while the output is still empty, so
its source position is the offset -1, before the start of the buffer.
`LZ77UnCompVram` fails at once, having read and written nothing in the
destination; `LZ77UnCompWram` does not abort: it reads the offsets -1, 0 and 1,
writes the offsets 0, 1 and 2, stores at offset 0 the byte that lay before the
buffer, and returns. -/
theorem LZ77UnCompWram_reads_before_buffer (mem : Int → Nat) :
    (LZ77UnCompVram strayLzStream mem).2 = LzOutcome.failed
      ∧ (LZ77UnCompVram strayLzStream mem).1.reads = []
      ∧ (LZ77UnCompVram strayLzStream mem).1.writes = []
      ∧ (LZ77UnCompWram strayLzStream mem).2 = LzOutcome.returned
      ∧ (LZ77UnCompWram strayLzStream mem).1.reads = [-1, 0, 1]
      ∧ (LZ77UnCompWram strayLzStream mem).1.writes = [0, 1, 2]
      ∧ (LZ77UnCompWram strayLzStream mem).1.dest 0 = mem (-1) % 256 := by
  have hv : vramDestSize strayLzStream = 3 := by decide
  have hw : wramLen strayLzStream = 3 := by decide
  have b4 : byteRead strayLzStream 4 = 0x80 := by decide
  have b5 : byteRead strayLzStream 5 = 0 := by decide
  have b6 : byteRead strayLzStream 6 = 0 := by decide
  unfold LZ77UnCompVram LZ77UnCompWram
  rw [hv, hw]
  simp [vramLoop, vramBlocks, vramBlock, vramClamp, vramAfter, vramCopy, wramLoop, wramRound,
    wramBlocks, wramBlock, wramCopy, lzCopyByte, lzStart, toU16, destRead, b4, b5, b6]

/-! ## Real-time clock -/

theorem BinToBcd_total (bin : Nat) : (BinToBcd bin).isSome = true := by
  unfold BinToBcd
  simp only [binToBcdLoop]
  split
  · split
    · split
      · rename_i h1 h2 h3
        unfold toU8 at h1 h2 h3
        omega
      · rfl
    · rfl
  · rfl

theorem BinToBcd_packed : ∀ b, b < 100 → BinToBcd b = some (packedBcd b) := by
  decide

/-- C40, the diverging input: for the month index 9 (October) `UpdateInternalClock`
stores `BinToBcd(9) + 1 = 0x0A` in `internalClock.month`, which is not the
packed-BCD encoding `0x10` of the calendar month 10: its low nibble is 10.  For
every other month index `m` in 0..11 the stored value is the packed-BCD encoding
of `m + 1`, and `BinToBcd(b)` is `16 * (b / 10) + b mod 10` for every `b` up to
99. -/
theorem UpdateInternalClock_october_not_bcd :
    (UpdateInternalClock octoberNoon).map SiiRtcInfo.month = some 0x0A
      ∧ clockMonth 9 = some 0x0A
      ∧ packedBcd (9 + 1) = 0x10
      ∧ (∀ m : Nat, m < 12 → m ≠ 9 → clockMonth (Int.ofNat m) = some (packedBcd (m + 1)))
      ∧ (∀ b, b < 100 → BinToBcd b = some (packedBcd b)) := by
  refine ⟨by decide, by decide, by decide, by decide, BinToBcd_packed⟩

/-! ## Hiding a plane -/

theorem seven_testBit (k : Nat) : (0x7 : Nat).testBit k = decide (k < 3) := by
  by_cases hk : k < 3
  · interval_cases k <;> decide
  · have h1 : (0x7 : Nat).testBit k = false :=
      Nat.testBit_lt_two_pow (lt_of_lt_of_le (by decide : (0x7 : Nat) < 2 ^ 3)
        (Nat.pow_le_pow_right (by decide) (by omega)))
    rw [h1]
    exact (decide_eq_false hk).symm

theorem HideBgInternal_mode (E : BgEnv) (st : BgState) (bg : Nat) :
    (HideBgInternal E st bg).bgVisibilityAndMode &&& 0x7 = st.bgVisibilityAndMode &&& 0x7 := by
  unfold HideBgInternal
  split
  · show toU16 (toU16 (st.bgVisibilityAndMode
        ^^^ (st.bgVisibilityAndMode &&& (1 <<< (toU8 bg + 8))))
        &&& DISPCNT_ALL_BG_AND_MODE_BITS E) &&& 0x7 = _
    apply Nat.eq_of_testBit_eq
    intro k
    rw [Nat.testBit_and, Nat.testBit_and, toU16_testBit, Nat.testBit_and, toU16_testBit,
      cleared_testBit, one_shiftLeft_testBit, seven_testBit]
    unfold DISPCNT_ALL_BG_AND_MODE_BITS
    rw [Nat.testBit_or, seven_testBit]
    by_cases hk : k < 3
    · have h16 : k < 16 := by omega
      have hne : ¬ k = toU8 bg + 8 := by omega
      simp [hk, h16, hne]
    · simp [hk]
  · rfl

theorem HideBg_mode (E : BgEnv) (st : BgState) (bg : Nat) :
    GetBgMode (HideBg E st bg) = GetBgMode st := by
  unfold GetBgMode
  show toU8 ((HideBgInternal E st bg).bgVisibilityAndMode &&& 0x7) = _
  rw [HideBgInternal_mode]

theorem HideBgInternal_configs (E : BgEnv) (st : BgState) (bg : Nat) :
    (HideBgInternal E st bg).configs = st.configs
      ∧ (HideBgInternal E st bg).configs2 = st.configs2
      ∧ (HideBgInternal E st bg).sDmaBusyBitfield = st.sDmaBusyBitfield
      ∧ (HideBgInternal E st bg).gUnneededFireRedVariable = st.gUnneededFireRedVariable
      ∧ (HideBgInternal E st bg).regs = st.regs := by
  unfold HideBgInternal
  split <;> exact ⟨rfl, rfl, rfl, rfl, rfl⟩

theorem GetBgControlAttribute_congr (a b : BgState) (h : a.configs = b.configs)
    (bg attributeId : Nat) :
    GetBgControlAttribute a bg attributeId = GetBgControlAttribute b bg attributeId := by
  unfold GetBgControlAttribute
  rw [h]

theorem GetBgType_congr (a b : BgState) (h : GetBgMode a = GetBgMode b) (bg : Nat) :
    GetBgType a bg = GetBgType b bg := by
  unfold GetBgType
  rw [h]

theorem GetBgAttribute_congr (a b : BgState) (hc : a.configs = b.configs)
    (hc2 : a.configs2 = b.configs2) (hm : GetBgMode a = GetBgMode b) (bg : Nat)
    (attributeId : BgAttr) :
    GetBgAttribute a bg attributeId = GetBgAttribute b bg attributeId := by
  unfold GetBgAttribute GetBgMetricTextMode GetBgMetricAffineMode
  cases attributeId <;>
    simp only [GetBgControlAttribute_congr a b hc, GetBgType_congr a b hm, hc2]

/-- C35: `HideBg(bg)` leaves every plane's configuration (its visible flag
included) and extended state as they were, together with the DMA tracker: for
every plane and attribute `GetBgAttribute`, `GetBgX`, `GetBgY` and
`GetBgTilemapBuffer` return after `HideBg` what they returned before, and the
register state is the one left by a single `SetGpuReg` on the display-control
register. -/
theorem HideBg_frame (E : BgEnv) (st : BgState) (bg : Nat) :
    (HideBg E st bg).configs = st.configs
      ∧ (HideBg E st bg).configs2 = st.configs2
      ∧ (HideBg E st bg).sDmaBusyBitfield = st.sDmaBusyBitfield
      ∧ (HideBg E st bg).gUnneededFireRedVariable = st.gUnneededFireRedVariable
      ∧ (∀ (b : Nat) (attributeId : BgAttr),
          GetBgAttribute (HideBg E st bg) b attributeId = GetBgAttribute st b attributeId)
      ∧ (∀ b : Nat, GetBgX (HideBg E st bg) b = GetBgX st b)
      ∧ (∀ b : Nat, GetBgY (HideBg E st bg) b = GetBgY st b)
      ∧ (∀ b : Nat, GetBgTilemapBuffer (HideBg E st bg) b = GetBgTilemapBuffer st b)
      ∧ ∃ v, (HideBg E st bg).regs = E.SetGpuReg E.REG_OFFSET_DISPCNT v st.regs := by
  obtain ⟨h1, h2, h3, h4, h5⟩ := HideBgInternal_configs E st bg
  have c1 : (HideBg E st bg).configs = st.configs := h1
  have c2 : (HideBg E st bg).configs2 = st.configs2 := h2
  refine ⟨c1, c2, h3, h4, ?_, ?_, ?_, ?_, ?_⟩
  · intro b attributeId
    exact GetBgAttribute_congr _ _ c1 c2 (HideBg_mode E st bg) b attributeId
  · intro b
    unfold GetBgX
    rw [GetBgControlAttribute_congr _ _ c1, c2]
  · intro b
    unfold GetBgY
    rw [GetBgControlAttribute_congr _ _ c1, c2]
  · intro b
    unfold GetBgTilemapBuffer
    rw [GetBgControlAttribute_congr _ _ c1, c2]
  · refine ⟨toU16 ((E.GetGpuReg E.REG_OFFSET_DISPCNT (HideBgInternal E st bg).regs
        ^^^ (E.GetGpuReg E.REG_OFFSET_DISPCNT (HideBgInternal E st bg).regs
          &&& DISPCNT_ALL_BG_AND_MODE_BITS E))
      ||| (HideBgInternal E st bg).bgVisibilityAndMode), ?_⟩
    show E.SetGpuReg E.REG_OFFSET_DISPCNT _ (HideBgInternal E st bg).regs = _
    rw [h5]

/-- Instance of C35: hiding the visible plane 1 of `shownBgState` leaves its
configuration visible and its priority attribute readable as before. -/
theorem HideBg_frame_witness :
    ((HideBg gbaBgEnv shownBgState 1).configs 1).visible = 1
      ∧ GetBgAttribute (HideBg gbaBgEnv shownBgState 1) 1 BgAttr.priority
          = GetBgAttribute shownBgState 1 BgAttr.priority :=
  ⟨by rw [(HideBg_frame gbaBgEnv shownBgState 1).1]; decide,
   (HideBg_frame gbaBgEnv shownBgState 1).2.2.2.2.1 1 BgAttr.priority⟩

/-! ## The mosaic pass of the affine renderer -/

theorem applyBGHorizontalMosaicEffect_le (gpu : Gpu) (x : Nat) :
    applyBGHorizontalMosaicEffect gpu x ≤ x := by
  unfold applyBGHorizontalMosaicEffect
  exact Nat.sub_le _ _

theorem applyBGHorizontalMosaicEffect_idem (gpu : Gpu) (x : Nat) :
    applyBGHorizontalMosaicEffect gpu (applyBGHorizontalMosaicEffect gpu x)
      = applyBGHorizontalMosaicEffect gpu x := by
  unfold applyBGHorizontalMosaicEffect
  have h := Nat.div_add_mod x (mosaicBGEffectX gpu + 1)
  have e : x - x % (mosaicBGEffectX gpu + 1)
      = (mosaicBGEffectX gpu + 1) * (x / (mosaicBGEffectX gpu + 1)) := by omega
  rw [e, Nat.mul_mod_right, Nat.sub_zero]

theorem rotScaleMosaicFold (gpu : Gpu) (line : Nat → Nat) (s n : Nat) :
    (∀ x, s ≤ x → x < s + n →
        (List.range' s n).foldl (rotScaleMosaicStep gpu) line x
          = line (applyBGHorizontalMosaicEffect gpu x))
      ∧ (∀ x, ¬ (s ≤ x ∧ x < s + n) →
        (List.range' s n).foldl (rotScaleMosaicStep gpu) line x = line x) := by
  induction n with
  | zero =>
    refine ⟨fun x h1 h2 => absurd h2 (by omega), fun x _ => rfl⟩
  | succ n ih =>
    obtain ⟨ih1, ih2⟩ := ih
    rw [List.range'_concat, List.foldl_append, Nat.one_mul]
    have hstep : ∀ x,
        List.foldl (rotScaleMosaicStep gpu)
            ((List.range' s n).foldl (rotScaleMosaicStep gpu) line) [s + n] x
          = if x = s + n then
              (List.range' s n).foldl (rotScaleMosaicStep gpu) line
                (applyBGHorizontalMosaicEffect gpu (s + n))
            else (List.range' s n).foldl (rotScaleMosaicStep gpu) line x := by
      intro x
      show Function.update _ (s + n) _ x = _
      by_cases hx : x = s + n
      · rw [if_pos hx, hx, Function.update_same]
      · rw [if_neg hx, Function.update_noteq hx]
    have hle := applyBGHorizontalMosaicEffect_le gpu (s + n)
    constructor
    · intro x h1 h2
      rw [hstep]
      by_cases hx : x = s + n
      · rw [if_pos hx, hx]
        by_cases hin : s ≤ applyBGHorizontalMosaicEffect gpu (s + n)
            ∧ applyBGHorizontalMosaicEffect gpu (s + n) < s + n
        · rw [ih1 _ hin.1 hin.2, applyBGHorizontalMosaicEffect_idem]
        · rw [ih2 _ hin]
      · rw [if_neg hx]
        exact ih1 x h1 (by omega)
    · intro x hx
      rw [hstep, if_neg (by omega)]
      exact ih2 x (by omega)

/-- C31: when the plane's mosaic flag is set and the horizontal mosaic size is
greater than 0, after the closing pass of `RenderRotScaleBGScanline` every
column `x` of the range `lineStart .. lineEnd - 1` holds the value that the
column `x - (x mod (m + 1))`, the start of its mosaic block, held before the
pass (`m` being the horizontal mosaic size), and every other column is as it
was. -/
theorem rotScaleMosaicPass_snaps (gpu : Gpu) (bg : GpuBgState) (lineStart lineEnd : Int)
    (line : Nat → Nat) (hm : bg.mosaic = true) (hx : mosaicBGEffectX gpu > 0) :
    (∀ x, x ∈ unsignedRange lineStart lineEnd →
        rotScaleMosaicPass gpu bg (unsignedRange lineStart lineEnd) line x
          = line (x - x % (mosaicBGEffectX gpu + 1)))
      ∧ (∀ x, x ∉ unsignedRange lineStart lineEnd →
        rotScaleMosaicPass gpu bg (unsignedRange lineStart lineEnd) line x = line x) := by
  have hc : (bg.mosaic && decide (mosaicBGEffectX gpu > 0)) = true := by
    rw [hm]
    simpa using hx
  unfold rotScaleMosaicPass
  rw [if_pos hc]
  obtain ⟨h1, h2⟩ := rotScaleMosaicFold gpu line (toU32 lineStart)
    (toU32 lineEnd - toU32 lineStart)
  constructor
  · intro x hmem
    rw [mem_unsignedRange] at hmem
    exact h1 x hmem.1 (by omega)
  · intro x hmem
    rw [mem_unsignedRange] at hmem
    exact h2 x (fun h => hmem ⟨h.1, by omega⟩)

/-- Instance of C31: with mosaic size 3 (blocks of 4 columns) on the range
0 .. 239, column 6 receives what column 4 held. -/
theorem rotScaleMosaicPass_snaps_witness :
    rotScaleMosaicPass { zeroGpu with mosaic := 3 } { zeroBg with mosaic := true }
        (unsignedRange 0 240) (fun x => x) 6 = 4 :=
  (rotScaleMosaicPass_snaps { zeroGpu with mosaic := 3 } { zeroBg with mosaic := true } 0 240
    (fun x => x) rfl (by decide)).1 6 (by decide)

/-! ## The priority buckets after the bookkeeping loop -/

theorem bucketList_nodup (gpu : Gpu) (n p : Nat) : (bucketList gpu n p).Nodup := by
  unfold bucketList
  exact (List.nodup_range n).filter _

theorem bucketList_sorted (gpu : Gpu) (n p : Nat) :
    (bucketList gpu n p).Pairwise (fun a b => a < b) := by
  unfold bucketList
  exact (List.pairwise_lt_range n).filter _

theorem mem_bucketList (gpu : Gpu) (n p b : Nat) :
    b ∈ bucketList gpu n p
      ↔ b < n ∧ (gpu.bg b).hidden = false ∧ toU16 (gpu.bg b).priority = p := by
  unfold bucketList
  rw [List.mem_filter, List.mem_range]
  simp

theorem four_filters_le (f : Nat → Nat) (l : List Nat) :
    (l.filter (fun b => f b == 0)).length + (l.filter (fun b => f b == 1)).length
      + (l.filter (fun b => f b == 2)).length + (l.filter (fun b => f b == 3)).length
      ≤ l.length := by
  induction l with
  | nil => simp
  | cons a t ih =>
    simp only [List.filter_cons, List.length_cons]
    by_cases h0 : f a = 0
    · simp [h0]; omega
    · by_cases h1 : f a = 1
      · simp [h1]; omega
      · by_cases h2 : f a = 2
        · simp [h2]; omega
        · by_cases h3 : f a = 3
          · simp [h3]; omega
          · simp [h0, h1, h2, h3]; omega

theorem priorityBucket_bookkeep (gpu : Gpu) (p : Nat) :
    priorityBucket (bookkeep gpu emptyScanline) p = bucketList gpu 4 p :=
  bookkeep_buckets gpu p

theorem bucketList_length_sum (gpu : Gpu) (n : Nat) :
    (bucketList gpu n 0).length + (bucketList gpu n 1).length + (bucketList gpu n 2).length
      + (bucketList gpu n 3).length ≤ n := by
  have h := four_filters_le
    (fun b => if (gpu.bg b).hidden then 4 else toU16 (gpu.bg b).priority) (List.range n)
  rw [List.length_range] at h
  have e : ∀ p, p < 4 →
      bucketList gpu n p
        = (List.range n).filter
            (fun b => (if (gpu.bg b).hidden then 4 else toU16 (gpu.bg b).priority) == p) := by
    intro p hp
    unfold bucketList
    apply List.filter_congr
    intro b _
    cases hh : (gpu.bg b).hidden
    · simp
    · simp
      omega
  rw [e 0 (by decide), e 1 (by decide), e 2 (by decide), e 3 (by decide)]
  exact h

/-- C34: after the bookkeeping loop of `DrawScanline`, run on the working set
whose counts the `memset` has zeroed, every non-hidden plane appears exactly
once in the bucket of its own priority and in no other bucket; a bucket holds
only non-hidden planes of its priority, in ascending plane index;
`prioritySortedBgsCount[p]` is the number of non-hidden planes of priority `p`;
and the counts of the priorities 0..3 sum to at most 4, so every entry written
for these priorities lies at a position below 4. -/
theorem bookkeep_priority_buckets (gpu : Gpu) :
    (∀ b, b < NUM_BACKGROUNDS → (gpu.bg b).hidden = false →
        (priorityBucket (bookkeep gpu emptyScanline) (toU16 (gpu.bg b).priority)).count b = 1
          ∧ ∀ p, p ≠ toU16 (gpu.bg b).priority →
              b ∉ priorityBucket (bookkeep gpu emptyScanline) p)
      ∧ (∀ p b, b ∈ priorityBucket (bookkeep gpu emptyScanline) p →
          b < NUM_BACKGROUNDS ∧ (gpu.bg b).hidden = false ∧ toU16 (gpu.bg b).priority = p)
      ∧ (∀ p, (priorityBucket (bookkeep gpu emptyScanline) p).Pairwise (fun a b => a < b))
      ∧ (∀ p, (bookkeep gpu emptyScanline).prioritySortedBgsCount p
          = (List.range NUM_BACKGROUNDS).countP
              (fun b => !(gpu.bg b).hidden && (toU16 (gpu.bg b).priority == p)))
      ∧ (bookkeep gpu emptyScanline).prioritySortedBgsCount 0
          + (bookkeep gpu emptyScanline).prioritySortedBgsCount 1
          + (bookkeep gpu emptyScanline).prioritySortedBgsCount 2
          + (bookkeep gpu emptyScanline).prioritySortedBgsCount 3 ≤ 4 := by
  have hlen : ∀ p, (bookkeep gpu emptyScanline).prioritySortedBgsCount p
      = (bucketList gpu 4 p).length := by
    intro p
    rw [← priorityBucket_bookkeep gpu p]
    unfold priorityBucket
    rw [List.length_map, List.length_range]
  refine ⟨?_, ?_, ?_, ?_, ?_⟩
  · intro b hb hh
    constructor
    · rw [priorityBucket_bookkeep]
      exact List.count_eq_one_of_mem (bucketList_nodup gpu 4 _)
        ((mem_bucketList gpu 4 _ b).2 ⟨hb, hh, rfl⟩)
    · intro p hp hmem
      rw [priorityBucket_bookkeep, mem_bucketList] at hmem
      exact hp hmem.2.2.symm
  · intro p b hmem
    rw [priorityBucket_bookkeep, mem_bucketList] at hmem
    exact hmem
  · intro p
    rw [priorityBucket_bookkeep]
    exact bucketList_sorted gpu 4 p
  · intro p
    rw [hlen p, List.countP_eq_length_filter]
    rfl
  · rw [hlen 0, hlen 1, hlen 2, hlen 3]
    exact bucketList_length_sum gpu 4

/-- Instance of C34: with planes 0 and 2 of priority 1, plane 1 of priority 0
and plane 3 hidden, plane 2 appears exactly once in bucket 1. -/
theorem bookkeep_priority_buckets_witness :
    (priorityBucket (bookkeep bucketGpu emptyScanline) 1).count 2 = 1 :=
  ((bookkeep_priority_buckets bucketGpu).1 2 (by decide) (by decide)).1

/-! ## Run-length decompression -/

theorem rlWrite_fields (s : RlState) (val : Nat) :
    (rlWrite s val).destPos = s.destPos + 4 ∧ (rlWrite s val).remaining = s.remaining
      ∧ (rlWrite s val).writes = s.writes ++ [s.destPos] :=
  ⟨rfl, rfl, rfl⟩

/-- C38, the diverging input: the stream `twoByteRlStream` declares 2 bytes,
`0xAA` and `0xBB`, in one uncompressed block.  `RLUnCompWram` advances its
destination pointer, a `u32 *`, by four bytes after each byte written: it
stores `0xAA` at offset 0, `0xBB` at offset 4 and the two padding zeros at the
offsets 8 and 12, and leaves the offsets 1, 2 and 3 as they were, where a
contiguous output has `0xBB` at offset 1 and the zeros at the offsets 2 and 3. -/
theorem RLUnCompWram_stride_four (mem : Nat → Nat) :
    (RLUnCompWram twoByteRlStream mem).map RlState.writes = some [0, 4, 8, 12]
      ∧ (RLUnCompWram twoByteRlStream mem).map (fun s => s.dest 0) = some 0xAA
      ∧ (RLUnCompWram twoByteRlStream mem).map (fun s => s.dest 4) = some 0xBB
      ∧ (RLUnCompWram twoByteRlStream mem).map (fun s => s.dest 1) = some (mem 1)
      ∧ (RLUnCompWram twoByteRlStream mem).map (fun s => s.dest 2) = some (mem 2)
      ∧ (RLUnCompWram twoByteRlStream mem).map (fun s => s.dest 3) = some (mem 3) := by
  have hr : rlRemaining twoByteRlStream = 2 := by decide
  have hp : rlPadding twoByteRlStream = 2 := by decide
  have b4 : byteRead twoByteRlStream 4 = 0x01 := by decide
  have b5 : byteRead twoByteRlStream 5 = 0xAA := by decide
  have b6 : byteRead twoByteRlStream 6 = 0xBB := by decide
  unfold RLUnCompWram
  rw [hr, hp]
  simp [rlLoop, rlBlock, rlCopy, rlWrite, rlPad, b4, b5, b6]

theorem strideOffsets_succ (m : Nat) : strideOffsets (m + 1) = strideOffsets m ++ [4 * m] := by
  unfold strideOffsets
  rw [List.range_succ, List.map_append]
  rfl

theorem rlWrite_inv (n : Nat) (s : RlState) (c val srcPos : Nat) (h : RlInv n s c)
    (hr : s.remaining ≠ 0) :
    RlInv n (rlWrite { s with remaining := s.remaining - 1, srcPos := srcPos } val) (c + 1) := by
  obtain ⟨h1, h2, h3, h4⟩ := h
  refine ⟨?_, ?_, ?_, ?_⟩
  · show ((c + 1 : Nat) : Int) + (s.remaining - 1) = (n : Int)
    omega
  · show 0 ≤ s.remaining - 1
    omega
  · show s.destPos + 4 = 4 * (c + 1)
    omega
  · show s.writes ++ [s.destPos] = strideOffsets (c + 1)
    rw [strideOffsets_succ, h4, h3]

theorem rlFill_spec (n block k : Nat) :
    ∀ (s : RlState) (c : Nat), RlInv n s c →
      ∃ c2, RlInv n (rlFill block k s) c2 ∧ c ≤ c2
        ∧ (0 < k → 0 < s.remaining → c < c2) := by
  induction k with
  | zero =>
    intro s c h
    exact ⟨c, h, Nat.le_refl c, fun hk => absurd hk (by omega)⟩
  | succ k ih =>
    intro s c h
    unfold rlFill
    by_cases hr : s.remaining ≠ 0
    · rw [if_pos hr]
      obtain ⟨c2, i1, i2, _⟩ := ih _ (c + 1) (rlWrite_inv n s c block s.srcPos h hr)
      exact ⟨c2, i1, by omega, fun _ _ => by omega⟩
    · rw [if_neg hr]
      exact ⟨c, h, Nat.le_refl c, fun _ hpos => absurd hpos (by omega)⟩

theorem rlCopy_spec (src : Nat → Nat) (n k : Nat) :
    ∀ (s : RlState) (c : Nat), RlInv n s c →
      ∃ c2, RlInv n (rlCopy src k s) c2 ∧ c ≤ c2
        ∧ (0 < k → 0 < s.remaining → c < c2) := by
  induction k with
  | zero =>
    intro s c h
    exact ⟨c, h, Nat.le_refl c, fun hk => absurd hk (by omega)⟩
  | succ k ih =>
    intro s c h
    unfold rlCopy
    by_cases hr : s.remaining ≠ 0
    · rw [if_pos hr]
      obtain ⟨c2, i1, i2, _⟩ := ih _ (c + 1)
        (rlWrite_inv n s c (byteRead src s.srcPos) (s.srcPos + 1) h hr)
      exact ⟨c2, i1, by omega, fun _ _ => by omega⟩
    · rw [if_neg hr]
      exact ⟨c, h, Nat.le_refl c, fun _ hpos => absurd hpos (by omega)⟩

theorem rlBlock_spec (src : Nat → Nat) (n : Nat) (s : RlState) (c : Nat) (h : RlInv n s c)
    (hpos : 0 < s.remaining) :
    ∃ c2, RlInv n (rlBlock src s) c2 ∧ c < c2 := by
  unfold rlBlock
  split
  · obtain ⟨c2, i1, _, i3⟩ := rlFill_spec n (byteRead src (s.srcPos + 1))
      ((byteRead src s.srcPos &&& 0x7F) + 3) { s with srcPos := s.srcPos + 2 } c h
    exact ⟨c2, i1, i3 (by omega) hpos⟩
  · obtain ⟨c2, i1, _, i3⟩ := rlCopy_spec src n (byteRead src s.srcPos + 1)
      { s with srcPos := s.srcPos + 1 } c h
    exact ⟨c2, i1, i3 (by omega) hpos⟩

theorem rlLoop_spec (src : Nat → Nat) (n fuel : Nat) :
    ∀ (s : RlState) (c : Nat), RlInv n s c → s.remaining < (fuel : Int) →
      ∃ s2, rlLoop src fuel s = some s2 ∧ RlInv n s2 n := by
  induction fuel with
  | zero =>
    intro s c h hf
    exact absurd hf (by have := h.2.1; omega)
  | succ fuel ih =>
    intro s c h hf
    unfold rlLoop
    by_cases hpos : s.remaining > 0
    · rw [if_pos hpos]
      obtain ⟨c2, i1, i2⟩ := rlBlock_spec src n s c h hpos
      exact ih _ c2 i1 (by have := i1.1; have := h.1; omega)
    · rw [if_neg hpos]
      have hz : s.remaining = 0 := by have := h.2.1; omega
      have hc : c = n := by have := h.1; omega
      subst hc
      exact ⟨s, rfl, h⟩

theorem rlPad_spec (k : Nat) :
    ∀ (s : RlState) (c : Nat), s.destPos = 4 * c → s.writes = strideOffsets c →
      (rlPad k s).writes = strideOffsets (c + k) := by
  induction k with
  | zero =>
    intro s c _ h
    exact h
  | succ k ih =>
    intro s c h1 h2
    unfold rlPad
    rw [ih (rlWrite s 0) (c + 1) (by show s.destPos + 4 = 4 * (c + 1); omega)
      (by show s.writes ++ [s.destPos] = strideOffsets (c + 1); rw [strideOffsets_succ, h2, h1])]
    congr 1
    omega

theorem rlRemaining_eq (src : Nat → Nat) : rlRemaining src = (lzDeclaredSize src : Int) :=
  wramLen_eq src

theorem RLUnCompWram_writes (src : Nat → Nat) (mem : Nat → Nat) :
    ∃ s, RLUnCompWram src mem = some s
      ∧ s.writes = strideOffsets (lzDeclaredSize src + rlPadding src) := by
  unfold RLUnCompWram
  obtain ⟨s2, e, i⟩ := rlLoop_spec src (lzDeclaredSize src) ((rlRemaining src).toNat + 1)
    { srcPos := 4, destPos := 0, remaining := rlRemaining src, dest := mem, writes := [] } 0
    ⟨by show ((0 : Nat) : Int) + rlRemaining src = _; rw [rlRemaining_eq]; omega,
     by show 0 ≤ rlRemaining src; rw [rlRemaining_eq]; omega, rfl, rfl⟩
    (by show rlRemaining src < _; rw [rlRemaining_eq]; omega)
  rw [e]
  exact ⟨_, rfl, rlPad_spec _ s2 _ i.2.2.1 i.2.2.2⟩

/-! ## The text-mode map index on a map of its own size -/

theorem tileIndex_formula (s : Nat) (x y : Int) (hs : s < 4) :
    GetTileMapIndexFromCoords x y (s : Int) (mapSizeInTiles s).1 (mapSizeInTiles s).2
      = 1024 * screenBlock s (x % ((mapSizeInTiles s).1 : Int)).toNat
            (y % ((mapSizeInTiles s).2 : Int)).toNat
          + 32 * ((y % ((mapSizeInTiles s).2 : Int)).toNat % 32)
          + (x % ((mapSizeInTiles s).1 : Int)).toNat % 32 := by
  have hcases : s = 0 ∨ s = 1 ∨ s = 2 ∨ s = 3 := by omega
  have x32 := coord_mask_32 x
  have x64 := coord_mask_64 x
  have y32 := coord_mask_32 y
  have y64 := coord_mask_64 y
  rcases hcases with e | e | e | e
  · subst e
    exact tileIndex_of_masked 0 (x % 32).toNat (y % 32).toNat 32 32 x y x32.1 y32.1
      (Nat.lt_trans x32.2 (by decide)) (Nat.lt_trans y32.2 (by decide)) (by decide)
      (fun _ => x32.2) (fun _ => y32.2)
  · subst e
    exact tileIndex_of_masked 1 (x % 64).toNat (y % 32).toNat 64 32 x y x64.1 y32.1 x64.2
      (Nat.lt_trans y32.2 (by decide)) (by decide)
      (fun h => absurd h (by decide)) (fun _ => y32.2)
  · subst e
    exact tileIndex_of_masked 2 (x % 32).toNat (y % 64).toNat 32 64 x y x32.1 y64.1
      (Nat.lt_trans x32.2 (by decide)) y64.2 (by decide)
      (fun _ => x32.2) (fun h => absurd h (by decide))
  · subst e
    exact tileIndex_of_masked 3 (x % 64).toNat (y % 64).toNat 64 64 x y x64.1 y64.1 x64.2 y64.2
      (by decide) (fun h => absurd h (by decide)) (fun h => absurd h (by decide))

theorem mapSizeInTiles_cases (s : Nat) (hs : s < 4) :
    (s = 0 ∧ mapSizeInTiles s = (32, 32)) ∨ (s = 1 ∧ mapSizeInTiles s = (64, 32))
      ∨ (s = 2 ∧ mapSizeInTiles s = (32, 64)) ∨ (s = 3 ∧ mapSizeInTiles s = (64, 64)) := by
  have hcases : s = 0 ∨ s = 1 ∨ s = 2 ∨ s = 3 := by omega
  rcases hcases with e | e | e | e <;> subst e <;> simp [mapSizeInTiles]

theorem tileIndex_nat (s x y : Nat) (hs : s < 4) :
    GetTileMapIndexFromCoords (x : Int) (y : Int) (s : Int) (mapSizeInTiles s).1
        (mapSizeInTiles s).2
      = 1024 * screenBlock s (x % (mapSizeInTiles s).1) (y % (mapSizeInTiles s).2)
          + 32 * (y % (mapSizeInTiles s).2 % 32) + x % (mapSizeInTiles s).1 % 32 := by
  rw [tileIndex_formula s x y hs]
  have ex : ((x : Int) % ((mapSizeInTiles s).1 : Int)).toNat = x % (mapSizeInTiles s).1 := by
    rw [← Int.natCast_mod, Int.toNat_ofNat]
  have ey : ((y : Int) % ((mapSizeInTiles s).2 : Int)).toNat = y % (mapSizeInTiles s).2 := by
    rw [← Int.natCast_mod, Int.toNat_ofNat]
  rw [ex, ey]

theorem tileIndex_class (s x y : Nat) (hs : s < 4) :
    (s = 0 ∧ GetTileMapIndexFromCoords (x : Int) (y : Int) (s : Int) (mapSizeInTiles s).1
        (mapSizeInTiles s).2 = 32 * (y % 32) + x % 32)
      ∨ (s = 1 ∧ GetTileMapIndexFromCoords (x : Int) (y : Int) (s : Int) (mapSizeInTiles s).1
        (mapSizeInTiles s).2 = 1024 * (x % 64 / 32) + 32 * (y % 32) + x % 32)
      ∨ (s = 2 ∧ GetTileMapIndexFromCoords (x : Int) (y : Int) (s : Int) (mapSizeInTiles s).1
        (mapSizeInTiles s).2 = 1024 * (y % 64 / 32) + 32 * (y % 32) + x % 32)
      ∨ (s = 3 ∧ GetTileMapIndexFromCoords (x : Int) (y : Int) (s : Int) (mapSizeInTiles s).1
        (mapSizeInTiles s).2
          = 1024 * (2 * (y % 64 / 32) + x % 64 / 32) + 32 * (y % 32) + x % 32) := by
  have hcases : s = 0 ∨ s = 1 ∨ s = 2 ∨ s = 3 := by omega
  rcases hcases with e | e | e | e
  · subst e
    refine Or.inl ⟨rfl, ?_⟩
    rw [tileIndex_nat 0 x y (by decide)]
    have m : mapSizeInTiles 0 = (32, 32) := rfl
    have b : screenBlock 0 (x % 32) (y % 32) = 0 := rfl
    rw [m]
    dsimp only
    rw [b]
    omega
  · subst e
    refine Or.inr (Or.inl ⟨rfl, ?_⟩)
    rw [tileIndex_nat 1 x y (by decide)]
    have m : mapSizeInTiles 1 = (64, 32) := rfl
    have b : screenBlock 1 (x % 64) (y % 32) = x % 64 / 32 := rfl
    rw [m]
    dsimp only
    rw [b]
    omega
  · subst e
    refine Or.inr (Or.inr (Or.inl ⟨rfl, ?_⟩))
    rw [tileIndex_nat 2 x y (by decide)]
    have m : mapSizeInTiles 2 = (32, 64) := rfl
    have b : screenBlock 2 (x % 32) (y % 64) = y % 64 / 32 := rfl
    rw [m]
    dsimp only
    rw [b]
    omega
  · subst e
    refine Or.inr (Or.inr (Or.inr ⟨rfl, ?_⟩))
    rw [tileIndex_nat 3 x y (by decide)]
    have m : mapSizeInTiles 3 = (64, 64) := rfl
    have b : screenBlock 3 (x % 64) (y % 64) = 2 * (y % 64 / 32) + x % 64 / 32 := rfl
    rw [m]
    dsimp only
    rw [b]
    omega

/-! ## The text-mode map index is a bijection onto the buffer -/

theorem screenSize_attr_shown (st : BgState) (bg s : Nat) (hs : s < 4)
    (hattr : GetBgControlAttribute st bg 4 = s) :
    IsInvalidBg bg = false ∧ ((st.configs (toU8 bg)).visible != 0) = true := by
  unfold GetBgControlAttribute at hattr
  by_cases hc : (!IsInvalidBg bg && ((st.configs (toU8 bg)).visible != 0)) = true
  · simpa using hc
  · rw [if_neg hc] at hattr
    omega

theorem GetBgMetricTextMode_class (st : BgState) (bg s : Nat) (hs : s < 4)
    (hattr : GetBgControlAttribute st bg 4 = s) :
    GetBgMetricTextMode st bg 0 = (if s = 0 then 1 else if s = 3 then 4 else 2)
      ∧ (32 * GetBgMetricTextMode st bg 1, 32 * GetBgMetricTextMode st bg 2)
          = mapSizeInTiles s := by
  unfold GetBgMetricTextMode mapSizeInTiles
  rw [hattr]
  have hcases : s = 0 ∨ s = 1 ∨ s = 2 ∨ s = 3 := by omega
  rcases hcases with e | e | e | e <;> subst e <;> decide

theorem tileIndex_closed (s x y : Nat) (hs : s < 4) :
    GetTileMapIndexFromCoords (x : Int) (y : Int) (s : Int) (mapSizeInTiles s).1
        (mapSizeInTiles s).2
      = 1024 * (if s = 0 then 0 else if s = 1 then x % 64 / 32
          else if s = 2 then y % 64 / 32 else 2 * (y % 64 / 32) + x % 64 / 32)
        + 32 * (y % 32) + x % 32 := by
  rcases tileIndex_class s x y hs with ⟨e, h⟩ | ⟨e, h⟩ | ⟨e, h⟩ | ⟨e, h⟩ <;>
    (rw [h]; subst e; simp)

theorem mapSizeInTiles_closed (s : Nat) (hs : s < 4) :
    (mapSizeInTiles s).1 = (if s = 0 ∨ s = 2 then 32 else 64)
      ∧ (mapSizeInTiles s).2 = (if s = 0 ∨ s = 1 then 32 else 64) := by
  have hcases : s = 0 ∨ s = 1 ∨ s = 2 ∨ s = 3 := by omega
  rcases hcases with e | e | e | e <;> subst e <;> decide

theorem tileIndex_lt (s x y : Nat) (hs : s < 4) (hx : x < (mapSizeInTiles s).1)
    (hy : y < (mapSizeInTiles s).2) :
    GetTileMapIndexFromCoords (x : Int) (y : Int) (s : Int) (mapSizeInTiles s).1
        (mapSizeInTiles s).2 < 1024 * (if s = 0 then 1 else if s = 3 then 4 else 2) := by
  rw [tileIndex_closed s x y hs]
  rw [(mapSizeInTiles_closed s hs).1] at hx
  rw [(mapSizeInTiles_closed s hs).2] at hy
  have hcases : s = 0 ∨ s = 1 ∨ s = 2 ∨ s = 3 := by omega
  rcases hcases with e | e | e | e <;> subst e <;> simp at hx hy ⊢ <;> omega

theorem tileIndex_injective (s x y x2 y2 : Nat) (hs : s < 4)
    (hx : x < (mapSizeInTiles s).1) (hy : y < (mapSizeInTiles s).2)
    (hx2 : x2 < (mapSizeInTiles s).1) (hy2 : y2 < (mapSizeInTiles s).2)
    (h : GetTileMapIndexFromCoords (x : Int) (y : Int) (s : Int) (mapSizeInTiles s).1
        (mapSizeInTiles s).2
      = GetTileMapIndexFromCoords (x2 : Int) (y2 : Int) (s : Int) (mapSizeInTiles s).1
        (mapSizeInTiles s).2) :
    x = x2 ∧ y = y2 := by
  rw [tileIndex_closed s x y hs, tileIndex_closed s x2 y2 hs] at h
  rw [(mapSizeInTiles_closed s hs).1] at hx hx2
  rw [(mapSizeInTiles_closed s hs).2] at hy hy2
  have hcases : s = 0 ∨ s = 1 ∨ s = 2 ∨ s = 3 := by omega
  rcases hcases with e | e | e | e <;> subst e <;> simp at hx hy hx2 hy2 h <;> omega

theorem tileIndex_surjective (s i : Nat) (hs : s < 4)
    (hi : i < 1024 * (if s = 0 then 1 else if s = 3 then 4 else 2)) :
    ∃ x y, x < (mapSizeInTiles s).1 ∧ y < (mapSizeInTiles s).2
      ∧ GetTileMapIndexFromCoords (x : Int) (y : Int) (s : Int) (mapSizeInTiles s).1
          (mapSizeInTiles s).2 = i := by
  obtain ⟨a, b, c, hb, hc, hi2⟩ : ∃ a b c, b < 32 ∧ c < 32 ∧ i = 1024 * a + 32 * b + c :=
    ⟨i / 1024, i % 1024 / 32, i % 32, by omega, by omega, by omega⟩
  subst hi2
  have key : ∀ x y, (x < (if s = 0 ∨ s = 2 then 32 else 64)
      ∧ y < (if s = 0 ∨ s = 1 then 32 else 64)
      ∧ 1024 * (if s = 0 then 0 else if s = 1 then x % 64 / 32
          else if s = 2 then y % 64 / 32 else 2 * (y % 64 / 32) + x % 64 / 32)
        + 32 * (y % 32) + x % 32 = 1024 * a + 32 * b + c) →
      ∃ x y, x < (mapSizeInTiles s).1 ∧ y < (mapSizeInTiles s).2
        ∧ GetTileMapIndexFromCoords (x : Int) (y : Int) (s : Int) (mapSizeInTiles s).1
            (mapSizeInTiles s).2 = 1024 * a + 32 * b + c := by
    intro x y h
    refine ⟨x, y, ?_, ?_, ?_⟩
    · rw [(mapSizeInTiles_closed s hs).1]; exact h.1
    · rw [(mapSizeInTiles_closed s hs).2]; exact h.2.1
    · rw [tileIndex_closed s x y hs]; exact h.2.2
  have hcases : s = 0 ∨ s = 1 ∨ s = 2 ∨ s = 3 := by omega
  rcases hcases with e | e | e | e
  · subst e
    simp at hi
    refine key c b ?_
    simp
    omega
  · subst e
    simp at hi
    refine key (32 * a + c) b ?_
    simp
    omega
  · subst e
    simp at hi
    refine key c (32 * a + b) ?_
    simp
    omega
  · subst e
    simp at hi
    refine key (32 * (a % 2) + c) (32 * (a / 2) + b) ?_
    simp
    omega

theorem CopyBgTilemapBufferToVram_text (D : DmaEnv) (IWRAM_END : Nat) (st : BgState)
    (bg s : Nat) (hs : s < 4) (hattr : GetBgControlAttribute st bg 4 = s)
    (htype : GetBgType st bg = 0) (hin : IsTileMapOutsideWram IWRAM_END st bg = false) :
    ∃ src dest, CopyBgTilemapBufferToVram D IWRAM_END st bg
      = some (src, dest, GetBgMetricTextMode st bg 0 * 0x800) := by
  have hv := screenSize_attr_shown st bg s hs hattr
  have hm := (GetBgMetricTextMode_class st bg s hs hattr).1
  have hsz : tilemapSizeToLoad st bg = GetBgMetricTextMode st bg 0 * 0x800 := by
    unfold tilemapSizeToLoad
    rw [htype, hm, if_pos rfl]
    have hcases : s = 0 ∨ s = 1 ∨ s = 2 ∨ s = 3 := by omega
    rcases hcases with e | e | e | e <;> subst e <;> decide
  have h32 : IsInvalidBg32 bg = false := by
    have h := hv.1
    unfold IsInvalidBg at h
    unfold IsInvalidBg32
    simpa using h
  have hu : toU16 (GetBgMetricTextMode st bg 0 * 0x800) = GetBgMetricTextMode st bg 0 * 0x800 := by
    rw [hm]
    have hcases : s = 0 ∨ s = 1 ∨ s = 2 ∨ s = 3 := by omega
    rcases hcases with e | e | e | e <;> subst e <;> decide
  have h2 : toU8 2 = 2 := by decide
  unfold CopyBgTilemapBufferToVram loadVramCall
  rw [hsz, hu, h2]
  simp [hv.1, hv.2, hin, h32]

/-- C32: for a shown plane of screen-size class `s` in 0..3, whose map is `W x H` tiles
(`W` and `H` being 32 times the width and height metrics), `GetTileMapIndexFromCoords`
restricted to `x < W`, `y < H` lands below `1024 * GetBgMetricTextMode bg 0`, never maps two
coordinates to one entry, reaches every index below that bound, and for a text plane whose
buffer lies in work RAM the two bytes of every entry lie inside the
`GetBgMetricTextMode bg 0 * 0x800` bytes that `CopyBgTilemapBufferToVram` transfers. -/
theorem tilemap_index_bijection (D : DmaEnv) (IWRAM_END : Nat) (st : BgState) (bg s : Nat)
    (hs : s < 4) (hattr : GetBgControlAttribute st bg 4 = s) :
    (32 * GetBgMetricTextMode st bg 1, 32 * GetBgMetricTextMode st bg 2) = mapSizeInTiles s
      ∧ (∀ x y : Nat, x < (mapSizeInTiles s).1 → y < (mapSizeInTiles s).2 →
          GetTileMapIndexFromCoords (x : Int) (y : Int) (s : Int) (mapSizeInTiles s).1
            (mapSizeInTiles s).2 < 1024 * GetBgMetricTextMode st bg 0)
      ∧ (∀ x y x2 y2 : Nat, x < (mapSizeInTiles s).1 → y < (mapSizeInTiles s).2 →
          x2 < (mapSizeInTiles s).1 → y2 < (mapSizeInTiles s).2 →
          GetTileMapIndexFromCoords (x : Int) (y : Int) (s : Int) (mapSizeInTiles s).1
              (mapSizeInTiles s).2
            = GetTileMapIndexFromCoords (x2 : Int) (y2 : Int) (s : Int) (mapSizeInTiles s).1
              (mapSizeInTiles s).2 →
          x = x2 ∧ y = y2)
      ∧ (∀ i : Nat, i < 1024 * GetBgMetricTextMode st bg 0 →
          ∃ x y : Nat, x < (mapSizeInTiles s).1 ∧ y < (mapSizeInTiles s).2
            ∧ GetTileMapIndexFromCoords (x : Int) (y : Int) (s : Int) (mapSizeInTiles s).1
                (mapSizeInTiles s).2 = i)
      ∧ (GetBgType st bg = 0 → IsTileMapOutsideWram IWRAM_END st bg = false →
          ∃ src dest size, CopyBgTilemapBufferToVram D IWRAM_END st bg = some (src, dest, size)
            ∧ size = GetBgMetricTextMode st bg 0 * 0x800
            ∧ ∀ x y : Nat, x < (mapSizeInTiles s).1 → y < (mapSizeInTiles s).2 →
                2 * GetTileMapIndexFromCoords (x : Int) (y : Int) (s : Int)
                  (mapSizeInTiles s).1 (mapSizeInTiles s).2 + 2 ≤ size) := by
  have hm := GetBgMetricTextMode_class st bg s hs hattr
  refine ⟨hm.2, ?_, ?_, ?_, ?_⟩
  · intro x y hx hy
    rw [hm.1]
    exact tileIndex_lt s x y hs hx hy
  · intro x y x2 y2 hx hy hx2 hy2 h
    exact tileIndex_injective s x y x2 y2 hs hx hy hx2 hy2 h
  · intro i hi
    rw [hm.1] at hi
    exact tileIndex_surjective s i hs hi
  · intro htype hin
    obtain ⟨src, dest, h⟩ := CopyBgTilemapBufferToVram_text D IWRAM_END st bg s hs hattr htype hin
    refine ⟨src, dest, _, h, rfl, ?_⟩
    intro x y hx hy
    have hlt := tileIndex_lt s x y hs hx hy
    rw [← hm.1] at hlt
    omega

theorem tilemap_index_bijection_witness :
    GetBgControlAttribute mapBgState 1 4 = 3
      ∧ (∃ src dest size, CopyBgTilemapBufferToVram slotFiveDmaEnv 0x3007FFF mapBgState 1
            = some (src, dest, size) ∧ size = 0x2000
          ∧ ∀ x y : Nat, x < 64 → y < 64 →
              2 * GetTileMapIndexFromCoords (x : Int) (y : Int) 3 64 64 + 2 ≤ size) := by
  refine ⟨by decide, ?_⟩
  obtain ⟨src, dest, size, h1, h2, h3⟩ :=
    (tilemap_index_bijection slotFiveDmaEnv 0x3007FFF mapBgState 1 3 (by decide)
      (by decide)).2.2.2.2 (by decide) (by decide)
  exact ⟨src, dest, size, h1, by rw [h2]; decide, h3⟩

/-! ## The renderer and the tile-map writer agree on the map layout -/

theorem bgSourcePixel_gba (K : Consts) (gpu : Gpu) (bgNum hoffs voffs : Nat)
    (lineNum lineStart : Int) (x : Nat) (hg : (gpu.bg bgNum).gbaMode = true) :
    bgSourcePixel K gpu bgNum hoffs voffs lineNum lineStart x
      = ((bgGbaSourcePixel gpu bgNum hoffs voffs lineNum lineStart x).1 % 256,
         (bgGbaSourcePixel gpu bgNum hoffs voffs lineNum lineStart x).2 % 256,
         (if (bgGbaSourcePixel gpu bgNum hoffs voffs lineNum lineStart x).1 > 255
              ∧ (bgMapGeometry (gpu.bg bgNum)).1 = 512 then K.GBA_BG_SCREEN_SIZE / 2 else 0)
          + (if (bgGbaSourcePixel gpu bgNum hoffs voffs lineNum lineStart x).2 > 255
              ∧ (bgMapGeometry (gpu.bg bgNum)).2.1 = 512 then
              (if (bgMapGeometry (gpu.bg bgNum)).1 = 512 then K.GBA_BG_SCREEN_SIZE
               else K.GBA_BG_SCREEN_SIZE / 2)
             else 0)) := by
  have hFF : ∀ v : Nat, v &&& 0xFF = v % 256 := fun v => Nat.and_pow_two_sub_one_eq_mod v 8
  unfold bgSourcePixel bgGbaSourcePixel
  simp only [hg, if_true, hFF]

theorem bgGbaSourcePixel_lt (gpu : Gpu) (bgNum hoffs voffs : Nat) (lineNum lineStart : Int)
    (x : Nat) :
    (bgGbaSourcePixel gpu bgNum hoffs voffs lineNum lineStart x).1 < 512
      ∧ (bgGbaSourcePixel gpu bgNum hoffs voffs lineNum lineStart x).2 < 512 := by
  have h1FF : ∀ v : Nat, v &&& 0x1FF = v % 512 := fun v => Nat.and_pow_two_sub_one_eq_mod v 9
  unfold bgGbaSourcePixel
  simp only [h1FF]
  constructor <;> omega

theorem bgMapGeometry_gba (bg : GpuBgState) (hg : bg.gbaMode = true) :
    ((bgMapGeometry bg).1 = 256 ∨ (bgMapGeometry bg).1 = 512)
      ∧ ((bgMapGeometry bg).2.1 = 256 ∨ (bgMapGeometry bg).2.1 = 512)
      ∧ (bgMapGeometry bg).2.2 = 32 := by
  unfold bgMapGeometry
  rw [if_pos hg]
  refine ⟨?_, ?_, rfl⟩
  · by_cases h : bg.screenWidth > 256
    · right; simp [h]
    · left; simp [h]
  · by_cases h : bg.screenHeight > 256
    · right; simp [h]
    · left; simp [h]

theorem gba_map_index (X Y w h G : Nat) (hX : X < 512) (hY : Y < 512)
    (hw : w = 256 ∨ w = 512) (hh : h = 256 ∨ h = 512) (hG : G = 0x800) :
    ((if X > 255 ∧ w = 512 then G / 2 else 0)
        + (if Y > 255 ∧ h = 512 then (if w = 512 then G else G / 2) else 0))
      + ((Y % 256 / 8) * 32 + X % 256 / 8)
      = GetTileMapIndexFromCoords ((X / 8 : Nat) : Int) ((Y / 8 : Nat) : Int)
          ((screenSizeClass w h : Nat) : Int) (mapSizeInTiles (screenSizeClass w h)).1
          (mapSizeInTiles (screenSizeClass w h)).2 := by
  subst hG
  rcases hw with e | e <;> rcases hh with e2 | e2 <;> subst e <;> subst e2
  · rw [show screenSizeClass 256 256 = 0 from rfl, tileIndex_closed 0 _ _ (by decide)]
    simp
    omega
  · rw [show screenSizeClass 256 512 = 2 from rfl, tileIndex_closed 2 _ _ (by decide)]
    simp
    split <;> omega
  · rw [show screenSizeClass 512 256 = 1 from rfl, tileIndex_closed 1 _ _ (by decide)]
    simp
    split <;> omega
  · rw [show screenSizeClass 512 512 = 3 from rfl, tileIndex_closed 3 _ _ (by decide)]
    simp
    split <;> split <;> omega

/-- C33: for a plane in GBA-compatible addressing, with one screen block being 1024
sixteen-bit entries (`GBA_BG_SCREEN_SIZE = 0x800` bytes), the map is 256 or 512 pixels
on each axis, `RenderBGScanline` reads the map entry at `bgMapIndex` entries from the
screen base of the plane, and that index equals `GetTileMapIndexFromCoords (xx / 8)
(yy / 8) s W H`, where `(xx, yy)` is the source pixel after the `0x1FF` masking, `s` the
screen-size class of the map and `W x H = (w / 8) x (h / 8)` its size in tiles. -/
theorem RenderBGScanline_map_layout (K : Consts) (gpu : Gpu) (bgNum hoffs voffs : Nat)
    (lineNum lineStart : Int) (x : Nat) (hg : (gpu.bg bgNum).gbaMode = true)
    (hK : K.GBA_BG_SCREEN_SIZE = 0x800) :
    ((bgMapGeometry (gpu.bg bgNum)).1 = 256 ∨ (bgMapGeometry (gpu.bg bgNum)).1 = 512)
      ∧ ((bgMapGeometry (gpu.bg bgNum)).2.1 = 256 ∨ (bgMapGeometry (gpu.bg bgNum)).2.1 = 512)
      ∧ mapSizeInTiles (screenSizeClass (bgMapGeometry (gpu.bg bgNum)).1
            (bgMapGeometry (gpu.bg bgNum)).2.1)
          = ((bgMapGeometry (gpu.bg bgNum)).1 / 8, (bgMapGeometry (gpu.bg bgNum)).2.1 / 8)
      ∧ bgFetchPixel K gpu bgNum hoffs voffs lineNum lineStart x
          = (bgTexel gpu (gpu.bg bgNum)
              (bgEntryTile K (gpu.bg bgNum)
                (read16 (gpu.screenMem (gpu.bg bgNum).screenBaseBlock)
                  (bgMapIndex K gpu bgNum hoffs voffs lineNum lineStart x)))
              (if bgEntryFlipX (gpu.bg bgNum)
                  (read16 (gpu.screenMem (gpu.bg bgNum).screenBaseBlock)
                    (bgMapIndex K gpu bgNum hoffs voffs lineNum lineStart x))
               then 7 - (bgSourcePixel K gpu bgNum hoffs voffs lineNum lineStart x).1 % 8
               else (bgSourcePixel K gpu bgNum hoffs voffs lineNum lineStart x).1 % 8)
              (if bgEntryFlipY (gpu.bg bgNum)
                  (read16 (gpu.screenMem (gpu.bg bgNum).screenBaseBlock)
                    (bgMapIndex K gpu bgNum hoffs voffs lineNum lineStart x))
               then 7 - (bgSourcePixel K gpu bgNum hoffs voffs lineNum lineStart x).2.1 % 8
               else (bgSourcePixel K gpu bgNum hoffs voffs lineNum lineStart x).2.1 % 8),
             bgEntryPalette K (gpu.bg bgNum)
              (read16 (gpu.screenMem (gpu.bg bgNum).screenBaseBlock)
                (bgMapIndex K gpu bgNum hoffs voffs lineNum lineStart x)))
      ∧ bgMapIndex K gpu bgNum hoffs voffs lineNum lineStart x
          = GetTileMapIndexFromCoords
              (((bgGbaSourcePixel gpu bgNum hoffs voffs lineNum lineStart x).1 / 8 : Nat) : Int)
              (((bgGbaSourcePixel gpu bgNum hoffs voffs lineNum lineStart x).2 / 8 : Nat) : Int)
              ((screenSizeClass (bgMapGeometry (gpu.bg bgNum)).1
                  (bgMapGeometry (gpu.bg bgNum)).2.1 : Nat) : Int)
              (mapSizeInTiles (screenSizeClass (bgMapGeometry (gpu.bg bgNum)).1
                  (bgMapGeometry (gpu.bg bgNum)).2.1)).1
              (mapSizeInTiles (screenSizeClass (bgMapGeometry (gpu.bg bgNum)).1
                  (bgMapGeometry (gpu.bg bgNum)).2.1)).2 := by
  obtain ⟨hw, hh, hmw⟩ := bgMapGeometry_gba (gpu.bg bgNum) hg
  obtain ⟨hX, hY⟩ := bgGbaSourcePixel_lt gpu bgNum hoffs voffs lineNum lineStart x
  refine ⟨hw, hh, ?_, ?_, ?_⟩
  · rcases hw with e | e <;> rcases hh with e2 | e2 <;> rw [e, e2] <;> rfl
  · unfold bgFetchPixel bgMapIndex bgMapEntry
    simp only [hg, if_true]
  · unfold bgMapIndex
    rw [bgSourcePixel_gba K gpu bgNum hoffs voffs lineNum lineStart x hg, hmw]
    exact gba_map_index _ _ _ _ _ hX hY hw hh hK

theorem RenderBGScanline_map_layout_witness :
    (gbaMapGpu.bg 1).gbaMode = true
      ∧ bgGbaSourcePixel gbaMapGpu 1 300 260 10 0 20 = (320, 270)
      ∧ bgMapIndex gbaConsts gbaMapGpu 1 300 260 10 0 20
          = GetTileMapIndexFromCoords 40 33 3 64 64 :=
  ⟨rfl, by decide,
    (RenderBGScanline_map_layout gbaConsts gbaMapGpu 1 300 260 10 0 20 rfl rfl).2.2.2.2⟩

/-! ## Copying a rectangle with a changed palette -/

theorem bufStoreHalf_same (b : Nat → Nat) (q v : Nat) (hv : v < 65536) :
    bufHalf (bufStoreHalf b q v) q = v := by
  unfold bufHalf bufStoreHalf
  rw [Function.update_same, Function.update_noteq (by omega), Function.update_same]
  omega

theorem bufStoreHalf_other (b : Nat → Nat) (q v a : Nat) (h1 : a ≠ q) (h2 : a ≠ q + 1) :
    bufStoreHalf b q v a = b a := by
  unfold bufStoreHalf
  rw [Function.update_noteq h2, Function.update_noteq h1]

theorem bufHalf_congr (b c : Nat → Nat) (q : Nat) (h0 : c q = b q) (h1 : c (q + 1) = b (q + 1)) :
    bufHalf c q = bufHalf b q := by
  unfold bufHalf
  rw [h0, h1]

theorem paletteEntry_eq (a p : Nat) (hp : p ≤ 15) :
    (a &&& 0xFFF) + p * 4096 = (a &&& 0xFFF) ||| (p <<< 12)
      ∧ (a &&& 0xFFF) ||| (p <<< 12) < 65536 := by
  have ha : a &&& 0xFFF < 2 ^ 12 := by
    rw [show (0xFFF : Nat) = 2 ^ 12 - 1 from rfl, Nat.and_pow_two_sub_one_eq_mod]
    exact Nat.mod_lt _ (by decide)
  have h := Nat.mul_add_lt_is_or ha p
  rw [Nat.or_comm, Nat.shiftLeft_eq, Nat.mul_comm p, ← h]
  constructor <;> omega

theorem CopyTileMapEntry_palette (src : Int → Nat) (sp : Int) (buf : Nat → Nat) (d p : Nat)
    (hp : p ≤ 15) :
    CopyTileMapEntry src sp buf d (p : Int) 0 0
      = bufStoreHalf buf d ((srcHalf src sp &&& 0xFFF) ||| (p <<< 12)) := by
  have h1 : toS32 (p : Int) = p := toS32_small _ (by omega)
  have h0 : toS32 (0 : Int) = 0 := by decide
  have hsrc : srcHalf src sp < 65536 := by unfold srcHalf; omega
  have hpe := paletteEntry_eq (srcHalf src sp) p hp
  have hand : srcHalf src sp &&& 0xFFF < 4096 := by
    rw [show (0xFFF : Nat) = 2 ^ 12 - 1 from rfl, Nat.and_pow_two_sub_one_eq_mod]
    exact Nat.mod_lt _ (by decide)
  unfold CopyTileMapEntry
  simp only [h1, h0]
  rw [if_pos (by omega), if_pos (by omega)]
  rw [Int.add_zero, Int.add_zero, toU32_natCast _ (by omega), h1,
    toS32_of_range ((p : Int) * 4096) (by omega)]
  have e : ((srcHalf src sp &&& 0xFFF : Nat) : Int) + (p : Int) * 4096
      = (((srcHalf src sp &&& 0xFFF) + p * 4096 : Nat) : Int) := by push_cast; rfl
  rw [e, toU32_natCast _ (by omega), hpe.1]
  unfold toU16
  rw [Nat.mod_eq_of_lt hpe.2]

theorem tileIndex_lt_4096 (s x y : Nat) (hs : s < 4) :
    GetTileMapIndexFromCoords (x : Int) (y : Int) (s : Int) (mapSizeInTiles s).1
        (mapSizeInTiles s).2 < 4096 := by
  rw [tileIndex_closed s x y hs]
  have hcases : s = 0 ∨ s = 1 ∨ s = 2 ∨ s = 3 := by omega
  rcases hcases with e | e | e | e <;> subst e <;> simp <;> omega

theorem rectIndex_injective (s destX destY rw rh dx dy dx2 dy2 : Nat) (hs : s < 4)
    (hW : rw ≤ (mapSizeInTiles s).1) (hH : rh ≤ (mapSizeInTiles s).2)
    (hdx : dx < rw) (hdy : dy < rh) (hdx2 : dx2 < rw) (hdy2 : dy2 < rh)
    (h : GetTileMapIndexFromCoords ((destX + dx : Nat) : Int) ((destY + dy : Nat) : Int) (s : Int)
          (mapSizeInTiles s).1 (mapSizeInTiles s).2
      = GetTileMapIndexFromCoords ((destX + dx2 : Nat) : Int) ((destY + dy2 : Nat) : Int) (s : Int)
          (mapSizeInTiles s).1 (mapSizeInTiles s).2) :
    dx = dx2 ∧ dy = dy2 := by
  rw [tileIndex_closed s _ _ hs, tileIndex_closed s _ _ hs] at h
  rw [(mapSizeInTiles_closed s hs).1] at hW
  rw [(mapSizeInTiles_closed s hs).2] at hH
  have hcases : s = 0 ∨ s = 1 ∨ s = 2 ∨ s = 3 := by omega
  rcases hcases with e | e | e | e <;> subst e <;> simp at hW hH h <;> omega

theorem copyRectEntry_palette (src : Int → Nat) (s p : Nat) (hs : s < 4) (hp : p ≤ 15)
    (i j : Nat) (st : (Nat → Nat) × Int) :
    copyRectEntry src s (mapSizeInTiles s).1 (mapSizeInTiles s).2 p 0 0 i st j
      = (bufStoreHalf st.1
          (GetTileMapIndexFromCoords (j : Int) (i : Int) (s : Int) (mapSizeInTiles s).1
            (mapSizeInTiles s).2 * 2)
          ((srcHalf src st.2 &&& 0xFFF) ||| (p <<< 12)),
         st.2 + 2) := by
  have hlt := tileIndex_lt_4096 s j i hs
  unfold copyRectEntry
  rw [CopyTileMapEntry_palette src st.2 st.1 _ p hp]
  unfold toU16
  rw [Nat.mod_eq_of_lt (by omega)]

theorem copyRectEntries_spec (src : Int → Nat) (s p : Nat) (hs : s < 4) (hp : p ≤ 15)
    (destX destY rw rh dy : Nat) (hW : rw ≤ (mapSizeInTiles s).1)
    (hH : rh ≤ (mapSizeInTiles s).2) (hdy : dy < rh) (b0 : Nat → Nat) (sp0 : Int) (n : Nat)
    (hn : n ≤ rw) :
    ((List.range' destX n).foldl
        (copyRectEntry src s (mapSizeInTiles s).1 (mapSizeInTiles s).2 p 0 0 (destY + dy))
        (b0, sp0)).2 = sp0 + 2 * (n : Int)
      ∧ (∀ dx, dx < n →
          bufHalf ((List.range' destX n).foldl
              (copyRectEntry src s (mapSizeInTiles s).1 (mapSizeInTiles s).2 p 0 0 (destY + dy))
              (b0, sp0)).1
            (GetTileMapIndexFromCoords ((destX + dx : Nat) : Int) ((destY + dy : Nat) : Int)
              (s : Int) (mapSizeInTiles s).1 (mapSizeInTiles s).2 * 2)
            = (srcHalf src (sp0 + 2 * (dx : Int)) &&& 0xFFF) ||| (p <<< 12))
      ∧ (∀ a, (∀ dx, dx < n →
            a ≠ GetTileMapIndexFromCoords ((destX + dx : Nat) : Int) ((destY + dy : Nat) : Int)
                  (s : Int) (mapSizeInTiles s).1 (mapSizeInTiles s).2 * 2
              ∧ a ≠ GetTileMapIndexFromCoords ((destX + dx : Nat) : Int)
                  ((destY + dy : Nat) : Int) (s : Int) (mapSizeInTiles s).1
                  (mapSizeInTiles s).2 * 2 + 1) →
          ((List.range' destX n).foldl
              (copyRectEntry src s (mapSizeInTiles s).1 (mapSizeInTiles s).2 p 0 0 (destY + dy))
              (b0, sp0)).1 a = b0 a) := by
  induction n with
  | zero =>
    refine ⟨by simp, ?_, ?_⟩
    · intro dx hdx; omega
    · intro a _; rfl
  | succ n ih =>
    obtain ⟨ih1, ih2, ih3⟩ := ih (by omega)
    rw [List.range'_concat, List.foldl_append, Nat.one_mul]
    simp only [List.foldl_cons, List.foldl_nil]
    rw [copyRectEntry_palette src s p hs hp]
    refine ⟨?_, ?_, ?_⟩
    · show _ + 2 = _
      rw [ih1]; push_cast; ring
    · intro dx hdx
      show bufHalf (bufStoreHalf _ _ _) _ = _
      by_cases hdn : dx = n
      · subst hdn
        rw [bufStoreHalf_same _ _ _ (paletteEntry_eq _ p hp).2, ih1]
      · have hne : GetTileMapIndexFromCoords ((destX + dx : Nat) : Int)
              ((destY + dy : Nat) : Int) (s : Int) (mapSizeInTiles s).1 (mapSizeInTiles s).2
            ≠ GetTileMapIndexFromCoords ((destX + n : Nat) : Int)
              ((destY + dy : Nat) : Int) (s : Int) (mapSizeInTiles s).1 (mapSizeInTiles s).2 := by
          intro h
          have := rectIndex_injective s destX destY rw rh dx dy n dy hs hW hH (by omega) hdy
            (by omega) hdy h
          omega
        rw [bufHalf_congr _ _ _ (bufStoreHalf_other _ _ _ _ (by omega) (by omega))
          (bufStoreHalf_other _ _ _ _ (by omega) (by omega))]
        exact ih2 dx (by omega)
    · intro a ha
      show bufStoreHalf _ _ _ a = _
      have hn2 := ha n (by omega)
      rw [bufStoreHalf_other _ _ _ _ hn2.1 hn2.2]
      exact ih3 a (fun dx hdx => ha dx (by omega))

theorem copyRectRows_spec (src : Int → Nat) (s p : Nat) (hs : s < 4) (hp : p ≤ 15)
    (destX destY rw rh : Nat) (hW : rw ≤ (mapSizeInTiles s).1)
    (hH : rh ≤ (mapSizeInTiles s).2) (b0 : Nat → Nat) (m : Nat) (hm : m ≤ rh) :
    ((List.range' destY m).foldl
        (copyRectRow src s (mapSizeInTiles s).1 (mapSizeInTiles s).2 rw destX rw p 0 0)
        (b0, 0)).2 = 2 * ((m * rw : Nat) : Int)
      ∧ (∀ dy dx, dy < m → dx < rw →
          bufHalf ((List.range' destY m).foldl
              (copyRectRow src s (mapSizeInTiles s).1 (mapSizeInTiles s).2 rw destX rw p 0 0)
              (b0, 0)).1
            (GetTileMapIndexFromCoords ((destX + dx : Nat) : Int) ((destY + dy : Nat) : Int)
              (s : Int) (mapSizeInTiles s).1 (mapSizeInTiles s).2 * 2)
            = (srcHalf src (2 * ((dy * rw + dx : Nat) : Int)) &&& 0xFFF) ||| (p <<< 12))
      ∧ (∀ a, (∀ dy dx, dy < m → dx < rw →
            a ≠ GetTileMapIndexFromCoords ((destX + dx : Nat) : Int) ((destY + dy : Nat) : Int)
                  (s : Int) (mapSizeInTiles s).1 (mapSizeInTiles s).2 * 2
              ∧ a ≠ GetTileMapIndexFromCoords ((destX + dx : Nat) : Int)
                  ((destY + dy : Nat) : Int) (s : Int) (mapSizeInTiles s).1
                  (mapSizeInTiles s).2 * 2 + 1) →
          ((List.range' destY m).foldl
              (copyRectRow src s (mapSizeInTiles s).1 (mapSizeInTiles s).2 rw destX rw p 0 0)
              (b0, 0)).1 a = b0 a) := by
  induction m with
  | zero =>
    refine ⟨by simp, ?_, ?_⟩
    · intro dy dx hdy; omega
    · intro a _; rfl
  | succ m ih =>
    obtain ⟨ih1, ih2, ih3⟩ := ih (by omega)
    rw [List.range'_concat, List.foldl_append, Nat.one_mul]
    simp only [List.foldl_cons, List.foldl_nil]
    generalize (List.range' destY m).foldl
        (copyRectRow src s (mapSizeInTiles s).1 (mapSizeInTiles s).2 rw destX rw p 0 0)
        (b0, 0) = r at ih1 ih2 ih3 ⊢
    obtain ⟨b, sp⟩ := r
    simp only at ih1 ih2 ih3
    subst ih1
    obtain ⟨e1, e2, e3⟩ := copyRectEntries_spec src s p hs hp destX destY rw rh m hW hH
      (by omega) b (2 * ((m * rw : Nat) : Int)) rw (le_refl _)
    unfold copyRectRow
    refine ⟨?_, ?_, ?_⟩
    · show _ + _ = _
      rw [e1]; push_cast; ring
    · intro dy dx hdy hdx
      show bufHalf (_) _ = _
      by_cases hdm : dy = m
      · subst hdm
        rw [e2 dx hdx]
        have e : (2 * ((dy * rw : Nat) : Int) + 2 * (dx : Int))
            = 2 * ((dy * rw + dx : Nat) : Int) := by push_cast; ring
        rw [e]
      · have hne : ∀ dx2, dx2 < rw →
            GetTileMapIndexFromCoords ((destX + dx : Nat) : Int)
              ((destY + dy : Nat) : Int) (s : Int) (mapSizeInTiles s).1 (mapSizeInTiles s).2
            ≠ GetTileMapIndexFromCoords ((destX + dx2 : Nat) : Int)
              ((destY + m : Nat) : Int) (s : Int) (mapSizeInTiles s).1 (mapSizeInTiles s).2 := by
          intro dx2 hdx2 h
          have := rectIndex_injective s destX destY rw rh dx dy dx2 m hs hW hH hdx (by omega)
            hdx2 (by omega) h
          omega
        rw [bufHalf_congr _ _ _
          (e3 _ (fun dx2 hdx2 => ⟨by have := hne dx2 hdx2; omega, by omega⟩))
          (e3 _ (fun dx2 hdx2 => ⟨by omega, by have := hne dx2 hdx2; omega⟩))]
        exact ih2 dy dx (by omega) hdx
    · intro a ha
      show (_ : Nat → Nat) a = _
      rw [e3 a (fun dx hdx => ha m dx (by omega) hdx)]
      exact ih3 a (fun dy dx hdy hdx => ha dy dx (by omega) hdx)

theorem CopyRectToBgTilemapBufferRect_shifted (IWRAM_END : Nat) (st : BgState) (src : Int → Nat)
    (buf : Nat → Nat) (bg s destX destY rw rh p : Nat) (hs : s < 4)
    (hattr : GetBgControlAttribute st bg 4 = s) (htype : GetBgType st bg = 0)
    (hin : IsTileMapOutsideWram IWRAM_END st bg = false) (hp : p ≤ 15)
    (hdx : destX < 256) (hdy : destY < 256) (hrw : rw < 256) (hrh : rh < 256) :
    CopyToBgTilemapBufferRect_ChangePalette IWRAM_END st src buf bg destX destY rw rh p
      = ((List.range' destY rh).foldl
          (copyRectRow src s (mapSizeInTiles s).1 (mapSizeInTiles s).2 rw destX rw p 0 0)
          (buf, 0)).1 := by
  have hv := screenSize_attr_shown st bg s hs hattr
  have hm := (GetBgMetricTextMode_class st bg s hs hattr).2
  have h32 : IsInvalidBg32 bg = false := by
    have h := hv.1
    unfold IsInvalidBg at h
    unfold IsInvalidBg32
    simpa using h
  have hsz := mapSizeInTiles_closed s hs
  have hw1 : toU16 (GetBgMetricTextMode st bg 1 * 0x20) = (mapSizeInTiles s).1 := by
    have e : 32 * GetBgMetricTextMode st bg 1 = (mapSizeInTiles s).1 := congrArg Prod.fst hm
    have hle : (mapSizeInTiles s).1 ≤ 64 := by rw [hsz.1]; split <;> omega
    unfold toU16
    omega
  have hw2 : toU16 (GetBgMetricTextMode st bg 2 * 0x20) = (mapSizeInTiles s).2 := by
    have e : 32 * GetBgMetricTextMode st bg 2 = (mapSizeInTiles s).2 := congrArg Prod.snd hm
    have hle : (mapSizeInTiles s).2 ≤ 64 := by rw [hsz.2]; split <;> omega
    unfold toU16
    omega
  have e1 : toU8 destX = destX := by unfold toU8; omega
  have e2 : toU8 destY = destY := by unfold toU8; omega
  have e3 : toU8 rw = rw := by unfold toU8; omega
  have e4 : toU8 rh = rh := by unfold toU8; omega
  have e5 : toU8 p = p := by unfold toU8; omega
  have e6 : toU16 s = s := by unfold toU16; omega
  have e7 : toS16 0 = 0 := by decide
  have e8 : (((toU8 0 * rw + toU8 0) * 2 : Nat) : Int) = 0 := by
    have : toU8 0 = 0 := rfl
    rw [this]
    simp
  unfold CopyToBgTilemapBufferRect_ChangePalette CopyRectToBgTilemapBufferRect
  rw [h32, hin, htype, hattr, hw1, hw2, e1, e2, e3, e4, e5, e6, e7, e8]
  simp

/-- C36: for a shown text-mode plane of screen-size class `s` (map of `W x H` tiles) with a
tilemap buffer in work RAM, a palette number `p <= 15` and a rectangle no wider than `W`
and no taller than `H`, `CopyToBgTilemapBufferRect_ChangePalette` leaves in tilemap entry
`GetTileMapIndexFromCoords (destX + dx) (destY + dy) s W H` the value
`(src[dy * rectWidth + dx] & 0xFFF) | (p << 12)` for every `dx < rectWidth`,
`dy < rectHeight`, and leaves every other tilemap entry, and every byte outside those
entries, as it was. -/
theorem CopyToBgTilemapBufferRect_ChangePalette_stores (IWRAM_END : Nat) (st : BgState)
    (src : Int → Nat) (buf : Nat → Nat) (bg s destX destY rectWidth rectHeight p : Nat)
    (hs : s < 4) (hattr : GetBgControlAttribute st bg 4 = s) (htype : GetBgType st bg = 0)
    (hin : IsTileMapOutsideWram IWRAM_END st bg = false) (hp : p ≤ 15)
    (hdx : destX < 256) (hdy : destY < 256) (hrw : rectWidth < 256) (hrh : rectHeight < 256)
    (hW : rectWidth ≤ (mapSizeInTiles s).1) (hH : rectHeight ≤ (mapSizeInTiles s).2) :
    (∀ dx dy, dx < rectWidth → dy < rectHeight →
        tilemapEntry
            (CopyToBgTilemapBufferRect_ChangePalette IWRAM_END st src buf bg destX destY
              rectWidth rectHeight p)
            (GetTileMapIndexFromCoords ((destX + dx : Nat) : Int) ((destY + dy : Nat) : Int)
              (s : Int) (mapSizeInTiles s).1 (mapSizeInTiles s).2)
          = (srcEntry src (dy * rectWidth + dx) &&& 0xFFF) ||| (p <<< 12))
      ∧ (∀ k, (∀ dx dy, dx < rectWidth → dy < rectHeight →
            k ≠ GetTileMapIndexFromCoords ((destX + dx : Nat) : Int) ((destY + dy : Nat) : Int)
              (s : Int) (mapSizeInTiles s).1 (mapSizeInTiles s).2) →
          tilemapEntry
              (CopyToBgTilemapBufferRect_ChangePalette IWRAM_END st src buf bg destX destY
                rectWidth rectHeight p) k
            = tilemapEntry buf k)
      ∧ (∀ a, (∀ dx dy, dx < rectWidth → dy < rectHeight →
            a / 2 ≠ GetTileMapIndexFromCoords ((destX + dx : Nat) : Int)
              ((destY + dy : Nat) : Int) (s : Int) (mapSizeInTiles s).1 (mapSizeInTiles s).2) →
          CopyToBgTilemapBufferRect_ChangePalette IWRAM_END st src buf bg destX destY
              rectWidth rectHeight p a
            = buf a) := by
  rw [CopyRectToBgTilemapBufferRect_shifted IWRAM_END st src buf bg s destX destY rectWidth
    rectHeight p hs hattr htype hin hp hdx hdy hrw hrh]
  obtain ⟨_, h2, h3⟩ := copyRectRows_spec src s p hs hp destX destY rectWidth rectHeight hW hH
    buf rectHeight (le_refl _)
  refine ⟨?_, ?_, ?_⟩
  · intro dx dy hx hy
    unfold tilemapEntry srcEntry
    rw [Nat.mul_comm 2]
    exact h2 dy dx hy hx
  · intro k hk
    unfold tilemapEntry
    exact bufHalf_congr _ _ _
      (h3 _ (fun dy dx hy hx => by have := hk dx dy hx hy; omega))
      (h3 _ (fun dy dx hy hx => by have := hk dx dy hx hy; omega))
  · intro a ha
    exact h3 a (fun dy dx hy hx => by have := ha dx dy hx hy; omega)

theorem CopyToBgTilemapBufferRect_ChangePalette_stores_witness :
    tilemapEntry
        (CopyToBgTilemapBufferRect_ChangePalette 0x3007FFF mapBgState countingSource
          (fun _ => 0) 1 62 1 4 2 5)
        (GetTileMapIndexFromCoords ((62 + 3 : Nat) : Int) ((1 + 1 : Nat) : Int) ((3 : Nat) : Int)
          (mapSizeInTiles 3).1 (mapSizeInTiles 3).2)
      = (srcEntry countingSource (1 * 4 + 3) &&& 0xFFF) ||| (5 <<< 12) :=
  (CopyToBgTilemapBufferRect_ChangePalette_stores 0x3007FFF mapBgState countingSource
    (fun _ => 0) 1 3 62 1 4 2 5 (by decide) (by decide) (by decide) (by decide) (by decide)
    (by decide) (by decide) (by decide) (by decide) (by decide) (by decide)).1 3 1
    (by decide) (by decide)


/-! ## The integer square root -/

theorem sqrtScale_spec (n : Nat) (hn : n < 4294967296) (f : Nat) :
    ∀ k, k ≤ 16 → 17 ≤ f + k →
      ∃ j, j ≤ 16 ∧ sqrtScale f (n / 2 ^ k) (2 ^ k) = some (2 ^ j) ∧ n / 2 ^ j ≤ 2 ^ j := by
  induction f with
  | zero => intro k hk hf; omega
  | succ f ih =>
    intro k hk hf
    have hp : 2 ^ k ≤ 2 ^ 16 := Nat.pow_le_pow_right (by decide) hk
    unfold sqrtScale
    by_cases hlt : 2 ^ k < n / 2 ^ k
    · rw [if_pos hlt]
      have hk16 : k ≠ 16 := by
        intro e
        subst e
        omega
      have e1 : (n / 2 ^ k) >>> 1 = n / 2 ^ (k + 1) := by
        rw [Nat.shiftRight_eq_div_pow, pow_one, Nat.div_div_eq_div_mul, pow_succ]
      have e2 : ((2 ^ k) <<< 1) % 4294967296 = 2 ^ (k + 1) := by
        rw [Nat.shiftLeft_eq, pow_succ]
        omega
      rw [e1, e2]
      exact ih (k + 1) (by omega) (by omega)
    · rw [if_neg hlt]
      exact ⟨k, hk, rfl, by omega⟩

theorem sqrtRaise_spec (n bound : Nat) (hn : n < 4294967296) (hb : 1 ≤ bound) (f : Nat) :
    ∀ i, bound * 2 ^ i < 4294967296 → n / 2 ≤ bound * 2 ^ i * 2 ^ f →
      ∃ j, sqrtRaise (f + 1) n (bound * 2 ^ i) = some (bound * 2 ^ j)
        ∧ n / 2 < bound * 2 ^ j ∧ bound * 2 ^ j < 4294967296 := by
  induction f with
  | zero =>
    intro i hi hf
    have hpos : 1 ≤ bound * 2 ^ i := Nat.mul_pos hb (Nat.two_pow_pos i)
    unfold sqrtRaise
    rw [Nat.shiftRight_eq_div_pow, pow_one, if_pos (by omega)]
    by_cases he : bound * 2 ^ i ≤ n / 2
    · rw [if_pos he]
      refine ⟨i + 1, ?_, ?_, ?_⟩
      · rw [Nat.shiftLeft_eq, pow_one, pow_succ, ← Nat.mul_assoc]
        rw [Nat.mod_eq_of_lt (by omega)]
      · rw [pow_succ, ← Nat.mul_assoc]; omega
      · rw [pow_succ, ← Nat.mul_assoc]; omega
    · rw [if_neg he]
      exact ⟨i, rfl, by omega, hi⟩
  | succ f ih =>
    intro i hi hf
    have hpos : 1 ≤ bound * 2 ^ i := Nat.mul_pos hb (Nat.two_pow_pos i)
    unfold sqrtRaise
    rw [Nat.shiftRight_eq_div_pow, pow_one]
    by_cases hge : bound * 2 ^ i ≥ n / 2
    · rw [if_pos hge]
      by_cases he : bound * 2 ^ i ≤ n / 2
      · rw [if_pos he]
        refine ⟨i + 1, ?_, ?_, ?_⟩
        · rw [Nat.shiftLeft_eq, pow_one, pow_succ, ← Nat.mul_assoc]
          rw [Nat.mod_eq_of_lt (by omega)]
        · rw [pow_succ, ← Nat.mul_assoc]; omega
        · rw [pow_succ, ← Nat.mul_assoc]; omega
      · rw [if_neg he]
        exact ⟨i, rfl, by omega, hi⟩
    · rw [if_neg hge, if_pos (by omega)]
      have e : ((bound * 2 ^ i) <<< 1) % 4294967296 = bound * 2 ^ (i + 1) := by
        rw [Nat.shiftLeft_eq, pow_one, pow_succ, ← Nat.mul_assoc]
        rw [Nat.mod_eq_of_lt (by omega)]
      rw [e]
      refine ih (i + 1) ?_ ?_
      · rw [pow_succ, ← Nat.mul_assoc]; omega
      · have e3 : bound * 2 ^ (i + 1) * 2 ^ f = bound * 2 ^ i * 2 ^ (f + 1) := by
          rw [pow_succ, pow_succ]; ring
        rw [e3]; exact hf

theorem div_halving (n L : Nat) (hL : 1 ≤ L) :
    (L ≤ n % (2 * L) → n / L = 2 * (n / (2 * L)) + 1 ∧ n % L = n % (2 * L) - L)
      ∧ (n % (2 * L) < L → n / L = 2 * (n / (2 * L)) ∧ n % L = n % (2 * L)) := by
  have h := Nat.div_add_mod n (2 * L)
  have hlt : n % (2 * L) < 2 * L := Nat.mod_lt _ (by omega)
  have e1 : 2 * L * (n / (2 * L)) = 2 * (L * (n / (2 * L))) := by ring
  rw [e1] at h
  constructor
  · intro hge
    refine (Nat.div_mod_unique (by omega)).2 ⟨?_, by omega⟩
    have e2 : L * (2 * (n / (2 * L)) + 1) = 2 * (L * (n / (2 * L))) + L := by ring
    rw [e2]
    omega
  · intro hl
    refine (Nat.div_mod_unique (by omega)).2 ⟨?_, hl⟩
    have e2 : L * (2 * (n / (2 * L))) = 2 * (L * (n / (2 * L))) := by ring
    rw [e2]
    omega

theorem sqrtDivide_spec (n bound : Nat) (hn : n < 4294967296) (hb : 1 ≤ bound) (i : Nat) :
    ∀ f, i + 1 ≤ f →
      sqrtDivide f bound (n % (2 * (bound * 2 ^ i))) (bound * 2 ^ i) (n / (2 * (bound * 2 ^ i)))
        = some (n / bound) := by
  induction i with
  | zero =>
    intro f hf
    obtain ⟨g, rfl⟩ : ∃ g, f = g + 1 := ⟨f - 1, by omega⟩
    have hd := div_halving n bound hb
    have hle : n / (2 * bound) ≤ n := Nat.div_le_self _ _
    have hdb : n / bound ≤ n := Nat.div_le_self _ _
    rw [pow_zero, Nat.mul_one]
    unfold sqrtDivide
    rw [Nat.shiftLeft_eq, pow_one]
    by_cases hge : n % (2 * bound) ≥ bound
    · rw [if_pos hge, if_pos rfl, (hd.1 hge).1]
      have := (hd.1 hge).1
      congr 1
      omega
    · rw [if_neg hge, if_pos rfl, (hd.2 (by omega)).1]
      have := (hd.2 (by omega)).1
      congr 1
      omega
  | succ i ih =>
    intro f hf
    obtain ⟨g, rfl⟩ : ∃ g, f = g + 1 := ⟨f - 1, by omega⟩
    have hpos : 1 ≤ bound * 2 ^ i := Nat.mul_pos hb (Nat.two_pow_pos i)
    have hge1 : bound ≤ bound * 2 ^ i := Nat.le_mul_of_pos_right _ (Nat.two_pow_pos i)
    have eL : bound * 2 ^ (i + 1) = 2 * (bound * 2 ^ i) := by rw [pow_succ]; ring
    have hd := div_halving n (2 * (bound * 2 ^ i)) (by omega)
    have hle : n / (2 * (2 * (bound * 2 ^ i))) ≤ n := Nat.div_le_self _ _
    have hdb : n / (2 * (bound * 2 ^ i)) ≤ n := Nat.div_le_self _ _
    rw [eL]
    unfold sqrtDivide
    rw [Nat.shiftLeft_eq, pow_one, Nat.shiftRight_eq_div_pow, pow_one]
    have eh : 2 * (bound * 2 ^ i) / 2 = bound * 2 ^ i := by omega
    rw [eh]
    by_cases hge : n % (2 * (2 * (bound * 2 ^ i))) ≥ 2 * (bound * 2 ^ i)
    · rw [if_pos hge, if_neg (by omega)]
      have h1 := (hd.1 hge).1
      have h2 := (hd.1 hge).2
      rw [← h2]
      have e : (n / (2 * (2 * (bound * 2 ^ i))) * 2 % 4294967296 + 1) % 4294967296
          = n / (2 * (bound * 2 ^ i)) := by omega
      rw [e]
      exact ih g (by omega)
    · rw [if_neg hge, if_neg (by omega)]
      have h1 := (hd.2 (by omega)).1
      have h2 := (hd.2 (by omega)).2
      rw [← h2]
      have e : n / (2 * (2 * (bound * 2 ^ i))) * 2 % 4294967296
          = n / (2 * (bound * 2 ^ i)) := by omega
      rw [e]
      exact ih g (by omega)

theorem newton_step_bound (n b : Nat) (hb : 1 ≤ b) :
    n < ((b + n / b) / 2 + 1) * ((b + n / b) / 2 + 1) := by
  have h1 : n < b * (n / b + 1) := Nat.lt_mul_div_succ n hb
  generalize n / b = q at h1
  have h2 : b + q + 1 ≤ 2 * ((b + q) / 2 + 1) := by omega
  generalize (b + q) / 2 = m at h2 ⊢
  have h3 : 4 * (b * (q + 1)) ≤ (b + q + 1) * (b + q + 1) := by
    zify
    nlinarith [sq_nonneg ((b : Int) - ((q : Int) + 1))]
  have h4 : (b + q + 1) * (b + q + 1) ≤ (2 * (m + 1)) * (2 * (m + 1)) :=
    Nat.mul_le_mul h2 h2
  have h5 : (2 * (m + 1)) * (2 * (m + 1)) = 4 * ((m + 1) * (m + 1)) := by ring
  omega

theorem newton_quotient_le (n b : Nat) (hb : 1 ≤ b) (h : n < (b + 1) * (b + 1)) :
    n / b ≤ b + 2 := by
  have h1 : n / b < b + 3 := by
    rw [Nat.div_lt_iff_lt_mul hb]
    have e1 : (b + 1) * (b + 1) = b * b + 2 * b + 1 := by ring
    have e2 : (b + 3) * b = b * b + 3 * b := by ring
    omega
  omega

theorem sqrtNewton_spec (n : Nat) (hn1 : 1 ≤ n) (hn : n < 4294967296) (f : Nat) :
    ∀ bound, 1 ≤ bound → bound ≤ 65536 → n < (bound + 1) * (bound + 1) → bound + 1 ≤ f →
      ∃ r, sqrtNewton f n bound = some r ∧ r * r ≤ n ∧ n < (r + 1) * (r + 1) := by
  induction f with
  | zero => intro bound _ _ _ hf; omega
  | succ f ih =>
    intro bound hb hb2 hsq hf
    obtain ⟨j, hr, hj1, hj2⟩ := sqrtRaise_spec n bound hn hb 32 0
      (by rw [pow_zero, Nat.mul_one]; omega) (by rw [pow_zero, Nat.mul_one]; omega)
    rw [pow_zero, Nat.mul_one] at hr
    have hj : j < 32 := by
      by_contra hc
      have h1 : 2 ^ 32 ≤ 2 ^ j := Nat.pow_le_pow_right (by decide) (by omega)
      have h2 : 2 ^ j ≤ bound * 2 ^ j := Nat.le_mul_of_pos_left _ hb
      omega
    have hd := sqrtDivide_spec n bound hn hb j 33 (by omega)
    rw [Nat.mod_eq_of_lt (by omega), Nat.div_eq_of_lt (by omega)] at hd
    have hq := newton_quotient_le n bound hb hsq
    unfold sqrtNewton
    simp only [hr, Option.some_bind, hd]
    rw [Nat.mod_eq_of_lt (by omega), Nat.shiftRight_eq_div_pow, pow_one]
    by_cases hge : (bound + n / bound) / 2 ≥ bound
    · rw [if_pos hge]
      refine ⟨bound, rfl, ?_, hsq⟩
      exact (Nat.le_div_iff_mul_le hb).1 (by omega)
    · rw [if_neg hge]
      have hn1 : 1 ≤ (bound + n / bound) / 2 := by
        by_cases hb1 : bound = 1
        · subst hb1
          rw [Nat.div_one] at hge ⊢
          omega
        · have hq0 : 0 ≤ n / bound := Nat.zero_le _
          omega
      exact ih _ hn1 (by omega) (newton_step_bound n bound hb) (by omega)

theorem Sqrt_spec (num : Nat) (h : num < 4294967296) :
    ∃ r, Sqrt num = some r ∧ r * r ≤ num ∧ num < (r + 1) * (r + 1) ∧ r < 65536 := by
  unfold Sqrt
  by_cases h0 : num = 0
  · subst h0
    exact ⟨0, rfl, by decide, by decide, by decide⟩
  · rw [if_neg h0]
    obtain ⟨j, hj, hs, hle⟩ := sqrtScale_spec num h 33 0 (by omega) (by omega)
    rw [pow_zero, Nat.div_one] at hs
    have hp : 2 ^ j ≤ 2 ^ 16 := Nat.pow_le_pow_right (by decide) hj
    have hpos : 1 ≤ 2 ^ j := Nat.two_pow_pos j
    have hsq : num < (2 ^ j + 1) * (2 ^ j + 1) := by
      have h1 : num < 2 ^ j * (num / 2 ^ j + 1) := Nat.lt_mul_div_succ num hpos
      have h2 : 2 ^ j * (num / 2 ^ j + 1) ≤ (2 ^ j + 1) * (2 ^ j + 1) :=
        Nat.mul_le_mul (by omega) (by omega)
      omega
    obtain ⟨r, hr, hr1, hr2⟩ := sqrtNewton_spec num (by omega) h (2 ^ j + 1) (2 ^ j) hpos (by omega) hsq
      (le_refl _)
    have hr3 : r < 65536 := by
      by_contra hc
      have : 65536 * 65536 ≤ r * r := Nat.mul_le_mul (by omega) (by omega)
      omega
    simp only [hs, Option.some_bind, hr, Option.map_some']
    exact ⟨r, by rw [Nat.mod_eq_of_lt hr3], hr1, hr2, hr3⟩

/-- C39: for every `num` below `2 ^ 32`, `Sqrt num` leaves all its loops and returns the
integer square root: the result `r` satisfies `r * r <= num < (r + 1) * (r + 1)`, equals
`Nat.sqrt num`, and is below `2 ^ 16`, so the conversion to the `u16` return type changes
nothing. -/
theorem Sqrt_integer_square_root (num : Nat) (h : num < 4294967296) :
    ∃ r, Sqrt num = some r ∧ r * r ≤ num ∧ num < (r + 1) * (r + 1) ∧ r < 65536
      ∧ r = Nat.sqrt num := by
  obtain ⟨r, h1, h2, h3, h4⟩ := Sqrt_spec num h
  exact ⟨r, h1, h2, h3, h4, Nat.eq_sqrt.2 ⟨h2, h3⟩⟩

theorem Sqrt_integer_square_root_witness :
    (4294967295 : Nat) < 4294967296
      ∧ ∃ r, Sqrt 4294967295 = some r ∧ r * r ≤ 4294967295
          ∧ 4294967295 < (r + 1) * (r + 1) ∧ r < 65536 ∧ r = Nat.sqrt 4294967295 :=
  ⟨by decide, Sqrt_integer_square_root 4294967295 (by decide)⟩


/-! ## The two LZ77 decoders write the same bytes -/

theorem vramCopy_zero (w : Int) (s : LzState) : vramCopy w 0 s = s := rfl

theorem vramCopy_cons (w : Int) (m : Nat) (s : LzState) :
    vramCopy w (m + 1) s = vramCopy (w + 1) m (lzCopyByte s w) := by
  induction m with
  | zero =>
    rw [vramCopy_succ, vramCopy_zero, vramCopy_zero]
    simp
  | succ m ih =>
    rw [vramCopy_succ, ih, vramCopy_succ]
    congr 1
    push_cast
    ring

theorem lzCopyByte_reads (s : LzState) (w : Int) :
    (lzCopyByte s w).reads = s.reads ++ [w] := rfl

theorem lzLiteral_reads (src : Nat → Nat) (s : LzState) : (lzLiteral src s).reads = s.reads := rfl

theorem vramCopy_reads_mono (m : Nat) :
    ∀ (w : Int) (s : LzState) (r : Int), r ∈ s.reads → r ∈ (vramCopy w m s).reads := by
  induction m with
  | zero => intro w s r h; exact h
  | succ m ih =>
    intro w s r h
    rw [vramCopy_cons]
    exact ih _ _ r (by rw [lzCopyByte_reads]; exact List.mem_append_left _ h)

theorem vramCopy_reads_first (m : Nat) (w : Int) (s : LzState) :
    w ∈ (vramCopy w (m + 1) s).reads := by
  rw [vramCopy_cons]
  exact vramCopy_reads_mono m _ _ w (by rw [lzCopyByte_reads]; simp)

theorem wramCopy_eq (k : Nat) :
    ∀ (w : Int) (L : Nat) (s : LzState), 0 < L →
      wramCopy k w (L : Int) s
        = (vramCopy w (min k L) s, ((L - min k L : Nat) : Int), decide (L ≤ k)) := by
  induction k with
  | zero =>
    intro w L s hL
    have e : decide (L ≤ 0) = false := by simp; omega
    simp only [wramCopy, Nat.zero_min, vramCopy_zero, Nat.sub_zero, e]
  | succ k ih =>
    intro w L s hL
    unfold wramCopy
    by_cases h1 : (L : Int) - 1 = 0
    · rw [if_pos h1]
      have hL1 : L = 1 := by omega
      subst hL1
      have e1 : min (k + 1) 1 = 1 := by omega
      have e2 : decide (1 ≤ k + 1) = true := by simp
      rw [e1, e2, vramCopy_cons, vramCopy_zero]
      rfl
    · rw [if_neg h1]
      have e0 : (L : Int) - 1 = ((L - 1 : Nat) : Int) := by omega
      rw [e0, ih (w + 1) (L - 1) (lzCopyByte s w) (by omega)]
      have e1 : min (k + 1) L = min k (L - 1) + 1 := by omega
      rw [e1, vramCopy_cons]
      have e2 : L - 1 - min k (L - 1) = L - (min k (L - 1) + 1) := by omega
      have e3 : decide (L - 1 ≤ k) = decide (L ≤ k + 1) := by
        apply decide_eq_decide.2
        omega
      rw [e2, e3]

theorem lzHeader_eq (b0 b1 : Nat) (h0 : b0 < 256) (h1 : b1 < 256) :
    (toU16 (b0 <<< 8) ||| b1) >>> 12 = b0 >>> 4
      ∧ (toU16 (b0 <<< 8) ||| b1) &&& 0x0FFF = ((b0 &&& 0xF) <<< 8) ||| b1 := by
  have e1 : toU16 (b0 <<< 8) = 2 ^ 8 * b0 := by
    unfold toU16
    rw [Nat.shiftLeft_eq]
    omega
  have e2 : (b0 &&& 0xF) <<< 8 = 2 ^ 8 * (b0 % 16) := by
    rw [show (0xF : Nat) = 2 ^ 4 - 1 from rfl, Nat.and_pow_two_sub_one_eq_mod, Nat.shiftLeft_eq]
    omega
  have h1p : b1 < 2 ^ 8 := h1
  rw [e1, e2, ← Nat.mul_add_lt_is_or h1p, ← Nat.mul_add_lt_is_or h1p,
    Nat.shiftRight_eq_div_pow, Nat.shiftRight_eq_div_pow,
    show (0x0FFF : Nat) = 2 ^ 12 - 1 from rfl, Nat.and_pow_two_sub_one_eq_mod]
  constructor <;> omega

theorem vramCopy_destPos (w : Int) (m : Nat) (s : LzState) :
    (vramCopy w m s).destPos = s.destPos + m := by
  induction m with
  | zero => rfl
  | succ m ih =>
    rw [vramCopy_succ]
    show (vramCopy w m s).destPos + 1 = _
    rw [ih]
    omega

theorem wramBlock_sim (src : Nat → Nat) (n d : Nat) (s : LzState) (hlt : s.destPos < n) :
    (∃ r ∈ (wramBlock src d ((n - s.destPos : Nat) : Int) s).1.reads, r < 0)
      ∨ (vramBlock src n d s
            = ((wramBlock src d ((n - s.destPos : Nat) : Int) s).1,
               if (wramBlock src d ((n - s.destPos : Nat) : Int) s).2.2 = true
               then some LzOutcome.returned else none)
          ∧ (wramBlock src d ((n - s.destPos : Nat) : Int) s).2.1
              = ((n - (wramBlock src d ((n - s.destPos : Nat) : Int) s).1.destPos : Nat) : Int)
          ∧ ((wramBlock src d ((n - s.destPos : Nat) : Int) s).2.2 = false →
              (wramBlock src d ((n - s.destPos : Nat) : Int) s).1.destPos < n)) := by
  obtain ⟨e1, e2⟩ := lzHeader_eq (byteRead src s.srcPos) (byteRead src (s.srcPos + 1))
    (byteRead_lt _ _) (byteRead_lt _ _)
  unfold wramBlock vramBlock
  by_cases hb : d &&& 0x80 ≠ 0
  · rw [if_pos hb, if_pos hb]
    simp only [e1, e2]
    rw [wramCopy_eq _ _ _ _ (by omega)]
    simp only []
    clear e1 e2
    generalize (byteRead src s.srcPos &&& 0xF) <<< 8 ||| byteRead src (s.srcPos + 1) = O
    generalize byteRead src s.srcPos >>> 4 = B
    have ew : (s.destPos : Int) - ((O : Int) + 1) = (s.destPos : Int) - (O : Int) - 1 := by ring
    rw [ew]
    generalize (s.destPos : Int) - (O : Int) - 1 = w
    clear ew
    by_cases hw : w < 0
    · left
      obtain ⟨m, hm⟩ : ∃ m, min (B + 3) (n - s.destPos) = m + 1 :=
        ⟨min (B + 3) (n - s.destPos) - 1, by omega⟩
      rw [hm]
      exact ⟨w, vramCopy_reads_first m w _, hw⟩
    · right
      have ec : (vramClamp s.destPos n ((B : Int) + 3)).toNat = min (B + 3) (n - s.destPos) := by
        unfold vramClamp
        split <;> omega
      rw [if_neg hw, ec]
      unfold vramAfter
      rw [vramCopy_destPos]
      dsimp only
      refine ⟨?_, ?_, ?_⟩
      · congr 1
        by_cases h : s.destPos + min (B + 3) (n - s.destPos) = n
        · rw [if_pos h, if_pos (by simp; omega)]
        · rw [if_neg h, if_neg (by simp; omega)]
      · omega
      · intro h
        simp at h
        omega
  · rw [if_neg hb, if_neg hb, if_neg (by omega)]
    right
    unfold vramAfter
    refine ⟨?_, ?_, ?_⟩
    · show (lzLiteral src s, if s.destPos + 1 = n then some LzOutcome.returned else none) = _
      congr 1
      by_cases h : s.destPos + 1 = n
      · rw [if_pos h, if_pos (by simp; omega)]
      · rw [if_neg h, if_neg (by simp; omega)]
    · show ((n - s.destPos : Nat) : Int) - 1 = ((n - (s.destPos + 1) : Nat) : Int)
      omega
    · intro h
      show s.destPos + 1 < n
      simp at h
      omega

theorem wramBlock_agree (src : Nat → Nat) (n d : Nat) (s : LzState) (hlt : s.destPos < n) :
    ReadsBeforeBuffer (wramBlock src d ((n - s.destPos : Nat) : Int) s).1
      ∨ LzAgree n (vramBlock src n d s) (wramBlock src d ((n - s.destPos : Nat) : Int) s) :=
  wramBlock_sim src n d s hlt

theorem wramCopy_reads_mono (k : Nat) :
    ∀ (w len : Int) (s : LzState) (r : Int), r ∈ s.reads → r ∈ (wramCopy k w len s).1.reads := by
  induction k with
  | zero => intro w len s r h; exact h
  | succ k ih =>
    intro w len s r h
    have h1 : r ∈ (lzCopyByte s w).reads := by
      rw [lzCopyByte_reads]; exact List.mem_append_left _ h
    unfold wramCopy
    split
    · exact h1
    · exact ih _ _ _ r h1

theorem wramBlock_reads_mono (src : Nat → Nat) (d : Nat) (len : Int) (s : LzState) (r : Int)
    (h : r ∈ s.reads) : r ∈ (wramBlock src d len s).1.reads := by
  unfold wramBlock
  split
  · exact wramCopy_reads_mono _ _ _ _ r h
  · exact h

theorem wramBlocks_succ (src : Nat → Nat) (k d : Nat) (len : Int) (s : LzState) :
    wramBlocks src (k + 1) d len s
      = if (wramBlock src d len s).2.2 = true then wramBlock src d len s
        else wramBlocks src k ((d <<< 1) % 256) (wramBlock src d len s).2.1
          (wramBlock src d len s).1 := by
  rcases h : wramBlock src d len s with ⟨s1, len1, b⟩
  cases b <;> simp [wramBlocks, h]

theorem vramBlocks_succ (src : Nat → Nat) (n k flags : Nat) (s : LzState) :
    vramBlocks src n (k + 1) flags s
      = if (vramBlock src n flags s).2 = none then
          vramBlocks src n k ((flags <<< 1) % 256) (vramBlock src n flags s).1
        else vramBlock src n flags s := by
  rcases h : vramBlock src n flags s with ⟨s1, o⟩
  cases o <;> simp [vramBlocks, h]

theorem wramBlocks_reads_mono (src : Nat → Nat) (k : Nat) :
    ∀ (d : Nat) (len : Int) (s : LzState) (r : Int), r ∈ s.reads →
      r ∈ (wramBlocks src k d len s).1.reads := by
  induction k with
  | zero => intro d len s r h; exact h
  | succ k ih =>
    intro d len s r h
    rw [wramBlocks_succ]
    split
    · exact wramBlock_reads_mono src d len s r h
    · exact ih _ _ _ r (wramBlock_reads_mono src d len s r h)

theorem wramBlocks_agree (src : Nat → Nat) (n k : Nat) :
    ∀ (d : Nat) (s : LzState), s.destPos < n →
      ReadsBeforeBuffer (wramBlocks src k d ((n - s.destPos : Nat) : Int) s).1
        ∨ LzAgree n (vramBlocks src n k d s)
            (wramBlocks src k d ((n - s.destPos : Nat) : Int) s) := by
  induction k with
  | zero =>
    intro d s hlt
    right
    exact ⟨rfl, rfl, fun _ => hlt⟩
  | succ k ih =>
    intro d s hlt
    rw [wramBlocks_succ, vramBlocks_succ]
    rcases wramBlock_agree src n d s hlt with hbad | ⟨hv, hlen, hnext⟩
    · left
      obtain ⟨r, hr, hneg⟩ := hbad
      split
      · exact ⟨r, hr, hneg⟩
      · exact ⟨r, wramBlocks_reads_mono src k _ _ _ r hr, hneg⟩
    · by_cases hb : (wramBlock src d ((n - s.destPos : Nat) : Int) s).2.2 = true
      · rw [if_pos hb]
        rw [hb] at hv
        rw [if_neg (by rw [hv]; simp)]
        right
        exact ⟨by rw [hv, hb], hlen, hnext⟩
      · rw [if_neg hb]
        have hb2 : (wramBlock src d ((n - s.destPos : Nat) : Int) s).2.2 = false := by
          simpa using hb
        rw [hb2] at hv
        rw [if_pos (by rw [hv]; rfl), hv, hlen]
        exact ih _ _ (hnext hb2)

theorem wramLiterals_reads (src : Nat → Nat) (k : Nat) :
    ∀ (len : Int) (s : LzState), (wramLiterals src k len s).1.reads = s.reads := by
  induction k with
  | zero => intro len s; rfl
  | succ k ih =>
    intro len s
    unfold wramLiterals
    split
    · rfl
    · rw [ih]; rfl

theorem vramBlock_literal (src : Nat → Nat) (n : Nat) (s : LzState) (hlt : s.destPos < n) :
    vramBlock src n 0 s
      = (lzLiteral src s, if s.destPos + 1 = n then some LzOutcome.returned else none) := by
  unfold vramBlock
  rw [if_neg (by decide), if_neg (by omega)]
  rfl

theorem vramBlocks_some (src : Nat → Nat) (n k flags : Nat) (s s1 : LzState) (o : LzOutcome)
    (h : vramBlock src n flags s = (s1, some o)) :
    vramBlocks src n (k + 1) flags s = (s1, some o) := by
  simp [vramBlocks, h]

theorem vramBlocks_none (src : Nat → Nat) (n k flags : Nat) (s s1 : LzState)
    (h : vramBlock src n flags s = (s1, none)) :
    vramBlocks src n (k + 1) flags s = vramBlocks src n k ((flags <<< 1) % 256) s1 := by
  simp [vramBlocks, h]

theorem wramLiterals_agree (src : Nat → Nat) (n k : Nat) :
    ∀ (s : LzState), s.destPos < n →
      LzAgree n (vramBlocks src n k 0 s) (wramLiterals src k ((n - s.destPos : Nat) : Int) s) := by
  induction k with
  | zero =>
    intro s hlt
    exact ⟨rfl, rfl, fun _ => hlt⟩
  | succ k ih =>
    intro s hlt
    unfold wramLiterals
    by_cases h : s.destPos + 1 = n
    · have hv : vramBlock src n 0 s = (lzLiteral src s, some LzOutcome.returned) := by
        rw [vramBlock_literal src n s hlt, if_pos h]
      rw [vramBlocks_some src n k 0 s _ _ hv,
        if_pos (show ((n - s.destPos : Nat) : Int) - 1 = 0 by omega)]
      refine ⟨rfl, ?_, ?_⟩
      · show ((n - s.destPos : Nat) : Int) - 1 = ((n - (s.destPos + 1) : Nat) : Int)
        omega
      · intro hc
        exact absurd hc (by simp)
    · have hv : vramBlock src n 0 s = (lzLiteral src s, none) := by
        rw [vramBlock_literal src n s hlt, if_neg h]
      rw [vramBlocks_none src n k 0 s _ hv,
        if_neg (show ¬ (((n - s.destPos : Nat) : Int) - 1 = 0) by omega)]
      have e : ((n - s.destPos : Nat) : Int) - 1
          = ((n - (lzLiteral src s).destPos : Nat) : Int) := by
        show ((n - s.destPos : Nat) : Int) - 1 = ((n - (s.destPos + 1) : Nat) : Int)
        omega
      have e0 : (0 <<< 1) % 256 = 0 := by decide
      rw [e, e0]
      exact ih _ (by show s.destPos + 1 < n; omega)

theorem wramRound_reads_mono (src : Nat → Nat) (len : Int) (s : LzState) (r : Int)
    (h : r ∈ s.reads) : r ∈ (wramRound src len s).1.reads := by
  unfold wramRound
  split
  · exact wramBlocks_reads_mono src 8 _ _ _ r h
  · rw [wramLiterals_reads]; exact h

theorem wramRound_agree (src : Nat → Nat) (n : Nat) (s : LzState) (hlt : s.destPos < n) :
    ReadsBeforeBuffer (wramRound src ((n - s.destPos : Nat) : Int) s).1
      ∨ LzAgree n
          (vramBlocks src n 8 (byteRead src s.srcPos) { s with srcPos := s.srcPos + 1 })
          (wramRound src ((n - s.destPos : Nat) : Int) s) := by
  unfold wramRound
  by_cases hd : byteRead src s.srcPos ≠ 0
  · rw [if_pos hd]
    exact wramBlocks_agree src n 8 (byteRead src s.srcPos) { s with srcPos := s.srcPos + 1 } hlt
  · rw [if_neg hd]
    have e : byteRead src s.srcPos = 0 := by simpa using hd
    rw [e]
    right
    exact wramLiterals_agree src n 8 { s with srcPos := s.srcPos + 1 } hlt

theorem wramLoop_reads_mono (src : Nat → Nat) (fuel : Nat) :
    ∀ (len : Int) (s : LzState) (r : Int), r ∈ s.reads →
      r ∈ (wramLoop src fuel len s).1.reads := by
  induction fuel with
  | zero => intro len s r h; exact h
  | succ fuel ih =>
    intro len s r h
    unfold wramLoop
    split
    · split
      · exact wramRound_reads_mono src len s r h
      · exact ih _ _ r (wramRound_reads_mono src len s r h)
    · exact h

theorem wramLoop_agree (src : Nat → Nat) (n fuel : Nat) :
    ∀ (s : LzState), s.destPos < n →
      ReadsBeforeBuffer (wramLoop src fuel ((n - s.destPos : Nat) : Int) s).1
        ∨ vramLoop src n fuel s = wramLoop src fuel ((n - s.destPos : Nat) : Int) s := by
  induction fuel with
  | zero =>
    intro s hlt
    right
    unfold vramLoop wramLoop
    rw [if_pos (by omega)]
  | succ fuel ih =>
    intro s hlt
    unfold vramLoop wramLoop
    rw [if_pos (by omega)]
    rcases wramRound_agree src n s hlt with hbad | ⟨hv, hlen, hnext⟩
    · left
      obtain ⟨r, hr, hneg⟩ := hbad
      split
      · exact ⟨r, hr, hneg⟩
      · exact ⟨r, wramLoop_reads_mono src fuel _ _ r hr, hneg⟩
    · by_cases hb : (wramRound src ((n - s.destPos : Nat) : Int) s).2.2 = true
      · rw [if_pos hb]
        rw [hb] at hv
        right
        rw [hv]
        rfl
      · rw [if_neg hb]
        have hb2 : (wramRound src ((n - s.destPos : Nat) : Int) s).2.2 = false := by
          simpa using hb
        rw [hb2] at hv
        rw [hv, hlen]
        exact ih _ (hnext hb2)

theorem LZ77_decoders_equal (src : Nat → Nat) (mem : Int → Nat)
    (h : ∀ r ∈ (LZ77UnCompWram src mem).1.reads, 0 ≤ r) (hn : 0 < lzDeclaredSize src) :
    LZ77UnCompVram src mem = LZ77UnCompWram src mem := by
  have hw : LZ77UnCompWram src mem
      = wramLoop src (lzDeclaredSize src + 1)
          ((lzDeclaredSize src - (lzStart mem).destPos : Nat) : Int) (lzStart mem) := by
    unfold LZ77UnCompWram
    rw [wramLen_eq]
    rfl
  have hv : LZ77UnCompVram src mem
      = vramLoop src (lzDeclaredSize src) (lzDeclaredSize src + 1) (lzStart mem) := by
    unfold LZ77UnCompVram
    rw [vramDestSize_eq]
  rcases wramLoop_agree src (lzDeclaredSize src) (lzDeclaredSize src + 1) (lzStart mem) hn
    with hbad | heq
  · exfalso
    obtain ⟨r, hr, hneg⟩ := hbad
    rw [← hw] at hr
    have := h r hr
    omega
  · rw [hv, hw, heq]

theorem firstOffsets_length (m : Nat) : (firstOffsets m).length = m := by
  unfold firstOffsets
  simp

/-- C37: when every destination offset that `LZ77UnCompWram` reads for a back-reference
is at or after the start of the output, `LZ77UnCompVram` and `LZ77UnCompWram` write the
same offsets in the same order, namely `0, 1, ..., n - 1` for the size `n` declared in the
header, and leave the same value at every offset of the destination; for `n > 0` they end
in the same state and both by `return`. -/
theorem LZ77_decoders_agree (src : Nat → Nat) (mem : Int → Nat)
    (h : ∀ r ∈ (LZ77UnCompWram src mem).1.reads, 0 ≤ r) :
    (LZ77UnCompVram src mem).1.writes = (LZ77UnCompWram src mem).1.writes
      ∧ (LZ77UnCompWram src mem).1.writes = firstOffsets (lzDeclaredSize src)
      ∧ (LZ77UnCompVram src mem).1.writes.length = lzDeclaredSize src
      ∧ (∀ off : Int,
          (LZ77UnCompVram src mem).1.dest off = (LZ77UnCompWram src mem).1.dest off)
      ∧ (0 < lzDeclaredSize src →
          LZ77UnCompVram src mem = LZ77UnCompWram src mem
            ∧ (LZ77UnCompVram src mem).2 = LzOutcome.returned) := by
  obtain ⟨⟨_, hww, hwd⟩, hwp, hwr⟩ := LZ77UnCompWram_spec src mem
  rw [hwp] at hww
  by_cases hn : 0 < lzDeclaredSize src
  · have heq := LZ77_decoders_equal src mem h hn
    rw [heq]
    exact ⟨rfl, hww, by rw [hww, firstOffsets_length], fun _ => rfl, fun _ => ⟨rfl, hwr⟩⟩
  · have hn0 : lzDeclaredSize src = 0 := by omega
    obtain ⟨⟨hvp, hvw, hvd⟩, _⟩ := LZ77UnCompVram_spec src mem
    rw [hn0] at hvp hvd hwd hww
    have hvp0 : (LZ77UnCompVram src mem).1.destPos = 0 := by omega
    rw [hvp0] at hvw
    refine ⟨by rw [hvw, hww], by rw [hww, hn0], by rw [hvw, hn0]; rfl, ?_, ?_⟩
    · intro off
      rw [hvd off (by omega), hwd off (by omega)]
    · intro hc
      omega

theorem LZ77_decoders_agree_witness :
    (LZ77UnCompWram runLzStream (fun _ => 0)).1.reads = [0, 1, 2]
      ∧ (LZ77UnCompVram runLzStream (fun _ => 0)).1.writes = [0, 1, 2, 3]
      ∧ (LZ77UnCompVram runLzStream (fun _ => 0)).1.writes
          = (LZ77UnCompWram runLzStream (fun _ => 0)).1.writes
      ∧ ∀ off : Int, (LZ77UnCompVram runLzStream (fun _ => 0)).1.dest off
          = (LZ77UnCompWram runLzStream (fun _ => 0)).1.dest off :=
  ⟨by decide, by decide,
    (LZ77_decoders_agree runLzStream (fun _ => 0) (by decide)).1,
    (LZ77_decoders_agree runLzStream (fun _ => 0) (by decide)).2.2.2.1⟩

/-! ## The affine lookup and the closing mosaic pass -/

theorem rotScaleMosaicPass_off (gpu : Gpu) (bg : GpuBgState) (columns : List Nat)
    (line : Nat → Nat) (h : bg.mosaic = false ∨ mosaicBGEffectX gpu = 0) :
    rotScaleMosaicPass gpu bg columns line = line := by
  unfold rotScaleMosaicPass
  rw [if_neg]
  rcases h with h | h
  · rw [h]; simp
  · rw [h]; simp

theorem rotScaleMosaicPass_on (gpu : Gpu) (bg : GpuBgState) (lineStart lineEnd : Int)
    (line : Nat → Nat) (hm : bg.mosaic = true) (hx : mosaicBGEffectX gpu > 0) :
    (∀ x, x ∈ unsignedRange lineStart lineEnd →
        rotScaleMosaicPass gpu bg (unsignedRange lineStart lineEnd) line x
          = line (x - x % (mosaicBGEffectX gpu + 1)))
      ∧ (∀ x, x ∉ unsignedRange lineStart lineEnd →
        rotScaleMosaicPass gpu bg (unsignedRange lineStart lineEnd) line x = line x) := by
  have hc : (bg.mosaic && decide (mosaicBGEffectX gpu > 0)) = true := by
    rw [hm]
    simpa using hx
  unfold rotScaleMosaicPass
  rw [if_pos hc]
  obtain ⟨h1, h2⟩ := rotScaleMosaicFold gpu line (toU32 lineStart)
    (toU32 lineEnd - toU32 lineStart)
  constructor
  · intro x hmem
    rw [mem_unsignedRange] at hmem
    exact h1 x hmem.1 (by omega)
  · intro x hmem
    rw [mem_unsignedRange] at hmem
    exact h2 x (fun h => hmem ⟨h.1, by omega⟩)

theorem RenderRotScaleBGScanline_loop (K : Consts) (H : Host) (gpu : Gpu)
    (bgNum bgX bgY : Nat) (lineNum : Int) (line : Nat → Nat) (size yshift : Nat)
    (hskip : rotScaleSkipped K H gpu bgNum lineNum = false)
    (hsz : rotScaleSize (gpu.bg bgNum).screenWidth = some (size, yshift)) :
    ∃ loopLine : Nat → Nat,
      RenderRotScaleBGScanline K H gpu bgNum bgX bgY lineNum line
        = rotScaleMosaicPass gpu (gpu.bg bgNum)
            (unsignedRange (GetBGScanlinePos K H gpu bgNum).1
              (GetBGScanlinePos K H gpu bgNum).2) loopLine
      ∧ (∀ y, y ∉ unsignedRange (GetBGScanlinePos K H gpu bgNum).1
            (GetBGScanlinePos K H gpu bgNum).2 → loopLine y = line y)
      ∧ ∀ k, k < toU32 (GetBGScanlinePos K H gpu bgNum).2
              - toU32 (GetBGScanlinePos K H gpu bgNum).1 →
          loopLine (toU32 (GetBGScanlinePos K H gpu bgNum).1 + k)
            = affineColumn gpu (gpu.bg bgNum) size
                (rotScaleCoord (toS16 (gpu.bg bgNum).affine.pa)
                  (rotScaleStart K H gpu bgNum bgX lineNum (gpu.bg bgNum).affine.pb) k >>> 8)
                (rotScaleCoord (toS16 (gpu.bg bgNum).affine.pc)
                  (rotScaleStart K H gpu bgNum bgY lineNum (gpu.bg bgNum).affine.pd) k >>> 8)
                (line (toU32 (GetBGScanlinePos K H gpu bgNum).1 + k)) := by
  refine ⟨((unsignedRange (GetBGScanlinePos K H gpu bgNum).1
      (GetBGScanlinePos K H gpu bgNum).2).foldl
    (rotScaleColumnStep gpu (gpu.bg bgNum) size yshift
      (toS16 (gpu.bg bgNum).affine.pa) (toS16 (gpu.bg bgNum).affine.pc))
    (line, rotScaleStart K H gpu bgNum bgX lineNum (gpu.bg bgNum).affine.pb,
      rotScaleStart K H gpu bgNum bgY lineNum (gpu.bg bgNum).affine.pd)).1, ?_, ?_, ?_⟩
  · unfold RenderRotScaleBGScanline
    rw [hskip, hsz]
    rfl
  · intro y hy
    exact rotScaleColumns_outside _ _ _ _ _ _ _ _ y hy
  · intro k hk
    exact rotScaleLoop_column gpu (gpu.bg bgNum) _ size yshift hsz _ _ _ _ k _ hk

/-- Counterexample to C13 as stated: on `mosaicAffineGpu` (map of 128 pixels,
area-overflow flag clear, mosaic flag set, mosaic size 1) with the reference
point at `x = 127`, column 1 has the source coordinate (128, 0), outside the map,
and the column loop leaves it as it was; the closing pass then copies column 0,
whose source (127, 0) lies inside the map, so column 1 ends as `0x801F` instead
of keeping the value 7 it had on entry. -/
theorem RenderRotScaleBGScanline_mosaic_overwrites :
    (mosaicAffineGpu.bg 2).areaOverflowMode = false
      ∧ rotScaleSize (mosaicAffineGpu.bg 2).screenWidth = some (128, 4)
      ∧ rotScaleCoord (toS16 (mosaicAffineGpu.bg 2).affine.pa)
          (rotScaleStart gbaConsts plainHost mosaicAffineGpu 2 0x7F00 0
            (mosaicAffineGpu.bg 2).affine.pb) 1 >>> 8 = 128
      ∧ rotScaleCoord (toS16 (mosaicAffineGpu.bg 2).affine.pc)
          (rotScaleStart gbaConsts plainHost mosaicAffineGpu 2 0 0
            (mosaicAffineGpu.bg 2).affine.pd) 1 >>> 8 = 0
      ∧ RenderRotScaleBGScanline gbaConsts plainHost mosaicAffineGpu 2 0x7F00 0 0 (fun _ => 7) 1
          = 0x801F := by
  refine ⟨rfl, by decide, by decide, by decide, ?_⟩
  obtain ⟨loopLine, hL, _, hcol⟩ :=
    RenderRotScaleBGScanline_loop gbaConsts plainHost mosaicAffineGpu 2 0x7F00 0 0 (fun _ => 7)
      128 4 (by decide) (by decide)
  have hon := (rotScaleMosaicPass_on mosaicAffineGpu (mosaicAffineGpu.bg 2)
    (GetBGScanlinePos gbaConsts plainHost mosaicAffineGpu 2).1
    (GetBGScanlinePos gbaConsts plainHost mosaicAffineGpu 2).2 loopLine rfl (by decide)).1 1
    (by rw [mem_unsignedRange]; decide)
  rw [hL, hon]
  exact (hcol 0 (by decide)).trans (by decide)

/-- C13, amended: for a plane whose map size is one of 128, 256, 512 and 1024,
the column loop of `RenderRotScaleBGScanline` leaves a line `loopLine` that
holds, at column number `k` of the scanline, the value `affineColumn` of the
source coordinate `(realX >> 8, realY >> 8)` of that column: with the
area-overflow flag clear a coordinate outside `[0, size) x [0, size)` leaves
`line[x]` as it was; with the flag set the coordinate is reduced modulo `size` in
both axes before the lookup; in both cases the tile is read at map index
`(x >> 3) + (y >> 3) * (size / 8)`; columns outside the scanline are untouched.
When the mosaic flag of the plane is clear or the horizontal mosaic size is 0,
`loopLine` is the line the function returns.  When the flag is set and the size
`m` is greater than 0, the function returns in every column `x` of the scanline
the value `loopLine` holds at `x - (x mod (m + 1))`, the start of its block. -/
theorem RenderRotScaleBGScanline_lookup (K : Consts) (H : Host) (gpu : Gpu)
    (bgNum bgX bgY : Nat) (lineNum : Int) (line : Nat → Nat) (size yshift : Nat)
    (hskip : rotScaleSkipped K H gpu bgNum lineNum = false)
    (hsz : rotScaleSize (gpu.bg bgNum).screenWidth = some (size, yshift)) :
    (size = 128 ∨ size = 256 ∨ size = 512 ∨ size = 1024)
      ∧ ∃ loopLine : Nat → Nat,
          (∀ y, y ∉ unsignedRange (GetBGScanlinePos K H gpu bgNum).1
                (GetBGScanlinePos K H gpu bgNum).2 → loopLine y = line y)
          ∧ (∀ k, k < toU32 (GetBGScanlinePos K H gpu bgNum).2
                  - toU32 (GetBGScanlinePos K H gpu bgNum).1 →
              loopLine (toU32 (GetBGScanlinePos K H gpu bgNum).1 + k)
                = affineColumn gpu (gpu.bg bgNum) size
                    (rotScaleCoord (toS16 (gpu.bg bgNum).affine.pa)
                      (rotScaleStart K H gpu bgNum bgX lineNum (gpu.bg bgNum).affine.pb) k >>> 8)
                    (rotScaleCoord (toS16 (gpu.bg bgNum).affine.pc)
                      (rotScaleStart K H gpu bgNum bgY lineNum (gpu.bg bgNum).affine.pd) k >>> 8)
                    (line (toU32 (GetBGScanlinePos K H gpu bgNum).1 + k)))
          ∧ ((gpu.bg bgNum).mosaic = false ∨ mosaicBGEffectX gpu = 0 →
              RenderRotScaleBGScanline K H gpu bgNum bgX bgY lineNum line = loopLine)
          ∧ ((gpu.bg bgNum).mosaic = true → mosaicBGEffectX gpu > 0 →
              (∀ x, x ∈ unsignedRange (GetBGScanlinePos K H gpu bgNum).1
                    (GetBGScanlinePos K H gpu bgNum).2 →
                  RenderRotScaleBGScanline K H gpu bgNum bgX bgY lineNum line x
                    = loopLine (x - x % (mosaicBGEffectX gpu + 1)))
                ∧ (∀ x, x ∉ unsignedRange (GetBGScanlinePos K H gpu bgNum).1
                    (GetBGScanlinePos K H gpu bgNum).2 →
                  RenderRotScaleBGScanline K H gpu bgNum bgX bgY lineNum line x = line x)) := by
  constructor
  · rcases rotScaleSize_cases _ size yshift hsz with ⟨a, _⟩ | ⟨a, _⟩ | ⟨a, _⟩ | ⟨a, _⟩ <;>
      simp [a]
  · obtain ⟨loopLine, hL, hout, hcol⟩ :=
      RenderRotScaleBGScanline_loop K H gpu bgNum bgX bgY lineNum line size yshift hskip hsz
    refine ⟨loopLine, hout, hcol, ?_, ?_⟩
    · intro hoff
      rw [hL, rotScaleMosaicPass_off gpu (gpu.bg bgNum) _ loopLine hoff]
    · intro hm hx
      obtain ⟨h1, h2⟩ := rotScaleMosaicPass_on gpu (gpu.bg bgNum)
        (GetBGScanlinePos K H gpu bgNum).1 (GetBGScanlinePos K H gpu bgNum).2 loopLine hm hx
      rw [hL]
      exact ⟨h1, fun x hx2 => (h2 x hx2).trans (hout x hx2)⟩

/-- Instance of C13, amended: an affine plane over a 128-pixel map with the
identity matrix and the area-overflow flag clear.  Without mosaic and starting
one pixel left of the map, column 0 has source coordinate (-1, 0) and keeps its
content while column 1 has source coordinate (0, 0) and receives palette entry 1
with bit 15 set.  With mosaic size 1 and starting at `x = 127`, column 1 receives
what the column loop left in column 0. -/
theorem RenderRotScaleBGScanline_lookup_witness :
    RenderRotScaleBGScanline gbaConsts plainHost affineGpu 2 0xFFFFF00 0 0 (fun _ => 7) 0 = 7
      ∧ RenderRotScaleBGScanline gbaConsts plainHost affineGpu 2 0xFFFFF00 0 0 (fun _ => 7) 1
          = 0x801F
      ∧ RenderRotScaleBGScanline gbaConsts plainHost mosaicAffineGpu 2 0x7F00 0 0 (fun _ => 7) 1
          = 0x801F := by
  obtain ⟨_, loopLine, _, hcol, hoff, _⟩ :=
    RenderRotScaleBGScanline_lookup gbaConsts plainHost affineGpu 2 0xFFFFF00 0 0 (fun _ => 7)
      128 4 (by decide) (by decide)
  obtain ⟨_, mosaicLine, _, hcol2, _, hon⟩ :=
    RenderRotScaleBGScanline_lookup gbaConsts plainHost mosaicAffineGpu 2 0x7F00 0 0
      (fun _ => 7) 128 4 (by decide) (by decide)
  rw [hoff (Or.inl rfl), (hon rfl (by decide)).1 1 (by rw [mem_unsignedRange]; decide)]
  have h0 : loopLine 0 = 7 := (hcol 0 (by decide)).trans (by decide)
  have h1 : loopLine 1 = 0x801F := (hcol 1 (by decide)).trans (by decide)
  have h2 : mosaicLine 0 = 0x801F := (hcol2 0 (by decide)).trans (by decide)
  exact ⟨h0, h1, h2⟩

end Sdl2
